import Mathlib

/-!
# MultiROM boot orchestration (`multirom.c`): a shallow embedding

C strings are modelled as `String` (no embedded NUL), fixed-size `char`
buffers as unbounded strings, `int` results as `Int`, `unsigned` arithmetic
as `Nat` reduced modulo 2^32. A pointer to a heap object is modelled by the
address of the object (`Nat`), a null pointer by `none`.

Functions with side effects pass a process state `Sys` that records the
events issued so far; what the system answers is read from a `World`.
A computation that runs into undefined behaviour has no result (`none`).
Diagnostic output (`ERROR`, `fb_debug`, `multirom_dump_status`) is left out,
except the sentinel `SECOND_BOOT_KMESG`; so are the mutex operations, `free`
and `sleep`.

The selection UI, the framebuffer and the input thread are read from a
`Frontend`. The key loop of the emergency fallback is bounded by a fuel
argument; a run that exhausts the bound has no result either.
-/

namespace MultiROM

/-! ## Data model -/

/-- The closed set of ROM types, the enumerators used by `multirom.c`. -/
inductive rom_type where
  | ROM_DEFAULT
  | ROM_ANDROID_INTERNAL
  | ROM_UBUNTU_INTERNAL
  | ROM_ANDROID_USB_IMG
  | ROM_ANDROID_USB_DIR
  | ROM_UBUNTU_USB_IMG
  | ROM_UBUNTU_USB_DIR
  | ROM_UNSUPPORTED_INT
  | ROM_UNSUPPORTED_USB
  | ROM_UNKNOWN
  deriving DecidableEq, Repr

open rom_type

/-- A `struct usb_partition`.  `addr` is the address of the heap object (its
identity); `fs` is `none` while the `char *fs` field is NULL, and so is
`mount_path`. -/
structure usb_partition where
  addr : Nat
  name : String
  uuid : String
  fs : Option String
  mount_path : Option String
  keep_mounted : Int
  deriving DecidableEq, Repr

/-- A `struct multirom_rom`.  `partition` is the pointer to the owning
partition: the address of a `usb_partition`, or `none` for NULL. -/
structure multirom_rom where
  id : Int
  name : String
  base_path : String
  type : rom_type
  has_bootimg : Int
  partition : Option Nat
  deriving DecidableEq, Repr

/-- The value of `INTERNAL_ROM_NAME`. -/
def INTERNAL_ROM_NAME : String := "Internal"

/-! ## ROM classification -/

/-- The function `multirom_path_exists`: 0 when `access(base/filename, R_OK)`
succeeds, -1 otherwise.  `access` is the answer of the filesystem. -/
def multirom_path_exists (access : String → Bool) (base filename : String) : Int :=
  if access (base ++ "/" ++ filename) then 0 else -1

/-- The function `multirom_get_rom_type`. -/
def multirom_get_rom_type (access : String → Bool) (rom : multirom_rom) : rom_type :=
  if rom.partition = none ∧ rom.name = INTERNAL_ROM_NAME then ROM_DEFAULT
  else
    let b := rom.base_path
    let ubuntu : rom_type :=
      if multirom_path_exists access b "root" = 0 then
        if multirom_path_exists access b "boot.img" ≠ 0 then
          if rom.partition = none then ROM_UBUNTU_INTERNAL else ROM_UBUNTU_USB_DIR
        else
          if rom.partition = none then ROM_UNSUPPORTED_INT else ROM_UNSUPPORTED_USB
      else if multirom_path_exists access b "root.img" = 0 ∧ rom.partition ≠ none then
        ROM_UBUNTU_USB_IMG
      else ROM_UNKNOWN
    if multirom_path_exists access b "boot" = 0 then
      if multirom_path_exists access b "system" = 0 ∧ multirom_path_exists access b "data" = 0 ∧
          multirom_path_exists access b "cache" = 0 then
        if rom.partition = none then ROM_ANDROID_INTERNAL else ROM_ANDROID_USB_DIR
      else if multirom_path_exists access b "system.img" = 0 ∧
          multirom_path_exists access b "data.img" = 0 ∧
          multirom_path_exists access b "cache.img" = 0 then
        ROM_ANDROID_USB_IMG
      else ubuntu
    else ubuntu

/-- A filesystem in which exactly the listed paths are readable. -/
def readable_paths (ps : List String) : String → Bool := fun p => decide (p ∈ ps)

/-- Whether the marker `f` is readable under the base path of `rom`:
`multirom_path_exists(rom->base_path, f) == 0`. -/
def marker (access : String → Bool) (rom : multirom_rom) (f : String) : Bool :=
  decide (multirom_path_exists access rom.base_path f = 0)

/-- The guard of the first `return` of `multirom_get_rom_type`: no partition
and the reserved name. -/
def is_internal_rom (rom : multirom_rom) : Prop :=
  rom.partition = none ∧ rom.name = INTERNAL_ROM_NAME

instance (rom : multirom_rom) : Decidable (is_internal_rom rom) := by
  unfold is_internal_rom; infer_instance

/-- The guards under which the Android block of `multirom_get_rom_type`
returns: `boot` with all of `system`, `data`, `cache`, or `boot` with all of
`system.img`, `data.img`, `cache.img`. -/
def android_layout (access : String → Bool) (rom : multirom_rom) : Prop :=
  marker access rom "boot" = true ∧
    ((marker access rom "system" = true ∧ marker access rom "data" = true ∧
        marker access rom "cache" = true) ∨
     (marker access rom "system.img" = true ∧ marker access rom "data.img" = true ∧
        marker access rom "cache.img" = true))

instance (access : String → Bool) (rom : multirom_rom) : Decidable (android_layout access rom) := by
  unfold android_layout; infer_instance

/-! ## C string functions -/

/-- The suffix of `hay` that starts at the first occurrence of `needle`
(`strstr` on character lists); `none` is the NULL result. -/
def find_sub (needle : List Char) : List Char → Option (List Char)
  | [] => if needle = [] then some [] else none
  | c :: cs => if needle.isPrefixOf (c :: cs) then some (c :: cs) else find_sub needle cs

/-- The C function `strstr`: the suffix starting at the first occurrence. -/
def strstr (hay needle : String) : Option String :=
  (find_sub needle.data hay.data).map String.mk

/-- Whether `strstr(hay, needle)` is non-NULL. -/
def str_contains (hay needle : String) : Bool := (strstr hay needle).isSome

/-- Whether `strstr(hay, needle) == hay`: the needle is a prefix. -/
def str_starts_with (hay needle : String) : Bool := needle.data.isPrefixOf hay.data

/-- The pointer `s + n` into a C string: the string without its first `n`
characters; undefined (`none`) beyond the terminating NUL. -/
def str_advance (s : String) (n : Nat) : Option String :=
  if n ≤ s.data.length then some (String.mk (s.data.drop n)) else none

/-- The value of `strndup(s, strchr(s, c) - s)`: the part of `s` before the
first `c`; undefined (`none`) when `strchr` returns NULL. -/
def str_before (c : Char) (s : String) : Option String :=
  if c ∈ s.data then some (String.mk (s.data.takeWhile (fun x => x != c))) else none

/-- The value of `strrchr(s, c) + 1`: the part of `s` after the last `c`;
undefined (`none`) when `strrchr` returns NULL. -/
def str_after_last (c : Char) (s : String) : Option String :=
  if c ∈ s.data then
    some (String.mk ((s.data.reverse.takeWhile (fun x => x != c)).reverse))
  else none

/-- The tokens `strtok(s, "\n")`, `strtok(NULL, "\n")`, ... deliver: the
maximal non-empty runs of characters other than the delimiter. `cur` is the
token being read, reversed. -/
def strtok_all (delim : Char) : List Char → List Char → List String
  | [], cur => if cur = [] then [] else [String.mk cur.reverse]
  | c :: cs, cur =>
    if c = delim then
      if cur = [] then strtok_all delim cs [] else String.mk cur.reverse :: strtok_all delim cs []
    else strtok_all delim cs (c :: cur)

/-- The chunks successive `fgets(line, n, f)` calls deliver for a text: each
ends after a newline or when it holds `n - 1` characters. `cur` is the chunk
being read, reversed. -/
def fgets_all (n : Nat) : List Char → List Char → List String
  | [], cur => if cur = [] then [] else [String.mk cur.reverse]
  | c :: cs, cur =>
    if c = '\n' ∨ cur.length + 2 ≥ n then String.mk (c :: cur).reverse :: fgets_all n cs []
    else fgets_all n cs (c :: cur)

/-- Decimal digits at the head of a character list, as a number. -/
def atoi_digits : List Char → Nat → Nat
  | [], acc => acc
  | c :: cs, acc => if c.isDigit then atoi_digits cs (acc * 10 + (c.toNat - '0'.toNat)) else acc

/-- The C function `atoi`: optional white space, optional sign, digits. -/
def atoi (s : String) : Int :=
  match s.data.dropWhile (fun c => c = ' ' ∨ c = '\t' ∨ c = '\n' ∨ c = '\r' ∨ c.toNat = 11 ∨ c.toNat = 12) with
  | '-' :: cs => - (atoi_digits cs 0 : Int)
  | '+' :: cs => (atoi_digits cs 0 : Int)
  | cs => (atoi_digits cs 0 : Int)

/-- The text `printf("%d", n)` produces for a non-negative `n`. -/
def fmt_d (n : Nat) : String := String.mk (Nat.toDigits 10 n)

/-! ## The environment: events and answers -/

/-- The value of `MS_RDONLY` (`sys/mount.h`). -/
def MS_RDONLY : Nat := 1
/-- The value of `MS_NOATIME` (`sys/mount.h`). -/
def MS_NOATIME : Nat := 1024
/-- The value of `MS_BIND` (`sys/mount.h`). -/
def MS_BIND : Nat := 4096
/-- The value of `EEXIST` (`errno.h`). -/
def EEXIST : Nat := 17

/-- The side effects of the program on its environment, in the order they are
issued.  A descriptor is named by the path it was opened on. -/
inductive Ev where
  | mount (src dst fstype : String) (flags : Nat)
  | umount (path : String)
  | mkdir (path : String)
  | mkdir_with_perms (path : String) (mode : Nat) (owner group : Option String)
  | mkdir_recursive (path : String) (mode : Nat)
  | mknod (path : String) (minor : Nat)
  | open_rdwr (path : String)
  | close (path : String)
  | ioctl_loop_set_fd (device file : String)
  | exec (argv : List String)
  | extract_bytes (dst src : String) (offset size : Nat)
  | write_file (path content : String)
  | copy_file (src dst : String)
  | write_klog (path : String)
  | chmod (path : String) (mode : Nat)
  | klog (msg : String)
  | vt_set_mode (graphics : Int)
  | fb_open
  | fb_fill (color : Nat)
  | fb_add_text (x y : Int) (color size : Nat) (text : String)
  | fb_draw
  | fb_clear
  | fb_close
  | start_input_thread
  | wait_for_key (code : Int)
  | stop_input_thread
  | sync
  deriving DecidableEq, Repr

/-- The function `strcmp` on character lists, by its sign: -1, 0 or 1. -/
def strcmp_chars : List Char → List Char → Int
  | [], [] => 0
  | [], _ :: _ => -1
  | _ :: _, [] => 1
  | a :: as, b :: bs =>
    if a = b then strcmp_chars as bs else if a.toNat < b.toNat then -1 else 1

/-- The function `strcmp`, by its sign; it is `strcoll` in the "C" locale. -/
def strcmp (a b : String) : Int := strcmp_chars a.data b.data

/-- A directory entry as `readdir` delivers it. -/
structure dirent where
  d_name : String
  d_type : Nat
  deriving DecidableEq, Repr

/-- The fields of `struct boot_img_hdr` that `multirom.c` reads. The
declaration (`bootimg.h`) is outside the sources; the three sizes are
`unsigned`, `cmdline` is the NUL-terminated text of the `cmdline` array. -/
structure boot_img_hdr where
  kernel_size : Nat
  ramdisk_size : Nat
  page_size : Nat
  cmdline : String
  deriving DecidableEq, Repr

/-- The environment of a run: the path globals `multirom_find_base_dir` has
set, and the answers of the system. Every answer may depend on the events
issued so far (first argument) and on the arguments of the call. -/
structure World where
  /-- The global `multirom_dir`. -/
  multirom_dir : String
  /-- The global `busybox_path`. -/
  busybox_path : String
  /-- The global `kexec_path`. -/
  kexec_path : String
  /-- The global `ntfs_path`. -/
  ntfs_path : String
  /-- Whether `access(path, R_OK)` is 0. -/
  access_r : List Ev → String → Bool
  /-- Whether `stat(path)` succeeds. -/
  stat_ok : List Ev → String → Bool
  /-- The text `fopen(path, "r")` and the reads deliver; `none` when `fopen` fails. -/
  read_file : List Ev → String → Option String
  /-- The header `fread` delivers from a boot image; `none` when `fopen` fails. -/
  boot_img : List Ev → String → Option boot_img_hdr
  /-- Whether `fopen(path, "w")` succeeds. -/
  fopen_w : List Ev → String → Bool
  /-- The entries `opendir` and `readdir` deliver; `none` when `opendir` fails. -/
  readdir : List Ev → String → Option (List dirent)
  /-- The outcome of `mkdir(path)`: 0 on success, else the `errno`. -/
  mkdir_errno : List Ev → String → Nat
  /-- Whether `mkdir_recursive(path)` succeeds. -/
  mkdir_recursive_ok : List Ev → String → Bool
  /-- Whether `mount(src, dst, fstype, flags)` succeeds. -/
  mount_ok : List Ev → String → String → String → Nat → Bool
  /-- Whether `mknod(path)` succeeds. -/
  mknod_ok : List Ev → String → Bool
  /-- Whether `open(path, O_RDWR)` succeeds. -/
  open_ok : List Ev → String → Bool
  /-- Whether `ioctl(device, LOOP_SET_FD, file)` succeeds. -/
  ioctl_ok : List Ev → String → String → Bool
  /-- The exit status `run_cmd(argv)` returns. -/
  cmd_status : List Ev → List String → Int
  /-- The output `run_get_stdout(argv)` returns; `none` for NULL. -/
  cmd_stdout : List Ev → List String → Option String
  /-- The sign of `strcoll(a, b)` in the locale of the process: negative, zero
  or positive. -/
  strcoll : String → String → Int

/-- The state of the process: the events issued so far, the static counter
`loop_devs` of `multirom_mount_loop`, the next fresh heap address, and the
static counter `id` of `multirom_generate_rom_id`. -/
structure Sys where
  trace : List Ev := []
  loop_devs : Nat := 0
  next_addr : Nat := 1
  next_rom_id : Nat := 0
  deriving DecidableEq, Repr

/-- A computation over the process state. `none` stands for undefined
behaviour (a NULL or dangling pointer is used, a division by zero). -/
abbrev Run (α : Type) : Type := Sys → Option (α × Sys)

/-- Issue one event. -/
def emit (e : Ev) (st : Sys) : Sys := { st with trace := st.trace ++ [e] }

/-- A `struct multirom_status`. A pointer to a ROM is modelled by the `id`
of that ROM. -/
structure multirom_status where
  is_second_boot : Int := 0
  current_rom : Option Int := none
  auto_boot_rom : Option Int := none
  auto_boot_seconds : Int := 0
  curr_rom_part : Option String := none
  roms : List multirom_rom := []
  partitions : List usb_partition := []
  deriving DecidableEq, Repr

/-- The partition a pointer refers to: the live partition of the status with
that address. `none` when there is none (the pointer dangles). -/
def deref_partition (s : multirom_status) (a : Nat) : Option usb_partition :=
  s.partitions.find? (fun p => p.addr = a)

/-! ## Partition discovery -/

/-- The function `multirom_destroy_partition`, reduced to its effect on the
environment: the `umount` of a mounted partition that is not kept. -/
def multirom_destroy_partition (p : usb_partition) (st : Sys) : Sys :=
  match p.mount_path with
  | some mp => if p.keep_mounted = 0 then emit (Ev.umount mp) st else st
  | none => st

/-- The call `list_clear(&s->partitions, &multirom_destroy_partition)`: the
destructor runs on every item, in list order (`list_clear` itself is outside
the sources). -/
def list_clear_partitions (ps : List usb_partition) (st : Sys) : Sys :=
  ps.foldl (fun acc p => multirom_destroy_partition p acc) st

/-- The function `multirom_mount_usb`: the result and the partition with its
`mount_path` set on success. -/
def multirom_mount_usb (w : World) (part : usb_partition) : Run (Int × usb_partition) := fun st =>
  let st1 := emit (Ev.mkdir "/mnt") st
  let path := "/mnt/" ++ part.name
  let e := w.mkdir_errno st1.trace path
  let st2 := emit (Ev.mkdir path) st1
  if e ≠ 0 ∧ e ≠ EEXIST then some ((-1, part), st2)
  else
    let src := "/dev/block/" ++ part.name
    match part.fs with
    | none => none
    | some fs =>
      if str_contains fs "ntfs" = false then
        let ok := w.mount_ok st2.trace src path fs MS_NOATIME
        let st3 := emit (Ev.mount src path fs MS_NOATIME) st2
        if ok then some ((0, { part with mount_path := some path }), st3)
        else some ((-1, part), st3)
      else
        let r := w.cmd_status st2.trace [w.ntfs_path, src, path]
        let st3 := emit (Ev.exec [w.ntfs_path, src, path]) st2
        if r ≠ 0 then some ((-1, part), st3)
        else some ((0, { part with mount_path := some path }), st3)

/-- The value a `KEY="` token of an enumeration line yields: the text between
the first occurrence of `key` (`strstr`) and the next `"` (`strchr`).
Outer `none`: undefined (no closing quote); inner `none`: the key is absent. -/
def blkid_value (p key : String) : Option (Option String) :=
  match strstr p key with
  | none => some none
  | some t =>
    match str_before '"' (String.mk (t.data.drop key.data.length)) with
    | none => none
    | some v => some (some v)

/-- One iteration of the `while(p != NULL)` loop of
`multirom_update_partitions`, for the line `p`. -/
def update_partitions_line (w : World) (p : String) (parts : List usb_partition) :
    Run (List usb_partition) := fun st =>
  let st0 : Sys := { st with next_addr := st.next_addr + 1 }
  match (str_before ':' p).bind (str_after_last '/') with
  | none => none
  | some name =>
    match blkid_value p "UUID=\"" with
    | none => none
    | some none =>
      let part : usb_partition :=
        { addr := st.next_addr, name := name, uuid := "", fs := none, mount_path := none,
          keep_mounted := 0 }
      some (parts, multirom_destroy_partition part st0)
    | some (some uuid) =>
      match blkid_value p "TYPE=\"" with
      | none => none
      | some fs =>
        let part : usb_partition :=
          { addr := st.next_addr, name := name, uuid := uuid, fs := fs, mount_path := none,
            keep_mounted := 0 }
        if str_contains name "mmcblk" then some (parts ++ [part], st0)
        else
          match multirom_mount_usb w part st0 with
          | none => none
          | some ((r, part1), st1) =>
            if r = 0 then some (parts ++ [part1], st1)
            else some (parts, multirom_destroy_partition part1 st1)

/-- The `while(p != NULL)` loop of `multirom_update_partitions` over the
lines `strtok` delivers. -/
def update_partitions_lines (w : World) :
    List String → List usb_partition → Run (List usb_partition)
  | [], parts => fun st => some (parts, st)
  | p :: ps, parts => fun st =>
    match update_partitions_line w p parts st with
    | none => none
    | some (parts1, st1) => update_partitions_lines w ps parts1 st1

/-- The function `multirom_update_partitions`. -/
def multirom_update_partitions (w : World) (s : multirom_status) :
    Run (Int × multirom_status) := fun st =>
  let st1 := list_clear_partitions s.partitions st
  let s1 : multirom_status := { s with partitions := [] }
  let out := w.cmd_stdout st1.trace [w.busybox_path, "blkid"]
  let st2 := emit (Ev.exec [w.busybox_path, "blkid"]) st1
  match out with
  | none => some ((-1, s1), st2)
  | some res =>
    match update_partitions_lines w (strtok_all '\n' res.data []) [] st2 with
    | none => none
    | some (parts, st3) => some ((0, { s1 with partitions := parts }), st3)

/-- The function `multirom_get_data_partition`. Outer `none`: undefined (a
NULL `fs` reaches `strstr`); inner `none`: no partition found. -/
def multirom_get_data_partition : List usb_partition → Option (Option usb_partition)
  | [] => some none
  | p :: ps =>
    if str_starts_with p.name "mmcblk" then
      match p.fs with
      | none => none
      | some fs =>
        if str_starts_with fs "ext" then some (some p) else multirom_get_data_partition ps
    else multirom_get_data_partition ps

/-! ## Loop mounts -/

/-- The function `multirom_mount_loop`. -/
def multirom_mount_loop (w : World) (src dst : String) (flags : Nat) : Run Int := fun st =>
  let file_ok := w.open_ok st.trace src
  let st1 := emit (Ev.open_rdwr src) st
  if file_ok = false then some (-1, st1)
  else
    let path := "/dev/loop" ++ fmt_d st1.loop_devs
    let mk := w.mknod_ok st1.trace path
    let st2 := emit (Ev.mknod path st1.loop_devs) st1
    if mk = false then some (-1, emit (Ev.close src) st2)
    else
      let st3 : Sys := { st2 with loop_devs := st2.loop_devs + 1 }
      let dev_ok := w.open_ok st3.trace path
      let st4 := emit (Ev.open_rdwr path) st3
      if dev_ok = false then some (-1, emit (Ev.close src) st4)
      else
        let io := w.ioctl_ok st4.trace path src
        let st5 := emit (Ev.ioctl_loop_set_fd path src) st4
        if io = false then some (-1, emit (Ev.close src) (emit (Ev.close path) st5))
        else
          let m := w.mount_ok st5.trace path dst "ext4" flags
          let st6 := emit (Ev.mount path dst "ext4" flags) st5
          some (if m then 0 else -1, emit (Ev.close src) (emit (Ev.close path) st6))

/-! ## Kexec preparation -/

/-- The value of `SECOND_BOOT_KMESG`. -/
def SECOND_BOOT_KMESG : String := "MultiromSaysNextBootShouldBeSecondMagic108"

/-- The value of `REALDATA`. -/
def REALDATA : String := "/realdata"

/-- The function `multirom_get_cmdline`: the text of `/proc/cmdline` with
every newline replaced by a space; `none` is the result -1. -/
def multirom_get_cmdline (w : World) (t : List Ev) : Option String :=
  (w.read_file t "/proc/cmdline").map
    (fun c => String.mk (c.data.map (fun ch => if ch = '\n' then ' ' else ch)))

/-- The function `multirom_find_file`: the path of the first entry of `path`
whose name does not start with a dot and contains `name_part`; `none` is the
result -1. -/
def multirom_find_file (w : World) (st : Sys) (name_part path : String) : Option String :=
  match w.readdir st.trace path with
  | none => none
  | some es =>
    (es.find? (fun e => e.d_name.data.head? ≠ some '.' ∧ str_contains e.d_name name_part)).map
      (fun e => path ++ "/" ++ e.d_name)

/-- The three buffers `cmd[2]`, `cmd[4]`, `cmd[5]` of the kexec argument
vector that the fill functions write. -/
structure kexec_cmd where
  arg2 : String
  arg4 : String
  arg5 : String
  deriving DecidableEq, Repr

/-- The second half of `multirom_fill_kexec_ubuntu`, from the first
`multirom_find_file` call on. `part` is the partition `rom->partition`
points to. -/
def fill_kexec_ubuntu_cmd (w : World) (s : multirom_status) (rom : multirom_rom)
    (part : Option usb_partition) (cmd : kexec_cmd) (rom_path : String) (loop_mounted : Int) :
    Run (Int × kexec_cmd) := fun st =>
  match multirom_find_file w st "vmlinuz" rom_path with
  | none => some ((-1, cmd), st)
  | some kernel =>
    let cmd1 : kexec_cmd := { cmd with arg2 := kernel }
    match multirom_find_file w st "initrd.img-" rom_path with
    | none => some ((-1, cmd1), st)
    | some initrd =>
      let cmd2 : kexec_cmd := { cmd1 with arg4 := "--initrd=" ++ initrd }
      match multirom_get_cmdline w st.trace with
      | none => some ((-1, cmd2), st)
      | some str =>
        match part with
        | none =>
          match multirom_get_data_partition s.partitions with
          | none => none
          | some none => some ((-1, cmd2), st)
          | some (some _) =>
            let root :=
              if w.stat_ok st.trace "/dev/block/mmcblk0p10" then "/dev/mmcblk0p10"
              else "/dev/mmcblk0p9"
            match str_advance rom.base_path REALDATA.length with
            | none => none
            | some tail =>
              let folder := "rootsubdir=" ++ tail ++ "/root"
              let line := "--command-line=" ++ str ++ " root=" ++ root ++
                " rw console=tty1 fbcon=rotate:1 access=m2 quiet splash mrom_kexecd=1 rootflags=defaults,noatime,nodiratime "
                ++ folder
              some ((loop_mounted, { cmd2 with arg5 := line }), st)
        | some p =>
          let root := "UUID=" ++ p.uuid
          match p.fs, strstr rom.base_path "/multirom/" with
          | some fs, some tail =>
            let folder :=
              if str_contains fs "ext" = false then "loop=" ++ tail ++ "/root.img loopfstype=ext4"
              else "rootsubdir=" ++ tail ++ "/root"
            let line := "--command-line=" ++ str ++ " root=" ++ root ++
                " rw console=tty1 fbcon=rotate:1 access=m2 quiet splash mrom_kexecd=1 rootflags=defaults,noatime,nodiratime "
                ++ folder
            let line1 := if str_contains fs "ntfs" then line ++ " rootfstype=ntfs-3g" else line
            some ((loop_mounted, { cmd2 with arg5 := line1 }), st)
          | _, _ => none

/-- The function `multirom_fill_kexec_ubuntu`: the result (-1, or
`loop_mounted`) and the buffers. -/
def multirom_fill_kexec_ubuntu (w : World) (s : multirom_status) (rom : multirom_rom)
    (cmd : kexec_cmd) : Run (Int × kexec_cmd) := fun st =>
  match rom.partition with
  | none => fill_kexec_ubuntu_cmd w s rom none cmd (rom.base_path ++ "/root/boot") 0 st
  | some a =>
    match deref_partition s a with
    | none => none
    | some p =>
      match p.fs with
      | none => none
      | some fs =>
        if str_contains fs "ext" then
          fill_kexec_ubuntu_cmd w s rom (some p) cmd (rom.base_path ++ "/root/boot") 0 st
        else
          match multirom_mount_loop w (rom.base_path ++ "/root.img") "/mnt/image" MS_NOATIME
              (emit (Ev.mkdir "/mnt/image") st) with
          | none => none
          | some (r, st1) =>
            if r < 0 then some ((-1, cmd), st1)
            else fill_kexec_ubuntu_cmd w s rom (some p) cmd "/mnt/image/boot" 1 st1

/-- Reduction of an `unsigned` value modulo 2^32. -/
def u32 (n : Nat) : Nat := n % 2 ^ 32

/-- The `unsigned` expression `p + ((kernel_size + p - 1) / p) * p` of
`multirom_fill_kexec_android`, every operation wrapping modulo 2^32. -/
def ramdisk_offset (p k : Nat) : Nat :=
  u32 (p + u32 (u32 (u32 (k + p) + (2 ^ 32 - 1)) / p * p))

/-- The function `multirom_extract_bytes`, with the position `pos` of the
source stream made explicit. -/
def multirom_extract_bytes (w : World) (dst src : String) (pos size : Nat) : Run Int := fun st =>
  if w.fopen_w st.trace dst then some (0, emit (Ev.extract_bytes dst src pos size) st)
  else some (-1, st)

/-- The function `multirom_fill_kexec_android`. A zero `page_size` is a
division by zero once the kernel has been extracted. -/
def multirom_fill_kexec_android (w : World) (rom : multirom_rom) (cmd : kexec_cmd) :
    Run (Int × kexec_cmd) := fun st =>
  let img_path := rom.base_path ++ "/boot.img"
  match w.boot_img st.trace img_path with
  | none => some ((-1, cmd), st)
  | some header =>
    let p := u32 header.page_size
    match multirom_extract_bytes w "/zImage" img_path p (u32 header.kernel_size) st with
    | none => none
    | some (r1, st1) =>
      if r1 ≠ 0 then some ((-1, cmd), st1)
      else if p = 0 then none
      else
        match multirom_extract_bytes w "/initrd.img" img_path
            (ramdisk_offset p (u32 header.kernel_size)) (u32 header.ramdisk_size) st1 with
        | none => none
        | some (r2, st2) =>
          if r2 ≠ 0 then some ((-1, cmd), st2)
          else
            match multirom_get_cmdline w st2.trace with
            | none => some ((-1, cmd), st2)
            | some cmdline =>
              some ((0, { arg2 := "/zImage", arg4 := "--initrd=/initrd.img",
                          arg5 := "--command-line=" ++ cmdline ++ " mrom_kexecd=1 " ++ header.cmdline }),
                    emit (Ev.klog SECOND_BOOT_KMESG) st2)

/-- The function `multirom_copy_log`. -/
def multirom_copy_log (w : World) : Run Int := fun st =>
  let path := w.multirom_dir ++ "/error.txt"
  if w.fopen_w st.trace path then
    some (0, emit (Ev.chmod (REALDATA ++ "/media/multirom/error.txt") 0o777) (emit (Ev.write_klog path) st))
  else some (-1, st)

/-- The argument vector `cmd` of `multirom_load_kexec`. -/
def kexec_argv (w : World) (cmd : kexec_cmd) : List String :=
  [w.kexec_path, "--load-hardboot", cmd.arg2, "--mem-min=0xA0000000", cmd.arg4, cmd.arg5]

/-- The `switch(rom->type)` of `multirom_load_kexec`: the buffers and
`loop_mounted` when control reaches the kexec call, `none` (inner) on
`goto exit`. -/
def load_kexec_fill (w : World) (s : multirom_status) (rom : multirom_rom) (cmd : kexec_cmd) :
    Run (Option (Int × kexec_cmd)) := fun st =>
  match rom.type with
  | ROM_UBUNTU_INTERNAL | ROM_UBUNTU_USB_DIR | ROM_UBUNTU_USB_IMG =>
    match multirom_fill_kexec_ubuntu w s rom cmd st with
    | none => none
    | some ((loop_mounted, cmd1), st1) =>
      if loop_mounted < 0 then some (none, st1) else some (some (loop_mounted, cmd1), st1)
  | ROM_ANDROID_INTERNAL | ROM_ANDROID_USB_DIR | ROM_ANDROID_USB_IMG =>
    match multirom_fill_kexec_android w rom cmd st with
    | none => none
    | some ((r, cmd1), st1) =>
      if r ≠ 0 then some (none, st1) else some (some (0, cmd1), st1)
  | _ => some (none, st)

/-- The first statement of `multirom_load_kexec`: the partition list is
refreshed when the ROM has no partition. The result is that of
`multirom_update_partitions`, or 0 when it is not called. -/
def load_kexec_partitions (w : World) (s : multirom_status) (rom : multirom_rom) :
    Run (Int × multirom_status) := fun st =>
  if rom.partition = none then multirom_update_partitions w s st else some ((0, s), st)

/-- The function `multirom_load_kexec`. The three `malloc(1024)` buffers
start out as empty strings. -/
def multirom_load_kexec (w : World) (s : multirom_status) (rom : multirom_rom) :
    Run (Int × multirom_status) := fun st =>
  match load_kexec_partitions w s rom st with
  | none => none
  | some ((r, s1), st1) =>
    if r < 0 then some ((-1, s1), st1)
    else
      match load_kexec_fill w s1 rom ⟨"", "", ""⟩ st1 with
      | none => none
      | some (none, st2) => some ((-1, s1), st2)
      | some (some (loop_mounted, cmd), st2) =>
        let status := w.cmd_status st2.trace (kexec_argv w cmd)
        let st3 := emit (Ev.exec (kexec_argv w cmd)) st2
        let st4 := emit (Ev.chmod "/kexec" 0o755)
          (emit (Ev.exec [w.busybox_path, "cp", w.kexec_path, "/kexec"]) st3)
        let st5 := if loop_mounted ≠ 0 then emit (Ev.umount "/mnt/image") st4 else st4
        match multirom_copy_log w st5 with
        | none => none
        | some (_, st6) => some ((if status = 0 then 0 else -1, s1), st6)

/-! ## Android mounts -/

/-- The value of `EXEC_MASK`: `S_IRUSR | S_IWUSR | S_IXUSR | S_IRGRP | S_IXGRP`. -/
def EXEC_MASK : Nat := 0o750

/-- The value of `LAYOUT_VERSION`. -/
def LAYOUT_VERSION : String := "/data/.layout_version"

/-- The test of the "Remove mounts from RCs" branch of
`multirom_prep_android_mounts`. -/
def rc_is_mount (line : String) : Bool :=
  str_contains line "mount_all" ||
    (str_contains line "mount " && (str_contains line "/data" || str_contains line "/system"))

/-- The `while(fgets(line, sizeof(line), f_in))` loop of
`multirom_prep_android_mounts` over the chunks of one file: the text written
to `f_out` and the value of `add_dummy` afterwards. -/
def rewrite_rc : Int → List String → String × Int
  | d, [] => ("", d)
  | d, line :: rest =>
    if str_contains line "on " then
      let r := rewrite_rc 1 rest
      (line ++ r.1, r.2)
    else if rc_is_mount line then
      let r := rewrite_rc (if d = 1 then 0 else d) rest
      ((if d = 1 then "    export DUMMY_LINE_INGORE_IT 1\n" else "") ++ "#" ++ line ++ r.1, r.2)
    else if str_starts_with line "service sdcard" then
      match rest with
      | [] => (line ++ "    class main\n", d)
      | _ :: rest1 =>
        let r := rewrite_rc d rest1
        (line ++ "    class main\n" ++ r.1, r.2)
    else
      let r := rewrite_rc d rest
      (line ++ r.1, r.2)

/-- The body of the `while((dp = readdir(d)))` loop of
`multirom_prep_android_mounts` for one entry: the new `add_dummy` and
state. -/
def prep_android_file (w : World) (folder : String) (acc : Int × Sys) (dp : dirent) : Int × Sys :=
  let inp := folder ++ "/" ++ dp.d_name
  let out := "/" ++ dp.d_name
  if str_contains dp.d_name ".rc" = false then (acc.1, emit (Ev.copy_file inp out) acc.2)
  else
    match w.read_file acc.2.trace inp with
    | none => acc
    | some text =>
      if w.fopen_w acc.2.trace out = false then acc
      else
        let r := rewrite_rc acc.1 (fgets_all 1024 text.data [])
        (r.2, emit (Ev.chmod out EXEC_MASK) (emit (Ev.write_file out r.1) acc.2))

/-- The tables `folders` and `flags` of `multirom_prep_android_mounts`, by
column: directory, image, directory flags, image flags. -/
def android_mount_table : List (String × String × Nat × Nat) :=
  [("system", "system.img", MS_BIND ||| MS_RDONLY, MS_RDONLY ||| MS_NOATIME),
   ("data", "data.img", MS_BIND, MS_NOATIME),
   ("cache", "cache.img", MS_BIND, MS_NOATIME)]

/-- The final `for` loop of `multirom_prep_android_mounts`. -/
def prep_android_mount_loop (w : World) (rom : multirom_rom) (img : Bool) :
    List (String × String × Nat × Nat) → Run Int
  | [] => fun st => some (0, st)
  | (dir, image, fdir, fimg) :: rest => fun st =>
    if img = false then
      let ok := w.mount_ok st.trace (rom.base_path ++ "/" ++ dir) ("/" ++ dir) "ext4" fdir
      let st1 := emit (Ev.mount (rom.base_path ++ "/" ++ dir) ("/" ++ dir) "ext4" fdir) st
      if ok then prep_android_mount_loop w rom img rest st1 else some (-1, st1)
    else
      match multirom_mount_loop w (rom.base_path ++ "/" ++ image) ("/" ++ dir) fimg st with
      | none => none
      | some (r, st1) =>
        if r < 0 then some (-1, st1) else prep_android_mount_loop w rom img rest st1

/-- The function `multirom_prep_android_mounts`. -/
def multirom_prep_android_mounts (w : World) (rom : multirom_rom) : Run Int := fun st =>
  let folder := rom.base_path ++ "/boot"
  match w.readdir st.trace folder with
  | none => some (-1, st)
  | some entries =>
    let r := entries.foldl (prep_android_file w folder) (0, st)
    let st1 := emit (Ev.mkdir_with_perms "/cache" 0o770 (some "system") (some "cache"))
      (emit (Ev.mkdir_with_perms "/data" 0o771 (some "system") (some "system"))
        (emit (Ev.mkdir_with_perms "/system" 0o755 none none) r.2))
    prep_android_mount_loop w rom (decide (rom.type = ROM_ANDROID_USB_IMG)) android_mount_table st1

/-- The `while(res == -1 && fgets(...))` loop of `multirom_get_api_level`. -/
def api_level_scan : List String → Int
  | [] => -1
  | line :: rest =>
    if str_starts_with line "ro.build.version.sdk=" then
      let r := atoi (String.mk (line.data.drop "ro.build.version.sdk=".length))
      if r = -1 then api_level_scan rest else r
    else api_level_scan rest

/-- The function `multirom_get_api_level`. -/
def multirom_get_api_level (w : World) (st : Sys) (path : String) : Int :=
  match w.read_file st.trace path with
  | none => -1
  | some text => api_level_scan (fgets_all 256 text.data [])

/-- The function `multirom_create_media_link`. -/
def multirom_create_media_link (w : World) : Run Int := fun st =>
  let api_level := multirom_get_api_level w st "/system/build.prop"
  if api_level ≤ 0 then some (-1, st)
  else
    let media_new := w.stat_ok st.trace (REALDATA ++ "/media/0")
    let src :=
      if api_level ≤ 16 then (if media_new then REALDATA ++ "/media/0" else REALDATA ++ "/media")
      else REALDATA ++ "/media"
    let dst :=
      if api_level ≤ 16 then "/data/media"
      else (if media_new then "/data/media" else "/data/media/0")
    let made := w.mkdir_recursive_ok st.trace dst
    let st1 := emit (Ev.mkdir_recursive dst 0o775) st
    if made = false then some (-1, st1)
    else
      let ok := w.mount_ok st1.trace src dst "ext4" MS_BIND
      let st2 := emit (Ev.mount src dst "ext4" MS_BIND) st1
      if ok = false then some (-1, st2)
      else if api_level ≥ 17 then
        if w.fopen_w st2.trace LAYOUT_VERSION = false then some (-1, st2)
        else some (0, emit (Ev.chmod LAYOUT_VERSION 0o600) (emit (Ev.write_file LAYOUT_VERSION "2") st2))
      else some (0, st2)

/-! ## Boot preparation -/

/-- Modelled from the spec: `multirom.h`, which defines the macro `M` and the
mask `MASK_UBUNTU`, is outside the sources. `MASK_UBUNTU t` stands for
`M(t) & MASK_UBUNTU`; the Ubuntu family of the spec is the three
ROM_UBUNTU types, the ones `multirom_load_kexec` hands to
`multirom_fill_kexec_ubuntu`. -/
def MASK_UBUNTU : rom_type → Bool
  | ROM_UBUNTU_INTERNAL | ROM_UBUNTU_USB_IMG | ROM_UBUNTU_USB_DIR => true
  | _ => false

/-- Modelled from the spec: `multirom.h` is outside the sources; the exit
action is one action bit paired with an unmount flag and a kexec flag, each
its own bit. This is the reboot action. -/
def EXIT_REBOOT : Int := 0x01
/-- Modelled from the spec: the unmount-before-exit flag (see `EXIT_REBOOT`). -/
def EXIT_UMOUNT : Int := 0x02
/-- Modelled from the spec: the kexec-loaded flag (see `EXIT_REBOOT`). -/
def EXIT_KEXEC : Int := 0x20

/-- The assignment `to_boot->partition->keep_mounted = 1` when the pointer is
not NULL: the status with the partition of that address updated; `none` when
the pointer dangles. -/
def set_keep_mounted (s : multirom_status) : Option Nat → Option multirom_status
  | none => some s
  | some a =>
    match deref_partition s a with
    | none => none
    | some _ =>
      some { s with partitions :=
        s.partitions.map (fun p => if p.addr = a then { p with keep_mounted := 1 } else p) }

/-- The Android case of the `switch(type)` of `multirom_prepare_for_boot`. -/
def prepare_for_boot_android (w : World) (s : multirom_status) (to_boot : multirom_rom)
    (exit : Int) : Run (Int × multirom_status) := fun st =>
  let exit1 :=
    if Int.land exit (Int.lor EXIT_REBOOT EXIT_KEXEC) = 0 then Int.land exit (Int.lnot EXIT_UMOUNT)
    else exit
  match multirom_prep_android_mounts w to_boot st with
  | none => none
  | some (r, st1) =>
    if r = -1 then some ((-1, s), st1)
    else
      match multirom_create_media_link w st1 with
      | none => none
      | some (r1, st2) =>
        if r1 = -1 then some ((-1, s), st2)
        else
          match set_keep_mounted s to_boot.partition with
          | none => none
          | some s1 =>
            if Int.land exit1 (Int.lor EXIT_REBOOT EXIT_KEXEC) = 0 ∧
                w.stat_ok st2.trace "/init.rc" = false then
              some ((-1, s1), st2)
            else some ((exit1, s1), st2)

/-- The function `multirom_prepare_for_boot`: the result and the status. -/
def multirom_prepare_for_boot (w : World) (s : multirom_status) (to_boot : multirom_rom) :
    Run (Int × multirom_status) := fun st =>
  let type := to_boot.type
  let pre : Option ((Option Int × multirom_status) × Sys) :=
    if (MASK_UBUNTU type = true ∨ to_boot.has_bootimg ≠ 0) ∧ type ≠ ROM_DEFAULT ∧
        s.is_second_boot = 0 then
      match multirom_load_kexec w s to_boot st with
      | none => none
      | some ((r, s1), st1) =>
        if r ≠ 0 then some ((none, s1), st1)
        else some ((some (Int.lor EXIT_UMOUNT EXIT_KEXEC), s1), st1)
    else some ((some EXIT_UMOUNT, s), st)
  match pre with
  | none => none
  | some ((none, s1), st1) => some ((-1, s1), st1)
  | some ((some exit, s1), st1) =>
    match type with
    | ROM_DEFAULT | ROM_UBUNTU_USB_DIR | ROM_UBUNTU_USB_IMG | ROM_UBUNTU_INTERNAL =>
      some ((exit, s1), st1)
    | ROM_ANDROID_USB_IMG | ROM_ANDROID_USB_DIR | ROM_ANDROID_INTERNAL =>
      prepare_for_boot_android w s1 to_boot exit st1
    | _ => some ((-1, s1), st1)

/-- An environment in which nothing exists and every action succeeds, in the
"C" locale. -/
def quiet_world : World :=
  { multirom_dir := "/realdata/media/multirom", busybox_path := "/realdata/media/multirom/busybox",
    kexec_path := "/realdata/media/multirom/kexec", ntfs_path := "/realdata/media/multirom/ntfs-3g",
    access_r := fun _ _ => false, stat_ok := fun _ _ => false, read_file := fun _ _ => none,
    boot_img := fun _ _ => none, fopen_w := fun _ _ => true, readdir := fun _ _ => none,
    mkdir_errno := fun _ _ => 0, mkdir_recursive_ok := fun _ _ => true,
    mount_ok := fun _ _ _ _ _ => true, mknod_ok := fun _ _ => true, open_ok := fun _ _ => true,
    ioctl_ok := fun _ _ _ => true, cmd_status := fun _ _ => 0, cmd_stdout := fun _ _ => none,
    strcoll := strcmp }

/-! ## Shapes of traces -/

/-- The events a refresh of the partition list can issue: unmounts, the
enumeration command and the NTFS helper, mount-point creation, and mounts of
a block device `/dev/block/<name>` on `/mnt/<name>`. -/
def partition_refresh_event : Ev → Prop
  | Ev.umount _ => True
  | Ev.exec _ => True
  | Ev.mkdir _ => True
  | Ev.mount src dst _ flags =>
    ∃ name, src = "/dev/block/" ++ name ∧ dst = "/mnt/" ++ name ∧ flags = MS_NOATIME
  | _ => False

/-- The state `st1` continues `st` by events that all satisfy `P`. -/
def extends_by (P : Ev → Prop) (st st1 : Sys) : Prop :=
  ∃ new, st1.trace = st.trace ++ new ∧ ∀ e ∈ new, P e

/-! ## Sample environments -/

/-- An environment whose enumeration command reports one removable
partition. -/
def unknown_bootimg_world : World :=
  { quiet_world with
    cmd_stdout := fun _ _ => some "/dev/block/sda1: UUID=\"ABCD-1234\" TYPE=\"vfat\"\n" }

/-- An environment with an Android boot image (page size 2048, kernel size
5000, ramdisk size 3000) and no partitions. -/
def sample_boot_world : World :=
  { quiet_world with
    boot_img := fun _ p =>
      if p = "/realdata/media/multirom/roms/cm/boot.img" then
        some ⟨5000, 3000, 2048, "androidboot.hardware=grouper"⟩
      else none,
    read_file := fun _ p => if p = "/proc/cmdline" then some "console=tty1 debug\n" else none,
    cmd_stdout := fun _ _ => some "" }

/-- An internal Android ROM with a boot image. -/
def sample_android_rom : multirom_rom :=
  ⟨1, "cm", "/realdata/media/multirom/roms/cm", ROM_ANDROID_INTERNAL, 1, none⟩

/-- The header of the boot image of `sample_boot_world`. -/
def sample_boot_hdr : boot_img_hdr := ⟨5000, 3000, 2048, "androidboot.hardware=grouper"⟩

/-- The buffers `multirom_fill_kexec_android` fills in `sample_boot_world`. -/
def sample_kexec_cmd : kexec_cmd :=
  ⟨"/zImage", "--initrd=/initrd.img",
   "--command-line=console=tty1 debug  mrom_kexecd=1 androidboot.hardware=grouper"⟩

/-- The state after `multirom_fill_kexec_android` in `sample_boot_world`. -/
def sample_filled_state : Sys :=
  { trace := [Ev.exec ["/realdata/media/multirom/busybox", "blkid"],
      Ev.extract_bytes "/zImage" "/realdata/media/multirom/roms/cm/boot.img" 2048 5000,
      Ev.extract_bytes "/initrd.img" "/realdata/media/multirom/roms/cm/boot.img" 8192 3000,
      Ev.klog "MultiromSaysNextBootShouldBeSecondMagic108"] }

/-- The fixed text between the root specification and the root folder in
the command line `multirom_fill_kexec_ubuntu` composes. -/
def UBUNTU_FIXED_ARGS : String :=
  " rw console=tty1 fbcon=rotate:1 access=m2 quiet splash mrom_kexecd=1 rootflags=defaults,noatime,nodiratime "

/-- An environment with a ROM directory on a VFAT partition that holds both
`root` and `root.img`, and an image whose `boot` holds a kernel and an
initrd. -/
def ubuntu_vfat_world : World :=
  { quiet_world with
    access_r := fun _ p =>
      decide (p = "/mnt/sda1/multirom/raring/root" ∨ p = "/mnt/sda1/multirom/raring/root.img"),
    readdir := fun _ p =>
      if p = "/mnt/image/boot" then
        some [⟨".", 4⟩, ⟨"..", 4⟩, ⟨"vmlinuz-3.1.10", 8⟩, ⟨"initrd.img-3.1.10", 8⟩]
      else none,
    read_file := fun _ p => if p = "/proc/cmdline" then some "tegra_wdt.heartbeat=30\n" else none }

/-- A status whose only partition is the VFAT partition `sda1`. -/
def ubuntu_vfat_status : multirom_status :=
  { partitions := [⟨1, "sda1", "ABCD-1234", some "vfat", some "/mnt/sda1", 0⟩] }

/-- The ROM of `ubuntu_vfat_world`, a directory-backed Ubuntu ROM. -/
def ubuntu_vfat_rom : multirom_rom :=
  ⟨7, "raring", "/mnt/sda1/multirom/raring", ROM_UBUNTU_USB_DIR, 0, some 1⟩

/-- The buffers `multirom_fill_kexec_ubuntu` fills for `ubuntu_vfat_rom`. -/
def ubuntu_vfat_result : kexec_cmd :=
  ⟨"/mnt/image/boot/vmlinuz-3.1.10", "--initrd=/mnt/image/boot/initrd.img-3.1.10",
   "--command-line=tegra_wdt.heartbeat=30  root=UUID=ABCD-1234 rw console=tty1 fbcon=rotate:1 access=m2 quiet splash mrom_kexecd=1 rootflags=defaults,noatime,nodiratime loop=/multirom/raring/root.img loopfstype=ext4"⟩

/-- The state after `multirom_fill_kexec_ubuntu` for `ubuntu_vfat_rom`. -/
def ubuntu_vfat_final : Sys :=
  { trace := [Ev.mkdir "/mnt/image", Ev.open_rdwr "/mnt/sda1/multirom/raring/root.img",
      Ev.mknod "/dev/loop0" 0, Ev.open_rdwr "/dev/loop0",
      Ev.ioctl_loop_set_fd "/dev/loop0" "/mnt/sda1/multirom/raring/root.img",
      Ev.mount "/dev/loop0" "/mnt/image" "ext4" 1024, Ev.close "/dev/loop0",
      Ev.close "/mnt/sda1/multirom/raring/root.img"],
    loop_devs := 1 }

/-! ## Partition refresh: specification -/

/-- The key `key` does not occur in `line` at any position before `n`. -/
def no_occurrence_before (key line : String) (n : Nat) : Prop :=
  ∀ i, i < n → key.data.isPrefixOf (line.data.drop i) = false

instance (key line : String) (n : Nat) : Decidable (no_occurrence_before key line n) := by
  unfold no_occurrence_before; infer_instance

/-- What one enumeration line contributes to the partition list, in the words
of the spec: nothing for a line without a UUID; the parsed partition, not
mounted, for a device of internal storage; the mounted partition when
`multirom_mount_usb` succeeds; nothing when it fails. The last argument is
the state after the line. -/
inductive line_contributes (w : World) (line : String) (st : Sys) :
    Option usb_partition → Sys → Prop
  | no_uuid :
    blkid_value line "UUID=\"" = some none →
    line_contributes w line st none { st with next_addr := st.next_addr + 1 }
  | internal (name uuid : String) (fs : Option String) :
    (str_before ':' line).bind (str_after_last '/') = some name →
    blkid_value line "UUID=\"" = some (some uuid) →
    blkid_value line "TYPE=\"" = some fs →
    str_contains name "mmcblk" = true →
    line_contributes w line st (some ⟨st.next_addr, name, uuid, fs, none, 0⟩)
      { st with next_addr := st.next_addr + 1 }
  | mounted (name uuid : String) (fs : Option String) (p1 : usb_partition) (st1 : Sys) :
    (str_before ':' line).bind (str_after_last '/') = some name →
    blkid_value line "UUID=\"" = some (some uuid) →
    blkid_value line "TYPE=\"" = some fs →
    str_contains name "mmcblk" = false →
    multirom_mount_usb w ⟨st.next_addr, name, uuid, fs, none, 0⟩
      { st with next_addr := st.next_addr + 1 } = some ((0, p1), st1) →
    line_contributes w line st (some p1) st1
  | mount_failed (name uuid : String) (fs : Option String) (r : Int) (p1 : usb_partition)
      (st1 : Sys) :
    (str_before ':' line).bind (str_after_last '/') = some name →
    blkid_value line "UUID=\"" = some (some uuid) →
    blkid_value line "TYPE=\"" = some fs →
    str_contains name "mmcblk" = false →
    multirom_mount_usb w ⟨st.next_addr, name, uuid, fs, none, 0⟩
      { st with next_addr := st.next_addr + 1 } = some ((r, p1), st1) →
    r ≠ 0 →
    line_contributes w line st none st1

/-- The partitions a list of enumeration lines contributes, in line order. -/
inductive lines_contribute (w : World) : List String → Sys → List usb_partition → Sys → Prop
  | nil (st : Sys) : lines_contribute w [] st [] st
  | cons (l : String) (ls : List String) (st st1 st2 : Sys) (o : Option usb_partition)
      (ps : List usb_partition) :
    line_contributes w l st o st1 → lines_contribute w ls st1 ps st2 →
    lines_contribute w (l :: ls) st (o.toList ++ ps) st2

/-- The function `multirom_free_status`: the status with both lists cleared,
and the state after the destructors have run. The freed `curr_rom_part` is
left as it is. -/
def multirom_free_status (s : multirom_status) (st : Sys) : multirom_status × Sys :=
  ({ s with partitions := [], roms := [] }, list_clear_partitions s.partitions st)

/-- The unmounts of the partitions of a list that have a `mount_path` and
`keep_mounted == 0`, in list order. -/
def umounts_of (ps : List usb_partition) : List Ev :=
  ps.filterMap (fun p => if p.keep_mounted = 0 then p.mount_path.map Ev.umount else none)

/-- An event that is not an unmount. -/
def not_umount (e : Ev) : Prop := ∀ path, e ≠ Ev.umount path

/-- An environment whose enumeration reports an internal partition, a removable
partition that mounts, a line without UUID and a partition whose mount fails. -/
def refresh_world : World :=
  { quiet_world with
    cmd_stdout := fun _ _ => some
      "/dev/block/mmcblk0p9: UUID=\"aa-bb\" TYPE=\"ext4\"\n/dev/block/sda1: UUID=\"ABCD-1234\" TYPE=\"vfat\"\n/dev/block/sdb1: LABEL=\"nouuid\"\n/dev/block/sdc1: UUID=\"ffff\" TYPE=\"ext4\"\n",
    mount_ok := fun _ src _ _ _ => decide (src ≠ "/dev/block/sdc1") }

/-- A status with a kept mounted partition, a mounted partition that is not
kept, and a partition without mount path. -/
def refresh_status_before : multirom_status :=
  { partitions := [⟨90, "sda1", "ABCD-1234", some "vfat", some "/mnt/sda1", 1⟩,
      ⟨91, "sdd1", "1111", some "ext4", some "/mnt/sdd1", 0⟩,
      ⟨92, "mmcblk0p9", "aa-bb", some "ext4", none, 0⟩] }

/-- The status after a refresh of `refresh_status_before` in `refresh_world`. -/
def refresh_status_after : multirom_status :=
  { partitions := [⟨100, "mmcblk0p9", "aa-bb", some "ext4", none, 0⟩,
      ⟨101, "sda1", "ABCD-1234", some "vfat", some "/mnt/sda1", 0⟩] }

/-- The state after a refresh of `refresh_status_before` in `refresh_world`
from a state whose next address is 100. -/
def refresh_state_after : Sys :=
  { trace := [Ev.umount "/mnt/sdd1", Ev.exec ["/realdata/media/multirom/busybox", "blkid"],
      Ev.mkdir "/mnt", Ev.mkdir "/mnt/sda1", Ev.mount "/dev/block/sda1" "/mnt/sda1" "vfat" 1024,
      Ev.mkdir "/mnt", Ev.mkdir "/mnt/sdc1", Ev.mount "/dev/block/sdc1" "/mnt/sdc1" "ext4" 1024],
    next_addr := 104 }

/-! ## Loop mounts and Android mounts: specification -/

/-- The device path a call of `multirom_mount_loop` in state `st` uses. -/
def loop_path (st : Sys) : String := "/dev/loop" ++ fmt_d st.loop_devs

/-- Whether `open(src, O_RDWR)` succeeds in a call of `multirom_mount_loop`. -/
def loop_file_opens (w : World) (src : String) (st : Sys) : Bool :=
  w.open_ok st.trace src

/-- Whether `mknod` succeeds in a call of `multirom_mount_loop`, once the
backing file is open. -/
def loop_node_made (w : World) (src : String) (st : Sys) : Bool :=
  w.mknod_ok (st.trace ++ [Ev.open_rdwr src]) (loop_path st)

/-- Whether the open of the loop device succeeds, once the node is made. -/
def loop_dev_opens (w : World) (src : String) (st : Sys) : Bool :=
  w.open_ok (st.trace ++ [Ev.open_rdwr src, Ev.mknod (loop_path st) st.loop_devs]) (loop_path st)

/-- Whether the `LOOP_SET_FD` ioctl succeeds, once the device is open. -/
def loop_ioctl_ok (w : World) (src : String) (st : Sys) : Bool :=
  w.ioctl_ok (st.trace ++ [Ev.open_rdwr src, Ev.mknod (loop_path st) st.loop_devs,
    Ev.open_rdwr (loop_path st)]) (loop_path st) src

/-- Whether the mount of the loop device succeeds, once the ioctl is done. -/
def loop_mount_ok (w : World) (src dst : String) (flags : Nat) (st : Sys) : Bool :=
  w.mount_ok (st.trace ++ [Ev.open_rdwr src, Ev.mknod (loop_path st) st.loop_devs,
    Ev.open_rdwr (loop_path st), Ev.ioctl_loop_set_fd (loop_path st) src]) (loop_path st) dst
    "ext4" flags

/-- The `mknod` calls among the events `evs` issued after `pre`, in order:
the device index of each and whether the call succeeded. -/
def mknod_attempts (w : World) : List Ev → List Ev → List (Nat × Bool)
  | _, [] => []
  | pre, e :: rest =>
    match e with
    | Ev.mknod path n => (n, w.mknod_ok pre path) :: mknod_attempts w (pre ++ [e]) rest
    | _ => mknod_attempts w (pre ++ [e]) rest

/-- A sequence of calls of `multirom_mount_loop` in one process: before each
call (`src`, `dst`, `flags`) the rest of the program issues the events
`other`. -/
def mount_loop_calls (w : World) : List (List Ev × String × String × Nat) → Run (List Int)
  | [] => fun st => some ([], st)
  | (other, src, dst, flags) :: cs => fun st =>
    match multirom_mount_loop w src dst flags { st with trace := st.trace ++ other } with
    | none => none
    | some (r, st1) =>
      match mount_loop_calls w cs st1 with
      | none => none
      | some (rs, st2) => some (r :: rs, st2)

/-- The indices of a run of `mknod` calls that starts with the counter
`loop_devs` at `start`: each call uses the counter as its index; a call that
fails leaves the counter as it is, so that the next call uses the same index
again, and a call that succeeds advances it by one. -/
def mknod_indices_from : Nat → List (Nat × Bool) → Prop
  | _, [] => True
  | start, a :: rest =>
    a.1 = start ∧ mknod_indices_from (if a.2 = true then start + 1 else start) rest

instance (start : Nat) (l : List (Nat × Bool)) : Decidable (mknod_indices_from start l) := by
  induction l generalizing start with
  | nil => unfold mknod_indices_from; infer_instance
  | cons a rest ih => unfold mknod_indices_from; infer_instance

/-- An event that is not a `mknod`. -/
def not_mknod (e : Ev) : Prop := ∀ path n, e ≠ Ev.mknod path n

instance (e : Ev) : Decidable (not_mknod e) := by
  unfold not_mknod
  cases e <;> first
    | exact isTrue (fun _ _ h => Ev.noConfusion h)
    | exact isFalse (fun h => h _ _ rfl)

/-- An environment in which no device node can be created. -/
def no_mknod_world : World := { quiet_world with mknod_ok := fun _ _ => false }

/-- An environment in which the first `mknod` fails and the later ones
succeed. -/
def late_mknod_world : World :=
  { quiet_world with mknod_ok := fun t _ => decide (3 < t.length) }

/-- Three calls of `multirom_mount_loop`, the second after another event. -/
def sample_loop_calls : List (List Ev × String × String × Nat) :=
  [([], "/a/system.img", "/system", 1025), ([Ev.mkdir "/data"], "/a/data.img", "/data", 1024),
   ([], "/a/cache.img", "/cache", 1024)]

/-- The state in which the mount phase of `multirom_prep_android_mounts`
starts: after the files of `boot` have been copied or rewritten and the three
mount points created. -/
def prep_android_files_state (w : World) (rom : multirom_rom) (entries : List dirent)
    (st : Sys) : Sys :=
  emit (Ev.mkdir_with_perms "/cache" 0o770 (some "system") (some "cache"))
    (emit (Ev.mkdir_with_perms "/data" 0o771 (some "system") (some "system"))
      (emit (Ev.mkdir_with_perms "/system" 0o755 none none)
        (entries.foldl (prep_android_file w (rom.base_path ++ "/boot")) (0, st)).2))

/-- The mount of the directory `dir` of a ROM on `/dir`. -/
def bind_mount_ev (rom : multirom_rom) (dir : String) (flags : Nat) : Ev :=
  Ev.mount (rom.base_path ++ "/" ++ dir) ("/" ++ dir) "ext4" flags

/-- Whether the mount of the directory `dir` of a ROM on `/dir` succeeds after
the events `t`. -/
def bind_mount_ok (w : World) (rom : multirom_rom) (t : List Ev) (dir : String) (flags : Nat) :
    Bool :=
  w.mount_ok t (rom.base_path ++ "/" ++ dir) ("/" ++ dir) "ext4" flags

/-- An environment with an Android ROM directory in which the bind mount of
`data` fails. -/
def android_dir_world : World :=
  { quiet_world with
    readdir := fun _ p =>
      if p = "/realdata/media/multirom/roms/cm/boot" then some [⟨"init", 8⟩] else none,
    mount_ok := fun _ src _ _ _ => decide (src ≠ "/realdata/media/multirom/roms/cm/data") }

/-- The placeholder line of the init-script rewrite. -/
def DUMMY_LINE : String := "    export DUMMY_LINE_INGORE_IT 1\n"

/-- The concatenation of a list of strings, in order. -/
def concat_all : List String → String
  | [] => ""
  | s :: ss => s ++ concat_all ss

/-- For each line of a script, whether it is the line the sdcard-service
rewrite consumes with its extra `fgets`: the line after a line that reaches
the `service sdcard` branch. -/
def rc_skipped : List String → List Bool
  | [] => []
  | line :: rest =>
    false ::
      (if str_contains line "on " = false ∧ rc_is_mount line = false ∧
          str_starts_with line "service sdcard" = true then
        match rest with
        | [] => []
        | _ :: rest1 => true :: rc_skipped rest1
      else rc_skipped rest)

/-- What the init-script rewrite may write for one input line, as a
specification: a line with a self-mounting directive is commented out (after the
placeholder line, when one is inserted), a line without one that does not
start the sdcard service is copied; a line that contains "on " is copied
whatever else it contains; the line the sdcard rewrite consumes is dropped. -/
def rc_piece (line : String) (skipped : Bool) (piece : String) : Prop :=
  (skipped = true → piece = "") ∧
  (skipped = false → str_contains line "on " = true → piece = line) ∧
  (skipped = false → str_contains line "on " = false → rc_is_mount line = true →
    piece = "#" ++ line ∨ piece = DUMMY_LINE ++ ("#" ++ line)) ∧
  (skipped = false → rc_is_mount line = false → str_starts_with line "service sdcard" = false →
    piece = line)

/-- A line of a text file as one `fgets` into a buffer of 1024 bytes delivers
it: it ends with its only newline and has at most 1023 characters. -/
def rc_line (l : String) : Prop :=
  ∃ u : List Char, l = String.mk (u ++ ['\n']) ∧ '\n' ∉ u ∧ u.length + 1 ≤ 1023

/-- An environment with a script whose mount directive stands in a line that
contains "on ". -/
def rc_on_world : World :=
  { quiet_world with
    read_file := fun _ p =>
      if p = "/realdata/media/multirom/roms/cm/boot/init.grouper.rc" then
        some "on fs\n    mount_all /fstab.grouper # mount partitions on boot\n    setprop ro.crypto.state unencrypted\n"
      else none }

/-- An environment with a script that mounts `/data` and starts the sdcard
service. -/
def rc_sample_world : World :=
  { quiet_world with
    read_file := fun _ p =>
      if p = "/realdata/media/multirom/roms/cm/boot/init.rc" then
        some "on fs\n    mount ext4 /dev/block/mmcblk0p9 /data wait\n    start x\nservice sdcard /system/bin/sdcard\n    class late_start\n"
      else none }

/-! ## ROM registry -/

/-- The value of `MAX_ROM_NAME_LEN`. -/
def MAX_ROM_NAME_LEN : Nat := 26

/-- The value of `T_FOLDER`. -/
def T_FOLDER : Nat := 4

/-- The value of `BOOT_BLK`. -/
def BOOT_BLK : String := "/dev/block/mmcblk0p2"

/-- The function `multirom_generate_rom_id`: the value of the static counter,
which then advances. The counter is not bounded here. -/
def multirom_generate_rom_id (st : Sys) : Int × Sys :=
  ((st.next_rom_id : Int), { st with next_rom_id := st.next_rom_id + 1 })

/-- The function `multirom_dump_boot`. -/
def multirom_dump_boot (w : World) (dest : String) (st : Sys) : Int × Sys :=
  let argv := [w.busybox_path, "dd", "if=" ++ BOOT_BLK, "of=" ++ dest]
  (w.cmd_status st.trace argv, emit (Ev.exec argv) st)

/-- The function `multirom_import_internal`. -/
def multirom_import_internal (w : World) (st : Sys) : Int × Sys :=
  let st1 := emit (Ev.mkdir w.multirom_dir) st
  let st2 := emit (Ev.mkdir (w.multirom_dir ++ "/roms")) st1
  let st3 := emit (Ev.mkdir (w.multirom_dir ++ "/roms/" ++ INTERNAL_ROM_NAME)) st2
  multirom_dump_boot w (w.multirom_dir ++ "/roms/" ++ INTERNAL_ROM_NAME ++ "/boot.img") st3

/-- The function `multirom_get_rom` over the ROM list `roms` of the status
`s`: the first ROM with the name `name` and, when `part_uuid` is not NULL, on
a partition with that UUID. Outer `none`: undefined (the partition pointer of
a ROM dangles); inner `none`: NULL. -/
def multirom_get_rom (s : multirom_status) (name : String) (part_uuid : Option String) :
    List multirom_rom → Option (Option multirom_rom)
  | [] => some none
  | r :: rs =>
    if r.name = name then
      match part_uuid with
      | none => some (some r)
      | some uuid =>
        match r.partition with
        | none => multirom_get_rom s name part_uuid rs
        | some a =>
          match deref_partition s a with
          | none => none
          | some p => if p.uuid = uuid then some (some r) else multirom_get_rom s name part_uuid rs
    else multirom_get_rom s name part_uuid rs

/-- The function `compare_rom_names`. -/
def compare_rom_names (w : World) (a b : multirom_rom) : Int := w.strcoll a.name b.name

/-- The call `qsort(add_roms, ..., compare_rom_names)`. The function `qsort`
is outside the sources, and C leaves open the order of items that compare
equal; it is modelled by an insertion sort. -/
def qsort_roms (w : World) (add_roms : List multirom_rom) : List multirom_rom :=
  add_roms.insertionSort (fun a b => compare_rom_names w a b ≤ 0)

/-- The body of the `readdir` loop of `multirom_default_status` past the
three `continue` tests: the ROM built for the entry `dr`. -/
def default_status_rom (w : World) (roms_path : String) (dr : dirent) (st : Sys) :
    multirom_rom × Sys :=
  let r := multirom_generate_rom_id st
  let rom : multirom_rom :=
    { id := r.1, name := dr.d_name, base_path := roms_path ++ "/" ++ dr.d_name,
      type := ROM_DEFAULT, has_bootimg := 0, partition := none }
  let rom1 : multirom_rom := { rom with type := multirom_get_rom_type (w.access_r r.2.trace) rom }
  let has : Int := if w.access_r r.2.trace (rom1.base_path ++ "/boot.img") then 1 else 0
  ({ rom1 with has_bootimg := has }, r.2)

/-- The `readdir` loop of `multirom_default_status`: the list `add_roms`. -/
def default_status_scan (w : World) (roms_path : String) :
    List dirent → List multirom_rom → Sys → List multirom_rom × Sys
  | [], add_roms, st => (add_roms, st)
  | dr :: rest, add_roms, st =>
    if dr.d_name.data.head? = some '.' then default_status_scan w roms_path rest add_roms st
    else if dr.d_type ≠ T_FOLDER then default_status_scan w roms_path rest add_roms st
    else if dr.d_name.length > MAX_ROM_NAME_LEN then
      default_status_scan w roms_path rest add_roms st
    else
      let r := default_status_rom w roms_path dr st
      default_status_scan w roms_path rest (add_roms ++ [r.1]) r.2

/-- The first part of `multirom_default_status`: when the folder of the
Internal ROM cannot be opened, the running system is imported. The flag is
false when the function returns -1 here. -/
def default_status_import (w : World) (st : Sys) : Bool × Sys :=
  match w.readdir st.trace (w.multirom_dir ++ "/roms/" ++ INTERNAL_ROM_NAME) with
  | some _ => (true, st)
  | none =>
    let r := multirom_import_internal w st
    (decide (r.1 ≠ -1), r.2)

/-- The function `multirom_default_status`. -/
def multirom_default_status (w : World) (s : multirom_status) : Run (Int × multirom_status) :=
  fun st =>
  let s0 : multirom_status := { s with is_second_boot := 0, current_rom := none, roms := [] }
  let imp := default_status_import w st
  if imp.1 = false then some ((-1, s0), imp.2)
  else
    let roms_path := w.multirom_dir ++ "/roms"
    match w.readdir imp.2.trace roms_path with
    | none => some ((-1, s0), imp.2)
    | some entries =>
      let r := default_status_scan w roms_path entries [] imp.2
      let s1 : multirom_status :=
        if r.1 = [] then s0 else { s0 with roms := s0.roms ++ qsort_roms w r.1 }
      match multirom_get_rom s1 INTERNAL_ROM_NAME none s1.roms with
      | none => none
      | some none => some ((-1, s1), r.2)
      | some (some rom) => some ((0, { s1 with current_rom := some rom.id }), r.2)

/-- The body of the `readdir` loop of `multirom_scan_partition_for_roms` past
the `continue` test: the ROM built for the entry `dr` on the partition `p`
mounted on `mount_path`. -/
def scan_partition_rom (w : World) (p : usb_partition) (mount_path : String) (dr : dirent)
    (st : Sys) : multirom_rom × Sys :=
  let r := multirom_generate_rom_id st
  let rom : multirom_rom :=
    { id := r.1, name := dr.d_name, base_path := mount_path ++ "/multirom/" ++ dr.d_name,
      type := ROM_DEFAULT, has_bootimg := 0, partition := some p.addr }
  let rom1 : multirom_rom := { rom with type := multirom_get_rom_type (w.access_r r.2.trace) rom }
  let has : Int := if w.access_r r.2.trace (rom1.base_path ++ "/boot.img") then 1 else 0
  ({ rom1 with has_bootimg := has }, r.2)

/-- The `readdir` loop of `multirom_scan_partition_for_roms`: the list
`add_roms`. -/
def scan_partition_scan (w : World) (p : usb_partition) (mount_path : String) :
    List dirent → List multirom_rom → Sys → List multirom_rom × Sys
  | [], add_roms, st => (add_roms, st)
  | dr :: rest, add_roms, st =>
    if dr.d_name.data.head? = some '.' then scan_partition_scan w p mount_path rest add_roms st
    else
      let r := scan_partition_rom w p mount_path dr st
      scan_partition_scan w p mount_path rest (add_roms ++ [r.1]) r.2

/-- The function `multirom_scan_partition_for_roms`. It has no result when
`p->mount_path` is NULL (it is formatted with `%s`). -/
def multirom_scan_partition_for_roms (w : World) (s : multirom_status) (p : usb_partition) :
    Run (Int × multirom_status) := fun st =>
  match p.mount_path with
  | none => none
  | some mount_path =>
    let path := mount_path ++ "/multirom"
    if w.stat_ok st.trace path = false then some ((-1, s), st)
    else
      match w.readdir st.trace path with
      | none => some ((-1, s), st)
      | some entries =>
        let r := scan_partition_scan w p mount_path entries [] st
        let s1 : multirom_status :=
          if r.1 = [] then s else { s with roms := s.roms ++ qsort_roms w r.1 }
        some ((0, s1), r.2)

/-- Whether the `readdir` loop of `multirom_default_status` accepts an entry:
the name does not begin with a dot, the entry is a folder and the name has at
most `MAX_ROM_NAME_LEN` characters. -/
def accepted_entry (dr : dirent) : Bool :=
  decide (dr.d_name.data.head? ≠ some '.' ∧ dr.d_type = T_FOLDER ∧
    dr.d_name.length ≤ MAX_ROM_NAME_LEN)

/-- An environment in which the folder of the Internal ROM opens and the ROM
folder holds one folder for each of `names`, delivered in that order. -/
def roms_world (names : List String) : World :=
  { quiet_world with
    readdir := fun _ p =>
      if p = "/realdata/media/multirom/roms/Internal" then some []
      else if p = "/realdata/media/multirom/roms" then some (names.map (fun n => ⟨n, 4⟩))
      else none }

/-- The names of the ROM list after `multirom_default_status` in the
environment `roms_world names`. -/
def default_status_names (names : List String) : Option (List String) :=
  (multirom_default_status (roms_world names) {} {}).map (fun r => r.1.2.roms.map (fun x => x.name))

/-- An environment with the partition `sda1` mounted on `/mnt/sda1`, whose
`multirom` folder holds a folder with a name of 27 characters; the ROM folder
of the internal storage holds `Internal` and a folder of the same name. -/
def long_name_world : World :=
  { quiet_world with
    stat_ok := fun _ p => decide (p = "/mnt/sda1/multirom"),
    readdir := fun _ p =>
      if p = "/mnt/sda1/multirom" then some [⟨"abcdefghijklmnopqrstuvwxyz0", 4⟩]
      else if p = "/realdata/media/multirom/roms/Internal" then some []
      else if p = "/realdata/media/multirom/roms" then
        some [⟨"Internal", 4⟩, ⟨"abcdefghijklmnopqrstuvwxyz0", 4⟩]
      else none }

/-- The partition `sda1` of `long_name_world`. -/
def long_name_partition : usb_partition :=
  { addr := 1, name := "sda1", uuid := "1234-ABCD", fs := some "vfat",
    mount_path := some "/mnt/sda1", keep_mounted := 0 }

/-- The names of the ROM list of a result. -/
def rom_names (r : Option ((Int × multirom_status) × Sys)) : Option (List String) :=
  r.map (fun x => x.1.2.roms.map (fun rom => rom.name))

/-! ## Status file and rescans -/

/-- The tokens `strtok(s, delims)`, `strtok(NULL, delims)`, ... deliver for a
set of delimiters: the maximal non-empty runs of characters that are not
delimiters. `cur` is the token being read, reversed. -/
def strtok_any (delims : List Char) : List Char → List Char → List String
  | [], cur => if cur = [] then [] else [String.mk cur.reverse]
  | c :: cs, cur =>
    if c ∈ delims then
      if cur = [] then strtok_any delims cs [] else String.mk cur.reverse :: strtok_any delims cs []
    else strtok_any delims cs (c :: cur)

/-- The function `multirom_search_last_kmsg`. -/
def multirom_search_last_kmsg (w : World) (t : List Ev) (expr : String) : Int :=
  match w.read_file t "/proc/last_kmsg" with
  | none => -1
  | some text => if (fgets_all 2048 text.data []).any (fun l => str_contains l expr) then 0 else -1

/-- The function `multirom_get_partition`: the first partition of the list
with the UUID `uuid`. -/
def multirom_get_partition (s : multirom_status) (uuid : String) : Option usb_partition :=
  s.partitions.find? (fun p => p.uuid = uuid)

/-- The removal loop of `multirom_find_usb_roms` from the index `i`: a ROM
whose type is in the mask is removed (`list_rm`, outside the sources, takes
the item out of the list) and the scan starts again at index 0. The first
argument bounds the number of iterations; `none` when it is used up. -/
def find_usb_roms_remove (mask : rom_type → Bool) :
    Nat → List multirom_rom → Nat → Option (List multirom_rom)
  | 0, _, _ => none
  | fuel + 1, roms, i =>
    match roms.get? i with
    | none => some roms
    | some r =>
      if mask r.type = true then find_usb_roms_remove mask fuel (roms.eraseIdx i) 0
      else find_usb_roms_remove mask fuel roms (i + 1)

/-- The rescan loop of `multirom_find_usb_roms` over the partition list. -/
def find_usb_roms_scan (w : World) : List usb_partition → multirom_status → Run multirom_status
  | [], s => fun st => some (s, st)
  | p :: ps, s => fun st =>
    if str_contains p.name "mmcblk" = false then
      match multirom_scan_partition_for_roms w s p st with
      | none => none
      | some ((_, s1), st1) => find_usb_roms_scan w ps s1 st1
    else find_usb_roms_scan w ps s st

/-- The function `multirom_find_usb_roms`. The macro `MASK_USB_ROMS` is
declared outside the sources: `mask` tells which types it holds. The removal
loop is given `(n + 1) * (n + 1)` iterations for a list of `n` ROMs. -/
def multirom_find_usb_roms (w : World) (mask : rom_type → Bool) (s : multirom_status) :
    Run multirom_status := fun st =>
  match find_usb_roms_remove mask ((s.roms.length + 1) * (s.roms.length + 1)) s.roms 0 with
  | none => none
  | some roms => find_usb_roms_scan w s.partitions { s with roms := roms } st

/-- One iteration of the `fgets` loop of `multirom_load_status`: the status
and the buffers `current_rom` and `auto_boot_rom` after the line. -/
def load_status_line (acc : multirom_status × String × String) (line : String) :
    multirom_status × String × String :=
  match strtok_any ['=', '\n'] line.data [] with
  | name :: arg :: _ =>
    if str_contains name "current_rom" then (acc.1, arg, acc.2.2)
    else if str_contains name "auto_boot_seconds" then
      ({ acc.1 with auto_boot_seconds := atoi arg }, acc.2.1, acc.2.2)
    else if str_contains name "auto_boot_rom" then (acc.1, acc.2.1, arg)
    else if str_contains name "curr_rom_part" then
      ({ acc.1 with curr_rom_part := some arg }, acc.2.1, acc.2.2)
    else acc
  | _ => acc

/-- The loop of `multirom_load_status` that waits for the partition with the
UUID `uuid`: `tries` iterations are left. The `sleep(1)` between two
iterations is left out. -/
def load_status_wait (w : World) (uuid : String) : Nat → multirom_status → Run multirom_status
  | 0, s => fun st => some (s, st)
  | tries + 1, s => fun st =>
    match multirom_update_partitions w s st with
    | none => none
    | some ((_, s1), st1) =>
      match multirom_get_partition s1 uuid with
      | some p =>
        match multirom_scan_partition_for_roms w s1 p st1 with
        | none => none
        | some ((_, s2), st2) => some (s2, st2)
      | none => load_status_wait w uuid tries s1 st1

/-- The end of `multirom_load_status`: the selection of `current_rom` and
`auto_boot_rom` by the names read from the file. -/
def load_status_select (s : multirom_status) (current_rom auto_boot_rom : String) :
    Option (Int × multirom_status) :=
  let cur : Option (Option multirom_rom) :=
    match multirom_get_rom s current_rom s.curr_rom_part s.roms with
    | none => none
    | some (some r) => some (some r)
    | some none => multirom_get_rom s INTERNAL_ROM_NAME none s.roms
  match cur with
  | none => none
  | some none => some (-1, { s with current_rom := none })
  | some (some r) =>
    let s1 : multirom_status := { s with current_rom := some r.id }
    match multirom_get_rom s1 auto_boot_rom none s1.roms with
    | none => none
    | some a => some (0, { s1 with auto_boot_rom := a.map (fun x => x.id) })

/-- The function `multirom_load_status`. -/
def multirom_load_status (w : World) (s : multirom_status) : Run (Int × multirom_status) :=
  fun st =>
  match multirom_default_status w s st with
  | none => none
  | some ((_, s1), st1) =>
    match w.read_file st1.trace (w.multirom_dir ++ "/multirom.ini") with
    | none => some ((-1, s1), st1)
    | some text =>
      match multirom_get_cmdline w st1.trace with
      | none => some ((-1, s1), st1)
      | some _ =>
        let s2 : multirom_status :=
          if multirom_search_last_kmsg w st1.trace SECOND_BOOT_KMESG = 0 then
            { s1 with is_second_boot := 1 }
          else s1
        let parsed := (fgets_all 1024 text.data []).foldl load_status_line (s2, "", "")
        let waited : Option (multirom_status × Sys) :=
          match parsed.1.curr_rom_part with
          | some uuid =>
            if parsed.1.is_second_boot ≠ 0 then load_status_wait w uuid 10 parsed.1 st1
            else some (parsed.1, st1)
          | none => some (parsed.1, st1)
        match waited with
        | none => none
        | some (s3, st3) =>
          match load_status_select s3 parsed.2.1 parsed.2.2 with
          | none => none
          | some (r, s4) => some ((r, s4), st3)

/-- The partition pointer of a ROM is NULL or refers to a partition of the
partition list of the status. -/
def rom_partition_live (s : multirom_status) (rom : multirom_rom) : Bool :=
  match rom.partition with
  | none => true
  | some a => (deref_partition s a).isSome

/-- The invariant of the specification: every ROM of the ROM list that
references a partition references one that is in the partition list. -/
def roms_reference_partitions (s : multirom_status) : Prop :=
  ∀ rom ∈ s.roms, rom_partition_live s rom = true

/-- The operations that change the ROM list or the partition list. -/
inductive status_op where
  | update_partitions
  | scan_partition (p : usb_partition)
  | find_usb_roms (mask : rom_type → Bool)
  | load_status

/-- The status and the state after one operation. -/
def run_status_op (w : World) : status_op → multirom_status → Run multirom_status
  | status_op.update_partitions, s => fun st =>
    (multirom_update_partitions w s st).map (fun r => (r.1.2, r.2))
  | status_op.scan_partition p, s => fun st =>
    (multirom_scan_partition_for_roms w s p st).map (fun r => (r.1.2, r.2))
  | status_op.find_usb_roms mask, s => multirom_find_usb_roms w mask s
  | status_op.load_status, s => fun st =>
    (multirom_load_status w s st).map (fun r => (r.1.2, r.2))

/-- What an operation needs to leave the invariant in place: a refresh of the
partition list needs a ROM list without partition pointers; a scan needs the
invariant and a partition of the partition list; the rescan needs the
invariant; loading the status needs nothing. -/
def status_op_ready : status_op → multirom_status → Prop
  | status_op.update_partitions, s => ∀ rom ∈ s.roms, rom.partition = none
  | status_op.scan_partition p, s => roms_reference_partitions s ∧ p ∈ s.partitions
  | status_op.find_usb_roms _, s => roms_reference_partitions s
  | status_op.load_status, _ => True

instance (s : multirom_status) : Decidable (roms_reference_partitions s) := by
  unfold roms_reference_partitions; infer_instance

instance (op : status_op) (s : multirom_status) : Decidable (status_op_ready op s) := by
  cases op <;> unfold status_op_ready <;> infer_instance

/-- An environment with the removable partition `sda1`, whose `multirom`
folder holds the ROM folder `ubuntu`. -/
def usb_rom_world : World :=
  { quiet_world with
    stat_ok := fun _ p => decide (p = "/mnt/sda1/multirom"),
    readdir := fun _ p => if p = "/mnt/sda1/multirom" then some [⟨"ubuntu", 4⟩] else none,
    access_r := fun _ p => decide (p = "/mnt/sda1/multirom/ubuntu/root"),
    cmd_stdout := fun _ _ => some "/dev/block/sda1: UUID=\"ABCD-1234\" TYPE=\"vfat\"\n" }

/-- The partition `sda1` of `usb_rom_world`, mounted. -/
def usb_rom_partition : usb_partition :=
  { addr := 1, name := "sda1", uuid := "ABCD-1234", fs := some "vfat",
    mount_path := some "/mnt/sda1", keep_mounted := 0 }

/-- A status with the Internal ROM and the partition `sda1`, before the
partition is scanned. -/
def usb_rom_status_before : multirom_status :=
  { roms := [⟨0, "Internal", "/realdata/media/multirom/roms/Internal", ROM_DEFAULT, 1, none⟩],
    partitions := [usb_rom_partition] }

/-- The status `usb_rom_status_before` after the scan of `sda1`: the ROM
`ubuntu` references the partition. -/
def usb_rom_status : multirom_status :=
  { roms := [⟨0, "Internal", "/realdata/media/multirom/roms/Internal", ROM_DEFAULT, 1, none⟩,
      ⟨1, "ubuntu", "/mnt/sda1/multirom/ubuntu", ROM_UBUNTU_USB_DIR, 0, some 1⟩],
    partitions := [usb_rom_partition] }

/-- The environment `usb_rom_world` after the drive has been removed: the
enumeration reports no partition. -/
def unplugged_world : World := { usb_rom_world with cmd_stdout := fun _ _ => some "" }

/-- The environment `usb_rom_world` with an enumeration command that gives no
output (`run_get_stdout` returns NULL). -/
def silent_blkid_world : World := { usb_rom_world with cmd_stdout := fun _ _ => none }

/-- The status `usb_rom_status` after a refresh in `unplugged_world`: the ROM
list is the same, the partition list is empty. -/
def usb_rom_unplugged : multirom_status := { usb_rom_status with partitions := [] }

/-- The state after the refresh of `usb_rom_status` in `unplugged_world`. -/
def usb_rom_unplugged_state : Sys :=
  { trace := [Ev.umount "/mnt/sda1", Ev.exec ["/realdata/media/multirom/busybox", "blkid"]],
    next_addr := 2 }

/-! ## Init-script rewrite: specification -/

/-- Whether a line reaches the `service sdcard` branch of the init-script
rewrite: it contains no "on ", it is no mount directive and it begins with
"service sdcard". -/
def rc_sdcard_branch (line : String) : Prop :=
  str_contains line "on " = false ∧ rc_is_mount line = false ∧
    str_starts_with line "service sdcard" = true

instance (line : String) : Decidable (rc_sdcard_branch line) := by
  unfold rc_sdcard_branch; infer_instance

/-- What the init-script rewrite writes for one input line, with regard to the
sdcard service: nothing for the line the rewrite consumes; the line followed
by the line "    class main" for a line that reaches the sdcard branch; and
for every other line the line itself, as it is or commented out. -/
def rc_sdcard_piece (line : String) (skipped : Bool) (piece : String) : Prop :=
  (skipped = true → piece = "") ∧
  (skipped = false → rc_sdcard_branch line → piece = line ++ "    class main\n") ∧
  (skipped = false → ¬ rc_sdcard_branch line →
    piece = line ∨ piece = "#" ++ line ∨ piece = DUMMY_LINE ++ ("#" ++ line))

/-- An environment in which the script `init.rc` of the ROM `cm` has the
content `text`. -/
def rc_file_world (text : String) : World :=
  { quiet_world with
    read_file := fun _ p =>
      if p = "/realdata/media/multirom/roms/cm/boot/init.rc" then some text else none }

/-- The text written for the script `init.rc` with the content `text`, when it
is the first file of the folder. -/
def rc_file_output (text : String) : List Ev :=
  (prep_android_file (rc_file_world text) "/realdata/media/multirom/roms/cm/boot" (0, {})
    ⟨"init.rc", 8⟩).2.trace

/-- A script with an sdcard service followed by its class line. -/
def sdcard_sample_text : String :=
  "on boot\n    start x\nservice sdcard /system/bin/sdcard\n    class late_start\n    oneshot\n"

/-- A line the init-script rewrite comments out: a mount directive that
contains no "on ". -/
def rc_commented (line : String) : Prop :=
  str_contains line "on " = false ∧ rc_is_mount line = true

instance (line : String) : Decidable (rc_commented line) := by
  unfold rc_commented; infer_instance

/-- The lines before line `i` of a script that the sdcard rewrite does not
consume, in order. -/
def rc_active_before (lines : List String) (i : Nat) : List String :=
  (((lines.zip (rc_skipped lines)).take i).filter (fun x => x.2 = false)).map (fun x => x.1)

/-- Whether the placeholder is due after the lines `pre`, when `add_dummy` was
`d` before them: a line with "on " has been read and no line has been
commented out since, or `d` is 1 and no line has been commented out at all. -/
def rc_dummy_pending (d : Int) (pre : List String) : Prop :=
  (∃ a l b, pre = a ++ l :: b ∧ str_contains l "on " = true ∧ ∀ x ∈ b, ¬ rc_commented x) ∨
  (d = 1 ∧ ∀ x ∈ pre, ¬ rc_commented x)

/-- The placeholder rule for the pieces of a script: the piece of a line that
is commented out begins with the placeholder line exactly when the
placeholder is due after the lines before it. -/
def rc_placeholder_rule (d : Int) (lines pieces : List String) : Prop :=
  ∀ (i : Nat) (line : String), lines[i]? = some line → (rc_skipped lines)[i]? = some false →
    rc_commented line →
    (rc_dummy_pending d (rc_active_before lines i) ∧
      pieces[i]? = some (DUMMY_LINE ++ ("#" ++ line))) ∨
    (¬ rc_dummy_pending d (rc_active_before lines i) ∧ pieces[i]? = some ("#" ++ line))

/-- An environment in which the `boot` folder of the ROM `cm` holds the given
scripts, delivered in this order, each with its content. -/
def rc_folder_world (files : List (String × String)) : World :=
  { quiet_world with
    readdir := fun _ p =>
      if p = "/realdata/media/multirom/roms/cm/boot" then
        some (files.map (fun f => ⟨f.1, 8⟩))
      else none,
    read_file := fun _ p =>
      (files.find? (fun f => "/realdata/media/multirom/roms/cm/boot/" ++ f.1 = p)).map
        (fun f => f.2) }

/-- The files `multirom_prep_android_mounts` writes for the ROM `cm` whose
`boot` folder holds the scripts `files`: the `write_file` events, in order. -/
def rc_folder_output (files : List (String × String)) : Option (List Ev) :=
  (multirom_prep_android_mounts (rc_folder_world files) sample_android_rom {}).map
    (fun r => r.2.trace.filter (fun e =>
      match e with
      | Ev.write_file _ _ => true
      | _ => false))

/-- A script with two mount directives in one block. -/
def placeholder_sample_text : String :=
  "on fs\n    mount_all /fstab.grouper\n    mount ext4 /dev/block/mmcblk0p9 /data wait\n    start x\n"

/-! ## Media link: specification -/

/-- The source of the media bind mount, in the words of the spec: for an API
level of at most 16 the folder `/realdata/media/0` when it exists, else
`/realdata/media`; from API level 17 on `/realdata/media`. -/
def media_link_source (api : Int) (media_new : Bool) : String :=
  if api ≤ 16 then (if media_new then "/realdata/media/0" else "/realdata/media")
  else "/realdata/media"

/-- The target of the media bind mount, in the words of the spec: the legacy
target `/data/media` for an API level of at most 16; from API level 17 on
`/data/media` when `/realdata/media/0` exists, else `/data/media/0`. -/
def media_link_target (api : Int) (media_new : Bool) : String :=
  if api ≤ 16 then "/data/media"
  else (if media_new then "/data/media" else "/data/media/0")

/-- An environment whose `/system/build.prop` gives the API level `sdk`. -/
def api_world (sdk : String) : World :=
  { quiet_world with
    read_file := fun _ p =>
      if p = "/system/build.prop" then
        some ("ro.build.id=JZO54K\nro.build.version.sdk=" ++ sdk ++ "\nro.build.type=user\n")
      else none }

/-! ## Saving the status -/

/-- The text `printf("%d", n)` produces. -/
def fmt_int (n : Int) : String :=
  if n < 0 then "-" ++ fmt_d n.natAbs else fmt_d n.toNat

/-- The ROM of the ROM list a ROM pointer refers to; `none` when the pointer
dangles. -/
def deref_rom (s : multirom_status) (id : Int) : Option multirom_rom :=
  s.roms.find? (fun r => r.id = id)

/-- The name a ROM pointer of the status is saved under: the name of the ROM,
or `dflt` for NULL. Outer `none`: the pointer dangles. -/
def saved_rom_name (s : multirom_status) (dflt : String) : Option Int → Option String
  | none => some dflt
  | some id => (deref_rom s id).map (fun r => r.name)

/-- The text of a status file with the four records in the order
`multirom_save_status` writes them. -/
def status_file_text (cur seconds auto part : String) : String :=
  "current_rom=" ++ cur ++ "\n" ++
    ("auto_boot_seconds=" ++ seconds ++ "\n" ++
      ("auto_boot_rom=" ++ auto ++ "\n" ++
        ("curr_rom_part=" ++ part ++ "\n")))

/-- The text the four `fprintf` calls of `multirom_save_status` write; `none`
when a ROM pointer of the status dangles. -/
def save_status_text (s : multirom_status) : Option String :=
  match saved_rom_name s INTERNAL_ROM_NAME s.current_rom with
  | none => none
  | some cur =>
    match saved_rom_name s "" s.auto_boot_rom with
    | none => none
    | some auto =>
      some (status_file_text cur (fmt_int s.auto_boot_seconds) auto (s.curr_rom_part.getD ""))

/-- The function `multirom_save_status`. -/
def multirom_save_status (w : World) (s : multirom_status) : Run Int := fun st =>
  let path := w.multirom_dir ++ "/multirom.ini"
  if w.fopen_w st.trace path = false then some (-1, st)
  else
    match save_status_text s with
    | none => none
    | some text => some (0, emit (Ev.write_file path text) st)

/-- A value that a record of the status file carries whole and that
`multirom_load_status` can hold: it has no '=' and no line feed, and at most
255 characters, so that `strcpy` into the buffers `arg[256]`,
`current_rom[256]` and `auto_boot_rom[256]` stays within them. -/
def line_safe (v : String) : Prop :=
  '=' ∉ v.data ∧ '\n' ∉ v.data ∧ v.data.length ≤ 255

instance (v : String) : Decidable (line_safe v) := by
  unfold line_safe; infer_instance

/-- The text of the last `write_file` event for `path` in a trace. -/
def last_write (path : String) : List Ev → Option String
  | [] => none
  | e :: es =>
    match last_write path es with
    | some t => some t
    | none =>
      match e with
      | Ev.write_file p t => if p = path then some t else none
      | _ => none

/-- An environment in which the status file holds what was last written to
it, the ROM folder holds one folder for each of `names`, the removable
partition `sda1` holds the ROM folder `ubuntu`, and the kernel log of the
last boot holds the second-boot sentinel. -/
def status_world (names : List String) : World :=
  { quiet_world with
    readdir := fun _ p =>
      if p = "/realdata/media/multirom/roms/Internal" then some []
      else if p = "/realdata/media/multirom/roms" then some (names.map (fun n => ⟨n, 4⟩))
      else if p = "/mnt/sda1/multirom" then some [⟨"ubuntu", 4⟩]
      else none,
    stat_ok := fun _ p => decide (p = "/mnt/sda1/multirom"),
    read_file := fun t p =>
      if p = "/realdata/media/multirom/multirom.ini" then
        last_write "/realdata/media/multirom/multirom.ini" t
      else if p = "/proc/cmdline" then some "console=tty0\n"
      else if p = "/proc/last_kmsg" then some "MultiromSaysNextBootShouldBeSecondMagic108\n"
      else none,
    cmd_stdout := fun _ _ => some "/dev/block/sda1: UUID=\"AA-BB\" TYPE=\"vfat\"\n" }

/-- The function `multirom_save_status` in one process, followed by
`multirom_load_status` on a zeroed status in a new process: the static
counters start again, the history of the environment goes on. -/
def save_then_load (w : World) (s : multirom_status) : Option ((Int × multirom_status) × Sys) :=
  match multirom_save_status w s {} with
  | some (0, st1) => multirom_load_status w {} { trace := st1.trace }
  | _ => none

/-- A status whose current ROM has a name with '='. -/
def status_equals_name : multirom_status :=
  { current_rom := some 1,
    roms := [⟨0, "Internal", "/realdata/media/multirom/roms/Internal", ROM_DEFAULT, 0, none⟩,
      ⟨1, "a=b", "/realdata/media/multirom/roms/a=b", ROM_UNKNOWN, 0, none⟩] }

/-- A status with two ROMs named `ubuntu`, one on the internal storage and
one on the partition `sda1`; the second is the current ROM and the ROM to
boot automatically. -/
def status_same_name : multirom_status :=
  { is_second_boot := 1, current_rom := some 2, auto_boot_rom := some 2, auto_boot_seconds := 5,
    curr_rom_part := some "AA-BB",
    roms := [⟨0, "Internal", "/realdata/media/multirom/roms/Internal", ROM_DEFAULT, 0, none⟩,
      ⟨1, "ubuntu", "/realdata/media/multirom/roms/ubuntu", ROM_UNKNOWN, 0, none⟩,
      ⟨2, "ubuntu", "/mnt/sda1/multirom/ubuntu", ROM_UNKNOWN, 0, some 1⟩],
    partitions := [⟨1, "sda1", "AA-BB", some "vfat", some "/mnt/sda1", 0⟩] }

/-- A status with a ROM on the partition `sda1` as current ROM and the
internal ROM `cm` as the ROM to boot automatically. -/
def status_sample : multirom_status :=
  { is_second_boot := 1, current_rom := some 2, auto_boot_rom := some 1, auto_boot_seconds := -3,
    curr_rom_part := some "AA-BB",
    roms := [⟨0, "Internal", "/realdata/media/multirom/roms/Internal", ROM_DEFAULT, 0, none⟩,
      ⟨1, "cm", "/realdata/media/multirom/roms/cm", ROM_UNKNOWN, 0, none⟩,
      ⟨2, "ubuntu", "/mnt/sda1/multirom/ubuntu", ROM_UNKNOWN, 0, some 1⟩],
    partitions := [⟨1, "sda1", "AA-BB", some "vfat", some "/mnt/sda1", 0⟩] }

/-- The status file `multirom_save_status` writes for `status_sample`. -/
def status_sample_text : String :=
  "current_rom=ubuntu\nauto_boot_seconds=-3\nauto_boot_rom=cm\ncurr_rom_part=AA-BB\n"

/-- The state of the new process after `multirom_load_status` has loaded the
status file of `status_sample`. -/
def status_sample_loaded : Sys :=
  { trace := [Ev.write_file "/realdata/media/multirom/multirom.ini" status_sample_text,
      Ev.exec ["/realdata/media/multirom/busybox", "blkid"], Ev.mkdir "/mnt",
      Ev.mkdir "/mnt/sda1", Ev.mount "/dev/block/sda1" "/mnt/sda1" "vfat" 1024],
    next_addr := 2, next_rom_id := 3 }

/-! ## Status file keys: specification -/

/-- The environment `w` with the status file replaced by `text`. -/
def with_status_file (w : World) (text : String) : World :=
  { w with
    read_file := fun t p =>
      if p = w.multirom_dir ++ "/multirom.ini" then some text else w.read_file t p }

/-- A record the `fgets` loop of `multirom_load_status` passes over: it has
no second token, or its first token holds none of the four recognised keys
as a substring. -/
def record_ignored (line : String) : Prop :=
  match strtok_any ['=', '\n'] line.data [] with
  | name :: _ :: _ =>
    str_contains name "current_rom" = false ∧ str_contains name "auto_boot_seconds" = false ∧
      str_contains name "auto_boot_rom" = false ∧ str_contains name "curr_rom_part" = false
  | _ => True

instance (line : String) : Decidable (record_ignored line) := by
  unfold record_ignored; split <;> infer_instance

/-- The keys of the status file, in the order `multirom_load_status` tests
them. -/
def recognised_keys : List String :=
  ["current_rom", "auto_boot_seconds", "auto_boot_rom", "curr_rom_part"]

/-- The first recognised key, in that order, that the key `name` of a record
holds as a substring; `none` when it holds none. -/
def first_recognised (name : String) : Option String :=
  recognised_keys.find? (fun k => str_contains name k)

/-- A line whose tokens `multirom_load_status` can hold: the first token has at
most 63 characters (`strcpy` into `name[64]`) and the second at most 255
(`strcpy` into `arg[256]`). -/
def record_fits (line : String) : Prop :=
  match strtok_any ['=', '\n'] line.data [] with
  | [] => True
  | [name] => name.data.length ≤ 63
  | name :: arg :: _ => name.data.length ≤ 63 ∧ arg.data.length ≤ 255

instance (line : String) : Decidable (record_fits line) := by
  unfold record_fits; split <;> infer_instance

/-! ## Rescan of removable ROMs: specification -/

/-- The rescan phase in the words of the spec: `multirom_scan_partition_for_roms`
is called for each partition of the list, in list order, whatever it
returns; there is no result when a call has none. -/
def scan_partitions_in_order (w : World) :
    List usb_partition → multirom_status → Run multirom_status
  | [], s => fun st => some (s, st)
  | p :: ps, s => fun st =>
    match multirom_scan_partition_for_roms w s p st with
    | none => none
    | some ((_, s1), st1) => scan_partitions_in_order w ps s1 st1

/-! ## Ubuntu kexec preparation: specification -/

/-- The kernel and the initrd are the ones `multirom_find_file` finds in the
folder `dir`: `cmd[2]` is the first entry with "vmlinuz" in its name, `cmd[4]`
names the first entry with "initrd.img-" in its name. -/
def ubuntu_files_found (w : World) (st : Sys) (dir : String) (cmd : kexec_cmd) : Prop :=
  multirom_find_file w st "vmlinuz" dir = some cmd.arg2 ∧
    ∃ initrd, multirom_find_file w st "initrd.img-" dir = some initrd ∧
      cmd.arg4 = "--initrd=" ++ initrd

/-- The ROM is on a partition whose filesystem type does not contain "ext". -/
def on_non_ext_partition (s : multirom_status) (rom : multirom_rom) : Prop :=
  ∃ a p fs, rom.partition = some a ∧ deref_partition s a = some p ∧ p.fs = some fs ∧
    str_contains fs "ext" = false

/-- The ROM has no partition, or is on a partition whose filesystem type
contains "ext". -/
def on_ext_or_internal (s : multirom_status) (rom : multirom_rom) : Prop :=
  rom.partition = none ∨
    ∃ a p fs, rom.partition = some a ∧ deref_partition s a = some p ∧ p.fs = some fs ∧
      str_contains fs "ext" = true

/-- An environment with an image-backed Ubuntu ROM on an ext4 partition: the
ROM folder holds `root.img`, and the image, were it mounted, a kernel and an
initrd. -/
def ubuntu_ext_img_world : World :=
  { quiet_world with
    access_r := fun _ p => decide (p = "/mnt/sda1/multirom/raring/root.img"),
    readdir := fun _ p =>
      if p = "/mnt/image/boot" then
        some [⟨".", 4⟩, ⟨"..", 4⟩, ⟨"vmlinuz-3.1.10", 8⟩, ⟨"initrd.img-3.1.10", 8⟩]
      else none,
    read_file := fun _ p => if p = "/proc/cmdline" then some "tegra_wdt.heartbeat=30\n" else none }

/-- A status whose only partition is the ext4 partition `sda1`. -/
def ubuntu_ext_status : multirom_status :=
  { partitions := [⟨1, "sda1", "ABCD-1234", some "ext4", some "/mnt/sda1", 0⟩] }

/-- The ROM of `ubuntu_ext_img_world`, an image-backed Ubuntu ROM. -/
def ubuntu_ext_img_rom : multirom_rom :=
  ⟨7, "raring", "/mnt/sda1/multirom/raring", ROM_UBUNTU_USB_IMG, 0, some 1⟩

/-! ## Exit action of the boot preparation: specification -/

/-- The condition under which `multirom_prepare_for_boot` calls
`multirom_load_kexec`. -/
def kexec_wanted (s : multirom_status) (rom : multirom_rom) : Prop :=
  (MASK_UBUNTU rom.type = true ∨ rom.has_bootimg ≠ 0) ∧ rom.type ≠ ROM_DEFAULT ∧
    s.is_second_boot = 0

instance (s : multirom_status) (rom : multirom_rom) : Decidable (kexec_wanted s rom) := by
  unfold kexec_wanted; infer_instance

/-- The Ubuntu cases of the `switch(type)` of `multirom_prepare_for_boot`. -/
def ubuntu_case (t : rom_type) : Prop :=
  t = ROM_UBUNTU_USB_DIR ∨ t = ROM_UBUNTU_USB_IMG ∨ t = ROM_UBUNTU_INTERNAL

/-- The Android cases of the `switch(type)` of `multirom_prepare_for_boot`. -/
def android_case (t : rom_type) : Prop :=
  t = ROM_ANDROID_USB_IMG ∨ t = ROM_ANDROID_USB_DIR ∨ t = ROM_ANDROID_INTERNAL

instance (t : rom_type) : Decidable (ubuntu_case t) := by
  unfold ubuntu_case; infer_instance

instance (t : rom_type) : Decidable (android_case t) := by
  unfold android_case; infer_instance

/-- The Android case of `multirom_prepare_for_boot` in the words of the spec,
entered in the status `s` and the state `st`: the mounts are prepared by
`multirom_prep_android_mounts`, then the media link is made by
`multirom_create_media_link`; when either returns -1 the result is -1 and the
status is kept. Otherwise the partition of the ROM is marked `keep_mounted`
and the result is EXIT_UMOUNT|EXIT_KEXEC when kexec was loaded (`kexec`); when
it was not, the result is 0 (no flag: boot the current kernel) if `/init.rc`
exists and -1 if it does not. -/
def android_exit_action (w : World) (s : multirom_status) (rom : multirom_rom) (st : Sys)
    (kexec : Bool) (r : Int) (s' : multirom_status) (st' : Sys) : Prop :=
  ∃ rm st1, multirom_prep_android_mounts w rom st = some (rm, st1) ∧
    (rm = -1 → r = -1 ∧ s' = s ∧ st' = st1) ∧
    (rm ≠ -1 →
      ∃ rl, multirom_create_media_link w st1 = some (rl, st') ∧
        (rl = -1 → r = -1 ∧ s' = s) ∧
        (rl ≠ -1 → set_keep_mounted s rom.partition = some s' ∧
          r = (if kexec = true then Int.lor EXIT_UMOUNT EXIT_KEXEC
            else if w.stat_ok st'.trace "/init.rc" = true then 0 else -1)))

/-- The state after `multirom_prepare_for_boot` for `ubuntu_vfat_rom`: the loop mount, the kexec load, the copy of the kexec binary, the unmount of the image and the copy of the kernel log. -/
def ubuntu_vfat_booted : Sys :=
  { trace := ubuntu_vfat_final.trace ++
      [Ev.exec ["/realdata/media/multirom/kexec", "--load-hardboot", ubuntu_vfat_result.arg2,
        "--mem-min=0xA0000000", ubuntu_vfat_result.arg4, ubuntu_vfat_result.arg5],
       Ev.exec ["/realdata/media/multirom/busybox", "cp", "/realdata/media/multirom/kexec", "/kexec"],
       Ev.chmod "/kexec" 493, Ev.umount "/mnt/image",
       Ev.write_klog "/realdata/media/multirom/error.txt",
       Ev.chmod "/realdata/media/multirom/error.txt" 511],
    loop_devs := 1 }

/-! ## Boot selector -/

/-- The value of `KEY_POWER` (`linux/input.h`). -/
def KEY_POWER : Int := 116

/-- The value of `WHITE` (`framebuffer.h`). -/
def WHITE : Nat := 0xFFFFFFFF

/-- The value of `BLACK` (`framebuffer.h`). -/
def BLACK : Nat := 0xFF000000

/-- The value of `SIZE_NORMAL` (`framebuffer.h`). -/
def SIZE_NORMAL : Nat := 10

/-- Modelled from the spec: `multirom.h`, which defines the mask
`MASK_ANDROID`, is outside the sources. `MASK_ANDROID t` stands for
`M(t) & MASK_ANDROID`; the Android family of the spec is the three
ROM_ANDROID types, the ones `multirom_prepare_for_boot` prepares mounts
for. -/
def MASK_ANDROID : rom_type → Bool
  | ROM_ANDROID_INTERNAL | ROM_ANDROID_USB_IMG | ROM_ANDROID_USB_DIR => true
  | _ => false

/-- The collaborators of `multirom()` and `multirom_emergency_reboot` whose
code is outside `multirom.c`: the selection UI, the framebuffer and the input
thread, and the enumerators of `multirom_ui.h` and `multirom.h` that only the
`switch` of `multirom()` reads. The enumerators are left open; the `case`
labels are tried in the order of the source. -/
structure Frontend where
  /-- The call `multirom_ui(&s, &to_boot)`: the value returned, the ROM stored
  in `*to_boot` (`none`: it is left NULL) and the status after the call. -/
  multirom_ui : multirom_status → Run (Int × Option Int × multirom_status)
  /-- The value `fb_open()` returns. -/
  fb_open : List Ev → Int
  /-- The key code `wait_for_key()` returns. -/
  wait_for_key : List Ev → Int
  /-- The enumerator `UI_EXIT_BOOT_ROM`. -/
  UI_EXIT_BOOT_ROM : Int
  /-- The enumerator `UI_EXIT_REBOOT`. -/
  UI_EXIT_REBOOT : Int
  /-- The enumerator `UI_EXIT_REBOOT_RECOVERY`. -/
  UI_EXIT_REBOOT_RECOVERY : Int
  /-- The enumerator `UI_EXIT_REBOOT_BOOTLOADER`. -/
  UI_EXIT_REBOOT_BOOTLOADER : Int
  /-- The enumerator `UI_EXIT_SHUTDOWN`. -/
  UI_EXIT_SHUTDOWN : Int
  /-- The enumerator `EXIT_REBOOT_RECOVERY`. -/
  EXIT_REBOOT_RECOVERY : Int
  /-- The enumerator `EXIT_REBOOT_BOOTLOADER`. -/
  EXIT_REBOOT_BOOTLOADER : Int
  /-- The enumerator `EXIT_SHUTDOWN`. -/
  EXIT_SHUTDOWN : Int

/-- The array `paths` of `multirom_find_base_dir`. -/
def base_dir_paths : List String := [REALDATA ++ "/media/0/multirom", REALDATA ++ "/media/multirom"]

/-- The path globals after `multirom_find_base_dir` has found `dir`. -/
def with_base_dir (w : World) (dir : String) : World :=
  { w with multirom_dir := dir, busybox_path := dir ++ "/busybox", kexec_path := dir ++ "/kexec",
           ntfs_path := dir ++ "/ntfs-3g" }

/-- The function `multirom_find_base_dir`: the result, the environment with
the path globals it has set, and the state. `stat` issues no event, so the
loop is a search for the first path that exists. -/
def multirom_find_base_dir (w : World) (st : Sys) : Int × World × Sys :=
  match base_dir_paths.find? (fun p => w.stat_ok st.trace p) with
  | none => (-1, w, st)
  | some dir =>
    let w1 := with_base_dir w dir
    (0, w1, emit (Ev.chmod w1.ntfs_path 0o777) (emit (Ev.chmod w1.kexec_path 0o777) st))

/-- The function `multirom_has_kexec` at its first call in the process (the
static `has_kexec` is -2). -/
def multirom_has_kexec (w : World) (st : Sys) : Int × Sys :=
  if w.stat_ok st.trace "/proc/config.gz" = false then (-1, st)
  else
    let st1 := emit (Ev.exec [w.busybox_path, "cp", "/proc/config.gz", "/config.gz"]) st
    let st2 := emit (Ev.exec [w.busybox_path, "gzip", "-d", "/config.gz"]) st1
    let cmd_grep := [w.busybox_path, "grep", "CONFIG_KEXEC_HARDBOOT=y", "/config"]
    let r := w.cmd_status st2.trace cmd_grep
    (if r = 0 then 0 else -1, emit (Ev.exec cmd_grep) st2)

/-- The function `multirom_init_fb`. -/
def multirom_init_fb (fe : Frontend) (st : Sys) : Int × Sys :=
  let st1 := emit (Ev.vt_set_mode 1) st
  let r := fe.fb_open st1.trace
  let st2 := emit Ev.fb_open st1
  if r < 0 then (-1, st2) else (0, emit (Ev.fb_fill BLACK) st2)

/-- The text `multirom_emergency_reboot` displays. -/
def EMERGENCY_TEXT : String :=
  "An error occured.\nShutting down MultiROM to avoid data corruption.\n" ++
  "Report this error to the developer!\nDebug info: /sdcard/multirom/error.txt\n\n" ++
  "Press POWER button to reboot."

/-- The loop `while(wait_for_key() != KEY_POWER);`, cut off after `fuel`
calls: `none` when none of the first `fuel` calls has returned `KEY_POWER`. -/
def wait_for_power (fe : Frontend) : Nat → Run Unit
  | 0 => fun _ => none
  | fuel + 1 => fun st =>
    let code := fe.wait_for_key st.trace
    let st1 := emit (Ev.wait_for_key code) st
    if code ≠ KEY_POWER then wait_for_power fe fuel st1 else some ((), st1)

/-- The function `multirom_emergency_reboot`; `fuel` bounds the key loop (see
`wait_for_power`). -/
def multirom_emergency_reboot (w : World) (fe : Frontend) (fuel : Nat) : Run Unit := fun st =>
  match multirom_init_fb fe st with
  | (r, st1) =>
    if r < 0 then some ((), st1)
    else
      let st2 := emit (Ev.fb_add_text 0 150 WHITE SIZE_NORMAL EMERGENCY_TEXT) st1
      let st3 := emit Ev.fb_close (emit Ev.fb_clear (emit Ev.fb_draw st2))
      match multirom_copy_log w st3 with
      | none => none
      | some (_, st4) =>
        match wait_for_power fe fuel (emit Ev.start_input_thread st4) with
        | none => none
        | some (_, st5) => some ((), emit Ev.stop_input_thread st5)

/-- The selection step of `multirom()`, from `to_boot = NULL` to the end of
the `if(s.is_second_boot == 0)` statement: the exit action, `to_boot` and the
status. -/
def multirom_select (w : World) (fe : Frontend) (s : multirom_status) :
    Run (Int × Option Int × multirom_status) := fun st =>
  let exit := Int.lor EXIT_REBOOT EXIT_UMOUNT
  if s.is_second_boot = 0 then
    match fe.multirom_ui s (multirom_has_kexec w st).2 with
    | none => none
    | some ((code, to_boot, s1), st1) =>
      let exit1 :=
        if code = fe.UI_EXIT_BOOT_ROM then exit
        else if code = fe.UI_EXIT_REBOOT then Int.lor EXIT_REBOOT EXIT_UMOUNT
        else if code = fe.UI_EXIT_REBOOT_RECOVERY then Int.lor fe.EXIT_REBOOT_RECOVERY EXIT_UMOUNT
        else if code = fe.UI_EXIT_REBOOT_BOOTLOADER then
          Int.lor fe.EXIT_REBOOT_BOOTLOADER EXIT_UMOUNT
        else if code = fe.UI_EXIT_SHUTDOWN then Int.lor fe.EXIT_SHUTDOWN EXIT_UMOUNT
        else exit
      some ((exit1, to_boot, s1), st1)
  else some ((exit, s.current_rom, s), st)

/-- The statements of `multirom()` after `multirom_emergency_reboot` inside
`if(to_boot)`: the status with `current_rom`, `curr_rom_part` and
`is_second_boot` updated. `rom` is the object `to_boot` points to; `none`
when `to_boot->partition` dangles. -/
def boot_bookkeeping (s : multirom_status) (rom : multirom_rom) (to_boot exit : Int) :
    Option multirom_status :=
  let second : Int :=
    if s.is_second_boot = 0 ∧ MASK_ANDROID rom.type = true ∧ Int.land exit EXIT_KEXEC ≠ 0 then 1
    else 0
  match rom.partition with
  | none => some { s with current_rom := some to_boot, curr_rom_part := none,
                          is_second_boot := second }
  | some a =>
    match deref_partition s a with
    | none => none
    | some p => some { s with current_rom := some to_boot, curr_rom_part := some p.uuid,
                              is_second_boot := second }

/-- The end of `multirom()`: the status is saved and freed, the file systems
are synced and `exit` is returned. -/
def multirom_finish (w : World) (s : multirom_status) (exit : Int) : Run Int := fun st =>
  match multirom_save_status w s st with
  | none => none
  | some (_, st1) => some (exit, emit Ev.sync (multirom_free_status s st1).2)

/-- The statement `if(to_boot) { ... }` of `multirom()` for a `to_boot` other
than NULL, and what follows it. `none` also when `to_boot` dangles. -/
def multirom_boot (w : World) (fe : Frontend) (fuel : Nat) (s : multirom_status)
    (to_boot : Int) : Run Int := fun st =>
  match deref_rom s to_boot with
  | none => none
  | some rom =>
    match multirom_prepare_for_boot w s rom st with
    | none => none
    | some ((exit, s1), st1) =>
      if exit = -1 then
        match multirom_emergency_reboot w fe fuel st1 with
        | none => none
        | some (_, st2) => some (EXIT_REBOOT, st2)
      else
        match boot_bookkeeping s1 rom to_boot exit with
        | none => none
        | some s2 => multirom_finish w s2 exit st1

/-- The function `multirom()`; `fuel` bounds the key loop of the emergency
fallback (see `wait_for_power`). -/
def multirom (w : World) (fe : Frontend) (fuel : Nat) : Run Int := fun st =>
  match multirom_find_base_dir w st with
  | (r, w1, st1) =>
    if r = -1 then some (-1, st1)
    else
      match multirom_load_status w1 {} st1 with
      | none => none
      | some ((_, s), st2) =>
        match multirom_select w1 fe s st2 with
        | none => none
        | some ((exit, to_boot, s1), st3) =>
          match to_boot with
          | none => multirom_finish w1 s1 exit st3
          | some id => multirom_boot w1 fe fuel s1 id st3

/-- The keys `wait_for_key()` delivers from the trace `t` on: each key of the list in turn, none of them `KEY_POWER`, and then `KEY_POWER`. -/
def key_script (fe : Frontend) : List Ev → List Int → Prop
  | t, [] => fe.wait_for_key t = KEY_POWER
  | t, k :: ks =>
    fe.wait_for_key t = k ∧ k ≠ KEY_POWER ∧ key_script fe (t ++ [Ev.wait_for_key k]) ks

instance (fe : Frontend) (t : List Ev) (keys : List Int) : Decidable (key_script fe t keys) := by
  induction keys generalizing t with
  | nil => unfold key_script; infer_instance
  | cons k ks ih => unfold key_script; infer_instance

/-- The events of `multirom_emergency_reboot` up to `fb_close()` when the framebuffer opens: the display of the fixed diagnostic. -/
def emergency_display : List Ev :=
  [Ev.vt_set_mode 1, Ev.fb_open, Ev.fb_fill BLACK,
   Ev.fb_add_text 0 150 WHITE SIZE_NORMAL EMERGENCY_TEXT, Ev.fb_draw, Ev.fb_clear, Ev.fb_close]

/-- The events of `multirom_copy_log` at the trace `t`: the kernel log is written to `<multirom_dir>/error.txt` when that file opens, else nothing happens. -/
def emergency_log (w : World) (t : List Ev) : List Ev :=
  if w.fopen_w t (w.multirom_dir ++ "/error.txt") then
    [Ev.write_klog (w.multirom_dir ++ "/error.txt"),
     Ev.chmod (REALDATA ++ "/media/multirom/error.txt") 0o777]
  else []

/-- The trace of `multirom_emergency_reboot`, started at the trace `t` with a framebuffer that opens, when the key loop is entered. -/
def emergency_shown (w : World) (t : List Ev) : List Ev :=
  t ++ emergency_display ++ emergency_log w (t ++ emergency_display) ++ [Ev.start_input_thread]

/-- The trace of `multirom_emergency_reboot`, started at the trace `t` with a framebuffer that opens, when it returns after the keys `keys` and `KEY_POWER`. -/
def emergency_done (w : World) (t : List Ev) (keys : List Int) : List Ev :=
  emergency_shown w t ++ keys.map Ev.wait_for_key ++
    [Ev.wait_for_key KEY_POWER, Ev.stop_input_thread]

/-- An environment with the base folder `/realdata/media/multirom` whose ROM folder holds `Internal` and a folder `cm` without any ROM layout. -/
def failing_boot_world : World :=
  { roms_world ["Internal", "cm"] with
    stat_ok := fun _ p => decide (p = "/realdata/media/multirom") }

/-- A frontend whose UI selects the ROM with id 1 and whose framebuffer does not open. -/
def dark_frontend : Frontend :=
  { multirom_ui := fun s st => some ((0, some 1, s), st), fb_open := fun _ => -1,
    wait_for_key := fun _ => 0, UI_EXIT_BOOT_ROM := 0, UI_EXIT_REBOOT := 1,
    UI_EXIT_REBOOT_RECOVERY := 2, UI_EXIT_REBOOT_BOOTLOADER := 3, UI_EXIT_SHUTDOWN := 4,
    EXIT_REBOOT_RECOVERY := 4, EXIT_REBOOT_BOOTLOADER := 8, EXIT_SHUTDOWN := 16 }

/-- A frontend whose UI selects the ROM with id 1, whose framebuffer opens and whose input delivers the key 114 twice and then `KEY_POWER`. -/
def lit_frontend : Frontend :=
  { dark_frontend with
    fb_open := fun _ => 0, wait_for_key := fun t => if t.length < 14 then 114 else 116 }

/-- The ROM `cm` of `failing_boot_world`, of type ROM_UNKNOWN. -/
def failing_boot_rom : multirom_rom :=
  ⟨1, "cm", "/realdata/media/multirom/roms/cm", ROM_UNKNOWN, 0, none⟩

/-- The status `multirom_load_status` builds in `failing_boot_world`. -/
def failing_boot_status : multirom_status :=
  { current_rom := some 0,
    roms := [⟨0, "Internal", "/realdata/media/multirom/roms/Internal", ROM_DEFAULT, 0, none⟩,
      failing_boot_rom] }

/-- The state after `multirom_find_base_dir` has found `/realdata/media/multirom`. -/
def base_dir_found : Sys :=
  { trace := [Ev.chmod "/realdata/media/multirom/kexec" 0o777,
      Ev.chmod "/realdata/media/multirom/ntfs-3g" 0o777] }

/-- The state after `multirom_load_status` has created two ROMs. -/
def roms_loaded : Sys := { base_dir_found with next_rom_id := 2 }

/-- An environment with the base folder `/realdata/media/multirom` whose ROM folder holds `Internal` and the Android ROM `cm` with a boot image and an empty `boot` folder; `/system/build.prop` gives API level 17. -/
def android_boot_world : World :=
  { quiet_world with
    stat_ok := fun _ p => decide (p = "/realdata/media/multirom"),
    readdir := fun _ p =>
      if p = "/realdata/media/multirom/roms/Internal" then some []
      else if p = "/realdata/media/multirom/roms" then some [⟨"Internal", 4⟩, ⟨"cm", 4⟩]
      else if p = "/realdata/media/multirom/roms/cm/boot" then some []
      else none,
    access_r := fun _ p =>
      decide (p ∈ ["/realdata/media/multirom/roms/cm/boot",
        "/realdata/media/multirom/roms/cm/system", "/realdata/media/multirom/roms/cm/data",
        "/realdata/media/multirom/roms/cm/cache", "/realdata/media/multirom/roms/cm/boot.img"]),
    boot_img := fun _ p =>
      if p = "/realdata/media/multirom/roms/cm/boot.img" then
        some ⟨5000, 3000, 2048, "androidboot.hardware=grouper"⟩
      else none,
    read_file := fun _ p =>
      if p = "/proc/cmdline" then some "console=tty1 debug\n"
      else if p = "/system/build.prop" then some "ro.build.version.sdk=17\n"
      else none,
    cmd_stdout := fun _ _ => some "" }

/-- The ROM `cm` of `android_boot_world`. -/
def android_boot_rom : multirom_rom :=
  ⟨1, "cm", "/realdata/media/multirom/roms/cm", ROM_ANDROID_INTERNAL, 1, none⟩

/-- The status `multirom_load_status` builds in `android_boot_world`. -/
def android_boot_status : multirom_status :=
  { current_rom := some 0,
    roms := [⟨0, "Internal", "/realdata/media/multirom/roms/Internal", ROM_DEFAULT, 0, none⟩,
      android_boot_rom] }

/-- The state after `multirom_prepare_for_boot` for `android_boot_rom`: kexec is loaded, the ROM folders are mounted and the media link is made. -/
def android_boot_prepared : Sys :=
  { trace := base_dir_found.trace ++ sample_filled_state.trace ++
      [Ev.exec (kexec_argv (with_base_dir android_boot_world "/realdata/media/multirom")
         sample_kexec_cmd),
       Ev.exec ["/realdata/media/multirom/busybox", "cp", "/realdata/media/multirom/kexec", "/kexec"],
       Ev.chmod "/kexec" 0o755, Ev.write_klog "/realdata/media/multirom/error.txt",
       Ev.chmod "/realdata/media/multirom/error.txt" 0o777,
       Ev.mkdir_with_perms "/system" 0o755 none none,
       Ev.mkdir_with_perms "/data" 0o771 (some "system") (some "system"),
       Ev.mkdir_with_perms "/cache" 0o770 (some "system") (some "cache"),
       Ev.mount "/realdata/media/multirom/roms/cm/system" "/system" "ext4" (MS_BIND + MS_RDONLY),
       Ev.mount "/realdata/media/multirom/roms/cm/data" "/data" "ext4" MS_BIND,
       Ev.mount "/realdata/media/multirom/roms/cm/cache" "/cache" "ext4" MS_BIND,
       Ev.mkdir_recursive "/data/media/0" 0o775,
       Ev.mount "/realdata/media" "/data/media/0" "ext4" MS_BIND,
       Ev.write_file "/data/.layout_version" "2", Ev.chmod "/data/.layout_version" 0o600],
    next_rom_id := 2 }

/-- The status `multirom()` saves after it has prepared `android_boot_rom`. -/
def android_boot_booted : multirom_status :=
  { android_boot_status with is_second_boot := 1, current_rom := some 1 }

/-- The environment `android_boot_world` after the first stage: `/init.rc` of
the ROM is in place. -/
def android_current_world : World :=
  { android_boot_world with stat_ok := fun _ p => decide (p = "/init.rc") }

/-- The status of `android_boot_world` in second boot. -/
def android_second_status : multirom_status := { android_boot_status with is_second_boot := 1 }

/-- The state after `multirom_prepare_for_boot` for `android_boot_rom` in second
boot: the ROM folders are mounted and the media link is made. -/
def android_current_prepared : Sys :=
  { trace := [Ev.mkdir_with_perms "/system" 0o755 none none,
      Ev.mkdir_with_perms "/data" 0o771 (some "system") (some "system"),
      Ev.mkdir_with_perms "/cache" 0o770 (some "system") (some "cache"),
      Ev.mount "/realdata/media/multirom/roms/cm/system" "/system" "ext4" (MS_BIND + MS_RDONLY),
      Ev.mount "/realdata/media/multirom/roms/cm/data" "/data" "ext4" MS_BIND,
      Ev.mount "/realdata/media/multirom/roms/cm/cache" "/cache" "ext4" MS_BIND,
      Ev.mkdir_recursive "/data/media/0" 0o775,
      Ev.mount "/realdata/media" "/data/media/0" "ext4" MS_BIND,
      Ev.write_file "/data/.layout_version" "2", Ev.chmod "/data/.layout_version" 0o600] }

/-! ## Theorems: classification -/

/-- The marker `f` of a ROM is present exactly when `base_path/f` is readable. -/
theorem marker_eq (access : String → Bool) (rom : multirom_rom) (f : String) :
    marker access rom f = access (rom.base_path ++ "/" ++ f) := by
  unfold marker multirom_path_exists
  cases access (rom.base_path ++ "/" ++ f) <;> simp

/-- The result 0 of `multirom_path_exists` in terms of `marker`. -/
theorem path_exists_zero_iff (access : String → Bool) (rom : multirom_rom) (f : String) :
    multirom_path_exists access rom.base_path f = 0 ↔ marker access rom f = true := by
  unfold marker; simp

/-- C1: a ROM with no owning partition whose name is exactly "Internal" is
classified ROM_DEFAULT, whatever paths are readable under its base path. -/
theorem get_rom_type_internal_default (access : String → Bool) (rom : multirom_rom)
    (hp : rom.partition = none) (hn : rom.name = "Internal") :
    multirom_get_rom_type access rom = ROM_DEFAULT := by
  unfold multirom_get_rom_type INTERNAL_ROM_NAME
  simp [hp, hn]

/-- The theorem `get_rom_type_internal_default` at a ROM named Internal with `boot`, `root` and `root.img`. -/
theorem get_rom_type_internal_default_witness :
    multirom_get_rom_type
      (readable_paths ["/m/roms/Internal/boot", "/m/roms/Internal/root", "/m/roms/Internal/root.img"])
      ⟨0, "Internal", "/m/roms/Internal", ROM_UNKNOWN, 1, none⟩ = ROM_DEFAULT :=
  get_rom_type_internal_default _ _ rfl rfl

/-- C2: a candidate that is not the reserved internal ROM and has readable
`boot`, `system`, `data` and `cache` is ROM_ANDROID_INTERNAL without a
partition and ROM_ANDROID_USB_DIR with one, whatever else is readable. -/
theorem get_rom_type_android_dir (access : String → Bool) (rom : multirom_rom)
    (h1 : ¬ is_internal_rom rom)
    (hb : marker access rom "boot" = true) (hs : marker access rom "system" = true)
    (hd : marker access rom "data" = true) (hc : marker access rom "cache" = true) :
    (rom.partition = none → multirom_get_rom_type access rom = ROM_ANDROID_INTERNAL) ∧
    (rom.partition ≠ none → multirom_get_rom_type access rom = ROM_ANDROID_USB_DIR) := by
  unfold is_internal_rom at h1
  unfold multirom_get_rom_type
  simp only [path_exists_zero_iff, hb, hs, hd, hc, h1, if_false, if_true, and_self]
  constructor
  · intro h; simp [h]
  · intro h; simp [h]

/-- The theorem `get_rom_type_android_dir` at an internal ROM that also has `root`. -/
theorem get_rom_type_android_dir_witness :
    multirom_get_rom_type
      (readable_paths ["/m/roms/cm/boot", "/m/roms/cm/system", "/m/roms/cm/data", "/m/roms/cm/cache",
        "/m/roms/cm/root"])
      ⟨1, "cm", "/m/roms/cm", ROM_UNKNOWN, 0, none⟩ = ROM_ANDROID_INTERNAL :=
  (get_rom_type_android_dir _ ⟨1, "cm", "/m/roms/cm", ROM_UNKNOWN, 0, none⟩
    (by decide) (by decide) (by decide) (by decide) (by decide)).1 rfl

/-- C3 fails as stated: on a partition, with `boot`, `system.img`, `data.img`,
`cache.img` and also `system`, `data`, `cache` readable, the type is
ROM_ANDROID_USB_DIR, not ROM_ANDROID_USB_IMG. -/
theorem get_rom_type_usb_img_counterexample :
    (⟨2, "cm", "/mnt/sda1/multirom/cm", ROM_UNKNOWN, 0, some 1⟩ : multirom_rom).partition ≠ none ∧
    (∀ f ∈ ["boot", "system.img", "data.img", "cache.img"],
      marker (readable_paths ["/mnt/sda1/multirom/cm/boot", "/mnt/sda1/multirom/cm/system.img",
        "/mnt/sda1/multirom/cm/data.img", "/mnt/sda1/multirom/cm/cache.img",
        "/mnt/sda1/multirom/cm/system", "/mnt/sda1/multirom/cm/data", "/mnt/sda1/multirom/cm/cache"])
        ⟨2, "cm", "/mnt/sda1/multirom/cm", ROM_UNKNOWN, 0, some 1⟩ f = true) ∧
    multirom_get_rom_type
      (readable_paths ["/mnt/sda1/multirom/cm/boot", "/mnt/sda1/multirom/cm/system.img",
        "/mnt/sda1/multirom/cm/data.img", "/mnt/sda1/multirom/cm/cache.img",
        "/mnt/sda1/multirom/cm/system", "/mnt/sda1/multirom/cm/data", "/mnt/sda1/multirom/cm/cache"])
      ⟨2, "cm", "/mnt/sda1/multirom/cm", ROM_UNKNOWN, 0, some 1⟩ = ROM_ANDROID_USB_DIR ∧
    ROM_ANDROID_USB_DIR ≠ ROM_ANDROID_USB_IMG := by
  decide

/-- C3 (amended): a candidate on a partition with readable `boot`,
`system.img`, `data.img` and `cache.img`, for which `system`, `data` and
`cache` are not all three readable, is ROM_ANDROID_USB_IMG. -/
theorem get_rom_type_android_usb_img (access : String → Bool) (rom : multirom_rom)
    (hp : rom.partition ≠ none)
    (hb : marker access rom "boot" = true) (hs : marker access rom "system.img" = true)
    (hd : marker access rom "data.img" = true) (hc : marker access rom "cache.img" = true)
    (hdir : ¬ (marker access rom "system" = true ∧ marker access rom "data" = true ∧
      marker access rom "cache" = true)) :
    multirom_get_rom_type access rom = ROM_ANDROID_USB_IMG := by
  unfold multirom_get_rom_type
  simp only [path_exists_zero_iff, hb, hs, hd, hc, hp, hdir, if_false, if_true, and_self,
    false_and]

/-- The theorem `get_rom_type_android_usb_img` at a ROM on a partition with the three images only. -/
theorem get_rom_type_android_usb_img_witness :
    multirom_get_rom_type
      (readable_paths ["/mnt/sda1/multirom/cm/boot", "/mnt/sda1/multirom/cm/system.img",
        "/mnt/sda1/multirom/cm/data.img", "/mnt/sda1/multirom/cm/cache.img"])
      ⟨2, "cm", "/mnt/sda1/multirom/cm", ROM_UNKNOWN, 0, some 1⟩ = ROM_ANDROID_USB_IMG :=
  get_rom_type_android_usb_img _ ⟨2, "cm", "/mnt/sda1/multirom/cm", ROM_UNKNOWN, 0, some 1⟩
    (by decide) (by decide) (by decide) (by decide) (by decide) (by decide)

/-- C4 fails as stated: a candidate that is not the reserved internal ROM and
has `boot` and `root` readable, but no complete `system`/`data`/`cache` set of
either kind, is classified ROM_UBUNTU_INTERNAL, an Ubuntu type. -/
theorem get_rom_type_boot_priority_counterexample :
    ¬ is_internal_rom ⟨3, "raring", "/m/roms/raring", ROM_UNKNOWN, 0, none⟩ ∧
    marker (readable_paths ["/m/roms/raring/boot", "/m/roms/raring/root"])
      ⟨3, "raring", "/m/roms/raring", ROM_UNKNOWN, 0, none⟩ "boot" = true ∧
    multirom_get_rom_type (readable_paths ["/m/roms/raring/boot", "/m/roms/raring/root"])
      ⟨3, "raring", "/m/roms/raring", ROM_UNKNOWN, 0, none⟩ = ROM_UBUNTU_INTERNAL ∧
    ROM_UBUNTU_INTERNAL ∉ [ROM_ANDROID_INTERNAL, ROM_ANDROID_USB_DIR, ROM_ANDROID_USB_IMG] := by
  decide

/-- C4 (amended): a candidate that is not the reserved internal ROM and has a
readable `boot` together with all of `system`, `data`, `cache` or all of
`system.img`, `data.img`, `cache.img` gets one of the three Android types,
whatever else (`root`, `root.img`, `boot.img`) is readable. -/
theorem get_rom_type_android_priority (access : String → Bool) (rom : multirom_rom)
    (h1 : ¬ is_internal_rom rom) (h2 : android_layout access rom) :
    multirom_get_rom_type access rom = ROM_ANDROID_INTERNAL ∨
    multirom_get_rom_type access rom = ROM_ANDROID_USB_DIR ∨
    multirom_get_rom_type access rom = ROM_ANDROID_USB_IMG := by
  unfold is_internal_rom at h1
  obtain ⟨hb, h2⟩ := h2
  unfold multirom_get_rom_type
  simp only [path_exists_zero_iff, hb, h1, if_false, if_true]
  rcases h2 with ⟨hs, hd, hc⟩ | ⟨hs, hd, hc⟩
  · simp only [hs, hd, hc, and_self, if_true]
    by_cases hp : rom.partition = none <;> simp [hp]
  · simp only [hs, hd, hc, and_self, if_true]
    split
    · by_cases hp : rom.partition = none <;> simp [hp]
    · simp

/-- The theorem `get_rom_type_android_priority` at a ROM that also has `root` and `root.img`. -/
theorem get_rom_type_android_priority_witness :
    multirom_get_rom_type
      (readable_paths ["/m/roms/cm/boot", "/m/roms/cm/system", "/m/roms/cm/data", "/m/roms/cm/cache",
        "/m/roms/cm/root", "/m/roms/cm/root.img"])
      ⟨1, "cm", "/m/roms/cm", ROM_UNKNOWN, 0, none⟩ = ROM_ANDROID_INTERNAL ∨
    multirom_get_rom_type
      (readable_paths ["/m/roms/cm/boot", "/m/roms/cm/system", "/m/roms/cm/data", "/m/roms/cm/cache",
        "/m/roms/cm/root", "/m/roms/cm/root.img"])
      ⟨1, "cm", "/m/roms/cm", ROM_UNKNOWN, 0, none⟩ = ROM_ANDROID_USB_DIR ∨
    multirom_get_rom_type
      (readable_paths ["/m/roms/cm/boot", "/m/roms/cm/system", "/m/roms/cm/data", "/m/roms/cm/cache",
        "/m/roms/cm/root", "/m/roms/cm/root.img"])
      ⟨1, "cm", "/m/roms/cm", ROM_UNKNOWN, 0, none⟩ = ROM_ANDROID_USB_IMG :=
  get_rom_type_android_priority _ ⟨1, "cm", "/m/roms/cm", ROM_UNKNOWN, 0, none⟩
    (by decide) (by decide)

/-- Outside the reserved-name rule and the Android rule the result is the one
of the Ubuntu block of `multirom_get_rom_type`. -/
theorem get_rom_type_not_android (access : String → Bool) (rom : multirom_rom)
    (h1 : ¬ is_internal_rom rom) (h2 : ¬ android_layout access rom) :
    multirom_get_rom_type access rom =
      if marker access rom "root" = true then
        if marker access rom "boot.img" = true then
          if rom.partition = none then ROM_UNSUPPORTED_INT else ROM_UNSUPPORTED_USB
        else
          if rom.partition = none then ROM_UBUNTU_INTERNAL else ROM_UBUNTU_USB_DIR
      else if marker access rom "root.img" = true ∧ rom.partition ≠ none then ROM_UBUNTU_USB_IMG
      else ROM_UNKNOWN := by
  unfold is_internal_rom at h1
  unfold android_layout at h2
  unfold multirom_get_rom_type
  simp only [path_exists_zero_iff, ne_eq, h1, if_false]
  by_cases hb : marker access rom "boot" = true
  · have hd : ¬ (marker access rom "system" = true ∧ marker access rom "data" = true ∧
        marker access rom "cache" = true) := fun h => h2 ⟨hb, Or.inl h⟩
    have hi : ¬ (marker access rom "system.img" = true ∧ marker access rom "data.img" = true ∧
        marker access rom "cache.img" = true) := fun h => h2 ⟨hb, Or.inr h⟩
    rw [if_pos hb, if_neg hd, if_neg hi]
    by_cases hbi : marker access rom "boot.img" = true <;> simp [hbi]
  · rw [if_neg hb]
    by_cases hbi : marker access rom "boot.img" = true <;> simp [hbi]

/-- C5: for a candidate caught neither by the reserved-name rule nor by the
Android rule and with a readable `root`: without `boot.img` the type is
ROM_UBUNTU_INTERNAL (no partition) or ROM_UBUNTU_USB_DIR (partition); with
`boot.img` it is ROM_UNSUPPORTED_INT (no partition) or ROM_UNSUPPORTED_USB. -/
theorem get_rom_type_ubuntu_root (access : String → Bool) (rom : multirom_rom)
    (h1 : ¬ is_internal_rom rom) (h2 : ¬ android_layout access rom)
    (hr : marker access rom "root" = true) :
    (marker access rom "boot.img" = false → rom.partition = none →
      multirom_get_rom_type access rom = ROM_UBUNTU_INTERNAL) ∧
    (marker access rom "boot.img" = false → rom.partition ≠ none →
      multirom_get_rom_type access rom = ROM_UBUNTU_USB_DIR) ∧
    (marker access rom "boot.img" = true → rom.partition = none →
      multirom_get_rom_type access rom = ROM_UNSUPPORTED_INT) ∧
    (marker access rom "boot.img" = true → rom.partition ≠ none →
      multirom_get_rom_type access rom = ROM_UNSUPPORTED_USB) := by
  rw [get_rom_type_not_android access rom h1 h2]
  simp only [hr, if_true]
  refine ⟨?_, ?_, ?_, ?_⟩ <;> intro hbi hp <;> simp [hbi, hp]

/-- The theorem `get_rom_type_ubuntu_root` at an internal ROM with `boot` and `root`. -/
theorem get_rom_type_ubuntu_root_witness :
    multirom_get_rom_type (readable_paths ["/m/roms/raring/boot", "/m/roms/raring/root"])
      ⟨3, "raring", "/m/roms/raring", ROM_UNKNOWN, 0, none⟩ = ROM_UBUNTU_INTERNAL :=
  (get_rom_type_ubuntu_root _ ⟨3, "raring", "/m/roms/raring", ROM_UNKNOWN, 0, none⟩
    (by decide) (by decide) (by decide)).1 (by decide) rfl

/-- C6: for a candidate caught neither by the reserved-name rule nor by the
Android rule and without a readable `root`, the type is ROM_UBUNTU_USB_IMG
exactly when `root.img` is readable and the candidate has a partition, and
ROM_UNKNOWN in every other case. -/
theorem get_rom_type_root_img_or_unknown (access : String → Bool) (rom : multirom_rom)
    (h1 : ¬ is_internal_rom rom) (h2 : ¬ android_layout access rom)
    (hr : marker access rom "root" = false) :
    (multirom_get_rom_type access rom = ROM_UBUNTU_USB_IMG ↔
      (marker access rom "root.img" = true ∧ rom.partition ≠ none)) ∧
    (¬ (marker access rom "root.img" = true ∧ rom.partition ≠ none) →
      multirom_get_rom_type access rom = ROM_UNKNOWN) := by
  rw [get_rom_type_not_android access rom h1 h2]
  simp only [hr, Bool.false_eq_true, if_false]
  by_cases hx : (marker access rom "root.img" = true ∧ rom.partition ≠ none)
  · simp [hx]
  · simp [hx]

/-- The theorem `get_rom_type_root_img_or_unknown` at a ROM on a partition with `root.img` only. -/
theorem get_rom_type_root_img_or_unknown_witness :
    (multirom_get_rom_type (readable_paths ["/mnt/sda1/multirom/u/root.img"])
        ⟨4, "u", "/mnt/sda1/multirom/u", ROM_UNKNOWN, 0, some 1⟩ = ROM_UBUNTU_USB_IMG ↔
      (marker (readable_paths ["/mnt/sda1/multirom/u/root.img"])
        ⟨4, "u", "/mnt/sda1/multirom/u", ROM_UNKNOWN, 0, some 1⟩ "root.img" = true ∧
       (⟨4, "u", "/mnt/sda1/multirom/u", ROM_UNKNOWN, 0, some 1⟩ : multirom_rom).partition ≠ none)) ∧
    (¬ (marker (readable_paths ["/mnt/sda1/multirom/u/root.img"])
        ⟨4, "u", "/mnt/sda1/multirom/u", ROM_UNKNOWN, 0, some 1⟩ "root.img" = true ∧
       (⟨4, "u", "/mnt/sda1/multirom/u", ROM_UNKNOWN, 0, some 1⟩ : multirom_rom).partition ≠ none) →
      multirom_get_rom_type (readable_paths ["/mnt/sda1/multirom/u/root.img"])
        ⟨4, "u", "/mnt/sda1/multirom/u", ROM_UNKNOWN, 0, some 1⟩ = ROM_UNKNOWN) :=
  get_rom_type_root_img_or_unknown _ ⟨4, "u", "/mnt/sda1/multirom/u", ROM_UNKNOWN, 0, some 1⟩
    (by decide) (by decide) (by decide)

/-! ## Theorems: boot preparation of a ROM of unknown type -/

/-- A state continues itself. -/
theorem extends_by_refl (P : Ev → Prop) (st : Sys) : extends_by P st st :=
  ⟨[], by simp, by simp⟩

/-- Continuations compose. -/
theorem extends_by_trans {P : Ev → Prop} {a b c : Sys} (h1 : extends_by P a b)
    (h2 : extends_by P b c) : extends_by P a c := by
  obtain ⟨n1, e1, p1⟩ := h1
  obtain ⟨n2, e2, p2⟩ := h2
  refine ⟨n1 ++ n2, by rw [e2, e1, List.append_assoc], ?_⟩
  intro e he
  rcases List.mem_append.mp he with h | h
  · exact p1 e h
  · exact p2 e h

/-- Issuing one event that satisfies `P` is a continuation. -/
theorem extends_by_emit {P : Ev → Prop} (e : Ev) (st : Sys) (h : P e) :
    extends_by P st (emit e st) :=
  ⟨[e], rfl, by simpa using h⟩

/-- An allocation issues no event. -/
theorem extends_by_next_addr {P : Ev → Prop} (st : Sys) (n : Nat) :
    extends_by P st { st with next_addr := n } :=
  ⟨[], by simp, by simp⟩

/-- The function `multirom_destroy_partition` issues at most an unmount. -/
theorem destroy_partition_extends (p : usb_partition) (st : Sys) :
    extends_by partition_refresh_event st (multirom_destroy_partition p st) := by
  unfold multirom_destroy_partition
  cases p.mount_path with
  | none => exact extends_by_refl _ _
  | some mp =>
    by_cases h : p.keep_mounted = 0
    · simp only [h, if_true]
      exact extends_by_emit _ _ trivial
    · simp only [h, if_false]
      exact extends_by_refl _ _

/-- Clearing the partition list issues unmounts only. -/
theorem list_clear_partitions_extends (ps : List usb_partition) (st : Sys) :
    extends_by partition_refresh_event st (list_clear_partitions ps st) := by
  unfold list_clear_partitions
  induction ps generalizing st with
  | nil => exact extends_by_refl _ _
  | cons p ps ih =>
    simp only [List.foldl_cons]
    exact extends_by_trans (destroy_partition_extends p st) (ih _)

/-- The function `multirom_mount_usb` issues refresh events only. -/
theorem mount_usb_extends (w : World) (part : usb_partition) (st : Sys)
    (res : (Int × usb_partition) × Sys) (h : multirom_mount_usb w part st = some res) :
    extends_by partition_refresh_event st res.2 := by
  unfold multirom_mount_usb at h
  have h2 : extends_by partition_refresh_event st
      (emit (Ev.mkdir ("/mnt/" ++ part.name)) (emit (Ev.mkdir "/mnt") st)) :=
    extends_by_trans (extends_by_emit (Ev.mkdir "/mnt") st trivial)
      (extends_by_emit (Ev.mkdir ("/mnt/" ++ part.name)) _ trivial)
  simp only at h
  split at h
  · cases h; exact h2
  · split at h
    · cases h
    · split at h
      · split at h <;> cases h <;>
          exact extends_by_trans h2 (extends_by_emit _ _ ⟨part.name, rfl, rfl, rfl⟩)
      · split at h <;> cases h <;> exact extends_by_trans h2 (extends_by_emit _ _ trivial)

/-- One enumeration line issues refresh events only. -/
theorem update_partitions_line_extends (w : World) (p : String) (parts : List usb_partition)
    (st : Sys) (res : List usb_partition × Sys) (h : update_partitions_line w p parts st = some res) :
    extends_by partition_refresh_event st res.2 := by
  unfold update_partitions_line at h
  simp only at h
  split at h
  · cases h
  · split at h
    · cases h
    · cases h
      exact extends_by_trans (extends_by_next_addr _ _) (destroy_partition_extends _ _)
    · split at h
      · cases h
      · split at h
        · cases h; exact extends_by_next_addr _ _
        · split at h
          · cases h
          · rename_i r part1 st1 hm
            have hx := extends_by_trans (extends_by_next_addr st (st.next_addr + 1))
              (mount_usb_extends w _ _ _ hm)
            split at h
            · cases h; exact hx
            · cases h; exact extends_by_trans hx (destroy_partition_extends _ _)

/-- The enumeration loop issues refresh events only. -/
theorem update_partitions_lines_extends (w : World) (ls : List String) (parts : List usb_partition)
    (st : Sys) (res : List usb_partition × Sys)
    (h : update_partitions_lines w ls parts st = some res) :
    extends_by partition_refresh_event st res.2 := by
  induction ls generalizing parts st with
  | nil =>
    simp only [update_partitions_lines] at h
    cases h; exact extends_by_refl _ _
  | cons l ls ih =>
    simp only [update_partitions_lines] at h
    split at h
    · cases h
    · rename_i parts1 st1 hl
      exact extends_by_trans (update_partitions_line_extends w l parts st _ hl) (ih _ _ h)

/-- The function `multirom_update_partitions` issues refresh events only. -/
theorem update_partitions_extends (w : World) (s : multirom_status) (st : Sys)
    (res : (Int × multirom_status) × Sys) (h : multirom_update_partitions w s st = some res) :
    extends_by partition_refresh_event st res.2 := by
  unfold multirom_update_partitions at h
  simp only at h
  have h1 : extends_by partition_refresh_event st
      (emit (Ev.exec [w.busybox_path, "blkid"]) (list_clear_partitions s.partitions st)) :=
    extends_by_trans (list_clear_partitions_extends _ _) (extends_by_emit _ _ trivial)
  split at h
  · cases h; exact h1
  · split at h
    · cases h
    · rename_i parts st3 hl
      cases h
      exact extends_by_trans h1 (update_partitions_lines_extends w _ _ _ _ hl)

/-- C7 fails as stated: for a ROM_UNKNOWN ROM with a boot.img, no partition
and `is_second_boot == 0` the result is -1, but `multirom_update_partitions`
has run first and has mounted the removable partition the enumeration
reports. -/
theorem prepare_for_boot_unknown_counterexample :
    (⟨5, "x", "/realdata/media/multirom/roms/x", ROM_UNKNOWN, 1, none⟩ : multirom_rom).type = ROM_UNKNOWN ∧
    (multirom_prepare_for_boot unknown_bootimg_world {}
        ⟨5, "x", "/realdata/media/multirom/roms/x", ROM_UNKNOWN, 1, none⟩ {}).map
      (fun r => (r.1.1, r.2.trace)) =
      some (-1, [Ev.exec ["/realdata/media/multirom/busybox", "blkid"], Ev.mkdir "/mnt",
        Ev.mkdir "/mnt/sda1", Ev.mount "/dev/block/sda1" "/mnt/sda1" "vfat" MS_NOATIME]) := by
  decide

/-- C7 (amended): for a ROM of type ROM_UNKNOWN `multirom_prepare_for_boot`
does exactly what `multirom_update_partitions` does and returns -1 when the
ROM has a boot.img, no partition and `is_second_boot` is 0, and returns -1
with no effect at all otherwise. Whenever it returns, the result is -1 and
the events issued are those of a partition refresh: no loop device is set
up, nothing is bind-mounted, no file is written. -/
theorem prepare_for_boot_unknown (w : World) (s : multirom_status) (rom : multirom_rom) (st : Sys)
    (h : rom.type = ROM_UNKNOWN) :
    (multirom_prepare_for_boot w s rom st =
      if rom.has_bootimg ≠ 0 ∧ s.is_second_boot = 0 ∧ rom.partition = none then
        (multirom_update_partitions w s st).map (fun r => ((-1, r.1.2), r.2))
      else some ((-1, s), st)) ∧
    (∀ r s1 st1, multirom_prepare_for_boot w s rom st = some ((r, s1), st1) →
      r = -1 ∧ extends_by partition_refresh_event st st1) := by
  have key : multirom_prepare_for_boot w s rom st =
      if rom.has_bootimg ≠ 0 ∧ s.is_second_boot = 0 ∧ rom.partition = none then
        (multirom_update_partitions w s st).map (fun r => ((-1, r.1.2), r.2))
      else some ((-1, s), st) := by
    unfold multirom_prepare_for_boot
    simp only [h, MASK_UBUNTU, Bool.false_eq_true, false_or, ne_eq, not_false_eq_true, true_and,
      reduceCtorEq]
    by_cases hb : rom.has_bootimg = 0
    · simp [hb]
    · by_cases h2 : s.is_second_boot = 0
      · simp only [hb, h2, not_false_eq_true, and_self, if_true, true_and]
        unfold multirom_load_kexec load_kexec_partitions load_kexec_fill
        by_cases hp : rom.partition = none
        · simp only [hp, if_true, h]
          cases hu : multirom_update_partitions w s st with
          | none => simp
          | some r =>
            obtain ⟨⟨r0, s1⟩, st1⟩ := r
            by_cases hr : r0 < 0 <;> simp [hr]
        · simp [hp, h]
      · simp [hb, h2]
  refine ⟨key, ?_⟩
  intro r s1 st1 hrun
  rw [key] at hrun
  split at hrun
  · cases hu : multirom_update_partitions w s st with
    | none => rw [hu] at hrun; cases hrun
    | some res =>
      rw [hu] at hrun
      simp only [Option.map_some', Option.some.injEq, Prod.mk.injEq] at hrun
      obtain ⟨⟨h1, _⟩, h3⟩ := hrun
      exact ⟨h1.symm, h3 ▸ update_partitions_extends w s st res hu⟩
  · simp only [Option.some.injEq, Prod.mk.injEq] at hrun
    obtain ⟨⟨h1, _⟩, h3⟩ := hrun
    exact ⟨h1.symm, h3 ▸ extends_by_refl _ _⟩

/-- The theorem `prepare_for_boot_unknown` at a ROM_UNKNOWN ROM without boot.img: -1 and no effect. -/
theorem prepare_for_boot_unknown_witness :
    multirom_prepare_for_boot quiet_world {}
      ⟨5, "x", "/realdata/media/multirom/roms/x", ROM_UNKNOWN, 0, none⟩ {} =
      some ((-1, {}), {}) :=
  (prepare_for_boot_unknown quiet_world {}
    ⟨5, "x", "/realdata/media/multirom/roms/x", ROM_UNKNOWN, 0, none⟩ {} rfl).1.trans
    (if_neg (by decide))

/-! ## Theorems: kexec preparation -/

/-- Rounding up to a multiple of the page size does not decrease a size. -/
theorem le_round_up (p k : Nat) (hp : 1 ≤ p) : k ≤ (k + p - 1) / p * p := by
  have h := Nat.div_add_mod (k + p - 1) p
  have h2 := Nat.mod_lt (k + p - 1) hp
  rw [Nat.mul_comm] at h
  generalize (k + p - 1) / p * p = m at h ⊢
  generalize (k + p - 1) % p = r at h h2
  omega

/-- Without overflow the wrapping offset is the exact one. -/
theorem ramdisk_offset_no_overflow (p k : Nat) (hp : 1 ≤ p)
    (hov : p + (k + p - 1) / p * p < 2 ^ 32) :
    ramdisk_offset (u32 p) (u32 k) = p + (k + p - 1) / p * p := by
  have hk := le_round_up p k hp
  have hle : (k + p - 1) / p * p ≤ k + p - 1 := Nat.div_mul_le_self _ _
  have e1 : u32 p = p := Nat.mod_eq_of_lt (by omega)
  have e2 : u32 k = k := Nat.mod_eq_of_lt (by omega)
  have e3 : u32 (k + p) = k + p := Nat.mod_eq_of_lt (by omega)
  have e4 : u32 (k + p + (2 ^ 32 - 1)) = k + p - 1 := by
    unfold u32
    have : k + p + (2 ^ 32 - 1) = (k + p - 1) + 2 ^ 32 := by omega
    rw [this, Nat.add_mod_right]
    exact Nat.mod_eq_of_lt (by omega)
  have e5 : u32 ((k + p - 1) / p * p) = (k + p - 1) / p * p := Nat.mod_eq_of_lt (by omega)
  have e6 : u32 (p + (k + p - 1) / p * p) = p + (k + p - 1) / p * p := Nat.mod_eq_of_lt hov
  unfold ramdisk_offset
  rw [e1, e2, e3, e4, e5, e6]

/-- The quotient `(k + p - 1) / p` is the ceiling of `k / p`. -/
theorem ceil_div_eq (p k : Nat) (hp : 1 ≤ p) : ⌈(k : ℚ) / (p : ℚ)⌉₊ = (k + p - 1) / p := by
  apply eq_of_forall_ge_iff
  intro n
  have hp0 : (0 : ℚ) < (p : ℚ) := by exact_mod_cast hp
  rw [Nat.ceil_le, div_le_iff₀ hp0]
  have h1 : ((k : ℚ) ≤ (n : ℚ) * (p : ℚ)) ↔ k ≤ n * p := by exact_mod_cast Iff.rfl
  rw [h1]
  have h2 : (k + p - 1) / p ≤ n ↔ (k + p - 1) / p < n + 1 := by omega
  rw [h2, Nat.div_lt_iff_lt_mul hp, Nat.add_mul, Nat.one_mul]
  omega

/-- C8: when the boot image opens with a header of page size p >= 1 and the
offset p + ((k + p - 1) / p) * p fits 32 bits, `multirom_fill_kexec_android`
is defined; on success it has extracted the kernel from offset p for
`kernel_size` bytes and then the ramdisk from that offset for `ramdisk_size`
bytes, and on failure it has got through a prefix of these two reads. The
offset is p * ceil(k / p) + p, a multiple of p, and at least p + k. -/
theorem fill_kexec_android_offsets (w : World) (rom : multirom_rom) (cmd : kexec_cmd) (st : Sys)
    (hdr : boot_img_hdr)
    (hopen : w.boot_img st.trace (rom.base_path ++ "/boot.img") = some hdr)
    (hp : 1 ≤ hdr.page_size)
    (hov : hdr.page_size +
      (hdr.kernel_size + hdr.page_size - 1) / hdr.page_size * hdr.page_size < 2 ^ 32)
    (hrs : hdr.ramdisk_size < 2 ^ 32) :
    (∃ r cmd1 st1, multirom_fill_kexec_android w rom cmd st = some ((r, cmd1), st1) ∧
      (r = 0 → st1.trace = st.trace ++
        [Ev.extract_bytes "/zImage" (rom.base_path ++ "/boot.img") hdr.page_size hdr.kernel_size,
         Ev.extract_bytes "/initrd.img" (rom.base_path ++ "/boot.img")
           (hdr.page_size + (hdr.kernel_size + hdr.page_size - 1) / hdr.page_size * hdr.page_size)
           hdr.ramdisk_size,
         Ev.klog SECOND_BOOT_KMESG]) ∧
      (r ≠ 0 → st1.trace = st.trace ∨
        st1.trace = st.trace ++
          [Ev.extract_bytes "/zImage" (rom.base_path ++ "/boot.img") hdr.page_size hdr.kernel_size] ∨
        st1.trace = st.trace ++
          [Ev.extract_bytes "/zImage" (rom.base_path ++ "/boot.img") hdr.page_size hdr.kernel_size,
           Ev.extract_bytes "/initrd.img" (rom.base_path ++ "/boot.img")
             (hdr.page_size + (hdr.kernel_size + hdr.page_size - 1) / hdr.page_size * hdr.page_size)
             hdr.ramdisk_size])) ∧
    hdr.page_size + (hdr.kernel_size + hdr.page_size - 1) / hdr.page_size * hdr.page_size =
      hdr.page_size * ⌈(hdr.kernel_size : ℚ) / (hdr.page_size : ℚ)⌉₊ + hdr.page_size ∧
    hdr.page_size ∣
      hdr.page_size + (hdr.kernel_size + hdr.page_size - 1) / hdr.page_size * hdr.page_size ∧
    hdr.page_size + hdr.kernel_size ≤
      hdr.page_size + (hdr.kernel_size + hdr.page_size - 1) / hdr.page_size * hdr.page_size := by
  have hk := le_round_up hdr.page_size hdr.kernel_size hp
  have eoff := ramdisk_offset_no_overflow hdr.page_size hdr.kernel_size hp hov
  have e1 : u32 hdr.page_size = hdr.page_size := Nat.mod_eq_of_lt (by omega)
  have e2 : u32 hdr.kernel_size = hdr.kernel_size := Nat.mod_eq_of_lt (by omega)
  have e3 : u32 hdr.ramdisk_size = hdr.ramdisk_size := Nat.mod_eq_of_lt hrs
  rw [e1, e2] at eoff
  have hp0 : hdr.page_size ≠ 0 := by omega
  refine ⟨?_, ?_, ?_, ?_⟩
  · unfold multirom_fill_kexec_android multirom_extract_bytes
    simp only [hopen, eoff, e1, e2, e3, hp0, if_false]
    by_cases h1 : w.fopen_w st.trace "/zImage" = true
    · simp only [h1, if_true, ne_eq, not_true_eq_false, if_false]
      by_cases h2 : w.fopen_w (emit (Ev.extract_bytes "/zImage" (rom.base_path ++ "/boot.img")
          hdr.page_size hdr.kernel_size) st).trace "/initrd.img" = true
      · simp only [h2, if_true, ne_eq, not_true_eq_false, if_false]
        cases hc : multirom_get_cmdline w (emit (Ev.extract_bytes "/initrd.img"
            (rom.base_path ++ "/boot.img")
            (hdr.page_size + (hdr.kernel_size + hdr.page_size - 1) / hdr.page_size * hdr.page_size)
            hdr.ramdisk_size) (emit (Ev.extract_bytes "/zImage" (rom.base_path ++ "/boot.img")
            hdr.page_size hdr.kernel_size) st)).trace with
        | none => exact ⟨-1, cmd, _, rfl, by simp, fun _ => Or.inr (Or.inr (by simp [emit]))⟩
        | some c => exact ⟨0, _, _, rfl, fun _ => by simp [emit], by simp⟩
      · simp only [h2, Bool.false_eq_true, if_false, ne_eq]
        exact ⟨-1, cmd, _, rfl, by simp, fun _ => Or.inr (Or.inl (by simp [emit]))⟩
    · simp only [h1, Bool.false_eq_true, if_false, ne_eq]
      exact ⟨-1, cmd, _, rfl, by simp, fun _ => Or.inl rfl⟩
  · rw [ceil_div_eq hdr.page_size hdr.kernel_size hp]
    ring
  · exact Dvd.dvd.add (dvd_refl _) (Dvd.intro_left _ rfl)
  · omega

/-- The theorem `fill_kexec_android_offsets` at page size 2048, kernel size 5000, ramdisk size 3000: kernel at 2048, ramdisk at 8192. -/
theorem fill_kexec_android_offsets_witness :
    ((∃ r cmd1 st1, multirom_fill_kexec_android sample_boot_world sample_android_rom ⟨"", "", ""⟩ {} =
        some ((r, cmd1), st1) ∧
      (r = 0 → st1.trace = ({} : Sys).trace ++
        [Ev.extract_bytes "/zImage" (sample_android_rom.base_path ++ "/boot.img")
           sample_boot_hdr.page_size sample_boot_hdr.kernel_size,
         Ev.extract_bytes "/initrd.img" (sample_android_rom.base_path ++ "/boot.img")
           (sample_boot_hdr.page_size + (sample_boot_hdr.kernel_size + sample_boot_hdr.page_size - 1) /
             sample_boot_hdr.page_size * sample_boot_hdr.page_size)
           sample_boot_hdr.ramdisk_size,
         Ev.klog SECOND_BOOT_KMESG]) ∧
      (r ≠ 0 → st1.trace = ({} : Sys).trace ∨
        st1.trace = ({} : Sys).trace ++
          [Ev.extract_bytes "/zImage" (sample_android_rom.base_path ++ "/boot.img")
             sample_boot_hdr.page_size sample_boot_hdr.kernel_size] ∨
        st1.trace = ({} : Sys).trace ++
          [Ev.extract_bytes "/zImage" (sample_android_rom.base_path ++ "/boot.img")
             sample_boot_hdr.page_size sample_boot_hdr.kernel_size,
           Ev.extract_bytes "/initrd.img" (sample_android_rom.base_path ++ "/boot.img")
             (sample_boot_hdr.page_size + (sample_boot_hdr.kernel_size + sample_boot_hdr.page_size - 1) /
               sample_boot_hdr.page_size * sample_boot_hdr.page_size)
             sample_boot_hdr.ramdisk_size])) ∧
    sample_boot_hdr.page_size + (sample_boot_hdr.kernel_size + sample_boot_hdr.page_size - 1) /
        sample_boot_hdr.page_size * sample_boot_hdr.page_size =
      sample_boot_hdr.page_size *
        ⌈(sample_boot_hdr.kernel_size : ℚ) / (sample_boot_hdr.page_size : ℚ)⌉₊ +
        sample_boot_hdr.page_size ∧
    sample_boot_hdr.page_size ∣
      sample_boot_hdr.page_size + (sample_boot_hdr.kernel_size + sample_boot_hdr.page_size - 1) /
        sample_boot_hdr.page_size * sample_boot_hdr.page_size ∧
    sample_boot_hdr.page_size + sample_boot_hdr.kernel_size ≤
      sample_boot_hdr.page_size + (sample_boot_hdr.kernel_size + sample_boot_hdr.page_size - 1) /
        sample_boot_hdr.page_size * sample_boot_hdr.page_size) ∧
    (multirom_fill_kexec_android sample_boot_world sample_android_rom ⟨"", "", ""⟩ {}).map
        (fun r => (r.1.1, r.2.trace)) =
      some (0, [Ev.extract_bytes "/zImage" "/realdata/media/multirom/roms/cm/boot.img" 2048 5000,
        Ev.extract_bytes "/initrd.img" "/realdata/media/multirom/roms/cm/boot.img" 8192 3000,
        Ev.klog "MultiromSaysNextBootShouldBeSecondMagic108"]) :=
  ⟨fill_kexec_android_offsets sample_boot_world sample_android_rom ⟨"", "", ""⟩ {} sample_boot_hdr
    (by decide) (by decide) (by decide) (by decide), by decide⟩

/-- The function `multirom_copy_log` always returns, and only adds events. -/
theorem copy_log_defined (w : World) (st : Sys) :
    ∃ r post, multirom_copy_log w st = some (r, { st with trace := st.trace ++ post }) := by
  unfold multirom_copy_log
  by_cases h : w.fopen_w st.trace (w.multirom_dir ++ "/error.txt") = true
  · simp only [h, if_true]
    exact ⟨0, [Ev.write_klog (w.multirom_dir ++ "/error.txt"),
      Ev.chmod (REALDATA ++ "/media/multirom/error.txt") 0o777], by simp [emit]⟩
  · simp only [h, if_false]
    exact ⟨-1, [], by simp⟩

/-- What a successful `multirom_fill_kexec_android` has done. -/
theorem fill_kexec_android_success (w : World) (rom : multirom_rom) (cmd0 cmd : kexec_cmd)
    (st1 st2 : Sys)
    (hfill : multirom_fill_kexec_android w rom cmd0 st1 = some ((0, cmd), st2)) :
    ∃ hdr C e1 e2,
      w.boot_img st1.trace (rom.base_path ++ "/boot.img") = some hdr ∧
      multirom_get_cmdline w (st1.trace ++ [e1, e2]) = some C ∧
      cmd = ⟨"/zImage", "--initrd=/initrd.img",
        "--command-line=" ++ C ++ " mrom_kexecd=1 " ++ hdr.cmdline⟩ ∧
      st2.trace = st1.trace ++ [e1, e2, Ev.klog SECOND_BOOT_KMESG] := by
  unfold multirom_fill_kexec_android multirom_extract_bytes at hfill
  simp only at hfill
  cases hb : w.boot_img st1.trace (rom.base_path ++ "/boot.img") with
  | none => rw [hb] at hfill; simp at hfill
  | some hdr =>
    rw [hb] at hfill
    simp only at hfill
    by_cases h1 : w.fopen_w st1.trace "/zImage" = true
    · simp only [h1, if_true, ne_eq, not_true_eq_false, if_false] at hfill
      by_cases hp : u32 hdr.page_size = 0
      · simp [hp] at hfill
      · simp only [hp, if_false] at hfill
        by_cases h2 : w.fopen_w (emit (Ev.extract_bytes "/zImage" (rom.base_path ++ "/boot.img")
            (u32 hdr.page_size) (u32 hdr.kernel_size)) st1).trace "/initrd.img" = true
        · simp only [h2, if_true, ne_eq, not_true_eq_false, if_false] at hfill
          cases hc : multirom_get_cmdline w (emit (Ev.extract_bytes "/initrd.img"
              (rom.base_path ++ "/boot.img") (ramdisk_offset (u32 hdr.page_size) (u32 hdr.kernel_size))
              (u32 hdr.ramdisk_size)) (emit (Ev.extract_bytes "/zImage" (rom.base_path ++ "/boot.img")
              (u32 hdr.page_size) (u32 hdr.kernel_size)) st1)).trace with
          | none => rw [hc] at hfill; simp at hfill
          | some C =>
            rw [hc] at hfill
            simp only [Option.some.injEq, Prod.mk.injEq, true_and] at hfill
            obtain ⟨hcmd, hst2⟩ := hfill
            refine ⟨hdr, C, Ev.extract_bytes "/zImage" (rom.base_path ++ "/boot.img")
              (u32 hdr.page_size) (u32 hdr.kernel_size), Ev.extract_bytes "/initrd.img"
              (rom.base_path ++ "/boot.img") (ramdisk_offset (u32 hdr.page_size) (u32 hdr.kernel_size))
              (u32 hdr.ramdisk_size), rfl, ?_, hcmd.symm, ?_⟩
            · simpa [emit] using hc
            · rw [← hst2]; simp [emit]
        · simp [h2] at hfill
    · simp [h1] at hfill

/-- C9: for an Android ROM, when the partition refresh at the head of
`multirom_load_kexec` has not failed and `multirom_fill_kexec_android` has
succeeded, the next event of `multirom_load_kexec` is the execution of
[kexec_path, "--load-hardboot", "/zImage", "--mem-min=0xA0000000",
"--initrd=/initrd.img", "--command-line=" ++ C ++ " mrom_kexecd=1 " ++ E],
where C is the device command line read during the fill (newlines replaced
by spaces) and E the command line of the image header. -/
theorem load_kexec_android_argv (w : World) (s s1 : multirom_status) (rom : multirom_rom)
    (st st1 st2 : Sys) (r0 : Int) (cmd : kexec_cmd)
    (hty : rom.type = ROM_ANDROID_INTERNAL ∨ rom.type = ROM_ANDROID_USB_DIR ∨
      rom.type = ROM_ANDROID_USB_IMG)
    (hpre : load_kexec_partitions w s rom st = some ((r0, s1), st1)) (hr0 : 0 ≤ r0)
    (hfill : multirom_fill_kexec_android w rom ⟨"", "", ""⟩ st1 = some ((0, cmd), st2)) :
    ∃ hdr t C r st3 post,
      w.boot_img st1.trace (rom.base_path ++ "/boot.img") = some hdr ∧
      st1.trace <+: t ∧ t <+: st2.trace ∧ multirom_get_cmdline w t = some C ∧
      multirom_load_kexec w s rom st = some ((r, s1), st3) ∧
      st3.trace = st2.trace ++
        Ev.exec [w.kexec_path, "--load-hardboot", "/zImage", "--mem-min=0xA0000000",
          "--initrd=/initrd.img", "--command-line=" ++ C ++ " mrom_kexecd=1 " ++ hdr.cmdline] ::
        post := by
  obtain ⟨hdr, C, e1, e2, hb, hC, hcmd, htr⟩ := fill_kexec_android_success w rom _ cmd st1 st2 hfill
  have hfillres : load_kexec_fill w s1 rom ⟨"", "", ""⟩ st1 = some (some (0, cmd), st2) := by
    unfold load_kexec_fill
    rcases hty with h | h | h <;> simp [h, hfill]
  obtain ⟨rl, post, hlog⟩ := copy_log_defined w
    (emit (Ev.chmod "/kexec" 0o755) (emit (Ev.exec [w.busybox_path, "cp", w.kexec_path, "/kexec"])
      (emit (Ev.exec (kexec_argv w cmd)) st2)))
  have hrun : ∃ r st3 post, multirom_load_kexec w s rom st = some ((r, s1), st3) ∧
      st3.trace = st2.trace ++ Ev.exec (kexec_argv w cmd) :: post := by
    unfold multirom_load_kexec
    rw [hpre]
    simp only [not_lt.mpr hr0, if_false, hfillres, ne_eq, not_true_eq_false, hlog]
    exact ⟨_, _, [Ev.exec [w.busybox_path, "cp", w.kexec_path, "/kexec"], Ev.chmod "/kexec" 0o755] ++
      post, rfl, by simp [emit]⟩
  obtain ⟨r, st3, post1, hrun, htr3⟩ := hrun
  refine ⟨hdr, _, C, r, st3, post1, hb, ⟨[e1, e2], rfl⟩, ⟨[Ev.klog SECOND_BOOT_KMESG], ?_⟩, hC,
    hrun, ?_⟩
  · rw [htr]; simp
  · rw [htr3, hcmd]; rfl

set_option maxRecDepth 100000 in
/-- The theorem `load_kexec_android_argv` in `sample_boot_world`, with the events after the fill. -/
theorem load_kexec_android_argv_witness :
    (∃ hdr t C r st3 post,
      sample_boot_world.boot_img
        ({ trace := [Ev.exec ["/realdata/media/multirom/busybox", "blkid"]] } : Sys).trace
        (sample_android_rom.base_path ++ "/boot.img") = some hdr ∧
      ({ trace := [Ev.exec ["/realdata/media/multirom/busybox", "blkid"]] } : Sys).trace <+: t ∧
      t <+: sample_filled_state.trace ∧ multirom_get_cmdline sample_boot_world t = some C ∧
      multirom_load_kexec sample_boot_world {} sample_android_rom {} = some ((r, {}), st3) ∧
      st3.trace = sample_filled_state.trace ++
        Ev.exec [sample_boot_world.kexec_path, "--load-hardboot", "/zImage", "--mem-min=0xA0000000",
          "--initrd=/initrd.img", "--command-line=" ++ C ++ " mrom_kexecd=1 " ++ hdr.cmdline] ::
        post) ∧
    (multirom_load_kexec sample_boot_world {} sample_android_rom {}).map
        (fun r => (r.1.1, r.2.trace.drop 4)) =
      some (0, [Ev.exec ["/realdata/media/multirom/kexec", "--load-hardboot", "/zImage",
          "--mem-min=0xA0000000", "--initrd=/initrd.img",
          "--command-line=console=tty1 debug  mrom_kexecd=1 androidboot.hardware=grouper"],
        Ev.exec ["/realdata/media/multirom/busybox", "cp", "/realdata/media/multirom/kexec", "/kexec"],
        Ev.chmod "/kexec" 0o755, Ev.write_klog "/realdata/media/multirom/error.txt",
        Ev.chmod "/realdata/media/multirom/error.txt" 0o777]) :=
  ⟨load_kexec_android_argv sample_boot_world {} {} sample_android_rom {}
    { trace := [Ev.exec ["/realdata/media/multirom/busybox", "blkid"]] } sample_filled_state 0
    sample_kexec_cmd (by decide) (by decide) (by decide) (by decide), by decide⟩

/-- The command line the second half of `multirom_fill_kexec_ubuntu`
composes when it succeeds. -/
theorem fill_kexec_ubuntu_cmd_line (w : World) (s : multirom_status) (rom : multirom_rom)
    (part : Option usb_partition) (cmd cmd1 : kexec_cmd) (rom_path : String) (lm r : Int)
    (st st1 : Sys)
    (h : fill_kexec_ubuntu_cmd w s rom part cmd rom_path lm st = some ((r, cmd1), st1))
    (hr : 0 ≤ r) :
    st1 = st ∧ ∃ C, multirom_get_cmdline w st.trace = some C ∧
      ((part = none ∧ ∃ tail, str_advance rom.base_path 9 = some tail ∧
          cmd1.arg5 = "--command-line=" ++ C ++ " root=" ++
            (if w.stat_ok st.trace "/dev/block/mmcblk0p10" then "/dev/mmcblk0p10"
              else "/dev/mmcblk0p9") ++ UBUNTU_FIXED_ARGS ++ ("rootsubdir=" ++ tail ++ "/root")) ∨
       (∃ p fs tail, part = some p ∧ p.fs = some fs ∧
          strstr rom.base_path "/multirom/" = some tail ∧
          cmd1.arg5 = "--command-line=" ++ C ++ " root=" ++ ("UUID=" ++ p.uuid) ++ UBUNTU_FIXED_ARGS ++
            (if str_contains fs "ext" = false then "loop=" ++ tail ++ "/root.img loopfstype=ext4"
              else "rootsubdir=" ++ tail ++ "/root") ++
            (if str_contains fs "ntfs" then " rootfstype=ntfs-3g" else ""))) := by
  unfold fill_kexec_ubuntu_cmd at h
  simp only at h
  cases hk : multirom_find_file w st "vmlinuz" rom_path with
  | none => rw [hk] at h; simp only [Option.some.injEq, Prod.mk.injEq] at h; omega
  | some k =>
    rw [hk] at h
    simp only at h
    cases hi : multirom_find_file w st "initrd.img-" rom_path with
    | none => rw [hi] at h; simp only [Option.some.injEq, Prod.mk.injEq] at h; omega
    | some i =>
      rw [hi] at h
      simp only at h
      cases hc : multirom_get_cmdline w st.trace with
      | none => rw [hc] at h; simp only [Option.some.injEq, Prod.mk.injEq] at h; omega
      | some C =>
        rw [hc] at h
        simp only at h
        cases part with
        | none =>
          simp only at h
          cases hd : multirom_get_data_partition s.partitions with
          | none => rw [hd] at h; cases h
          | some d =>
            rw [hd] at h
            cases d with
            | none => simp only [Option.some.injEq, Prod.mk.injEq] at h; omega
            | some dp =>
              simp only at h
              cases ha : str_advance rom.base_path REALDATA.length with
              | none => rw [ha] at h; cases h
              | some tail =>
                rw [ha] at h
                simp only [Option.some.injEq, Prod.mk.injEq] at h
                obtain ⟨⟨_, hcmd⟩, hst⟩ := h
                refine ⟨hst.symm, C, rfl, Or.inl ⟨rfl, tail, ha, ?_⟩⟩
                rw [← hcmd]
                rfl
        | some p =>
          simp only at h
          cases hf : p.fs with
          | none => rw [hf] at h; cases h
          | some fs =>
            cases ht : strstr rom.base_path "/multirom/" with
            | none => rw [hf, ht] at h; cases h
            | some tail =>
              rw [hf, ht] at h
              simp only [Option.some.injEq, Prod.mk.injEq] at h
              obtain ⟨⟨_, hcmd⟩, hst⟩ := h
              refine ⟨hst.symm, C, rfl, Or.inr ⟨p, fs, tail, rfl, hf, rfl, ?_⟩⟩
              rw [← hcmd]
              cases hn : str_contains fs "ntfs"
              · simp only [Bool.false_eq_true, if_false, String.append_empty]; rfl
              · simp only [if_true]; rfl

set_option maxRecDepth 100000 in
/-- C10 fails as stated: a ROM that `multirom_get_rom_type` classifies as the
directory variant ROM_UBUNTU_USB_DIR, on a VFAT partition, gets the
`loop=<path>/root.img loopfstype=ext4` parameters and no `rootsubdir=`. -/
theorem fill_kexec_ubuntu_counterexample :
    multirom_get_rom_type (ubuntu_vfat_world.access_r []) ubuntu_vfat_rom = ROM_UBUNTU_USB_DIR ∧
    ubuntu_vfat_rom.type = ROM_UBUNTU_USB_DIR ∧
    (multirom_fill_kexec_ubuntu ubuntu_vfat_world ubuntu_vfat_status ubuntu_vfat_rom ⟨"", "", ""⟩ {}).map
      (fun r => r.1) = some (1, ubuntu_vfat_result) ∧
    str_contains ubuntu_vfat_result.arg5 "loop=/multirom/raring/root.img loopfstype=ext4" = true ∧
    str_contains ubuntu_vfat_result.arg5 "rootsubdir=" = false := by
  decide

/-- C10 (amended): when `multirom_fill_kexec_ubuntu` succeeds the command line
is "--command-line=C root=R rw console=tty1 fbcon=rotate:1 access=m2 quiet
splash mrom_kexecd=1 rootflags=defaults,noatime,nodiratime F" with R =
"UUID=<uuid>" for a ROM with a partition and else "/dev/mmcblk0p10" or
"/dev/mmcblk0p9" by the existence of /dev/block/mmcblk0p10; F is
"loop=<path>/root.img loopfstype=ext4" exactly when the ROM has a partition
whose filesystem type does not contain "ext", whatever the ROM type, and
"rootsubdir=<path>/root" otherwise; " rootfstype=ntfs-3g" is appended exactly
when the filesystem type of the partition contains "ntfs". -/
theorem fill_kexec_ubuntu_command_line (w : World) (s : multirom_status) (rom : multirom_rom)
    (cmd cmd1 : kexec_cmd) (r : Int) (st st1 : Sys)
    (h : multirom_fill_kexec_ubuntu w s rom cmd st = some ((r, cmd1), st1)) (hr : 0 ≤ r) :
    ∃ C, multirom_get_cmdline w st1.trace = some C ∧
      ((rom.partition = none ∧ ∃ tail, str_advance rom.base_path 9 = some tail ∧
          cmd1.arg5 = "--command-line=" ++ C ++ " root=" ++
            (if w.stat_ok st1.trace "/dev/block/mmcblk0p10" then "/dev/mmcblk0p10"
              else "/dev/mmcblk0p9") ++ UBUNTU_FIXED_ARGS ++ ("rootsubdir=" ++ tail ++ "/root")) ∨
       (∃ a p fs tail, rom.partition = some a ∧ deref_partition s a = some p ∧ p.fs = some fs ∧
          strstr rom.base_path "/multirom/" = some tail ∧
          cmd1.arg5 = "--command-line=" ++ C ++ " root=" ++ ("UUID=" ++ p.uuid) ++ UBUNTU_FIXED_ARGS ++
            (if str_contains fs "ext" = false then "loop=" ++ tail ++ "/root.img loopfstype=ext4"
              else "rootsubdir=" ++ tail ++ "/root") ++
            (if str_contains fs "ntfs" then " rootfstype=ntfs-3g" else ""))) := by
  unfold multirom_fill_kexec_ubuntu at h
  cases hp : rom.partition with
  | none =>
    rw [hp] at h
    simp only at h
    obtain ⟨hst, C, hC, hor⟩ := fill_kexec_ubuntu_cmd_line w s rom none cmd cmd1 _ 0 r st st1 h hr
    subst hst
    refine ⟨C, hC, ?_⟩
    rcases hor with ⟨_, x⟩ | ⟨p, fs, tail, hx, _⟩
    · exact Or.inl ⟨rfl, x⟩
    · cases hx
  | some a =>
    rw [hp] at h
    simp only at h
    cases hd : deref_partition s a with
    | none => rw [hd] at h; cases h
    | some p =>
      rw [hd] at h
      simp only at h
      cases hf : p.fs with
      | none => rw [hf] at h; cases h
      | some fs =>
        rw [hf] at h
        simp only at h
        have fin : ∀ (lm : Int) (path : String) (st0 : Sys),
            fill_kexec_ubuntu_cmd w s rom (some p) cmd path lm st0 = some ((r, cmd1), st1) →
            ∃ C, multirom_get_cmdline w st1.trace = some C ∧
              ((some a = none ∧ ∃ tail, str_advance rom.base_path 9 = some tail ∧
                cmd1.arg5 = "--command-line=" ++ C ++ " root=" ++
                  (if w.stat_ok st1.trace "/dev/block/mmcblk0p10" then "/dev/mmcblk0p10"
                    else "/dev/mmcblk0p9") ++ UBUNTU_FIXED_ARGS ++ ("rootsubdir=" ++ tail ++ "/root")) ∨
              (∃ a1 p1 fs1 tail, some a = some a1 ∧ deref_partition s a1 = some p1 ∧
                p1.fs = some fs1 ∧ strstr rom.base_path "/multirom/" = some tail ∧
                cmd1.arg5 = "--command-line=" ++ C ++ " root=" ++ ("UUID=" ++ p1.uuid) ++
                  UBUNTU_FIXED_ARGS ++
                  (if str_contains fs1 "ext" = false then "loop=" ++ tail ++ "/root.img loopfstype=ext4"
                    else "rootsubdir=" ++ tail ++ "/root") ++
                  (if str_contains fs1 "ntfs" then " rootfstype=ntfs-3g" else ""))) := by
          intro lm path st0 h0
          obtain ⟨hst, C, hC, hor⟩ :=
            fill_kexec_ubuntu_cmd_line w s rom (some p) cmd cmd1 path lm r st0 st1 h0 hr
          subst hst
          refine ⟨C, hC, Or.inr ?_⟩
          rcases hor with ⟨hx, _⟩ | ⟨p1, fs1, tail, hx, hf1, ht, hcmd⟩
          · cases hx
          · cases hx
            exact ⟨a, p, fs1, tail, rfl, hd, hf1, ht, hcmd⟩
        split at h
        · exact fin _ _ _ h
        · split at h
          · cases h
          · split at h
            · simp only [Option.some.injEq, Prod.mk.injEq] at h; omega
            · exact fin _ _ _ h

set_option maxRecDepth 100000 in
/-- The theorem `fill_kexec_ubuntu_command_line` at the ROM of `ubuntu_vfat_world`. -/
theorem fill_kexec_ubuntu_command_line_witness :
    ∃ C, multirom_get_cmdline ubuntu_vfat_world ubuntu_vfat_final.trace = some C ∧
      ((ubuntu_vfat_rom.partition = none ∧ ∃ tail, str_advance ubuntu_vfat_rom.base_path 9 = some tail ∧
          ubuntu_vfat_result.arg5 = "--command-line=" ++ C ++ " root=" ++
            (if ubuntu_vfat_world.stat_ok ubuntu_vfat_final.trace "/dev/block/mmcblk0p10" then
              "/dev/mmcblk0p10" else "/dev/mmcblk0p9") ++ UBUNTU_FIXED_ARGS ++
            ("rootsubdir=" ++ tail ++ "/root")) ∨
       (∃ a p fs tail, ubuntu_vfat_rom.partition = some a ∧
          deref_partition ubuntu_vfat_status a = some p ∧ p.fs = some fs ∧
          strstr ubuntu_vfat_rom.base_path "/multirom/" = some tail ∧
          ubuntu_vfat_result.arg5 = "--command-line=" ++ C ++ " root=" ++ ("UUID=" ++ p.uuid) ++
            UBUNTU_FIXED_ARGS ++
            (if str_contains fs "ext" = false then "loop=" ++ tail ++ "/root.img loopfstype=ext4"
              else "rootsubdir=" ++ tail ++ "/root") ++
            (if str_contains fs "ntfs" then " rootfstype=ntfs-3g" else ""))) :=
  fill_kexec_ubuntu_command_line ubuntu_vfat_world ubuntu_vfat_status ubuntu_vfat_rom ⟨"", "", ""⟩
    ubuntu_vfat_result 1 {} ubuntu_vfat_final (by decide) (by decide)

/-! ## Theorems: partition enumeration -/

/-- The search returns the suffix at the first position where the needle
occurs. -/
theorem find_sub_first (needle pre rest : List Char)
    (h : ∀ i, i < pre.length → needle.isPrefixOf ((pre ++ (needle ++ rest)).drop i) = false) :
    find_sub needle (pre ++ (needle ++ rest)) = some (needle ++ rest) := by
  induction pre with
  | nil =>
    simp only [List.nil_append]
    cases hn : needle ++ rest with
    | nil =>
      have : needle = [] := (List.append_eq_nil.mp hn).1
      simp [find_sub, this]
    | cons c cs =>
      have hp : needle.isPrefixOf (c :: cs) = true := by
        rw [← hn]; exact List.isPrefixOf_iff_prefix.mpr (List.prefix_append _ _)
      simp [find_sub, hp]
  | cons c pre ih =>
    have h0 := h 0 (by simp)
    simp only [List.drop_zero] at h0
    simp only [List.cons_append] at h0 ⊢
    simp only [find_sub, h0, Bool.false_eq_true, if_false]
    apply ih
    intro i hi
    have := h (i + 1) (by simp; omega)
    simpa using this

/-- Scanning up to the first `c` of `u ++ c :: post` yields `u` when `c` is not in `u`. -/
theorem takeWhile_ne_append (c : Char) (u post : List Char) (h : c ∉ u) :
    (u ++ c :: post).takeWhile (fun x => x != c) = u := by
  induction u with
  | nil => simp
  | cons a u ih =>
    have ha : a ≠ c := fun e => h (by simp [e])
    have hu : c ∉ u := fun e => h (by simp [e])
    have hb : (a != c) = true := by simpa using ha
    simp [List.takeWhile, hb, ih hu]

/-- The part before the first `c` of `u ++ c ++ post` is `u` when `c` is not in `u`. -/
theorem str_before_append (c : Char) (u post : String) (h : c ∉ u.data) :
    str_before c (u ++ String.singleton c ++ post) = some u := by
  unfold str_before
  have hd : (u ++ String.singleton c ++ post).data = u.data ++ c :: post.data := by
    simp [String.data_append, String.singleton]
  rw [hd]
  simp [takeWhile_ne_append c u.data post.data h]

/-- The part after the last `c` of `dir ++ c ++ name` is `name` when `c` is not in `name`. -/
theorem str_after_last_append (c : Char) (dir name : String) (h : c ∉ name.data) :
    str_after_last c (dir ++ String.singleton c ++ name) = some name := by
  unfold str_after_last
  have hd : (dir ++ String.singleton c ++ name).data = dir.data ++ c :: name.data := by
    simp [String.data_append, String.singleton]
  rw [hd]
  have hr : (dir.data ++ c :: name.data).reverse = name.data.reverse ++ c :: dir.data.reverse := by
    simp
  rw [hr, takeWhile_ne_append c name.data.reverse dir.data.reverse (by simpa using h)]
  simp

/-- The value of a key whose first occurrence is followed by a quoted value. -/
theorem blkid_value_first (line key pre v post : String)
    (hline : line = pre ++ key ++ v ++ "\"" ++ post)
    (hfirst : no_occurrence_before key line pre.length) (hv : '"' ∉ v.data) :
    blkid_value line key = some (some v) := by
  have hd : line.data = pre.data ++ (key.data ++ (v.data ++ '"' :: post.data)) := by
    rw [hline]; simp [String.data_append]
  have hs : strstr line key = some (String.mk (key.data ++ (v.data ++ '"' :: post.data))) := by
    unfold strstr
    rw [hd, find_sub_first key.data pre.data _ (by
      intro i hi
      have := hfirst i (by simpa using hi)
      rw [hd] at this
      exact this)]
    rfl
  unfold blkid_value
  rw [hs]
  simp only [List.drop_left]
  have := str_before_append '"' v post hv
  have e : (v ++ String.singleton '"' ++ post) = String.mk (v.data ++ '"' :: post.data) := by
    apply String.ext; simp [String.data_append, String.singleton]
  rw [e] at this
  rw [this]

/-- The function `multirom_mount_usb` returns 0 with the mount path set, or -1
with the partition unchanged. -/
theorem mount_usb_result (w : World) (part p1 : usb_partition) (st st1 : Sys) (r : Int)
    (h : multirom_mount_usb w part st = some ((r, p1), st1)) :
    (r = 0 ∧ p1 = { part with mount_path := some ("/mnt/" ++ part.name) }) ∨
    (r = -1 ∧ p1 = part) := by
  unfold multirom_mount_usb at h
  simp only at h
  split at h
  · simp only [Option.some.injEq, Prod.mk.injEq] at h
    exact Or.inr ⟨h.1.1.symm, h.1.2.symm⟩
  · split at h
    · cases h
    · split at h
      · split at h
        · simp only [Option.some.injEq, Prod.mk.injEq] at h
          exact Or.inl ⟨h.1.1.symm, h.1.2.symm⟩
        · simp only [Option.some.injEq, Prod.mk.injEq] at h
          exact Or.inr ⟨h.1.1.symm, h.1.2.symm⟩
      · split at h
        · simp only [Option.some.injEq, Prod.mk.injEq] at h
          exact Or.inr ⟨h.1.1.symm, h.1.2.symm⟩
        · simp only [Option.some.injEq, Prod.mk.injEq] at h
          exact Or.inl ⟨h.1.1.symm, h.1.2.symm⟩

/-- The function `multirom_mount_usb` is defined when the filesystem type is known. -/
theorem mount_usb_defined (w : World) (part : usb_partition) (st : Sys) (fs : String)
    (hfs : part.fs = some fs) : ∃ res, multirom_mount_usb w part st = some res := by
  unfold multirom_mount_usb
  simp only [hfs]
  split
  · exact ⟨_, rfl⟩
  · split
    · split <;> exact ⟨_, rfl⟩
    · split <;> exact ⟨_, rfl⟩

/-- C11 (amended): for an enumeration line `dir/name: ...` in which the first
occurrence of `UUID="` is followed by the value `uuid"` and the first
occurrence of `TYPE="` by the value `fs"` (so no PARTUUID key precedes
the UUID key and no SEC_TYPE key the TYPE key), the loop iteration of
`multirom_update_partitions` is defined, and the partition it adds, if any,
has name `name`, uuid `uuid` and fs `fs`; a device of internal storage is
added unmounted. -/
theorem update_partitions_line_parse (w : World) (parts : List usb_partition) (st : Sys)
    (dir name tail preU uuid postU preT fs postT : String)
    (hdir : ':' ∉ dir.data) (hn1 : ':' ∉ name.data) (hn2 : '/' ∉ name.data)
    (hU : dir ++ "/" ++ name ++ ":" ++ tail = preU ++ "UUID=\"" ++ uuid ++ "\"" ++ postU)
    (hU1 : no_occurrence_before "UUID=\"" (dir ++ "/" ++ name ++ ":" ++ tail) preU.length)
    (hU2 : '"' ∉ uuid.data)
    (hT : dir ++ "/" ++ name ++ ":" ++ tail = preT ++ "TYPE=\"" ++ fs ++ "\"" ++ postT)
    (hT1 : no_occurrence_before "TYPE=\"" (dir ++ "/" ++ name ++ ":" ++ tail) preT.length)
    (hT2 : '"' ∉ fs.data) :
    ∃ ps st1,
      update_partitions_line w (dir ++ "/" ++ name ++ ":" ++ tail) parts st = some (ps, st1) ∧
      (ps = parts ∨
        ps = parts ++ [⟨st.next_addr, name, uuid, some fs, none, 0⟩] ∨
        ps = parts ++ [⟨st.next_addr, name, uuid, some fs, some ("/mnt/" ++ name), 0⟩]) ∧
      (str_contains name "mmcblk" = true →
        ps = parts ++ [⟨st.next_addr, name, uuid, some fs, none, 0⟩] ∧
        st1 = { st with next_addr := st.next_addr + 1 }) := by
  have hname : (str_before ':' (dir ++ "/" ++ name ++ ":" ++ tail)).bind (str_after_last '/') =
      some name := by
    have h1 : ':' ∉ (dir ++ "/" ++ name).data := by
      simp only [String.data_append, List.mem_append, not_or]
      exact ⟨⟨hdir, by decide⟩, hn1⟩
    have := str_before_append ':' (dir ++ "/" ++ name) tail h1
    have e : String.singleton ':' = ":" := rfl
    rw [e] at this
    rw [this]
    simp only [Option.some_bind]
    exact str_after_last_append '/' dir name hn2
  have hu := blkid_value_first _ "UUID=\"" preU uuid postU hU hU1 hU2
  have ht := blkid_value_first _ "TYPE=\"" preT fs postT hT hT1 hT2
  unfold update_partitions_line
  simp only [hname, hu, ht]
  by_cases hm : str_contains name "mmcblk" = true
  · simp only [hm, if_true]
    exact ⟨_, _, rfl, Or.inr (Or.inl rfl), fun _ => ⟨rfl, rfl⟩⟩
  · simp only [hm, if_false]
    obtain ⟨⟨⟨r, p1⟩, st1⟩, hres⟩ := mount_usb_defined w
      ⟨st.next_addr, name, uuid, some fs, none, 0⟩ { st with next_addr := st.next_addr + 1 } fs rfl
    rw [hres]
    simp only
    rcases mount_usb_result w _ _ _ _ _ hres with ⟨hr, hp⟩ | ⟨hr, hp⟩
    · simp only [hr, if_true]
      exact ⟨_, _, rfl, Or.inr (Or.inr (by rw [hp])), fun h => by cases h⟩
    · simp only [hr]
      exact ⟨_, _, rfl, Or.inl rfl, fun h => by cases h⟩

set_option maxRecDepth 100000 in
/-- The theorem `update_partitions_line_parse` at the line
`/dev/block/sda1: UUID="ABCD-1234" TYPE="ext4"`, and its evaluation. -/
theorem update_partitions_line_parse_witness :
    (∃ ps st1,
      update_partitions_line quiet_world
        ("/dev/block" ++ "/" ++ "sda1" ++ ":" ++ " UUID=\"ABCD-1234\" TYPE=\"ext4\"") [] {} =
        some (ps, st1) ∧
      (ps = [] ∨
        ps = [] ++ [⟨({} : Sys).next_addr, "sda1", "ABCD-1234", some "ext4", none, 0⟩] ∨
        ps = [] ++ [⟨({} : Sys).next_addr, "sda1", "ABCD-1234", some "ext4",
          some ("/mnt/" ++ "sda1"), 0⟩]) ∧
      (str_contains "sda1" "mmcblk" = true →
        ps = [] ++ [⟨({} : Sys).next_addr, "sda1", "ABCD-1234", some "ext4", none, 0⟩] ∧
        st1 = { ({} : Sys) with next_addr := ({} : Sys).next_addr + 1 })) ∧
    (update_partitions_line quiet_world "/dev/block/sda1: UUID=\"ABCD-1234\" TYPE=\"ext4\"" []
      {}).map (fun r => r.1) = some [⟨1, "sda1", "ABCD-1234", some "ext4", some "/mnt/sda1", 0⟩] :=
  ⟨update_partitions_line_parse quiet_world [] {} "/dev/block" "sda1"
    " UUID=\"ABCD-1234\" TYPE=\"ext4\"" "/dev/block/sda1: " "ABCD-1234" " TYPE=\"ext4\""
    "/dev/block/sda1: UUID=\"ABCD-1234\" " "ext4" ""
    (by decide) (by decide) (by decide) (by decide) (by decide) (by decide) (by decide)
    (by decide) (by decide), by decide⟩

/-- One iteration of the enumeration loop appends what the line contributes. -/
theorem update_partitions_line_contributes (w : World) (l : String) (parts ps : List usb_partition)
    (st st1 : Sys) (h : update_partitions_line w l parts st = some (ps, st1)) :
    ∃ o, ps = parts ++ o.toList ∧ line_contributes w l st o st1 := by
  unfold update_partitions_line at h
  simp only at h
  cases hn : (str_before ':' l).bind (str_after_last '/') with
  | none => rw [hn] at h; cases h
  | some name =>
    rw [hn] at h
    simp only at h
    cases hu : blkid_value l "UUID=\"" with
    | none => rw [hu] at h; cases h
    | some u =>
      rw [hu] at h
      cases u with
      | none =>
        simp only [multirom_destroy_partition, Option.some.injEq, Prod.mk.injEq] at h
        obtain ⟨h1, h2⟩ := h
        subst h1; subst h2
        exact ⟨none, by simp, line_contributes.no_uuid hu⟩
      | some uuid =>
        simp only at h
        cases ht : blkid_value l "TYPE=\"" with
        | none => rw [ht] at h; cases h
        | some fs =>
          rw [ht] at h
          simp only at h
          cases hm : str_contains name "mmcblk" with
          | true =>
            rw [hm] at h
            simp only [if_true, Option.some.injEq, Prod.mk.injEq] at h
            obtain ⟨h1, h2⟩ := h
            subst h1; subst h2
            exact ⟨some _, rfl, line_contributes.internal name uuid fs hn hu ht hm⟩
          | false =>
            rw [hm] at h
            simp only [Bool.false_eq_true, if_false] at h
            cases hr : multirom_mount_usb w ⟨st.next_addr, name, uuid, fs, none, 0⟩
                { st with next_addr := st.next_addr + 1 } with
            | none => rw [hr] at h; cases h
            | some res =>
              obtain ⟨⟨r, p1⟩, st2⟩ := res
              rw [hr] at h
              simp only at h
              rcases mount_usb_result w _ _ _ _ _ hr with ⟨hr0, hp⟩ | ⟨hr1, hp⟩
              · subst hr0
                simp only [if_true, Option.some.injEq, Prod.mk.injEq] at h
                obtain ⟨h1, h2⟩ := h
                subst h1; subst h2
                exact ⟨some p1, rfl, line_contributes.mounted name uuid fs p1 _ hn hu ht hm hr⟩
              · subst hr1
                simp only [show ¬ ((-1 : Int) = 0) by decide, if_false, Option.some.injEq,
                  Prod.mk.injEq] at h
                obtain ⟨h1, h2⟩ := h
                subst h1
                have hd : multirom_destroy_partition p1 st2 = st2 := by
                  rw [hp]; rfl
                rw [hd] at h2
                subst h2
                exact ⟨none, by simp,
                  line_contributes.mount_failed name uuid fs (-1) p1 _ hn hu ht hm hr (by decide)⟩

/-- The enumeration loop appends what the lines contribute, in line order. -/
theorem update_partitions_lines_contribute (w : World) (ls : List String)
    (parts ps : List usb_partition) (st st1 : Sys)
    (h : update_partitions_lines w ls parts st = some (ps, st1)) :
    ∃ new, ps = parts ++ new ∧ lines_contribute w ls st new st1 := by
  induction ls generalizing parts st with
  | nil =>
    simp only [update_partitions_lines, Option.some.injEq, Prod.mk.injEq] at h
    obtain ⟨h1, h2⟩ := h
    subst h1; subst h2
    exact ⟨[], by simp, lines_contribute.nil _⟩
  | cons l ls ih =>
    simp only [update_partitions_lines] at h
    cases hl : update_partitions_line w l parts st with
    | none => rw [hl] at h; cases h
    | some res =>
      obtain ⟨parts1, st2⟩ := res
      rw [hl] at h
      simp only at h
      obtain ⟨o, ho, hc⟩ := update_partitions_line_contributes w l parts parts1 st st2 hl
      obtain ⟨new, hnew, hcs⟩ := ih parts1 st2 h
      refine ⟨o.toList ++ new, ?_, lines_contribute.cons l ls st st2 st1 o new hc hcs⟩
      rw [hnew, ho, List.append_assoc]

/-- C12: after `multirom_update_partitions` has returned 0, the partition list
is, in line order, what the lines of the enumeration contribute: nothing
for a line without UUID, the parsed partition without mount and without
mount path for a device whose name contains "mmcblk", the mounted partition
when `multirom_mount_usb` succeeds, nothing when it fails. The other fields
of the status are unchanged. -/
theorem update_partitions_list (w : World) (s s1 : multirom_status) (st st1 : Sys)
    (h : multirom_update_partitions w s st = some ((0, s1), st1)) :
    ∃ out,
      w.cmd_stdout (list_clear_partitions s.partitions st).trace [w.busybox_path, "blkid"] =
        some out ∧
      lines_contribute w (strtok_all '\n' out.data [])
        (emit (Ev.exec [w.busybox_path, "blkid"]) (list_clear_partitions s.partitions st))
        s1.partitions st1 ∧
      s1 = { s with partitions := s1.partitions } := by
  unfold multirom_update_partitions at h
  simp only at h
  cases ho : w.cmd_stdout (list_clear_partitions s.partitions st).trace [w.busybox_path, "blkid"] with
  | none => rw [ho] at h; simp at h
  | some out =>
    rw [ho] at h
    simp only at h
    cases hl : update_partitions_lines w (strtok_all '\n' out.data []) []
        (emit (Ev.exec [w.busybox_path, "blkid"]) (list_clear_partitions s.partitions st)) with
    | none => rw [hl] at h; cases h
    | some res =>
      obtain ⟨parts, st3⟩ := res
      rw [hl] at h
      simp only [Option.some.injEq, Prod.mk.injEq, true_and] at h
      obtain ⟨h1, h2⟩ := h
      subst h1; subst h2
      obtain ⟨new, hnew, hc⟩ := update_partitions_lines_contribute w _ [] parts _ _ hl
      simp only [List.nil_append] at hnew
      subst hnew
      exact ⟨out, rfl, hc, rfl⟩

/-- Clearing the partition list issues exactly the unmounts of the partitions
that are mounted and not kept. -/
theorem list_clear_partitions_trace (ps : List usb_partition) (st : Sys) :
    list_clear_partitions ps st = { st with trace := st.trace ++ umounts_of ps } := by
  unfold list_clear_partitions umounts_of
  induction ps generalizing st with
  | nil => simp
  | cons p ps ih =>
    simp only [List.foldl_cons]
    rw [ih]
    unfold multirom_destroy_partition
    cases hm : p.mount_path with
    | none => simp [List.filterMap_cons, hm]
    | some mp =>
      by_cases hk : p.keep_mounted = 0
      · simp [List.filterMap_cons, hm, hk, emit]
      · simp [List.filterMap_cons, hm, hk]

/-- The function `multirom_mount_usb` issues no unmount. -/
theorem mount_usb_no_umount (w : World) (part : usb_partition) (st : Sys)
    (res : (Int × usb_partition) × Sys) (h : multirom_mount_usb w part st = some res) :
    extends_by not_umount st res.2 := by
  unfold multirom_mount_usb at h
  have h2 : extends_by not_umount st
      (emit (Ev.mkdir ("/mnt/" ++ part.name)) (emit (Ev.mkdir "/mnt") st)) :=
    extends_by_trans (extends_by_emit (Ev.mkdir "/mnt") st (fun _ e => Ev.noConfusion e))
      (extends_by_emit (Ev.mkdir ("/mnt/" ++ part.name)) _ (fun _ e => Ev.noConfusion e))
  simp only at h
  split at h
  · cases h; exact h2
  · split at h
    · cases h
    · split at h
      · split at h <;> cases h <;>
          exact extends_by_trans h2 (extends_by_emit _ _ (fun _ e => Ev.noConfusion e))
      · split at h <;> cases h <;>
          exact extends_by_trans h2 (extends_by_emit _ _ (fun _ e => Ev.noConfusion e))

/-- One enumeration line issues no unmount. -/
theorem line_contributes_no_umount (w : World) (l : String) (st st1 : Sys)
    (o : Option usb_partition) (h : line_contributes w l st o st1) :
    extends_by not_umount st st1 := by
  cases h with
  | no_uuid _ => exact extends_by_next_addr _ _
  | internal => exact extends_by_next_addr _ _
  | mounted name uuid fs p1 st1 _ _ _ _ hm =>
    exact extends_by_trans (extends_by_next_addr st (st.next_addr + 1))
      (mount_usb_no_umount w _ _ _ hm)
  | mount_failed name uuid fs r p1 st1 _ _ _ _ hm _ =>
    exact extends_by_trans (extends_by_next_addr st (st.next_addr + 1))
      (mount_usb_no_umount w _ _ _ hm)

/-- The enumeration lines issue no unmount. -/
theorem lines_contribute_no_umount (w : World) (ls : List String) (st st1 : Sys)
    (ps : List usb_partition) (h : lines_contribute w ls st ps st1) :
    extends_by not_umount st st1 := by
  induction h with
  | nil => exact extends_by_refl _ _
  | cons l ls st st1 st2 o ps hl _ ih => exact extends_by_trans (line_contributes_no_umount w l _ _ o hl) ih

/-- C13: `multirom_free_status` issues exactly the unmounts of the partitions
that have a mount path and `keep_mounted == 0`, in list order;
`multirom_update_partitions` issues the same unmounts first and no other
unmount afterwards; an unmount of a path is among them only for a partition
with that mount path and `keep_mounted == 0`. -/
theorem keep_mounted_never_unmounted (w : World) (s : multirom_status) (st : Sys) :
    (multirom_free_status s st).2.trace = st.trace ++ umounts_of s.partitions ∧
    (∀ res, multirom_update_partitions w s st = some res →
      ∃ rest, res.2.trace = st.trace ++ umounts_of s.partitions ++ rest ∧
        ∀ e ∈ rest, not_umount e) ∧
    (∀ path, Ev.umount path ∈ umounts_of s.partitions ↔
      ∃ p ∈ s.partitions, p.mount_path = some path ∧ p.keep_mounted = 0) := by
  refine ⟨?_, ?_, ?_⟩
  · unfold multirom_free_status
    rw [list_clear_partitions_trace]
  · intro res h
    unfold multirom_update_partitions at h
    simp only at h
    rw [list_clear_partitions_trace] at h
    split at h
    · cases h
      exact ⟨[Ev.exec [w.busybox_path, "blkid"]], by simp [emit], by
        intro e he path hp; subst hp; simp at he⟩
    · split at h
      · cases h
      · rename_i parts st3 hl
        cases h
        obtain ⟨new, _, hc⟩ := update_partitions_lines_contribute w _ [] parts _ _ hl
        obtain ⟨rest, hrest, hall⟩ := lines_contribute_no_umount w _ _ _ _ hc
        refine ⟨Ev.exec [w.busybox_path, "blkid"] :: rest, ?_, ?_⟩
        · simp only [hrest, emit, List.append_assoc]; rfl
        · intro e he
          rcases List.mem_cons.mp he with h1 | h1
          · intro path hp; rw [h1] at hp; cases hp
          · exact hall e h1
  · intro path
    unfold umounts_of
    simp only [List.mem_filterMap]
    constructor
    · rintro ⟨p, hp, hx⟩
      by_cases hk : p.keep_mounted = 0
      · simp only [hk, if_true, Option.map_eq_some'] at hx
        obtain ⟨mp, hmp, he⟩ := hx
        cases he
        exact ⟨p, hp, hmp, hk⟩
      · simp [hk] at hx
    · rintro ⟨p, hp, hmp, hk⟩
      exact ⟨p, hp, by simp [hk, hmp]⟩

set_option maxRecDepth 100000 in
/-- C11 fails as stated: in a line with the keys PARTUUID, SEC_TYPE, UUID and
TYPE in this order, the parsed uuid is the value of PARTUUID and the parsed
fs is the value of SEC_TYPE. -/
theorem update_partitions_line_parse_counterexample :
    (update_partitions_line quiet_world
      "/dev/block/sda1: PARTUUID=\"0001\" SEC_TYPE=\"msdos\" UUID=\"ABCD-1234\" TYPE=\"vfat\"" []
      {}).map (fun r => r.1) =
      some [⟨1, "sda1", "0001", some "msdos", some "/mnt/sda1", 0⟩] ∧
    "0001" ≠ "ABCD-1234" ∧ "msdos" ≠ "vfat" := by
  decide

set_option maxRecDepth 100000 in
/-- The theorem `update_partitions_list` at `refresh_world`, and the evaluation
of the refresh. -/
theorem update_partitions_list_witness :
    (∃ out,
      refresh_world.cmd_stdout
        (list_clear_partitions refresh_status_before.partitions { next_addr := 100 }).trace
        [refresh_world.busybox_path, "blkid"] = some out ∧
      lines_contribute refresh_world (strtok_all '\n' out.data [])
        (emit (Ev.exec [refresh_world.busybox_path, "blkid"])
          (list_clear_partitions refresh_status_before.partitions { next_addr := 100 }))
        refresh_status_after.partitions refresh_state_after ∧
      refresh_status_after =
        { refresh_status_before with partitions := refresh_status_after.partitions }) ∧
    multirom_update_partitions refresh_world refresh_status_before { next_addr := 100 } =
      some ((0, refresh_status_after), refresh_state_after) :=
  ⟨update_partitions_list refresh_world refresh_status_before refresh_status_after
    { next_addr := 100 } refresh_state_after (by decide), by decide⟩

set_option maxRecDepth 100000 in
/-- The theorem `keep_mounted_never_unmounted` at `refresh_status_before`: the
only unmount is that of the partition that is not kept. -/
theorem keep_mounted_never_unmounted_witness :
    ((multirom_free_status refresh_status_before {}).2.trace =
        ({} : Sys).trace ++ umounts_of refresh_status_before.partitions ∧
      (∀ res, multirom_update_partitions refresh_world refresh_status_before {} = some res →
        ∃ rest, res.2.trace = ({} : Sys).trace ++ umounts_of refresh_status_before.partitions ++ rest ∧
          ∀ e ∈ rest, not_umount e) ∧
      (∀ path, Ev.umount path ∈ umounts_of refresh_status_before.partitions ↔
        ∃ p ∈ refresh_status_before.partitions, p.mount_path = some path ∧ p.keep_mounted = 0)) ∧
    umounts_of refresh_status_before.partitions = [Ev.umount "/mnt/sdd1"] ∧
    (multirom_free_status refresh_status_before {}).2.trace = [Ev.umount "/mnt/sdd1"] :=
  ⟨keep_mounted_never_unmounted refresh_world refresh_status_before {}, by decide, by decide⟩

/-! ## Theorems: loop mounts and Android mounts -/

/-- The result, the events and the counter of one call of `multirom_mount_loop`,
for each of its six outcomes. -/
theorem mount_loop_outcome (w : World) (src dst : String) (flags : Nat) (st : Sys) :
    ∃ r st1, multirom_mount_loop w src dst flags st = some (r, st1) ∧
      (r = 0 ↔ (loop_file_opens w src st = true ∧ loop_node_made w src st = true ∧
        loop_dev_opens w src st = true ∧ loop_ioctl_ok w src st = true ∧
        loop_mount_ok w src dst flags st = true)) ∧
      (r = 0 ∨ r = -1) ∧
      st1.trace = st.trace ++
        (if loop_file_opens w src st = false then [Ev.open_rdwr src]
         else if loop_node_made w src st = false then
           [Ev.open_rdwr src, Ev.mknod (loop_path st) st.loop_devs, Ev.close src]
         else if loop_dev_opens w src st = false then
           [Ev.open_rdwr src, Ev.mknod (loop_path st) st.loop_devs, Ev.open_rdwr (loop_path st),
            Ev.close src]
         else if loop_ioctl_ok w src st = false then
           [Ev.open_rdwr src, Ev.mknod (loop_path st) st.loop_devs, Ev.open_rdwr (loop_path st),
            Ev.ioctl_loop_set_fd (loop_path st) src, Ev.close (loop_path st), Ev.close src]
         else
           [Ev.open_rdwr src, Ev.mknod (loop_path st) st.loop_devs, Ev.open_rdwr (loop_path st),
            Ev.ioctl_loop_set_fd (loop_path st) src,
            Ev.mount (loop_path st) dst "ext4" flags, Ev.close (loop_path st), Ev.close src]) ∧
      st1.loop_devs = st.loop_devs +
        (if loop_file_opens w src st = true ∧ loop_node_made w src st = true then 1 else 0) ∧
      st1.next_addr = st.next_addr := by
  unfold multirom_mount_loop loop_file_opens loop_node_made loop_dev_opens loop_ioctl_ok
    loop_mount_ok loop_path
  simp only [emit, List.append_assoc, List.singleton_append, List.cons_append, List.nil_append]
  cases h1 : w.open_ok st.trace src
  · exact ⟨_, _, rfl, by simp, by simp, by simp, by simp, rfl⟩
  · cases h2 : w.mknod_ok (st.trace ++ [Ev.open_rdwr src]) ("/dev/loop" ++ fmt_d st.loop_devs)
    · exact ⟨_, _, rfl, by simp, by simp, by simp, by simp, rfl⟩
    · cases h3 : w.open_ok (st.trace ++ [Ev.open_rdwr src,
          Ev.mknod ("/dev/loop" ++ fmt_d st.loop_devs) st.loop_devs])
          ("/dev/loop" ++ fmt_d st.loop_devs)
      · exact ⟨_, _, rfl, by simp, by simp, by simp, by simp, rfl⟩
      · cases h4 : w.ioctl_ok (st.trace ++ [Ev.open_rdwr src,
            Ev.mknod ("/dev/loop" ++ fmt_d st.loop_devs) st.loop_devs,
            Ev.open_rdwr ("/dev/loop" ++ fmt_d st.loop_devs)])
            ("/dev/loop" ++ fmt_d st.loop_devs) src
        · exact ⟨_, _, rfl, by simp, by simp, by simp, by simp, rfl⟩
        · cases h5 : w.mount_ok (st.trace ++ [Ev.open_rdwr src,
              Ev.mknod ("/dev/loop" ++ fmt_d st.loop_devs) st.loop_devs,
              Ev.open_rdwr ("/dev/loop" ++ fmt_d st.loop_devs),
              Ev.ioctl_loop_set_fd ("/dev/loop" ++ fmt_d st.loop_devs) src])
              ("/dev/loop" ++ fmt_d st.loop_devs) dst "ext4" flags
          · exact ⟨_, _, rfl, by simp, by simp, by simp, by simp, rfl⟩
          · exact ⟨_, _, rfl, by simp, by simp, by simp, by simp, rfl⟩

/-- C18: `multirom_mount_loop` always returns; the result is 0 exactly when the
open of the backing file, `mknod`, the open of the device, the `LOOP_SET_FD`
ioctl and the mount all succeed, and -1 otherwise. The events of the call
are listed for each outcome: the backing file is closed once exactly when
it was opened, the device is closed once exactly when it was opened, and
nothing is closed that was not opened. The counter `loop_devs` advances
exactly when the node was made. -/
theorem mount_loop_descriptors (w : World) (src dst : String) (flags : Nat) (st : Sys) :
    ∃ r st1, multirom_mount_loop w src dst flags st = some (r, st1) ∧
      (r = 0 ↔ (loop_file_opens w src st = true ∧ loop_node_made w src st = true ∧
        loop_dev_opens w src st = true ∧ loop_ioctl_ok w src st = true ∧
        loop_mount_ok w src dst flags st = true)) ∧
      (r = 0 ∨ r = -1) ∧
      st1.trace = st.trace ++
        (if loop_file_opens w src st = false then [Ev.open_rdwr src]
         else if loop_node_made w src st = false then
           [Ev.open_rdwr src, Ev.mknod (loop_path st) st.loop_devs, Ev.close src]
         else if loop_dev_opens w src st = false then
           [Ev.open_rdwr src, Ev.mknod (loop_path st) st.loop_devs, Ev.open_rdwr (loop_path st),
            Ev.close src]
         else if loop_ioctl_ok w src st = false then
           [Ev.open_rdwr src, Ev.mknod (loop_path st) st.loop_devs, Ev.open_rdwr (loop_path st),
            Ev.ioctl_loop_set_fd (loop_path st) src, Ev.close (loop_path st), Ev.close src]
         else
           [Ev.open_rdwr src, Ev.mknod (loop_path st) st.loop_devs, Ev.open_rdwr (loop_path st),
            Ev.ioctl_loop_set_fd (loop_path st) src,
            Ev.mount (loop_path st) dst "ext4" flags, Ev.close (loop_path st), Ev.close src]) ∧
      st1.loop_devs = st.loop_devs +
        (if loop_file_opens w src st = true ∧ loop_node_made w src st = true then 1 else 0) ∧
      st1.next_addr = st.next_addr :=
  mount_loop_outcome w src dst flags st

/-- The `mknod` calls of two event lists in a row. -/
theorem mknod_attempts_append (w : World) (pre a b : List Ev) :
    mknod_attempts w pre (a ++ b) = mknod_attempts w pre a ++ mknod_attempts w (pre ++ a) b := by
  induction a generalizing pre with
  | nil => simp [mknod_attempts]
  | cons e a ih =>
    cases e <;> simp [mknod_attempts, ih, List.append_assoc]

/-- Events without `mknod` hold no `mknod` call. -/
theorem mknod_attempts_other (w : World) (pre other : List Ev)
    (h : ∀ e ∈ other, not_mknod e) : mknod_attempts w pre other = [] := by
  induction other generalizing pre with
  | nil => simp [mknod_attempts]
  | cons e other ih =>
    have he := h e (by simp)
    have hr : ∀ e ∈ other, not_mknod e := fun x hx => h x (by simp [hx])
    cases e <;> first
      | exact absurd rfl (he _ _)
      | simp [mknod_attempts, ih _ hr]

/-- One call of `multirom_mount_loop` issues at most one `mknod`, with the index
`loop_devs`, and the counter advances when it succeeds. -/
theorem mount_loop_attempts (w : World) (src dst : String) (flags : Nat) (st : Sys) :
    ∃ r st1 new, multirom_mount_loop w src dst flags st = some (r, st1) ∧
      st1.trace = st.trace ++ new ∧
      (∀ a ∈ mknod_attempts w st.trace new, a.1 = st.loop_devs ∧
        (a.2 = true → st.loop_devs < st1.loop_devs)) ∧
      (mknod_attempts w st.trace new).length ≤ 1 ∧
      st.loop_devs ≤ st1.loop_devs := by
  obtain ⟨r, st1, hrun, _, _, htr, hld, _⟩ := mount_loop_outcome w src dst flags st
  refine ⟨r, st1, _, hrun, htr, ?_, ?_, by omega⟩
  · unfold loop_file_opens loop_node_made at hld
    cases h1 : loop_file_opens w src st
    · simp [mknod_attempts]
    · unfold loop_file_opens at h1
      cases h2 : loop_node_made w src st <;> unfold loop_node_made at h2
      · simp [mknod_attempts, h2]
      · cases h3 : loop_dev_opens w src st
        · simp [mknod_attempts, h2, hld, h1]
        · cases h4 : loop_ioctl_ok w src st <;> simp [mknod_attempts, h2, hld, h1]
  · split
    · simp [mknod_attempts]
    · split
      · simp [mknod_attempts]
      · split
        · simp [mknod_attempts]
        · split <;> simp [mknod_attempts]

/-- In a sequence of calls of `multirom_mount_loop` the indices handed to
`mknod` never decrease, and every later index is strictly greater than an
index whose `mknod` succeeded. -/
theorem mount_loop_calls_order (w : World) (calls : List (List Ev × String × String × Nat))
    (st : Sys) (hother : ∀ c ∈ calls, ∀ e ∈ c.1, not_mknod e) :
    ∃ rs st1 new, mount_loop_calls w calls st = some (rs, st1) ∧ st1.trace = st.trace ++ new ∧
      List.Pairwise (fun a b => a.1 ≤ b.1 ∧ (a.2 = true → a.1 < b.1))
        (mknod_attempts w st.trace new) ∧
      (∀ a ∈ mknod_attempts w st.trace new, st.loop_devs ≤ a.1) := by
  induction calls generalizing st with
  | nil => exact ⟨[], st, [], rfl, by simp, by simp [mknod_attempts], by simp [mknod_attempts]⟩
  | cons c cs ih =>
    obtain ⟨other, src, dst, flags⟩ := c
    have ho : ∀ e ∈ other, not_mknod e := hother (other, src, dst, flags) (by simp)
    have hcs : ∀ c ∈ cs, ∀ e ∈ c.1, not_mknod e := fun c hc => hother c (by simp [hc])
    obtain ⟨r, st1, new1, hrun, htr1, hat, hlen, hle⟩ :=
      mount_loop_attempts w src dst flags { st with trace := st.trace ++ other }
    have hle1 : st.loop_devs ≤ st1.loop_devs := hle
    have hat1 : ∀ a ∈ mknod_attempts w (st.trace ++ other) new1, a.1 = st.loop_devs ∧
        (a.2 = true → st.loop_devs < st1.loop_devs) := hat
    have htr1a : st1.trace = st.trace ++ other ++ new1 := htr1
    obtain ⟨rs, st2, new2, hrun2, htr2, hpw, hge⟩ := ih st1 hcs
    refine ⟨r :: rs, st2, other ++ (new1 ++ new2), ?_, ?_, ?_, ?_⟩
    · simp only [mount_loop_calls, hrun, hrun2]
    · rw [htr2, htr1a]; simp [List.append_assoc]
    · rw [mknod_attempts_append, mknod_attempts_other w _ other ho, List.nil_append,
        mknod_attempts_append]
      rw [List.pairwise_append]
      refine ⟨?_, ?_, ?_⟩
      · -- at most one attempt in a call, all with the same index and no success before another
        rw [List.pairwise_iff_forall_sublist]
        intro a b hab
        exfalso
        have := hab.length_le
        have hlen1 : (mknod_attempts w (st.trace ++ other) new1).length ≤ 1 := hlen
        simp at this
        omega
      · rw [← htr1a]; exact hpw
      · intro a ha b hb
        rw [← htr1a] at hb
        have h1 := hat1 a ha
        have h2 := hge b hb
        refine ⟨by omega, fun hs => ?_⟩
        have := h1.2 hs
        omega
    · intro a ha
      rw [mknod_attempts_append, mknod_attempts_other w _ other ho, List.nil_append,
        mknod_attempts_append] at ha
      rcases List.mem_append.mp ha with h | h
      · have := (hat1 a h).1
        omega
      · rw [← htr1a] at h
        have := hge a h
        omega

/-- One call of `multirom_mount_loop` issues no `mknod` and leaves the counter,
or issues one `mknod` with the index `loop_devs` and advances the counter
exactly when that call succeeds. -/
theorem mount_loop_attempt (w : World) (src dst : String) (flags : Nat) (st : Sys) :
    ∃ r st1 new, multirom_mount_loop w src dst flags st = some (r, st1) ∧
      st1.trace = st.trace ++ new ∧
      ((mknod_attempts w st.trace new = [] ∧ st1.loop_devs = st.loop_devs) ∨
       (∃ ok, mknod_attempts w st.trace new = [(st.loop_devs, ok)] ∧
          st1.loop_devs = st.loop_devs + (if ok = true then 1 else 0))) := by
  obtain ⟨r, st1, hrun, _, _, htr, hld, _⟩ := mount_loop_outcome w src dst flags st
  refine ⟨r, st1, _, hrun, htr, ?_⟩
  unfold loop_file_opens loop_node_made at hld
  cases h1 : loop_file_opens w src st
  · left
    unfold loop_file_opens at h1
    simp [mknod_attempts, h1] at hld ⊢
    exact hld
  · right
    unfold loop_file_opens at h1
    cases h2 : loop_node_made w src st <;> unfold loop_node_made at h2
    · refine ⟨false, ?_, ?_⟩
      · simp [mknod_attempts, h2]
      · simp [h1, h2] at hld ⊢; exact hld
    · refine ⟨true, ?_, ?_⟩
      · cases h3 : loop_dev_opens w src st
        · simp [mknod_attempts, h2]
        · cases h4 : loop_ioctl_ok w src st <;> simp [mknod_attempts, h2]
      · simp [h1, h2] at hld ⊢; exact hld

/-- The indices of two runs of `mknod` calls in a row. -/
theorem mknod_indices_from_append (start : Nat) (a b : List (Nat × Bool))
    (ha : mknod_indices_from start a)
    (hb : mknod_indices_from (start + (a.filter (fun x => x.2)).length) b) :
    mknod_indices_from start (a ++ b) := by
  induction a generalizing start with
  | nil => simpa using hb
  | cons x a ih =>
    obtain ⟨h1, h2⟩ := ha
    refine ⟨h1, ?_⟩
    apply ih _ h2
    cases hx : x.2
    · simp only [hx, Bool.false_eq_true, if_false]
      simpa [List.filter, hx] using hb
    · simp only [hx, if_true]
      have : start + 1 + (List.filter (fun x => x.2) a).length =
          start + (List.filter (fun x => x.2) (x :: a)).length := by
        simp [List.filter, hx]; omega
      rw [this]; exact hb

/-- In a sequence of calls of `multirom_mount_loop` every `mknod` uses the
counter as it stands, and the counter advances by the number of `mknod` calls
that succeed. -/
theorem mount_loop_calls_counter (w : World) (calls : List (List Ev × String × String × Nat))
    (st : Sys) (hother : ∀ c ∈ calls, ∀ e ∈ c.1, not_mknod e) :
    ∃ rs st1 new, mount_loop_calls w calls st = some (rs, st1) ∧ st1.trace = st.trace ++ new ∧
      mknod_indices_from st.loop_devs (mknod_attempts w st.trace new) ∧
      st1.loop_devs =
        st.loop_devs + ((mknod_attempts w st.trace new).filter (fun a => a.2)).length := by
  induction calls generalizing st with
  | nil =>
    exact ⟨[], st, [], rfl, by simp, by simp [mknod_attempts, mknod_indices_from],
      by simp [mknod_attempts]⟩
  | cons c cs ih =>
    obtain ⟨other, src, dst, flags⟩ := c
    have ho : ∀ e ∈ other, not_mknod e := hother (other, src, dst, flags) (by simp)
    have hcs : ∀ c ∈ cs, ∀ e ∈ c.1, not_mknod e := fun c hc => hother c (by simp [hc])
    obtain ⟨r, st1, new1, hrun, htr1, hat⟩ :=
      mount_loop_attempt w src dst flags { st with trace := st.trace ++ other }
    have htr1a : st1.trace = st.trace ++ other ++ new1 := htr1
    have hat1 : (mknod_attempts w (st.trace ++ other) new1 = [] ∧
        st1.loop_devs = st.loop_devs) ∨
        (∃ ok, mknod_attempts w (st.trace ++ other) new1 = [(st.loop_devs, ok)] ∧
          st1.loop_devs = st.loop_devs + (if ok = true then 1 else 0)) := hat
    obtain ⟨rs, st2, new2, hrun2, htr2, hfrom, hcnt⟩ := ih st1 hcs
    refine ⟨r :: rs, st2, other ++ (new1 ++ new2), ?_, ?_, ?_, ?_⟩
    · simp only [mount_loop_calls, hrun, hrun2]
    · rw [htr2, htr1a]; simp [List.append_assoc]
    · rw [mknod_attempts_append, mknod_attempts_other w _ other ho, List.nil_append,
        mknod_attempts_append, ← htr1a]
      rcases hat1 with ⟨h0, hl⟩ | ⟨ok, h0, hl⟩
      · rw [h0, List.nil_append, ← hl]; exact hfrom
      · rw [h0]
        refine mknod_indices_from_append _ _ _ ⟨rfl, trivial⟩ ?_
        cases ok
        · simp only [Bool.false_eq_true, if_false, Nat.add_zero] at hl
          simpa [List.filter, hl] using hfrom
        · simp only [if_true] at hl
          simpa [List.filter, hl] using hfrom
    · rw [mknod_attempts_append, mknod_attempts_other w _ other ho, List.nil_append,
        mknod_attempts_append, ← htr1a, List.filter_append, List.length_append, hcnt]
      rcases hat1 with ⟨h0, hl⟩ | ⟨ok, h0, hl⟩
      · rw [h0, hl]; simp
      · rw [h0, hl]
        cases ok <;> first
          | (simp [List.filter]; done)
          | (simp [List.filter]; omega)

/-- C17 (amended): for every sequence of calls of `multirom_mount_loop` in one
process, with any other events between the calls and any outcome of every
step, the indices handed to `mknod` never decrease, and every later index is
strictly greater than an index whose `mknod` succeeded: no index on which a
device node was created is used again. Each `mknod` uses the counter as it
stands: a call whose `mknod` fails leaves the counter unchanged, so that the
next call uses the same index again, a call whose `mknod` succeeds advances it
by one, and at the end the counter has advanced by the number of `mknod`
calls that succeeded. -/
theorem mount_loop_calls_indices (w : World) (calls : List (List Ev × String × String × Nat))
    (st : Sys) (hother : ∀ c ∈ calls, ∀ e ∈ c.1, not_mknod e) :
    ∃ rs st1 new, mount_loop_calls w calls st = some (rs, st1) ∧ st1.trace = st.trace ++ new ∧
      List.Pairwise (fun a b => a.1 ≤ b.1 ∧ (a.2 = true → a.1 < b.1))
        (mknod_attempts w st.trace new) ∧
      (∀ a ∈ mknod_attempts w st.trace new, st.loop_devs ≤ a.1) ∧
      mknod_indices_from st.loop_devs (mknod_attempts w st.trace new) ∧
      st1.loop_devs =
        st.loop_devs + ((mknod_attempts w st.trace new).filter (fun a => a.2)).length := by
  obtain ⟨rs, st1, new, hrun, htr, hpw, hge⟩ := mount_loop_calls_order w calls st hother
  obtain ⟨rs2, st2, new2, hrun2, htr2, hfrom, hcnt⟩ := mount_loop_calls_counter w calls st hother
  rw [hrun] at hrun2
  simp only [Option.some.injEq, Prod.mk.injEq] at hrun2
  obtain ⟨h1, h2⟩ := hrun2
  subst h1 h2
  have hnew : new2 = new := List.append_cancel_left (htr2.symm.trans htr)
  subst hnew
  exact ⟨_, _, _, hrun, htr, hpw, hge, hfrom, hcnt⟩

set_option maxRecDepth 100000 in
/-- C17 fails as stated: when `mknod` fails the counter does not advance, and
two calls in a row use the same index 0. -/
theorem mount_loop_calls_counterexample :
    (mount_loop_calls no_mknod_world
        [([], "/a/system.img", "/system", 1025), ([], "/a/data.img", "/data", 1024)] {}).map
      (fun r => (r.1, mknod_attempts no_mknod_world [] r.2.trace)) =
      some ([-1, -1], [(0, false), (0, false)]) ∧
    ¬ List.Pairwise (fun a b : Nat => a < b) [0, 0] := by
  decide

set_option maxRecDepth 100000 in
/-- The theorem `mount_loop_calls_indices` at three calls of which the first
fails at `mknod`: the indices are 0, 0, 1, and the counter ends at 2. -/
theorem mount_loop_calls_indices_witness :
    (∃ rs st1 new, mount_loop_calls late_mknod_world sample_loop_calls {} = some (rs, st1) ∧
      st1.trace = ({} : Sys).trace ++ new ∧
      List.Pairwise (fun a b => a.1 ≤ b.1 ∧ (a.2 = true → a.1 < b.1))
        (mknod_attempts late_mknod_world ({} : Sys).trace new) ∧
      (∀ a ∈ mknod_attempts late_mknod_world ({} : Sys).trace new, ({} : Sys).loop_devs ≤ a.1) ∧
      mknod_indices_from ({} : Sys).loop_devs
        (mknod_attempts late_mknod_world ({} : Sys).trace new) ∧
      st1.loop_devs = ({} : Sys).loop_devs +
        ((mknod_attempts late_mknod_world ({} : Sys).trace new).filter (fun a => a.2)).length) ∧
    (mount_loop_calls late_mknod_world sample_loop_calls {}).map
      (fun r => (r.1, mknod_attempts late_mknod_world [] r.2.trace, r.2.loop_devs)) =
      some ([-1, 0, 0], [(0, false), (0, true), (1, true)], 2) ∧
    mknod_indices_from 0 [(0, false), (0, true), (1, true)] :=
  ⟨mount_loop_calls_indices late_mknod_world sample_loop_calls {} (by decide), by decide,
    by decide⟩

/-- C19: once the `boot` directory of the ROM is read, the mount phase of
`multirom_prep_android_mounts` is: for a ROM that is not ROM_ANDROID_USB_IMG,
the mounts of `<base>/system` on `/system` with `MS_BIND | MS_RDONLY`, of
`<base>/data` on `/data` and of `<base>/cache` on `/cache` with `MS_BIND`,
in this order, stopping with -1 at the first that fails and returning 0
exactly when all three succeed; for ROM_ANDROID_USB_IMG the loop mounts of
`system.img` (`MS_RDONLY | MS_NOATIME`), `data.img` and `cache.img`
(`MS_NOATIME`), in this order, stopping with -1 at the first that fails and
returning 0 exactly when all three succeed. -/
theorem prep_android_mounts_order (w : World) (rom : multirom_rom) (st : Sys)
    (entries : List dirent)
    (hdir : w.readdir st.trace (rom.base_path ++ "/boot") = some entries) :
    (rom.type ≠ ROM_ANDROID_USB_IMG →
      ∃ r st2, multirom_prep_android_mounts w rom st = some (r, st2) ∧ (r = 0 ∨ r = -1) ∧
        (r = 0 ↔
          (bind_mount_ok w rom (prep_android_files_state w rom entries st).trace "system"
              (MS_BIND ||| MS_RDONLY) = true ∧
            bind_mount_ok w rom ((prep_android_files_state w rom entries st).trace ++
              [bind_mount_ev rom "system" (MS_BIND ||| MS_RDONLY)]) "data" MS_BIND = true ∧
            bind_mount_ok w rom ((prep_android_files_state w rom entries st).trace ++
              [bind_mount_ev rom "system" (MS_BIND ||| MS_RDONLY), bind_mount_ev rom "data" MS_BIND])
              "cache" MS_BIND = true)) ∧
        st2.trace = (prep_android_files_state w rom entries st).trace ++
          (if bind_mount_ok w rom (prep_android_files_state w rom entries st).trace "system"
              (MS_BIND ||| MS_RDONLY) = false then
            [bind_mount_ev rom "system" (MS_BIND ||| MS_RDONLY)]
          else if bind_mount_ok w rom ((prep_android_files_state w rom entries st).trace ++
              [bind_mount_ev rom "system" (MS_BIND ||| MS_RDONLY)]) "data" MS_BIND = false then
            [bind_mount_ev rom "system" (MS_BIND ||| MS_RDONLY), bind_mount_ev rom "data" MS_BIND]
          else
            [bind_mount_ev rom "system" (MS_BIND ||| MS_RDONLY), bind_mount_ev rom "data" MS_BIND,
             bind_mount_ev rom "cache" MS_BIND])) ∧
    (rom.type = ROM_ANDROID_USB_IMG →
      ∃ r1 s1, multirom_mount_loop w (rom.base_path ++ "/system.img") "/system"
          (MS_RDONLY ||| MS_NOATIME) (prep_android_files_state w rom entries st) = some (r1, s1) ∧
        (r1 ≠ 0 → multirom_prep_android_mounts w rom st = some (-1, s1)) ∧
        (r1 = 0 →
          ∃ r2 s2, multirom_mount_loop w (rom.base_path ++ "/data.img") "/data" MS_NOATIME s1 =
              some (r2, s2) ∧
            (r2 ≠ 0 → multirom_prep_android_mounts w rom st = some (-1, s2)) ∧
            (r2 = 0 →
              ∃ r3 s3, multirom_mount_loop w (rom.base_path ++ "/cache.img") "/cache" MS_NOATIME
                  s2 = some (r3, s3) ∧
                multirom_prep_android_mounts w rom st = some (if r3 = 0 then 0 else -1, s3)))) := by
  constructor
  · intro hty
    unfold multirom_prep_android_mounts
    simp only [hdir, hty, decide_False, android_mount_table, prep_android_mount_loop,
      Bool.false_eq_true, if_false, if_true]
    unfold bind_mount_ok bind_mount_ev prep_android_files_state
    simp only [emit, List.append_assoc, List.singleton_append, List.cons_append, List.nil_append]
    cases h1 : w.mount_ok _ (rom.base_path ++ "/" ++ "system") ("/" ++ "system") "ext4"
        (MS_BIND ||| MS_RDONLY)
    · exact ⟨_, _, rfl, by simp, by simp, by simp⟩
    · simp only [if_true]
      cases h2 : w.mount_ok _ (rom.base_path ++ "/" ++ "data") ("/" ++ "data") "ext4" MS_BIND
      · exact ⟨_, _, rfl, by simp, by simp, by simp⟩
      · simp only [if_true]
        cases h3 : w.mount_ok _ (rom.base_path ++ "/" ++ "cache") ("/" ++ "cache") "ext4" MS_BIND
        · exact ⟨_, _, rfl, by simp, by simp, by simp⟩
        · exact ⟨_, _, rfl, by simp, by simp, by simp⟩
  · intro hty
    have hres : multirom_prep_android_mounts w rom st =
        prep_android_mount_loop w rom true android_mount_table
          (prep_android_files_state w rom entries st) := by
      unfold multirom_prep_android_mounts
      simp only [hdir, hty, decide_True]
      rfl
    rw [hres]
    simp only [android_mount_table, prep_android_mount_loop, Bool.true_eq_false, if_false]
    obtain ⟨r1, s1, h1, _, hr1, _⟩ := mount_loop_outcome w (rom.base_path ++ "/system.img")
      "/system" (MS_RDONLY ||| MS_NOATIME) (prep_android_files_state w rom entries st)
    have e1 : rom.base_path ++ "/" ++ "system.img" = rom.base_path ++ "/system.img" := by
      rw [String.append_assoc]; rfl
    have e2 : rom.base_path ++ "/" ++ "data.img" = rom.base_path ++ "/data.img" := by
      rw [String.append_assoc]; rfl
    have e3 : rom.base_path ++ "/" ++ "cache.img" = rom.base_path ++ "/cache.img" := by
      rw [String.append_assoc]; rfl
    have f1 : ("/" ++ "system" : String) = "/system" := rfl
    have f2 : ("/" ++ "data" : String) = "/data" := rfl
    have f3 : ("/" ++ "cache" : String) = "/cache" := rfl
    simp only [e1, e2, e3, f1, f2, f3, h1]
    refine ⟨r1, s1, rfl, ?_, ?_⟩
    · intro hne
      have : r1 = -1 := by rcases hr1 with h | h; exact absurd h hne; exact h
      simp [this]
    · intro h0
      subst h0
      simp only [lt_self_iff_false, if_false]
      obtain ⟨r2, s2, h2, _, hr2, _⟩ := mount_loop_outcome w (rom.base_path ++ "/data.img")
        "/data" MS_NOATIME s1
      simp only [h2]
      refine ⟨r2, s2, rfl, ?_, ?_⟩
      · intro hne
        have : r2 = -1 := by rcases hr2 with h | h; exact absurd h hne; exact h
        simp [this]
      · intro h0
        subst h0
        simp only [lt_self_iff_false, if_false]
        obtain ⟨r3, s3, h3, _, hr3, _⟩ := mount_loop_outcome w (rom.base_path ++ "/cache.img")
          "/cache" MS_NOATIME s2
        simp only [h3]
        refine ⟨r3, s3, rfl, ?_⟩
        rcases hr3 with h | h <;> simp [h]

set_option maxRecDepth 100000 in
/-- The theorem `prep_android_mounts_order` at a directory ROM whose `data`
mount fails: -1 after the mounts of `system` and `data`, `cache` not tried. -/
theorem prep_android_mounts_order_witness :
    (∃ r st2, multirom_prep_android_mounts android_dir_world sample_android_rom {} = some (r, st2) ∧
      (r = 0 ∨ r = -1) ∧
      (r = 0 ↔
        (bind_mount_ok android_dir_world sample_android_rom
            (prep_android_files_state android_dir_world sample_android_rom [⟨"init", 8⟩] {}).trace
            "system" (MS_BIND ||| MS_RDONLY) = true ∧
          bind_mount_ok android_dir_world sample_android_rom
            ((prep_android_files_state android_dir_world sample_android_rom [⟨"init", 8⟩] {}).trace ++
              [bind_mount_ev sample_android_rom "system" (MS_BIND ||| MS_RDONLY)]) "data" MS_BIND =
            true ∧
          bind_mount_ok android_dir_world sample_android_rom
            ((prep_android_files_state android_dir_world sample_android_rom [⟨"init", 8⟩] {}).trace ++
              [bind_mount_ev sample_android_rom "system" (MS_BIND ||| MS_RDONLY),
               bind_mount_ev sample_android_rom "data" MS_BIND]) "cache" MS_BIND = true)) ∧
      st2.trace =
        (prep_android_files_state android_dir_world sample_android_rom [⟨"init", 8⟩] {}).trace ++
        (if bind_mount_ok android_dir_world sample_android_rom
            (prep_android_files_state android_dir_world sample_android_rom [⟨"init", 8⟩] {}).trace
            "system" (MS_BIND ||| MS_RDONLY) = false then
          [bind_mount_ev sample_android_rom "system" (MS_BIND ||| MS_RDONLY)]
        else if bind_mount_ok android_dir_world sample_android_rom
            ((prep_android_files_state android_dir_world sample_android_rom [⟨"init", 8⟩] {}).trace ++
              [bind_mount_ev sample_android_rom "system" (MS_BIND ||| MS_RDONLY)]) "data" MS_BIND =
            false then
          [bind_mount_ev sample_android_rom "system" (MS_BIND ||| MS_RDONLY),
           bind_mount_ev sample_android_rom "data" MS_BIND]
        else
          [bind_mount_ev sample_android_rom "system" (MS_BIND ||| MS_RDONLY),
           bind_mount_ev sample_android_rom "data" MS_BIND,
           bind_mount_ev sample_android_rom "cache" MS_BIND])) ∧
    (multirom_prep_android_mounts android_dir_world sample_android_rom {}).map
        (fun r => (r.1, r.2.trace.drop 4)) =
      some (-1, [Ev.mount "/realdata/media/multirom/roms/cm/system" "/system" "ext4" 4097,
        Ev.mount "/realdata/media/multirom/roms/cm/data" "/data" "ext4" 4096]) :=
  ⟨(prep_android_mounts_order android_dir_world sample_android_rom {} [⟨"init", 8⟩]
    (by decide)).1 (by decide), by decide⟩

/-! ## Theorems: init-script rewrite -/

/-- The marking `rc_skipped` has one entry for each line (bounded form). -/
theorem rc_skipped_length_le (n : Nat) :
    ∀ ls : List String, ls.length ≤ n → (rc_skipped ls).length = ls.length := by
  induction n with
  | zero =>
    intro ls h
    have : ls = [] := List.eq_nil_of_length_eq_zero (by omega)
    subst this; rfl
  | succ n ihn =>
    intro ls h
    cases ls with
    | nil => rfl
    | cons a as =>
      unfold rc_skipped
      simp only [List.length_cons]
      split
      · cases as with
        | nil => rfl
        | cons b bs =>
          simp only [List.length_cons]
          have := ihn bs (by simp at h; omega)
          omega
      · have := ihn as (by simp at h; omega)
        omega

/-- The marking `rc_skipped` has one entry for each line. -/
theorem rc_skipped_length (lines : List String) : (rc_skipped lines).length = lines.length :=
  rc_skipped_length_le lines.length lines (le_refl _)

/-- The output of the init-script rewrite is the concatenation, in the order of
the input lines, of one piece for each line, and each piece is what
`rc_piece` allows for its line. -/
theorem rewrite_rc_pieces (d : Int) (lines : List String) :
    ∃ pieces, (rewrite_rc d lines).1 = concat_all pieces ∧
      List.Forall₂ (fun (x : String × Bool) piece => rc_piece x.1 x.2 piece)
        (lines.zip (rc_skipped lines)) pieces := by
  induction d, lines using rewrite_rc.induct with
  | case1 d => exact ⟨[], rfl, List.Forall₂.nil⟩
  | case2 d line rest hon ih =>
    obtain ⟨ps, hps, hf⟩ := ih
    refine ⟨line :: ps, ?_, ?_⟩
    · rw [rewrite_rc.eq_def]
      simp only [hon, if_true, concat_all, hps]
    · rw [rc_skipped.eq_def]
      simp only [hon, Bool.true_eq_false, false_and, if_false, List.zip_cons_cons]
      refine List.Forall₂.cons ⟨by simp, fun _ _ => rfl, ?_, fun _ _ _ => rfl⟩ hf
      intro _ h; rw [hon] at h; cases h
  | case3 d line rest hon hm ih =>
    obtain ⟨ps, hps, hf⟩ := ih
    have hon' : str_contains line "on " = false := by simpa using hon
    refine ⟨((if d = 1 then "    export DUMMY_LINE_INGORE_IT 1\n" else "") ++ "#" ++ line) :: ps, ?_, ?_⟩
    · rw [rewrite_rc.eq_def]
      simp only [hon', Bool.false_eq_true, if_false, hm, if_true, concat_all, hps]
    · rw [rc_skipped.eq_def]
      simp only [hm, Bool.true_eq_false, false_and, and_false, if_false,
        List.zip_cons_cons]
      refine List.Forall₂.cons ⟨by simp, ?_, ?_, ?_⟩ hf
      · intro _ h; rw [hon'] at h; cases h
      · intro _ _ _
        by_cases hd : d = 1
        · right; simp only [hd, if_true, DUMMY_LINE, String.append_assoc]
        · left; simp only [hd, if_false, String.empty_append]
      · intro _ h; rw [hm] at h; cases h
  | case4 d line hon hm hs =>
    have hon' : str_contains line "on " = false := by simpa using hon
    have hm' : rc_is_mount line = false := by simpa using hm
    refine ⟨[line ++ "    class main\n"], ?_, ?_⟩
    · rw [rewrite_rc.eq_def]
      simp only [hon', hm', Bool.false_eq_true, if_false, hs, if_true, concat_all,
        String.append_empty]
    · rw [rc_skipped.eq_def]
      simp only [hon', hm', hs, and_self, if_true, List.zip_cons_cons, List.zip_nil_left]
      refine List.Forall₂.cons ⟨by simp, ?_, ?_, ?_⟩ List.Forall₂.nil
      · intro _ h; rw [hon'] at h; cases h
      · intro _ _ h; rw [hm'] at h; cases h
      · intro _ _ h; rw [hs] at h; cases h
  | case5 d line hon hm hs head rest1 ih =>
    obtain ⟨ps, hps, hf⟩ := ih
    have hon' : str_contains line "on " = false := by simpa using hon
    have hm' : rc_is_mount line = false := by simpa using hm
    refine ⟨(line ++ "    class main\n") :: "" :: ps, ?_, ?_⟩
    · rw [rewrite_rc.eq_def]
      simp only [hon', hm', Bool.false_eq_true, if_false, hs, if_true, concat_all,
        hps, String.empty_append]
    · rw [rc_skipped.eq_def]
      simp only [hon', hm', hs, and_self, if_true, List.zip_cons_cons]
      refine List.Forall₂.cons ⟨by simp, ?_, ?_, ?_⟩
        (List.Forall₂.cons ⟨fun _ => rfl, by simp, by simp, by simp⟩ hf)
      · intro _ h; rw [hon'] at h; cases h
      · intro _ _ h; rw [hm'] at h; cases h
      · intro _ _ h; rw [hs] at h; cases h
  | case6 d line rest hon hm hs ih =>
    obtain ⟨ps, hps, hf⟩ := ih
    have hon' : str_contains line "on " = false := by simpa using hon
    have hm' : rc_is_mount line = false := by simpa using hm
    have hs' : str_starts_with line "service sdcard" = false := by simpa using hs
    refine ⟨line :: ps, ?_, ?_⟩
    · rw [rewrite_rc.eq_def]
      simp only [hon', hm', hs', Bool.false_eq_true, if_false, concat_all, hps]
    · rw [rc_skipped.eq_def]
      simp only [hs', Bool.false_eq_true, and_false, if_false, List.zip_cons_cons]
      refine List.Forall₂.cons ⟨by simp, fun _ _ => rfl, ?_, fun _ _ _ => rfl⟩ hf
      intro _ _ h; rw [hm'] at h; cases h

/-- A line of fewer than `n - 1` characters that ends in a line feed is delivered
by `fgets` in one piece. -/
theorem fgets_all_line (n : Nat) (u rest cur : List Char) (hn : '\n' ∉ u)
    (hlen : cur.length + u.length + 2 ≤ n) :
    fgets_all n (u ++ '\n' :: rest) cur =
      String.mk (cur.reverse ++ u ++ ['\n']) :: fgets_all n rest [] := by
  induction u generalizing cur with
  | nil =>
    simp [fgets_all]
  | cons c u ih =>
    have hc : c ≠ '\n' := fun e => hn (by simp [e])
    have hu : '\n' ∉ u := fun e => hn (by simp [e])
    have hl : ¬ (cur.length + 2 ≥ n) := by simp at hlen; omega
    simp only [List.cons_append, fgets_all, hc, hl, or_self, if_false, List.append_eq]
    rw [ih (c :: cur) hu (by simp at hlen ⊢; omega)]
    simp

/-- A text made of lines of at most 1023 characters, each ending in a line feed,
is delivered by `fgets` line by line. -/
theorem fgets_all_lines (lines : List String) (h : ∀ l ∈ lines, rc_line l) :
    fgets_all 1024 (concat_all lines).data [] = lines := by
  induction lines with
  | nil => rfl
  | cons l ls ih =>
    obtain ⟨u, hl, hn, hlen⟩ := h l (by simp)
    have hrest : ∀ l ∈ ls, rc_line l := fun x hx => h x (by simp [hx])
    have hd : (concat_all (l :: ls)).data = u ++ '\n' :: (concat_all ls).data := by
      simp [concat_all, String.data_append, hl]
    rw [hd, fgets_all_line 1024 u _ [] hn (by simp; omega), ih hrest]
    simp [hl]

/-- C20 (amended): when `multirom_prep_android_mounts` rewrites a script (.rc)
file that it can read and whose output it can open, the output is written
once and is the concatenation, in the original order, of one piece for each
input line as `fgets` delivers it (lines of at most 1023 characters ending in
a line feed are delivered whole). A line that contains a self-mounting
directive and does not contain "on " is written commented out (prefixed
with '#', after the placeholder line when one is inserted). A line that
contains "on " is copied unchanged whatever else it contains. A line with no
directive that does not begin with "service sdcard" is copied unchanged. The
line skipped by the sdcard-service rewrite is not written. -/
theorem rewrite_rc_lines (w : World) (folder : String) (d : Int) (st : Sys) (dp : dirent)
    (text : String)
    (hrc : str_contains dp.d_name ".rc" = true)
    (hread : w.read_file st.trace (folder ++ "/" ++ dp.d_name) = some text)
    (hopen : w.fopen_w st.trace ("/" ++ dp.d_name) = true) :
    ∃ pieces,
      (prep_android_file w folder (d, st) dp).2.trace = st.trace ++
        [Ev.write_file ("/" ++ dp.d_name) (concat_all pieces),
         Ev.chmod ("/" ++ dp.d_name) EXEC_MASK] ∧
      List.Forall₂ (fun (x : String × Bool) piece => rc_piece x.1 x.2 piece)
        ((fgets_all 1024 text.data []).zip (rc_skipped (fgets_all 1024 text.data []))) pieces ∧
      (rc_skipped (fgets_all 1024 text.data [])).length = (fgets_all 1024 text.data []).length ∧
      (∀ lines, (∀ l ∈ lines, rc_line l) → text = concat_all lines →
        fgets_all 1024 text.data [] = lines) := by
  obtain ⟨ps, hps, hf⟩ := rewrite_rc_pieces d (fgets_all 1024 text.data [])
  refine ⟨ps, ?_, hf, rc_skipped_length _, ?_⟩
  · unfold prep_android_file
    simp only [hrc, Bool.true_eq_false, if_false, hread, hopen, hps, emit, List.append_assoc,
      List.singleton_append]
  · intro lines hl ht
    rw [ht]
    exact fgets_all_lines lines hl

set_option maxRecDepth 100000 in
/-- C20 fails as stated: a line that contains `mount_all` and also "on " (here
in a trailing comment) is a self-mounting directive, and it is copied
unchanged, not commented out. -/
theorem rewrite_rc_lines_counterexample :
    rc_is_mount "    mount_all /fstab.grouper # mount partitions on boot\n" = true ∧
    (prep_android_file rc_on_world "/realdata/media/multirom/roms/cm/boot" (0, {})
        ⟨"init.grouper.rc", 8⟩).2.trace =
      [Ev.write_file "/init.grouper.rc"
        "on fs\n    mount_all /fstab.grouper # mount partitions on boot\n    setprop ro.crypto.state unencrypted\n",
       Ev.chmod "/init.grouper.rc" EXEC_MASK] := by
  decide

set_option maxRecDepth 100000 in
/-- The theorem `rewrite_rc_lines` at a script with a `mount` of `/data` and an
sdcard service: the mount is commented out after the placeholder line and the
other lines keep their order. -/
theorem rewrite_rc_lines_witness :
    (∃ pieces,
      (prep_android_file rc_sample_world "/realdata/media/multirom/roms/cm/boot" (0, {})
          ⟨"init.rc", 8⟩).2.trace = ({} : Sys).trace ++
        [Ev.write_file ("/" ++ (⟨"init.rc", 8⟩ : dirent).d_name) (concat_all pieces),
         Ev.chmod ("/" ++ (⟨"init.rc", 8⟩ : dirent).d_name) EXEC_MASK] ∧
      List.Forall₂ (fun (x : String × Bool) piece => rc_piece x.1 x.2 piece)
        ((fgets_all 1024
            ("on fs\n    mount ext4 /dev/block/mmcblk0p9 /data wait\n    start x\nservice sdcard /system/bin/sdcard\n    class late_start\n" : String).data
            []).zip
          (rc_skipped (fgets_all 1024
            ("on fs\n    mount ext4 /dev/block/mmcblk0p9 /data wait\n    start x\nservice sdcard /system/bin/sdcard\n    class late_start\n" : String).data
            []))) pieces ∧
      (rc_skipped (fgets_all 1024
          ("on fs\n    mount ext4 /dev/block/mmcblk0p9 /data wait\n    start x\nservice sdcard /system/bin/sdcard\n    class late_start\n" : String).data
          [])).length =
        (fgets_all 1024
          ("on fs\n    mount ext4 /dev/block/mmcblk0p9 /data wait\n    start x\nservice sdcard /system/bin/sdcard\n    class late_start\n" : String).data
          []).length ∧
      (∀ lines, (∀ l ∈ lines, rc_line l) →
        ("on fs\n    mount ext4 /dev/block/mmcblk0p9 /data wait\n    start x\nservice sdcard /system/bin/sdcard\n    class late_start\n" : String) =
          concat_all lines →
        fgets_all 1024
          ("on fs\n    mount ext4 /dev/block/mmcblk0p9 /data wait\n    start x\nservice sdcard /system/bin/sdcard\n    class late_start\n" : String).data
          [] = lines)) ∧
    (prep_android_file rc_sample_world "/realdata/media/multirom/roms/cm/boot" (0, {})
        ⟨"init.rc", 8⟩).2.trace =
      [Ev.write_file "/init.rc"
        "on fs\n    export DUMMY_LINE_INGORE_IT 1\n#    mount ext4 /dev/block/mmcblk0p9 /data wait\n    start x\nservice sdcard /system/bin/sdcard\n    class main\n",
       Ev.chmod "/init.rc" EXEC_MASK] :=
  ⟨rewrite_rc_lines rc_sample_world "/realdata/media/multirom/roms/cm/boot" 0 {} ⟨"init.rc", 8⟩
    "on fs\n    mount ext4 /dev/block/mmcblk0p9 /data wait\n    start x\nservice sdcard /system/bin/sdcard\n    class late_start\n"
    (by decide) (by decide) (by decide), by decide⟩

/-! ## Theorems: ROM registry -/

/-- Two character lists compare one way or the other. -/
theorem strcmp_chars_total : ∀ a b : List Char, strcmp_chars a b ≤ 0 ∨ strcmp_chars b a ≤ 0
  | [], [] => by simp [strcmp_chars]
  | [], _ :: _ => by simp [strcmp_chars]
  | _ :: _, [] => by simp [strcmp_chars]
  | a :: as, b :: bs => by
    simp only [strcmp_chars]
    by_cases h : a = b
    · subst h
      simpa using strcmp_chars_total as bs
    · have h1 : ¬ b = a := fun e => h e.symm
      have h2 : a.toNat ≠ b.toNat := fun e => h (Char.ext (UInt32.ext (by simpa [Char.toNat] using e)))
      simp only [h, h1, if_false]
      rcases Nat.lt_or_gt_of_ne h2 with h3 | h3
      · left; simp [h3]
      · right; simp [h3]

/-- The order of `strcmp_chars` is transitive. -/
theorem strcmp_chars_trans : ∀ a b c : List Char,
    strcmp_chars a b ≤ 0 → strcmp_chars b c ≤ 0 → strcmp_chars a c ≤ 0
  | [], _, [] => by simp [strcmp_chars]
  | [], _, _ :: _ => by simp [strcmp_chars]
  | _ :: _, [], _ => by simp [strcmp_chars]
  | _ :: _, _ :: _, [] => by simp [strcmp_chars]
  | a :: as, b :: bs, c :: cs => by
    simp only [strcmp_chars]
    intro h1 h2
    by_cases hab : a = b
    · subst hab
      by_cases hac : a = c
      · subst hac
        simp only [if_true] at h1 h2 ⊢
        exact strcmp_chars_trans as bs cs h1 h2
      · simp only [hac, if_false] at h2 ⊢
        exact h2
    · by_cases hbc : b = c
      · subst hbc
        simp only [hab, if_false] at h1 ⊢
        exact h1
      · simp only [hab, hbc, if_false] at h1 h2
        have h3 : a.toNat < b.toNat := by
          by_contra h; simp [h] at h1
        have h4 : b.toNat < c.toNat := by
          by_contra h; simp [h] at h2
        have hac : a ≠ c := fun e => by subst e; omega
        simp [hac, Nat.lt_trans h3 h4]

/-- Two strings compare one way or the other under `strcmp`. -/
theorem strcmp_total (a b : String) : strcmp a b ≤ 0 ∨ strcmp b a ≤ 0 :=
  strcmp_chars_total a.data b.data

/-- The order of `strcmp` is transitive. -/
theorem strcmp_trans (a b c : String) (h1 : strcmp a b ≤ 0) (h2 : strcmp b c ≤ 0) :
    strcmp a c ≤ 0 :=
  strcmp_chars_trans a.data b.data c.data h1 h2

/-- The ROM built for a directory entry has the name of the entry. -/
theorem default_status_rom_name (w : World) (roms_path : String) (dr : dirent) (st : Sys) :
    (default_status_rom w roms_path dr st).1.name = dr.d_name := rfl

/-- The names of the candidates of `multirom_default_status` are the names of
the accepted entries, in the order of the enumeration. -/
theorem default_status_scan_names (w : World) (roms_path : String) :
    ∀ (entries : List dirent) (add_roms : List multirom_rom) (st : Sys),
      (default_status_scan w roms_path entries add_roms st).1.map (fun x => x.name) =
        add_roms.map (fun x => x.name) ++ (entries.filter accepted_entry).map (fun d => d.d_name)
  | [], add_roms, st => by simp [default_status_scan]
  | dr :: rest, add_roms, st => by
    rw [default_status_scan.eq_def]
    simp only
    by_cases h1 : dr.d_name.data.head? = some '.'
    · rw [if_pos h1, default_status_scan_names w roms_path rest add_roms st]
      simp [accepted_entry, h1]
    · rw [if_neg h1]
      by_cases h2 : dr.d_type ≠ T_FOLDER
      · rw [if_pos h2, default_status_scan_names w roms_path rest add_roms st]
        have h2p : ¬ dr.d_type = T_FOLDER := h2
        simp [accepted_entry, h2p]
      · rw [if_neg h2]
        have h2p : dr.d_type = T_FOLDER := not_not.mp h2
        by_cases h3 : dr.d_name.length > MAX_ROM_NAME_LEN
        · rw [if_pos h3, default_status_scan_names w roms_path rest add_roms st]
          have h3p : ¬ dr.d_name.length ≤ MAX_ROM_NAME_LEN := by omega
          simp [accepted_entry, h3p]
        · rw [if_neg h3, default_status_scan_names w roms_path rest _ _]
          have h3p : dr.d_name.length ≤ MAX_ROM_NAME_LEN := by omega
          simp [accepted_entry, h1, h2p, h3p, default_status_rom_name]

/-- With a NULL `part_uuid`, `multirom_get_rom` follows no partition pointer and
has a result. -/
theorem get_rom_null_uuid (s : multirom_status) (name : String) :
    ∀ roms : List multirom_rom, ∃ r, multirom_get_rom s name none roms = some r
  | [] => ⟨none, rfl⟩
  | r :: rs => by
    rw [multirom_get_rom.eq_def]
    simp only
    by_cases h : r.name = name
    · rw [if_pos h]; exact ⟨some r, rfl⟩
    · rw [if_neg h]; exact get_rom_null_uuid s name rs

/-- Sorting the candidates gives a permutation of them. -/
theorem qsort_roms_perm (w : World) (l : List multirom_rom) : (qsort_roms w l).Perm l :=
  List.perm_insertionSort _ l

/-- When `strcoll` is a total and transitive order, the names of the sorted
candidates are in non-decreasing order. -/
theorem qsort_roms_sorted (w : World) (l : List multirom_rom)
    (htot : ∀ a b, w.strcoll a b ≤ 0 ∨ w.strcoll b a ≤ 0)
    (htrans : ∀ a b c, w.strcoll a b ≤ 0 → w.strcoll b c ≤ 0 → w.strcoll a c ≤ 0) :
    List.Sorted (fun a b => w.strcoll a b ≤ 0) ((qsort_roms w l).map (fun x => x.name)) := by
  haveI : IsTotal multirom_rom (fun a b => compare_rom_names w a b ≤ 0) :=
    ⟨fun a b => htot a.name b.name⟩
  haveI : IsTrans multirom_rom (fun a b => compare_rom_names w a b ≤ 0) :=
    ⟨fun a b c => htrans a.name b.name c.name⟩
  have h := List.sorted_insertionSort (fun a b => compare_rom_names w a b ≤ 0) l
  unfold List.Sorted at h ⊢
  rw [List.pairwise_map]
  exact h

/-- C16: for every list of directory entries that the ROM folder delivers, in
any order, `multirom_default_status` returns, on every status, and the ROM
list it leaves is a permutation of the candidates built from the accepted
entries (names not beginning with a dot, folders, at most 26 characters),
with names in non-decreasing `strcoll` order. The folder of the Internal ROM
opens or the import does not return -1, and `strcoll` is a total, transitive
order, as it is in every locale. -/
theorem default_status_sorted (w : World) (s : multirom_status) (st : Sys)
    (entries : List dirent)
    (htot : ∀ a b, w.strcoll a b ≤ 0 ∨ w.strcoll b a ≤ 0)
    (htrans : ∀ a b c, w.strcoll a b ≤ 0 → w.strcoll b c ≤ 0 → w.strcoll a c ≤ 0)
    (himp : (default_status_import w st).1 = true)
    (hdir : w.readdir (default_status_import w st).2.trace (w.multirom_dir ++ "/roms") =
      some entries) :
    ∃ r s1 st1, multirom_default_status w s st = some ((r, s1), st1) ∧
      s1.roms.Perm (default_status_scan w (w.multirom_dir ++ "/roms") entries []
        (default_status_import w st).2).1 ∧
      (s1.roms.map (fun x => x.name)).Perm
        ((entries.filter accepted_entry).map (fun d => d.d_name)) ∧
      List.Sorted (fun a b => w.strcoll a b ≤ 0) (s1.roms.map (fun x => x.name)) := by
  have key : ∀ s0 : multirom_status, s0.roms = [] →
      ∀ l : List multirom_rom,
      ((if l = [] then s0 else { s0 with roms := s0.roms ++ qsort_roms w l }) :
        multirom_status).roms = qsort_roms w l := by
    intro s0 h0 l
    by_cases hl : l = []
    · subst hl; simp [h0, qsort_roms]
    · simp [hl, h0]
  unfold multirom_default_status
  simp only [himp, Bool.true_eq_false, if_false, hdir]
  generalize hl : (default_status_scan w (w.multirom_dir ++ "/roms") entries []
    (default_status_import w st).2) = sc
  have hnames := default_status_scan_names w (w.multirom_dir ++ "/roms") entries []
    (default_status_import w st).2
  rw [hl] at hnames
  generalize hs1 : ((if sc.1 = [] then
      ({ s with is_second_boot := 0, current_rom := none, roms := [] } : multirom_status)
    else { ({ s with is_second_boot := 0, current_rom := none, roms := [] } : multirom_status) with
      roms := ({ s with is_second_boot := 0, current_rom := none, roms := [] } :
        multirom_status).roms ++ qsort_roms w sc.1 }) : multirom_status) = s1
  have hr : s1.roms = qsort_roms w sc.1 := by
    rw [← hs1]; exact key _ rfl sc.1
  have hp : s1.roms.Perm sc.1 := hr ▸ qsort_roms_perm w sc.1
  have hpn : (s1.roms.map (fun x => x.name)).Perm
      ((entries.filter accepted_entry).map (fun d => d.d_name)) := by
    have := hp.map (fun x => x.name)
    rw [hnames] at this
    simpa using this
  have hsort : List.Sorted (fun a b => w.strcoll a b ≤ 0) (s1.roms.map (fun x => x.name)) :=
    hr ▸ qsort_roms_sorted w sc.1 htot htrans
  obtain ⟨g, hg⟩ := get_rom_null_uuid s1 INTERNAL_ROM_NAME s1.roms
  rw [hg]
  cases g with
  | none => exact ⟨_, _, _, rfl, hp, hpn, hsort⟩
  | some rom => exact ⟨_, _, _, rfl, hp, hpn, hsort⟩

set_option maxRecDepth 100000 in
/-- The theorem `default_status_sorted` at the names ubuntu, Aosp, cm12 in the
"C" locale; each of the six orders of the three names gives the list Aosp,
cm12, ubuntu. -/
theorem default_status_sorted_witness :
    (∃ r s1 st1,
      multirom_default_status (roms_world ["ubuntu", "Aosp", "cm12"]) {} {} =
        some ((r, s1), st1) ∧
      s1.roms.Perm (default_status_scan (roms_world ["ubuntu", "Aosp", "cm12"])
        ((roms_world ["ubuntu", "Aosp", "cm12"]).multirom_dir ++ "/roms")
        [⟨"ubuntu", 4⟩, ⟨"Aosp", 4⟩, ⟨"cm12", 4⟩] []
        (default_status_import (roms_world ["ubuntu", "Aosp", "cm12"]) {}).2).1 ∧
      (s1.roms.map (fun x => x.name)).Perm
        (List.map (fun d => d.d_name)
          (List.filter accepted_entry [⟨"ubuntu", 4⟩, ⟨"Aosp", 4⟩, ⟨"cm12", 4⟩])) ∧
      List.Sorted (fun a b => (roms_world ["ubuntu", "Aosp", "cm12"]).strcoll a b ≤ 0)
        (s1.roms.map (fun x => x.name))) ∧
    default_status_names ["ubuntu", "Aosp", "cm12"] = some ["Aosp", "cm12", "ubuntu"] ∧
    default_status_names ["ubuntu", "cm12", "Aosp"] = some ["Aosp", "cm12", "ubuntu"] ∧
    default_status_names ["Aosp", "ubuntu", "cm12"] = some ["Aosp", "cm12", "ubuntu"] ∧
    default_status_names ["Aosp", "cm12", "ubuntu"] = some ["Aosp", "cm12", "ubuntu"] ∧
    default_status_names ["cm12", "ubuntu", "Aosp"] = some ["Aosp", "cm12", "ubuntu"] ∧
    default_status_names ["cm12", "Aosp", "ubuntu"] = some ["Aosp", "cm12", "ubuntu"] :=
  ⟨default_status_sorted (roms_world ["ubuntu", "Aosp", "cm12"]) {} {}
      [⟨"ubuntu", 4⟩, ⟨"Aosp", 4⟩, ⟨"cm12", 4⟩] strcmp_total strcmp_trans (by decide) (by decide),
    by decide, by decide, by decide, by decide, by decide, by decide⟩

/-- Every ROM that `multirom_default_status` leaves in the list has a name of at
most `MAX_ROM_NAME_LEN` characters. -/
theorem default_status_name_length (w : World) (s : multirom_status) (st : Sys)
    (r : Int) (s1 : multirom_status) (st1 : Sys)
    (h : multirom_default_status w s st = some ((r, s1), st1)) :
    ∀ rom ∈ s1.roms, rom.name.length ≤ MAX_ROM_NAME_LEN := by
  have hacc : ∀ entries : List dirent, ∀ n ∈ (entries.filter accepted_entry).map (fun d => d.d_name),
      n.length ≤ MAX_ROM_NAME_LEN := by
    intro entries n hn
    simp only [List.mem_map, List.mem_filter] at hn
    obtain ⟨d, ⟨_, hd⟩, rfl⟩ := hn
    simp only [accepted_entry, decide_eq_true_eq] at hd
    exact hd.2.2
  unfold multirom_default_status at h
  simp only at h
  split at h
  · cases h; intro rom hrom; cases hrom
  · split at h
    · cases h; intro rom hrom; cases hrom
    · rename_i entries hdir
      have hroms : ∀ rom ∈ ((if (default_status_scan w (w.multirom_dir ++ "/roms") entries []
              (default_status_import w st).2).1 = [] then
            ({ s with is_second_boot := 0, current_rom := none, roms := [] } : multirom_status)
          else { ({ s with is_second_boot := 0, current_rom := none, roms := [] } :
              multirom_status) with
            roms := ({ s with is_second_boot := 0, current_rom := none, roms := [] } :
              multirom_status).roms ++ qsort_roms w (default_status_scan w
                (w.multirom_dir ++ "/roms") entries [] (default_status_import w st).2).1 }) :
            multirom_status).roms, rom.name.length ≤ MAX_ROM_NAME_LEN := by
        intro rom hrom
        have hn := default_status_scan_names w (w.multirom_dir ++ "/roms") entries []
          (default_status_import w st).2
        split at hrom
        · cases hrom
        · simp only [List.nil_append] at hrom
          have hm : rom ∈ (default_status_scan w (w.multirom_dir ++ "/roms") entries []
              (default_status_import w st).2).1 := (qsort_roms_perm w _).mem_iff.mp hrom
          apply hacc entries
          have : rom.name ∈ List.map (fun x => x.name) (default_status_scan w
              (w.multirom_dir ++ "/roms") entries [] (default_status_import w st).2).1 :=
            List.mem_map_of_mem _ hm
          rw [hn] at this
          simpa using this
      split at h
      · cases h
      · cases h; exact hroms
      · cases h; exact hroms

set_option maxRecDepth 100000 in
/-- C15, the code departs from the specification: for a folder with a name of
27 characters in the `multirom` folder of a partition,
`multirom_scan_partition_for_roms` adds a ROM with that name, while
`multirom_default_status` skips a folder of the same name. -/
theorem scan_partition_long_name :
    rom_names (multirom_scan_partition_for_roms long_name_world
        { partitions := [long_name_partition] } long_name_partition {}) =
      some ["abcdefghijklmnopqrstuvwxyz0"] ∧
    MAX_ROM_NAME_LEN < ("abcdefghijklmnopqrstuvwxyz0" : String).length ∧
    rom_names (multirom_default_status long_name_world {} {}) = some ["Internal"] := by
  decide

/-! ## Theorems: references from ROMs to partitions -/

/-- The invariant depends on the ROM list and the partition list only. -/
theorem roms_reference_congr (s s1 : multirom_status) (hr : s1.roms = s.roms)
    (hp : s1.partitions = s.partitions) (h : roms_reference_partitions s) :
    roms_reference_partitions s1 := by
  intro rom hrom
  rw [hr] at hrom
  have := h rom hrom
  unfold rom_partition_live deref_partition at this ⊢
  rw [hp]
  exact this

/-- A ROM list without partition pointers satisfies the invariant. -/
theorem roms_reference_of_internal (s : multirom_status)
    (h : ∀ rom ∈ s.roms, rom.partition = none) : roms_reference_partitions s := by
  intro rom hrom
  unfold rom_partition_live
  rw [h rom hrom]

/-- The candidates of `multirom_default_status` have no partition pointer. -/
theorem default_status_scan_internal (w : World) (roms_path : String) :
    ∀ (entries : List dirent) (add_roms : List multirom_rom) (st : Sys),
      (∀ rom ∈ add_roms, rom.partition = none) →
      ∀ rom ∈ (default_status_scan w roms_path entries add_roms st).1, rom.partition = none
  | [], add_roms, st => by
    intro h; simpa [default_status_scan] using h
  | dr :: rest, add_roms, st => by
    intro h
    rw [default_status_scan.eq_def]
    simp only
    split
    · exact default_status_scan_internal w roms_path rest add_roms st h
    · split
      · exact default_status_scan_internal w roms_path rest add_roms st h
      · split
        · exact default_status_scan_internal w roms_path rest add_roms st h
        · apply default_status_scan_internal w roms_path rest
          intro rom hrom
          rcases List.mem_append.mp hrom with h1 | h1
          · exact h rom h1
          · simp only [List.mem_singleton] at h1
            rw [h1]; rfl

/-- After `multirom_default_status` the partition list is unchanged and no ROM of
the list has a partition pointer. -/
theorem default_status_lists (w : World) (s : multirom_status) (st : Sys)
    (r : Int) (s1 : multirom_status) (st1 : Sys)
    (h : multirom_default_status w s st = some ((r, s1), st1)) :
    s1.partitions = s.partitions ∧ ∀ rom ∈ s1.roms, rom.partition = none := by
  unfold multirom_default_status at h
  simp only at h
  split at h
  · cases h; exact ⟨rfl, fun rom hrom => by cases hrom⟩
  · split at h
    · cases h; exact ⟨rfl, fun rom hrom => by cases hrom⟩
    · rename_i entries hdir
      have hroms : ∀ rom ∈ ((if (default_status_scan w (w.multirom_dir ++ "/roms") entries []
              (default_status_import w st).2).1 = [] then
            ({ s with is_second_boot := 0, current_rom := none, roms := [] } : multirom_status)
          else { ({ s with is_second_boot := 0, current_rom := none, roms := [] } :
              multirom_status) with
            roms := ({ s with is_second_boot := 0, current_rom := none, roms := [] } :
              multirom_status).roms ++ qsort_roms w (default_status_scan w
                (w.multirom_dir ++ "/roms") entries [] (default_status_import w st).2).1 }) :
            multirom_status).roms, rom.partition = none := by
        intro rom hrom
        split at hrom
        · cases hrom
        · simp only [List.nil_append] at hrom
          exact default_status_scan_internal w _ entries [] _ (fun _ hx => by cases hx) rom
            ((qsort_roms_perm w _).mem_iff.mp hrom)
      have hparts : ((if (default_status_scan w (w.multirom_dir ++ "/roms") entries []
              (default_status_import w st).2).1 = [] then
            ({ s with is_second_boot := 0, current_rom := none, roms := [] } : multirom_status)
          else { ({ s with is_second_boot := 0, current_rom := none, roms := [] } :
              multirom_status) with
            roms := ({ s with is_second_boot := 0, current_rom := none, roms := [] } :
              multirom_status).roms ++ qsort_roms w (default_status_scan w
                (w.multirom_dir ++ "/roms") entries [] (default_status_import w st).2).1 }) :
            multirom_status).partitions = s.partitions := by
        split <;> rfl
      split at h
      · cases h
      · cases h; exact ⟨hparts, hroms⟩
      · cases h; exact ⟨hparts, hroms⟩

/-- The candidates of `multirom_scan_partition_for_roms` point to the scanned
partition. -/
theorem scan_partition_scan_refs (w : World) (p : usb_partition) (mount_path : String) :
    ∀ (entries : List dirent) (add_roms : List multirom_rom) (st : Sys),
      (∀ rom ∈ add_roms, rom.partition = some p.addr) →
      ∀ rom ∈ (scan_partition_scan w p mount_path entries add_roms st).1,
        rom.partition = some p.addr
  | [], add_roms, st => by
    intro h; simpa [scan_partition_scan] using h
  | dr :: rest, add_roms, st => by
    intro h
    rw [scan_partition_scan.eq_def]
    simp only
    split
    · exact scan_partition_scan_refs w p mount_path rest add_roms st h
    · apply scan_partition_scan_refs w p mount_path rest
      intro rom hrom
      rcases List.mem_append.mp hrom with h1 | h1
      · exact h rom h1
      · simp only [List.mem_singleton] at h1
        rw [h1]; rfl

/-- After `multirom_scan_partition_for_roms` the partition list is unchanged and
the ROM list is the old one followed by ROMs that point to the scanned
partition. -/
theorem scan_partition_lists (w : World) (s : multirom_status) (p : usb_partition) (st : Sys)
    (r : Int) (s1 : multirom_status) (st1 : Sys)
    (h : multirom_scan_partition_for_roms w s p st = some ((r, s1), st1)) :
    s1.partitions = s.partitions ∧
      ∃ l, s1.roms = s.roms ++ l ∧ ∀ rom ∈ l, rom.partition = some p.addr := by
  unfold multirom_scan_partition_for_roms at h
  split at h
  · cases h
  · rename_i mount_path hmp
    simp only at h
    split at h
    · cases h; exact ⟨rfl, [], by simp, fun _ hx => by cases hx⟩
    · split at h
      · cases h; exact ⟨rfl, [], by simp, fun _ hx => by cases hx⟩
      · rename_i entries hdir
        cases h
        split
        · exact ⟨rfl, [], by simp, fun _ hx => by cases hx⟩
        · refine ⟨rfl, _, rfl, ?_⟩
          intro rom hrom
          exact scan_partition_scan_refs w p mount_path entries [] st (fun _ hx => by cases hx) rom
            ((qsort_roms_perm w _).mem_iff.mp hrom)

/-- A scan of a partition of the partition list keeps the invariant. -/
theorem scan_partition_keeps_references (w : World) (s : multirom_status) (p : usb_partition)
    (st : Sys) (r : Int) (s1 : multirom_status) (st1 : Sys)
    (hinv : roms_reference_partitions s) (hp : p ∈ s.partitions)
    (h : multirom_scan_partition_for_roms w s p st = some ((r, s1), st1)) :
    roms_reference_partitions s1 := by
  obtain ⟨hparts, l, hl, hrefs⟩ := scan_partition_lists w s p st r s1 st1 h
  intro rom hrom
  rw [hl] at hrom
  rcases List.mem_append.mp hrom with h1 | h1
  · have := hinv rom h1
    unfold rom_partition_live deref_partition at this ⊢
    rw [hparts]; exact this
  · unfold rom_partition_live deref_partition
    rw [hrefs rom h1, hparts]
    simp only [List.find?_isSome]
    exact ⟨p, hp, by simp⟩

/-- The function `multirom_update_partitions` leaves the ROM list as it is. -/
theorem update_partitions_roms (w : World) (s : multirom_status) (st : Sys)
    (r : Int) (s1 : multirom_status) (st1 : Sys)
    (h : multirom_update_partitions w s st = some ((r, s1), st1)) : s1.roms = s.roms := by
  unfold multirom_update_partitions at h
  simp only at h
  split at h
  · cases h; rfl
  · split at h
    · cases h
    · cases h; rfl

/-- The removal loop of `multirom_find_usb_roms` leaves ROMs of the list only. -/
theorem find_usb_roms_remove_subset (mask : rom_type → Bool) :
    ∀ (fuel : Nat) (roms : List multirom_rom) (i : Nat) (l : List multirom_rom),
      find_usb_roms_remove mask fuel roms i = some l → ∀ rom ∈ l, rom ∈ roms
  | 0, _, _, _ => by intro h; simp [find_usb_roms_remove] at h
  | fuel + 1, roms, i, l => by
    intro h
    rw [find_usb_roms_remove.eq_def] at h
    simp only at h
    split at h
    · cases h; exact fun _ hx => hx
    · split at h
      · intro rom hrom
        exact List.mem_of_mem_eraseIdx
          (find_usb_roms_remove_subset mask fuel _ 0 l h rom hrom)
      · exact find_usb_roms_remove_subset mask fuel roms (i + 1) l h

/-- The rescan loop of `multirom_find_usb_roms` over partitions of the partition
list keeps the invariant. -/
theorem find_usb_roms_scan_keeps (w : World) :
    ∀ (ps : List usb_partition) (s : multirom_status) (st : Sys) (s1 : multirom_status)
      (st1 : Sys),
      roms_reference_partitions s → (∀ p ∈ ps, p ∈ s.partitions) →
      find_usb_roms_scan w ps s st = some (s1, st1) → roms_reference_partitions s1
  | [], s, st, s1, st1 => by
    intro hinv _ h
    simp only [find_usb_roms_scan, Option.some.injEq, Prod.mk.injEq] at h
    rw [← h.1]; exact hinv
  | p :: ps, s, st, s1, st1 => by
    intro hinv hps h
    rw [find_usb_roms_scan.eq_def] at h
    simp only at h
    split at h
    · split at h
      · cases h
      · rename_i r s2 st2 hscan
        have hinv2 := scan_partition_keeps_references w s p st r s2 st2 hinv
          (hps p (by simp)) hscan
        have hparts := (scan_partition_lists w s p st r s2 st2 hscan).1
        exact find_usb_roms_scan_keeps w ps s2 st2 s1 st1 hinv2
          (fun q hq => hparts ▸ hps q (by simp [hq])) h
    · exact find_usb_roms_scan_keeps w ps s st s1 st1 hinv (fun q hq => hps q (by simp [hq])) h

/-- The function `multirom_find_usb_roms` keeps the invariant. -/
theorem find_usb_roms_keeps_references (w : World) (mask : rom_type → Bool)
    (s : multirom_status) (st : Sys) (s1 : multirom_status) (st1 : Sys)
    (hinv : roms_reference_partitions s)
    (h : multirom_find_usb_roms w mask s st = some (s1, st1)) :
    roms_reference_partitions s1 := by
  unfold multirom_find_usb_roms at h
  split at h
  · cases h
  · rename_i roms hrm
    refine find_usb_roms_scan_keeps w s.partitions { s with roms := roms } st s1 st1 ?_
      (fun p hp => hp) h
    intro rom hrom
    exact hinv rom (find_usb_roms_remove_subset mask _ _ _ _ hrm rom hrom)

/-- A line of the status file changes neither list. -/
theorem load_status_line_lists (acc : multirom_status × String × String) (line : String) :
    (load_status_line acc line).1.roms = acc.1.roms ∧
      (load_status_line acc line).1.partitions = acc.1.partitions := by
  unfold load_status_line
  split
  · split
    · exact ⟨rfl, rfl⟩
    · split
      · exact ⟨rfl, rfl⟩
      · split
        · exact ⟨rfl, rfl⟩
        · split <;> exact ⟨rfl, rfl⟩
  · exact ⟨rfl, rfl⟩

/-- The lines of the status file change neither list. -/
theorem load_status_lines_lists (lines : List String) :
    ∀ acc : multirom_status × String × String,
      (lines.foldl load_status_line acc).1.roms = acc.1.roms ∧
        (lines.foldl load_status_line acc).1.partitions = acc.1.partitions := by
  induction lines with
  | nil => intro acc; exact ⟨rfl, rfl⟩
  | cons l ls ih =>
    intro acc
    simp only [List.foldl_cons]
    have h1 := ih (load_status_line acc l)
    have h2 := load_status_line_lists acc l
    exact ⟨h1.1.trans h2.1, h1.2.trans h2.2⟩

/-- The wait loop of `multirom_load_status`, started on a ROM list without
partition pointers, ends with the invariant. -/
theorem load_status_wait_references (w : World) (uuid : String) :
    ∀ (tries : Nat) (s : multirom_status) (st : Sys) (s1 : multirom_status) (st1 : Sys),
      (∀ rom ∈ s.roms, rom.partition = none) →
      load_status_wait w uuid tries s st = some (s1, st1) → roms_reference_partitions s1
  | 0, s, st, s1, st1 => by
    intro hint h
    simp only [load_status_wait, Option.some.injEq, Prod.mk.injEq] at h
    rw [← h.1]; exact roms_reference_of_internal s hint
  | tries + 1, s, st, s1, st1 => by
    intro hint h
    rw [load_status_wait.eq_def] at h
    simp only at h
    split at h
    · cases h
    · rename_i r s2 st2 hup
      have hroms := update_partitions_roms w s st r s2 st2 hup
      have hint2 : ∀ rom ∈ s2.roms, rom.partition = none := hroms ▸ hint
      split at h
      · rename_i p hget
        split at h
        · cases h
        · rename_i r3 s3 st3 hscan
          cases h
          exact scan_partition_keeps_references w s2 p st2 r3 s1 st1
            (roms_reference_of_internal s2 hint2) (List.mem_of_find?_eq_some hget) hscan
      · exact load_status_wait_references w uuid tries s2 st2 s1 st1 hint2 h

/-- The selection of `current_rom` and `auto_boot_rom` changes neither list. -/
theorem load_status_select_lists (s : multirom_status) (current_rom auto_boot_rom : String)
    (r : Int) (s1 : multirom_status)
    (h : load_status_select s current_rom auto_boot_rom = some (r, s1)) :
    s1.roms = s.roms ∧ s1.partitions = s.partitions := by
  unfold load_status_select at h
  simp only at h
  split at h
  · cases h
  · cases h; exact ⟨rfl, rfl⟩
  · split at h
    · cases h
    · cases h; exact ⟨rfl, rfl⟩

/-- After `multirom_load_status` the invariant holds, whatever the status was. -/
theorem load_status_references (w : World) (s : multirom_status) (st : Sys)
    (r : Int) (s1 : multirom_status) (st1 : Sys)
    (h : multirom_load_status w s st = some ((r, s1), st1)) : roms_reference_partitions s1 := by
  unfold multirom_load_status at h
  split at h
  · cases h
  · rename_i r0 s0 st0 hdef
    have hint := (default_status_lists w s st r0 s0 st0 hdef).2
    split at h
    · cases h; exact roms_reference_of_internal _ hint
    · rename_i text htext
      split at h
      · cases h; exact roms_reference_of_internal _ hint
      · simp only at h
        generalize hs2 : (if multirom_search_last_kmsg w st0.trace SECOND_BOOT_KMESG = 0 then
          ({ s0 with is_second_boot := 1 } : multirom_status) else s0) = s2 at h
        have hint2 : ∀ rom ∈ s2.roms, rom.partition = none := by
          rw [← hs2]; split <;> exact hint
        generalize hpar : (fgets_all 1024 text.data []).foldl load_status_line (s2, "", "") =
          parsed at h
        have hl := load_status_lines_lists (fgets_all 1024 text.data []) (s2, "", "")
        rw [hpar] at hl
        have hint3 : ∀ rom ∈ parsed.1.roms, rom.partition = none := by
          rw [hl.1]; exact hint2
        split at h
        · cases h
        · rename_i s3 st3 hw
          have hinv3 : roms_reference_partitions s3 := by
            split at hw
            · split at hw
              · exact load_status_wait_references w _ 10 parsed.1 st0 s3 st3 hint3 hw
              · cases hw; exact roms_reference_of_internal _ hint3
            · cases hw; exact roms_reference_of_internal _ hint3
          cases hsel : load_status_select s3 parsed.2.1 parsed.2.2 with
          | none => rw [hsel] at h; cases h
          | some x =>
            obtain ⟨r4, s4⟩ := x
            rw [hsel] at h
            cases h
            obtain ⟨h1, h2⟩ := load_status_select_lists s3 _ _ _ _ hsel
            exact roms_reference_congr s3 _ h1 h2 hinv3

/-- Each operation leaves the invariant in place when the status is ready for
it (`status_op_ready`). -/
theorem status_ops_ready_references (w : World) (op : status_op) (s : multirom_status) (st : Sys)
    (s1 : multirom_status) (st1 : Sys)
    (hready : status_op_ready op s)
    (h : run_status_op w op s st = some (s1, st1)) :
    roms_reference_partitions s1 := by
  cases op with
  | update_partitions =>
    simp only [run_status_op, Option.map_eq_some'] at h
    obtain ⟨⟨⟨r, s2⟩, st2⟩, hup, heq⟩ := h
    simp only [Prod.mk.injEq] at heq
    obtain ⟨rfl, rfl⟩ := heq
    have hroms := update_partitions_roms w s st r s2 st2 hup
    exact roms_reference_of_internal s2 (hroms ▸ hready)
  | scan_partition p =>
    simp only [run_status_op, Option.map_eq_some'] at h
    obtain ⟨⟨⟨r, s2⟩, st2⟩, hsc, heq⟩ := h
    simp only [Prod.mk.injEq] at heq
    obtain ⟨rfl, rfl⟩ := heq
    exact scan_partition_keeps_references w s p st r s2 st2 hready.1 hready.2 hsc
  | find_usb_roms mask =>
    exact find_usb_roms_keeps_references w mask s st s1 st1 hready h
  | load_status =>
    simp only [run_status_op, Option.map_eq_some'] at h
    obtain ⟨⟨⟨r, s2⟩, st2⟩, hl, heq⟩ := h
    simp only [Prod.mk.injEq] at heq
    obtain ⟨rfl, rfl⟩ := heq
    exact load_status_references w s st r s2 st2 hl

/-- After a refresh that leaves the partition list empty, the invariant holds
exactly when no ROM of the list has a partition pointer. -/
theorem references_without_partitions (s : multirom_status) (hp : s.partitions = []) :
    roms_reference_partitions s ↔ ∀ rom ∈ s.roms, rom.partition = none := by
  constructor
  · intro h rom hrom
    have hl := h rom hrom
    unfold rom_partition_live at hl
    cases hpart : rom.partition with
    | none => rfl
    | some a =>
      rw [hpart] at hl
      simp [deref_partition, hp] at hl
  · exact roms_reference_of_internal s

/-- C14 (amended): the invariant that every ROM of the ROM list that references
a partition references one that is in the partition list holds after
`multirom_load_status` on every status; it is kept by
`multirom_scan_partition_for_roms` for a partition of the partition list and
by `multirom_find_usb_roms`; and it holds after `multirom_update_partitions`
when no ROM of the list references a partition. The refresh does not keep it
in general: it leaves the ROM list as it is, and after a refresh that leaves
the partition list empty (no partition is enumerated any more) the invariant
holds only when no ROM of the list references a partition. -/
theorem status_ops_keep_references (w : World) (op : status_op) (s : multirom_status) (st : Sys)
    (s1 : multirom_status) (st1 : Sys)
    (h : run_status_op w op s st = some (s1, st1)) :
    (status_op_ready op s → roms_reference_partitions s1) ∧
    (op = status_op.update_partitions →
      s1.roms = s.roms ∧
      (s1.partitions = [] →
        (roms_reference_partitions s1 ↔ ∀ rom ∈ s.roms, rom.partition = none))) := by
  refine ⟨fun hready => status_ops_ready_references w op s st s1 st1 hready h, fun hop => ?_⟩
  subst hop
  simp only [run_status_op, Option.map_eq_some'] at h
  obtain ⟨⟨⟨r, s2⟩, st2⟩, hup, heq⟩ := h
  simp only [Prod.mk.injEq] at heq
  obtain ⟨rfl, rfl⟩ := heq
  have hroms := update_partitions_roms w s st r s2 st2 hup
  refine ⟨hroms, fun hp => ?_⟩
  rw [← hroms]
  exact references_without_partitions s2 hp

set_option maxRecDepth 100000 in
/-- C14 fails as stated: on a status whose ROM `ubuntu` references the partition
`sda1`, a refresh after the drive has been removed (the enumeration reports no
partition, or gives no output at all) leaves the ROM list as it is and the
partition list empty, so that right after the refresh the ROM references a
partition that is not in the partition list. -/
theorem status_ops_keep_references_counterexample :
    roms_reference_partitions usb_rom_status ∧
    (multirom_update_partitions unplugged_world usb_rom_status { next_addr := 2 }).map
      (fun r => (r.1.1, r.1.2.roms, r.1.2.partitions,
        decide (roms_reference_partitions r.1.2))) =
      some (0, usb_rom_status.roms, [], false) ∧
    (multirom_update_partitions silent_blkid_world usb_rom_status { next_addr := 2 }).map
      (fun r => (r.1.1, r.1.2.roms, r.1.2.partitions,
        decide (roms_reference_partitions r.1.2))) =
      some (-1, usb_rom_status.roms, [], false) := by
  decide

set_option maxRecDepth 100000 in
/-- The theorem `status_ops_keep_references` at the scan of the partition `sda1`
of a status with the Internal ROM (the ROM `ubuntu` is added and references
`sda1`), and at a refresh of that status after the drive has been removed
(the ROM list is kept, the partition list is empty, the invariant is lost). -/
theorem status_ops_keep_references_witness :
    (status_op_ready (status_op.scan_partition usb_rom_partition) usb_rom_status_before ∧
      run_status_op usb_rom_world (status_op.scan_partition usb_rom_partition)
        usb_rom_status_before { next_rom_id := 1 } = some (usb_rom_status, { next_rom_id := 2 }) ∧
      roms_reference_partitions usb_rom_status) ∧
    (run_status_op unplugged_world status_op.update_partitions usb_rom_status { next_addr := 2 } =
        some (usb_rom_unplugged, usb_rom_unplugged_state) ∧
      usb_rom_unplugged.roms = usb_rom_status.roms ∧
      ¬ roms_reference_partitions usb_rom_unplugged) :=
  ⟨⟨by decide, by decide,
    (status_ops_keep_references usb_rom_world (status_op.scan_partition usb_rom_partition)
      usb_rom_status_before { next_rom_id := 1 } usb_rom_status { next_rom_id := 2 }
      (by decide)).1 (by decide)⟩,
   ⟨by decide,
    ((status_ops_keep_references unplugged_world status_op.update_partitions usb_rom_status
      { next_addr := 2 } usb_rom_unplugged usb_rom_unplugged_state (by decide)).2 rfl).1,
    fun hinv => absurd
      ((((status_ops_keep_references unplugged_world status_op.update_partitions usb_rom_status
        { next_addr := 2 } usb_rom_unplugged usb_rom_unplugged_state (by decide)).2 rfl).2
          rfl).mp hinv)
      (by decide)⟩⟩

/-! ## Theorems: sdcard service and placeholders of the init-script rewrite -/

/-- The first line of a script is never the line the sdcard rewrite consumes. -/
theorem rc_skipped_head (lines : List String) : (rc_skipped lines)[0]? ≠ some true := by
  cases lines with
  | nil => simp [rc_skipped]
  | cons a as => rw [rc_skipped.eq_def]; simp

/-- The line after line `i` is consumed exactly when line `i` is not consumed
itself and reaches the sdcard branch (bounded form). -/
theorem rc_skipped_next_le (n : Nat) : ∀ lines : List String, lines.length ≤ n → ∀ i : Nat,
    ((rc_skipped lines)[i + 1]? = some true ↔
      ((rc_skipped lines)[i]? = some false ∧
        ∃ l, lines[i]? = some l ∧ rc_sdcard_branch l ∧ i + 1 < lines.length)) := by
  induction n with
  | zero =>
    intro lines h i
    have : lines = [] := List.eq_nil_of_length_eq_zero (by omega)
    subst this
    simp [rc_skipped]
  | succ n ih =>
    intro lines h i
    cases lines with
    | nil => simp [rc_skipped]
    | cons line rest =>
      rw [rc_skipped.eq_def]
      simp only
      by_cases hb : rc_sdcard_branch line
      · have hb' : str_contains line "on " = false ∧ rc_is_mount line = false ∧
            str_starts_with line "service sdcard" = true := hb
        rw [if_pos hb']
        cases rest with
        | nil => simp
        | cons x rest1 =>
          simp only
          cases i with
          | zero => simp [hb]
          | succ j =>
            cases j with
            | zero =>
              simp only [List.getElem?_cons_succ, List.getElem?_cons_zero]
              constructor
              · intro h0; exact absurd h0 (rc_skipped_head rest1)
              · intro h0; simp at h0
            | succ k =>
              have := ih rest1 (by simp at h; omega) k
              simp only [List.getElem?_cons_succ, List.length_cons]
              rw [this]
              constructor
              · rintro ⟨h1, l, h2, h3, h4⟩; exact ⟨h1, l, h2, h3, by omega⟩
              · rintro ⟨h1, l, h2, h3, h4⟩; exact ⟨h1, l, h2, h3, by omega⟩
      · have hb' : ¬ (str_contains line "on " = false ∧ rc_is_mount line = false ∧
            str_starts_with line "service sdcard" = true) := hb
        rw [if_neg hb']
        cases i with
        | zero =>
          simp only [List.getElem?_cons_succ, List.getElem?_cons_zero]
          constructor
          · intro h0; exact absurd h0 (rc_skipped_head rest)
          · rintro ⟨_, l, h2, h3, _⟩
            simp only [Option.some.injEq] at h2
            subst h2; exact absurd h3 hb
        | succ j =>
          have := ih rest (by simp at h; omega) j
          simp only [List.getElem?_cons_succ, List.length_cons]
          rw [this]
          constructor
          · rintro ⟨h1, l, h2, h3, h4⟩; exact ⟨h1, l, h2, h3, by omega⟩
          · rintro ⟨h1, l, h2, h3, h4⟩; exact ⟨h1, l, h2, h3, by omega⟩

/-- The line after line `i` is consumed by the sdcard rewrite exactly when line
`i` is not consumed itself, reaches the sdcard branch and is not the last
line. -/
theorem rc_skipped_next (lines : List String) (i : Nat) :
    ((rc_skipped lines)[i + 1]? = some true ↔
      ((rc_skipped lines)[i]? = some false ∧
        ∃ l, lines[i]? = some l ∧ rc_sdcard_branch l ∧ i + 1 < lines.length)) :=
  rc_skipped_next_le lines.length lines (le_refl _) i

/-- The output of the init-script rewrite is the concatenation, in the order of
the input lines, of one piece for each line, and each piece is what
`rc_sdcard_piece` tells for its line. -/
theorem rewrite_rc_sdcard_pieces (d : Int) (lines : List String) :
    ∃ pieces, (rewrite_rc d lines).1 = concat_all pieces ∧
      List.Forall₂ (fun (x : String × Bool) piece => rc_sdcard_piece x.1 x.2 piece)
        (lines.zip (rc_skipped lines)) pieces := by
  induction d, lines using rewrite_rc.induct with
  | case1 d => exact ⟨[], rfl, List.Forall₂.nil⟩
  | case2 d line rest hon ih =>
    obtain ⟨ps, hps, hf⟩ := ih
    refine ⟨line :: ps, ?_, ?_⟩
    · rw [rewrite_rc.eq_def]
      simp only [hon, if_true, concat_all, hps]
    · rw [rc_skipped.eq_def]
      simp only [hon, Bool.true_eq_false, false_and, if_false, List.zip_cons_cons]
      refine List.Forall₂.cons ⟨by simp, ?_, fun _ _ => Or.inl rfl⟩ hf
      intro _ h; rw [h.1] at hon; cases hon
  | case3 d line rest hon hm ih =>
    obtain ⟨ps, hps, hf⟩ := ih
    have hon' : str_contains line "on " = false := by simpa using hon
    refine ⟨((if d = 1 then "    export DUMMY_LINE_INGORE_IT 1\n" else "") ++ "#" ++ line) :: ps, ?_, ?_⟩
    · rw [rewrite_rc.eq_def]
      simp only [hon', Bool.false_eq_true, if_false, hm, if_true, concat_all, hps]
    · rw [rc_skipped.eq_def]
      simp only [hm, Bool.true_eq_false, false_and, and_false, if_false,
        List.zip_cons_cons]
      refine List.Forall₂.cons ⟨by simp, ?_, ?_⟩ hf
      · intro _ h; rw [h.2.1] at hm; cases hm
      · intro _ _
        by_cases hd : d = 1
        · right; right; simp only [hd, if_true, DUMMY_LINE, String.append_assoc]
        · right; left; simp only [hd, if_false, String.empty_append]
  | case4 d line hon hm hs =>
    have hon' : str_contains line "on " = false := by simpa using hon
    have hm' : rc_is_mount line = false := by simpa using hm
    refine ⟨[line ++ "    class main\n"], ?_, ?_⟩
    · rw [rewrite_rc.eq_def]
      simp only [hon', hm', Bool.false_eq_true, if_false, hs, if_true, concat_all,
        String.append_empty]
    · rw [rc_skipped.eq_def]
      simp only [hon', hm', hs, and_self, if_true, List.zip_cons_cons, List.zip_nil_left]
      refine List.Forall₂.cons ⟨by simp, fun _ _ => rfl, ?_⟩ List.Forall₂.nil
      intro _ h; exact absurd ⟨hon', hm', hs⟩ h
  | case5 d line hon hm hs head rest1 ih =>
    obtain ⟨ps, hps, hf⟩ := ih
    have hon' : str_contains line "on " = false := by simpa using hon
    have hm' : rc_is_mount line = false := by simpa using hm
    refine ⟨(line ++ "    class main\n") :: "" :: ps, ?_, ?_⟩
    · rw [rewrite_rc.eq_def]
      simp only [hon', hm', Bool.false_eq_true, if_false, hs, if_true, concat_all,
        hps, String.empty_append]
    · rw [rc_skipped.eq_def]
      simp only [hon', hm', hs, and_self, if_true, List.zip_cons_cons]
      refine List.Forall₂.cons ⟨by simp, fun _ _ => rfl, ?_⟩
        (List.Forall₂.cons ⟨fun _ => rfl, by simp, by simp⟩ hf)
      intro _ h; exact absurd ⟨hon', hm', hs⟩ h
  | case6 d line rest hon hm hs ih =>
    obtain ⟨ps, hps, hf⟩ := ih
    have hon' : str_contains line "on " = false := by simpa using hon
    have hm' : rc_is_mount line = false := by simpa using hm
    have hs' : str_starts_with line "service sdcard" = false := by simpa using hs
    refine ⟨line :: ps, ?_, ?_⟩
    · rw [rewrite_rc.eq_def]
      simp only [hon', hm', hs', Bool.false_eq_true, if_false, concat_all, hps]
    · rw [rc_skipped.eq_def]
      simp only [hs', Bool.false_eq_true, and_false, if_false, List.zip_cons_cons]
      refine List.Forall₂.cons ⟨by simp, ?_, fun _ _ => Or.inl rfl⟩ hf
      intro _ h; rw [h.2.2] at hs'; cases hs'

/-- C21 (amended): when `multirom_prep_android_mounts` rewrites a script (.rc)
file, the output is the concatenation, in order, of one piece for each input
line as `fgets` delivers it. A line reaches the sdcard rewrite when it begins
with "service sdcard", contains no "on ", is no mount directive and is not
itself consumed by the rewrite of the line before it; for such a line the
output holds the line unchanged followed by the line "    class main", and
the one input line after it, when there is one, is omitted. No other line is
omitted: the first line never is, line `i + 1` is omitted exactly when line
`i` is not omitted and reaches the sdcard branch, and every line that is not
omitted is written, as it is or commented out. -/
theorem rewrite_rc_sdcard (w : World) (folder : String) (d : Int) (st : Sys) (dp : dirent)
    (text : String)
    (hrc : str_contains dp.d_name ".rc" = true)
    (hread : w.read_file st.trace (folder ++ "/" ++ dp.d_name) = some text)
    (hopen : w.fopen_w st.trace ("/" ++ dp.d_name) = true) :
    ∃ pieces,
      (prep_android_file w folder (d, st) dp).2.trace = st.trace ++
        [Ev.write_file ("/" ++ dp.d_name) (concat_all pieces),
         Ev.chmod ("/" ++ dp.d_name) EXEC_MASK] ∧
      List.Forall₂ (fun (x : String × Bool) piece => rc_sdcard_piece x.1 x.2 piece)
        ((fgets_all 1024 text.data []).zip (rc_skipped (fgets_all 1024 text.data []))) pieces ∧
      (rc_skipped (fgets_all 1024 text.data [])).length = (fgets_all 1024 text.data []).length ∧
      (rc_skipped (fgets_all 1024 text.data []))[0]? ≠ some true ∧
      (∀ i : Nat, (rc_skipped (fgets_all 1024 text.data []))[i + 1]? = some true ↔
        ((rc_skipped (fgets_all 1024 text.data []))[i]? = some false ∧
          ∃ l, (fgets_all 1024 text.data [])[i]? = some l ∧ rc_sdcard_branch l ∧
            i + 1 < (fgets_all 1024 text.data []).length)) := by
  obtain ⟨ps, hps, hf⟩ := rewrite_rc_sdcard_pieces d (fgets_all 1024 text.data [])
  refine ⟨ps, ?_, hf, rc_skipped_length _, rc_skipped_head _, rc_skipped_next _⟩
  unfold prep_android_file
  simp only [hrc, Bool.true_eq_false, if_false, hread, hopen, hps, emit, List.append_assoc,
    List.singleton_append]

set_option maxRecDepth 100000 in
/-- C21 fails as stated: a line that begins with "service sdcard" and contains
"on " (here in the word "emulation ") is copied without the line
"    class main" and the line after it is kept; and of two lines in a row
that begin with "service sdcard" the second is omitted from the output. -/
theorem rewrite_rc_sdcard_counterexample :
    str_starts_with "service sdcard /system/bin/sdcard /data/media /mnt/shell/emulation 1023 1023\n"
      "service sdcard" = true ∧
    rc_file_output
      "service sdcard /system/bin/sdcard /data/media /mnt/shell/emulation 1023 1023\n    class late_start\n" =
      [Ev.write_file "/init.rc"
        "service sdcard /system/bin/sdcard /data/media /mnt/shell/emulation 1023 1023\n    class late_start\n",
       Ev.chmod "/init.rc" EXEC_MASK] ∧
    rc_file_output
      "service sdcard /system/bin/sdcard\nservice sdcard2 /system/bin/sdcard\n    class late_start\n" =
      [Ev.write_file "/init.rc"
        "service sdcard /system/bin/sdcard\n    class main\n    class late_start\n",
       Ev.chmod "/init.rc" EXEC_MASK] := by
  decide

set_option maxRecDepth 100000 in
/-- The theorem `rewrite_rc_sdcard` at a script with an sdcard service: the
fourth line is omitted and "    class main" stands in its place. -/
theorem rewrite_rc_sdcard_witness :
    (∃ pieces,
      (prep_android_file (rc_file_world sdcard_sample_text)
          "/realdata/media/multirom/roms/cm/boot" (0, {}) ⟨"init.rc", 8⟩).2.trace =
        ({} : Sys).trace ++
          [Ev.write_file ("/" ++ (⟨"init.rc", 8⟩ : dirent).d_name) (concat_all pieces),
           Ev.chmod ("/" ++ (⟨"init.rc", 8⟩ : dirent).d_name) EXEC_MASK] ∧
      List.Forall₂ (fun (x : String × Bool) piece => rc_sdcard_piece x.1 x.2 piece)
        ((fgets_all 1024 sdcard_sample_text.data []).zip
          (rc_skipped (fgets_all 1024 sdcard_sample_text.data []))) pieces ∧
      (rc_skipped (fgets_all 1024 sdcard_sample_text.data [])).length =
        (fgets_all 1024 sdcard_sample_text.data []).length ∧
      (rc_skipped (fgets_all 1024 sdcard_sample_text.data []))[0]? ≠ some true ∧
      (∀ i : Nat, (rc_skipped (fgets_all 1024 sdcard_sample_text.data []))[i + 1]? = some true ↔
        ((rc_skipped (fgets_all 1024 sdcard_sample_text.data []))[i]? = some false ∧
          ∃ l, (fgets_all 1024 sdcard_sample_text.data [])[i]? = some l ∧ rc_sdcard_branch l ∧
            i + 1 < (fgets_all 1024 sdcard_sample_text.data []).length))) ∧
    rc_skipped (fgets_all 1024 sdcard_sample_text.data []) = [false, false, false, true, false] ∧
    rc_file_output sdcard_sample_text =
      [Ev.write_file "/init.rc"
        "on boot\n    start x\nservice sdcard /system/bin/sdcard\n    class main\n    oneshot\n",
       Ev.chmod "/init.rc" EXEC_MASK] :=
  ⟨rewrite_rc_sdcard (rc_file_world sdcard_sample_text) "/realdata/media/multirom/roms/cm/boot" 0
    {} ⟨"init.rc", 8⟩ sdcard_sample_text (by decide) (by decide) (by decide),
    by decide, by decide⟩

/-- Before the first line the placeholder is due exactly when `add_dummy` is 1. -/
theorem rc_dummy_pending_nil (d : Int) : rc_dummy_pending d [] ↔ d = 1 := by
  unfold rc_dummy_pending
  constructor
  · rintro (⟨a, l, b, h, _⟩ | ⟨h, _⟩)
    · cases a <;> cases h
    · exact h
  · intro h; exact Or.inr ⟨h, fun _ hx => by cases hx⟩

/-- After a line with "on " the placeholder is due until a line is commented
out. -/
theorem rc_dummy_pending_on (d : Int) (l : String) (pre : List String)
    (hon : str_contains l "on " = true) :
    rc_dummy_pending d (l :: pre) ↔ rc_dummy_pending 1 pre := by
  unfold rc_dummy_pending
  constructor
  · rintro (⟨a, l1, b, h, h1, h2⟩ | ⟨_, h2⟩)
    · cases a with
      | nil =>
        simp only [List.nil_append, List.cons.injEq] at h
        right; exact ⟨rfl, fun x hx => h2 x (h.2 ▸ hx)⟩
      | cons a0 a1 =>
        simp only [List.cons_append, List.cons.injEq] at h
        left; exact ⟨a1, l1, b, h.2, h1, h2⟩
    · right; exact ⟨rfl, fun x hx => h2 x (List.mem_cons_of_mem _ hx)⟩
  · rintro (⟨a, l1, b, h, h1, h2⟩ | ⟨_, h2⟩)
    · left; exact ⟨l :: a, l1, b, by simp [h], h1, h2⟩
    · left; exact ⟨[], l, pre, rfl, hon, h2⟩

/-- A commented line uses up the placeholder. -/
theorem rc_dummy_pending_commented (d : Int) (l : String) (pre : List String)
    (hc : rc_commented l) :
    rc_dummy_pending d (l :: pre) ↔ rc_dummy_pending (if d = 1 then 0 else d) pre := by
  have hd : ¬ ((if d = 1 then (0 : Int) else d) = 1) := by
    by_cases h : d = 1
    · simp [h]
    · simp [h]
  unfold rc_dummy_pending
  constructor
  · rintro (⟨a, l1, b, h, h1, h2⟩ | ⟨_, h2⟩)
    · cases a with
      | nil =>
        simp only [List.nil_append, List.cons.injEq] at h
        rw [← h.1, hc.1] at h1; cases h1
      | cons a0 a1 =>
        simp only [List.cons_append, List.cons.injEq] at h
        left; exact ⟨a1, l1, b, h.2, h1, h2⟩
    · exact absurd hc (h2 l (List.mem_cons_self _ _))
  · rintro (⟨a, l1, b, h, h1, h2⟩ | ⟨h, _⟩)
    · left; exact ⟨l :: a, l1, b, by simp [h], h1, h2⟩
    · exact absurd h hd

/-- A line without "on " that is not commented out leaves the placeholder as
it is. -/
theorem rc_dummy_pending_other (d : Int) (l : String) (pre : List String)
    (hon : str_contains l "on " = false) (hc : ¬ rc_commented l) :
    rc_dummy_pending d (l :: pre) ↔ rc_dummy_pending d pre := by
  unfold rc_dummy_pending
  constructor
  · rintro (⟨a, l1, b, h, h1, h2⟩ | ⟨h, h2⟩)
    · cases a with
      | nil =>
        simp only [List.nil_append, List.cons.injEq] at h
        rw [← h.1, hon] at h1; cases h1
      | cons a0 a1 =>
        simp only [List.cons_append, List.cons.injEq] at h
        left; exact ⟨a1, l1, b, h.2, h1, h2⟩
    · right; exact ⟨h, fun x hx => h2 x (List.mem_cons_of_mem _ hx)⟩
  · rintro (⟨a, l1, b, h, h1, h2⟩ | ⟨h, h2⟩)
    · left; exact ⟨l :: a, l1, b, by simp [h], h1, h2⟩
    · right
      refine ⟨h, fun x hx => ?_⟩
      rcases List.mem_cons.mp hx with rfl | hx
      · exact hc
      · exact h2 x hx

/-- A line that does not reach the sdcard branch consumes no line. -/
theorem rc_skipped_cons_other (line : String) (rest : List String)
    (h : ¬ rc_sdcard_branch line) : rc_skipped (line :: rest) = false :: rc_skipped rest := by
  have h' : ¬ (str_contains line "on " = false ∧ rc_is_mount line = false ∧
      str_starts_with line "service sdcard" = true) := h
  rw [rc_skipped.eq_def]
  simp only [if_neg h']

/-- A line that reaches the sdcard branch consumes the line after it. -/
theorem rc_skipped_cons_sdcard (line x : String) (rest1 : List String)
    (h : rc_sdcard_branch line) :
    rc_skipped (line :: x :: rest1) = false :: true :: rc_skipped rest1 := by
  have h' : str_contains line "on " = false ∧ rc_is_mount line = false ∧
      str_starts_with line "service sdcard" = true := h
  rw [rc_skipped.eq_def]
  simp only [if_pos h']

/-- The only line of a script is not consumed. -/
theorem rc_skipped_single (line : String) : rc_skipped [line] = [false] := by
  rw [rc_skipped.eq_def]
  simp only
  split <;> rfl

/-- The lines in effect before a position, past a line that does not reach the
sdcard branch. -/
theorem rc_active_before_cons_other (line : String) (rest : List String) (i : Nat)
    (h : ¬ rc_sdcard_branch line) :
    rc_active_before (line :: rest) (i + 1) = line :: rc_active_before rest i := by
  unfold rc_active_before
  rw [rc_skipped_cons_other line rest h]
  simp

/-- The lines in effect before a position, past a line that reaches the sdcard
branch and the line it consumes. -/
theorem rc_active_before_cons_sdcard (line x : String) (rest1 : List String) (i : Nat)
    (h : rc_sdcard_branch line) :
    rc_active_before (line :: x :: rest1) (i + 2) = line :: rc_active_before rest1 i := by
  unfold rc_active_before
  rw [rc_skipped_cons_sdcard line x rest1 h]
  simp

/-- The lines in effect at the end of a script of one line. -/
theorem rc_active_before_single (line : String) : rc_active_before [line] 1 = [line] := by
  unfold rc_active_before
  rw [rc_skipped_single]
  simp

/-- No line is in effect before the first line. -/
theorem rc_active_before_zero (lines : List String) : rc_active_before lines 0 = [] := by
  unfold rc_active_before; simp

/-- The output of the init-script rewrite is the concatenation of one piece for
each line; the pieces follow `rc_sdcard_piece` and the placeholder rule, and
`add_dummy` is 1 afterwards exactly when the placeholder is due after all
lines. -/
theorem rewrite_rc_dummy_pieces (d : Int) (lines : List String) :
    ∃ pieces, (rewrite_rc d lines).1 = concat_all pieces ∧
      List.Forall₂ (fun (x : String × Bool) piece => rc_sdcard_piece x.1 x.2 piece)
        (lines.zip (rc_skipped lines)) pieces ∧
      rc_placeholder_rule d lines pieces ∧
      ((rewrite_rc d lines).2 = 1 ↔ rc_dummy_pending d (rc_active_before lines lines.length)) := by
  induction d, lines using rewrite_rc.induct with
  | case1 d =>
    refine ⟨[], rfl, List.Forall₂.nil, ?_, ?_⟩
    · intro i line h; simp at h
    · simp only [List.length_nil]
      rw [rc_active_before_zero, rc_dummy_pending_nil]; rfl
  | case2 d line rest hon ih =>
    obtain ⟨ps, hps, hf, hrule, hst⟩ := ih
    have hnb : ¬ rc_sdcard_branch line := fun h => by rw [h.1] at hon; cases hon
    refine ⟨line :: ps, ?_, ?_, ?_, ?_⟩
    · rw [rewrite_rc.eq_def]
      simp only [hon, if_true, concat_all, hps]
    · rw [rc_skipped_cons_other line rest hnb]
      simp only [List.zip_cons_cons]
      exact List.Forall₂.cons ⟨by simp, fun _ h => absurd h hnb, fun _ _ => Or.inl rfl⟩ hf
    · intro i l hl hs hc
      cases i with
      | zero =>
        simp only [List.getElem?_cons_zero, Option.some.injEq] at hl
        subst hl; rw [hc.1] at hon; cases hon
      | succ j =>
        rw [rc_skipped_cons_other line rest hnb] at hs
        simp only [List.getElem?_cons_succ] at hl hs ⊢
        rw [rc_active_before_cons_other line rest j hnb, rc_dummy_pending_on d line _ hon]
        exact hrule j l hl hs hc
    · rw [rewrite_rc.eq_def]
      simp only [hon, if_true, List.length_cons]
      rw [rc_active_before_cons_other line rest _ hnb, rc_dummy_pending_on d line _ hon]
      exact hst
  | case3 d line rest hon hm ih =>
    obtain ⟨ps, hps, hf, hrule, hst⟩ := ih
    have hon' : str_contains line "on " = false := by simpa using hon
    have hnb : ¬ rc_sdcard_branch line := fun h => by rw [h.2.1] at hm; cases hm
    have hcm : rc_commented line := ⟨hon', hm⟩
    refine ⟨((if d = 1 then "    export DUMMY_LINE_INGORE_IT 1\n" else "") ++ "#" ++ line) :: ps,
      ?_, ?_, ?_, ?_⟩
    · rw [rewrite_rc.eq_def]
      simp only [hon', Bool.false_eq_true, if_false, hm, if_true, concat_all, hps]
    · rw [rc_skipped_cons_other line rest hnb]
      simp only [List.zip_cons_cons]
      refine List.Forall₂.cons ⟨by simp, fun _ h => absurd h hnb, ?_⟩ hf
      intro _ _
      by_cases hd : d = 1
      · right; right; simp only [hd, if_true, DUMMY_LINE, String.append_assoc]
      · right; left; simp only [hd, if_false, String.empty_append]
    · intro i l hl hs hc
      cases i with
      | zero =>
        simp only [List.getElem?_cons_zero, Option.some.injEq] at hl
        subst hl
        rw [rc_active_before_zero, rc_dummy_pending_nil]
        simp only [List.getElem?_cons_zero, Option.some.injEq]
        by_cases hd : d = 1
        · left; exact ⟨hd, by simp only [hd, if_true, DUMMY_LINE, String.append_assoc]⟩
        · right; exact ⟨hd, by simp only [hd, if_false, String.empty_append]⟩
      | succ j =>
        rw [rc_skipped_cons_other line rest hnb] at hs
        simp only [List.getElem?_cons_succ] at hl hs ⊢
        rw [rc_active_before_cons_other line rest j hnb, rc_dummy_pending_commented d line _ hcm]
        exact hrule j l hl hs hc
    · rw [rewrite_rc.eq_def]
      simp only [hon', Bool.false_eq_true, if_false, hm, if_true, List.length_cons]
      rw [rc_active_before_cons_other line rest _ hnb, rc_dummy_pending_commented d line _ hcm]
      exact hst
  | case4 d line hon hm hs =>
    have hon' : str_contains line "on " = false := by simpa using hon
    have hm' : rc_is_mount line = false := by simpa using hm
    have hb : rc_sdcard_branch line := ⟨hon', hm', hs⟩
    have hnc : ¬ rc_commented line := fun h => by rw [h.2] at hm'; cases hm'
    refine ⟨[line ++ "    class main\n"], ?_, ?_, ?_, ?_⟩
    · rw [rewrite_rc.eq_def]
      simp only [hon', hm', Bool.false_eq_true, if_false, hs, if_true, concat_all,
        String.append_empty]
    · rw [rc_skipped_single]
      simp only [List.zip_cons_cons, List.zip_nil_left]
      exact List.Forall₂.cons ⟨by simp, fun _ _ => rfl, fun _ h => absurd hb h⟩ List.Forall₂.nil
    · intro i l hl _ hc
      cases i with
      | zero =>
        simp only [List.getElem?_cons_zero, Option.some.injEq] at hl
        subst hl; exact absurd hc hnc
      | succ j => simp at hl
    · rw [rewrite_rc.eq_def]
      simp only [hon', hm', Bool.false_eq_true, if_false, hs, if_true, List.length_cons,
        List.length_nil]
      rw [rc_active_before_single, rc_dummy_pending_other d line _ hon' hnc,
        rc_dummy_pending_nil]
  | case5 d line hon hm hs head rest1 ih =>
    obtain ⟨ps, hps, hf, hrule, hst⟩ := ih
    have hon' : str_contains line "on " = false := by simpa using hon
    have hm' : rc_is_mount line = false := by simpa using hm
    have hb : rc_sdcard_branch line := ⟨hon', hm', hs⟩
    have hnc : ¬ rc_commented line := fun h => by rw [h.2] at hm'; cases hm'
    refine ⟨(line ++ "    class main\n") :: "" :: ps, ?_, ?_, ?_, ?_⟩
    · rw [rewrite_rc.eq_def]
      simp only [hon', hm', Bool.false_eq_true, if_false, hs, if_true, concat_all,
        hps, String.empty_append]
    · rw [rc_skipped_cons_sdcard line head rest1 hb]
      simp only [List.zip_cons_cons]
      exact List.Forall₂.cons ⟨by simp, fun _ _ => rfl, fun _ h => absurd hb h⟩
        (List.Forall₂.cons ⟨fun _ => rfl, by simp, by simp⟩ hf)
    · intro i l hl hsk hc
      rw [rc_skipped_cons_sdcard line head rest1 hb] at hsk
      cases i with
      | zero =>
        simp only [List.getElem?_cons_zero, Option.some.injEq] at hl
        subst hl; exact absurd hc hnc
      | succ j =>
        cases j with
        | zero => simp at hsk
        | succ k =>
          simp only [List.getElem?_cons_succ] at hl hsk ⊢
          rw [rc_active_before_cons_sdcard line head rest1 k hb,
            rc_dummy_pending_other d line _ hon' hnc]
          exact hrule k l hl hsk hc
    · rw [rewrite_rc.eq_def]
      simp only [hon', hm', Bool.false_eq_true, if_false, hs, if_true, List.length_cons]
      rw [rc_active_before_cons_sdcard line head rest1 _ hb,
        rc_dummy_pending_other d line _ hon' hnc]
      exact hst
  | case6 d line rest hon hm hs ih =>
    obtain ⟨ps, hps, hf, hrule, hst⟩ := ih
    have hon' : str_contains line "on " = false := by simpa using hon
    have hm' : rc_is_mount line = false := by simpa using hm
    have hs' : str_starts_with line "service sdcard" = false := by simpa using hs
    have hnb : ¬ rc_sdcard_branch line := fun h => by rw [h.2.2] at hs'; cases hs'
    have hnc : ¬ rc_commented line := fun h => by rw [h.2] at hm'; cases hm'
    refine ⟨line :: ps, ?_, ?_, ?_, ?_⟩
    · rw [rewrite_rc.eq_def]
      simp only [hon', hm', hs', Bool.false_eq_true, if_false, concat_all, hps]
    · rw [rc_skipped_cons_other line rest hnb]
      simp only [List.zip_cons_cons]
      exact List.Forall₂.cons ⟨by simp, fun _ h => absurd h hnb, fun _ _ => Or.inl rfl⟩ hf
    · intro i l hl hsk hc
      cases i with
      | zero =>
        simp only [List.getElem?_cons_zero, Option.some.injEq] at hl
        subst hl; exact absurd hc hnc
      | succ j =>
        rw [rc_skipped_cons_other line rest hnb] at hsk
        simp only [List.getElem?_cons_succ] at hl hsk ⊢
        rw [rc_active_before_cons_other line rest j hnb,
          rc_dummy_pending_other d line _ hon' hnc]
        exact hrule j l hl hsk hc
    · rw [rewrite_rc.eq_def]
      simp only [hon', hm', hs', Bool.false_eq_true, if_false, List.length_cons]
      rw [rc_active_before_cons_other line rest _ hnb,
        rc_dummy_pending_other d line _ hon' hnc]
      exact hst

/-- C23 (amended): `multirom_create_media_link` always returns 0 or -1. For an
API level of at most 0 it returns -1 and does nothing. For an API level from
1 on it makes the target folder and binds the source on it: for a level of at
most 16 the target is `/data/media` and the source `/realdata/media/0` when
that exists, else `/realdata/media`; from level 17 on the source is
`/realdata/media` and the target `/data/media` when `/realdata/media/0`
exists, else `/data/media/0`. The result is 0 exactly when the folder is
made, the mount succeeds and, from level 17 on, the marker file opens. The
marker file `/data/.layout_version` is written ("2", mode 0600) on a run
that returns 0 with a level of 17 or more, and on no other run. -/
theorem create_media_link_layout (w : World) (st : Sys) (api : Int)
    (hapi : multirom_get_api_level w st "/system/build.prop" = api) :
    ∃ r st1, multirom_create_media_link w st = some (r, st1) ∧
      (r = 0 ∨ r = -1) ∧
      (api ≤ 0 → r = -1 ∧ st1 = st) ∧
      (0 < api →
        (r = 0 ↔
          (w.mkdir_recursive_ok st.trace
              (media_link_target api (w.stat_ok st.trace "/realdata/media/0")) = true ∧
            w.mount_ok
              (st.trace ++ [Ev.mkdir_recursive
                (media_link_target api (w.stat_ok st.trace "/realdata/media/0")) 0o775])
              (media_link_source api (w.stat_ok st.trace "/realdata/media/0"))
              (media_link_target api (w.stat_ok st.trace "/realdata/media/0")) "ext4" MS_BIND =
              true ∧
            (17 ≤ api →
              w.fopen_w
                (st.trace ++ [Ev.mkdir_recursive
                    (media_link_target api (w.stat_ok st.trace "/realdata/media/0")) 0o775,
                  Ev.mount (media_link_source api (w.stat_ok st.trace "/realdata/media/0"))
                    (media_link_target api (w.stat_ok st.trace "/realdata/media/0")) "ext4"
                    MS_BIND])
                "/data/.layout_version" = true))) ∧
        (r = 0 →
          st1.trace = st.trace ++
            [Ev.mkdir_recursive
                (media_link_target api (w.stat_ok st.trace "/realdata/media/0")) 0o775,
              Ev.mount (media_link_source api (w.stat_ok st.trace "/realdata/media/0"))
                (media_link_target api (w.stat_ok st.trace "/realdata/media/0")) "ext4"
                MS_BIND] ++
            (if 17 ≤ api then
              [Ev.write_file "/data/.layout_version" "2", Ev.chmod "/data/.layout_version" 0o600]
            else [])) ∧
        (r = -1 →
          st1.trace = st.trace ++
            [Ev.mkdir_recursive
                (media_link_target api (w.stat_ok st.trace "/realdata/media/0")) 0o775] ∨
          st1.trace = st.trace ++
            [Ev.mkdir_recursive
                (media_link_target api (w.stat_ok st.trace "/realdata/media/0")) 0o775,
              Ev.mount (media_link_source api (w.stat_ok st.trace "/realdata/media/0"))
                (media_link_target api (w.stat_ok st.trace "/realdata/media/0")) "ext4"
                MS_BIND])) := by
  have hsrc : ∀ b : Bool,
      (if api ≤ 16 then (if b = true then REALDATA ++ "/media/0" else REALDATA ++ "/media")
        else REALDATA ++ "/media") = media_link_source api b := by
    intro b; unfold media_link_source; cases b <;> split <;> rfl
  have hdst : ∀ b : Bool,
      (if api ≤ 16 then "/data/media"
        else (if b = true then "/data/media" else "/data/media/0")) = media_link_target api b := by
    intro b; unfold media_link_target; rfl
  have hmn : w.stat_ok st.trace (REALDATA ++ "/media/0") =
      w.stat_ok st.trace "/realdata/media/0" := rfl
  have hlv : LAYOUT_VERSION = "/data/.layout_version" := rfl
  have hraw : multirom_create_media_link w st =
      (if api ≤ 0 then some (-1, st)
      else if w.mkdir_recursive_ok st.trace
          (media_link_target api (w.stat_ok st.trace "/realdata/media/0")) = false then
        some (-1, { st with trace := st.trace ++ [Ev.mkdir_recursive
          (media_link_target api (w.stat_ok st.trace "/realdata/media/0")) 0o775] })
      else if w.mount_ok (st.trace ++ [Ev.mkdir_recursive
          (media_link_target api (w.stat_ok st.trace "/realdata/media/0")) 0o775])
          (media_link_source api (w.stat_ok st.trace "/realdata/media/0"))
          (media_link_target api (w.stat_ok st.trace "/realdata/media/0")) "ext4" MS_BIND =
          false then
        some (-1, { st with trace := st.trace ++ [Ev.mkdir_recursive
            (media_link_target api (w.stat_ok st.trace "/realdata/media/0")) 0o775,
          Ev.mount (media_link_source api (w.stat_ok st.trace "/realdata/media/0"))
            (media_link_target api (w.stat_ok st.trace "/realdata/media/0")) "ext4" MS_BIND] })
      else if api ≥ 17 then
        if w.fopen_w (st.trace ++ [Ev.mkdir_recursive
            (media_link_target api (w.stat_ok st.trace "/realdata/media/0")) 0o775,
          Ev.mount (media_link_source api (w.stat_ok st.trace "/realdata/media/0"))
            (media_link_target api (w.stat_ok st.trace "/realdata/media/0")) "ext4" MS_BIND])
            "/data/.layout_version" = false then
          some (-1, { st with trace := st.trace ++ [Ev.mkdir_recursive
              (media_link_target api (w.stat_ok st.trace "/realdata/media/0")) 0o775,
            Ev.mount (media_link_source api (w.stat_ok st.trace "/realdata/media/0"))
              (media_link_target api (w.stat_ok st.trace "/realdata/media/0")) "ext4" MS_BIND] })
        else
          some (0, { st with trace := st.trace ++ [Ev.mkdir_recursive
              (media_link_target api (w.stat_ok st.trace "/realdata/media/0")) 0o775,
            Ev.mount (media_link_source api (w.stat_ok st.trace "/realdata/media/0"))
              (media_link_target api (w.stat_ok st.trace "/realdata/media/0")) "ext4" MS_BIND,
            Ev.write_file "/data/.layout_version" "2",
            Ev.chmod "/data/.layout_version" 0o600] })
      else
        some (0, { st with trace := st.trace ++ [Ev.mkdir_recursive
            (media_link_target api (w.stat_ok st.trace "/realdata/media/0")) 0o775,
          Ev.mount (media_link_source api (w.stat_ok st.trace "/realdata/media/0"))
            (media_link_target api (w.stat_ok st.trace "/realdata/media/0")) "ext4" MS_BIND] })) := by
    unfold multirom_create_media_link
    simp only [hapi, hsrc, hdst, hmn, hlv, emit, List.append_assoc, List.singleton_append,
      List.cons_append, List.nil_append]
  rw [hraw]
  generalize w.stat_ok st.trace "/realdata/media/0" = mn
  generalize media_link_source api mn = src
  generalize media_link_target api mn = dst
  by_cases h0 : api ≤ 0
  · rw [if_pos h0]
    exact ⟨_, _, rfl, Or.inr rfl, fun _ => ⟨rfl, rfl⟩, fun h => by omega⟩
  · rw [if_neg h0]
    cases h1 : w.mkdir_recursive_ok st.trace dst
    · rw [if_pos rfl]
      exact ⟨_, _, rfl, Or.inr rfl, fun h => absurd h h0, fun _ =>
        ⟨by simp, by simp, fun _ => Or.inl rfl⟩⟩
    · rw [if_neg (by simp)]
      cases h2 : w.mount_ok (st.trace ++ [Ev.mkdir_recursive dst 0o775]) src dst "ext4" MS_BIND
      · rw [if_pos rfl]
        exact ⟨_, _, rfl, Or.inr rfl, fun h => absurd h h0, fun _ =>
          ⟨by simp, by simp, fun _ => Or.inr rfl⟩⟩
      · rw [if_neg (by simp)]
        by_cases h17 : api ≥ 17
        · have h17' : 17 ≤ api := h17
          rw [if_pos h17]
          cases h3 : w.fopen_w (st.trace ++ [Ev.mkdir_recursive dst 0o775,
              Ev.mount src dst "ext4" MS_BIND]) "/data/.layout_version"
          · rw [if_pos rfl]
            exact ⟨_, _, rfl, Or.inr rfl, fun h => absurd h h0, fun _ =>
              ⟨by simp [h17'], by simp, fun _ => Or.inr rfl⟩⟩
          · rw [if_neg (by simp)]
            exact ⟨_, _, rfl, Or.inl rfl, fun h => absurd h h0, fun _ =>
              ⟨by simp, fun _ => by simp [h17'], by simp⟩⟩
        · have h17' : ¬ 17 ≤ api := h17
          rw [if_neg h17]
          exact ⟨_, _, rfl, Or.inl rfl, fun h => absurd h h0, fun _ =>
            ⟨by simp [h17'], fun _ => by simp [h17'], by simp⟩⟩

set_option maxRecDepth 100000 in
/-- C23 fails as stated: with API level 16 the function returns 0 after the
mount and writes no marker file. -/
theorem create_media_link_layout_counterexample :
    multirom_get_api_level (api_world "16") {} "/system/build.prop" = 16 ∧
    multirom_create_media_link (api_world "16") {} =
      some (0, { trace := [Ev.mkdir_recursive "/data/media" 0o775,
        Ev.mount "/realdata/media" "/data/media" "ext4" MS_BIND] }) := by
  decide

set_option maxRecDepth 100000 in
/-- The theorem `create_media_link_layout` at API level 17 without
`/realdata/media/0`: `/realdata/media` is bound on `/data/media/0` and the
marker file is written. -/
theorem create_media_link_layout_witness :
    multirom_get_api_level (api_world "17") {} "/system/build.prop" = 17 ∧
    (∃ r st1, multirom_create_media_link (api_world "17") {} = some (r, st1) ∧
        (r = 0 ∨ r = -1) ∧
        ((17 : Int) ≤ 0 → r = -1 ∧ st1 = ({} : Sys)) ∧
        (0 < (17 : Int) →
          (r = 0 ↔
            ((api_world "17").mkdir_recursive_ok ({} : Sys).trace
                (media_link_target 17 ((api_world "17").stat_ok ({} : Sys).trace "/realdata/media/0")) = true ∧
              (api_world "17").mount_ok
                (({} : Sys).trace ++ [Ev.mkdir_recursive
                  (media_link_target 17 ((api_world "17").stat_ok ({} : Sys).trace "/realdata/media/0")) 0o775])
                (media_link_source 17 ((api_world "17").stat_ok ({} : Sys).trace "/realdata/media/0"))
                (media_link_target 17 ((api_world "17").stat_ok ({} : Sys).trace "/realdata/media/0")) "ext4" MS_BIND =
                true ∧
              (17 ≤ (17 : Int) →
                (api_world "17").fopen_w
                  (({} : Sys).trace ++ [Ev.mkdir_recursive
                      (media_link_target 17 ((api_world "17").stat_ok ({} : Sys).trace "/realdata/media/0")) 0o775,
                    Ev.mount (media_link_source 17 ((api_world "17").stat_ok ({} : Sys).trace "/realdata/media/0"))
                      (media_link_target 17 ((api_world "17").stat_ok ({} : Sys).trace "/realdata/media/0")) "ext4"
                      MS_BIND])
                  "/data/.layout_version" = true))) ∧
          (r = 0 →
            st1.trace = ({} : Sys).trace ++
              [Ev.mkdir_recursive
                  (media_link_target 17 ((api_world "17").stat_ok ({} : Sys).trace "/realdata/media/0")) 0o775,
                Ev.mount (media_link_source 17 ((api_world "17").stat_ok ({} : Sys).trace "/realdata/media/0"))
                  (media_link_target 17 ((api_world "17").stat_ok ({} : Sys).trace "/realdata/media/0")) "ext4"
                  MS_BIND] ++
              (if 17 ≤ (17 : Int) then
                [Ev.write_file "/data/.layout_version" "2", Ev.chmod "/data/.layout_version" 0o600]
              else [])) ∧
          (r = -1 →
            st1.trace = ({} : Sys).trace ++
              [Ev.mkdir_recursive
                  (media_link_target 17 ((api_world "17").stat_ok ({} : Sys).trace "/realdata/media/0")) 0o775] ∨
            st1.trace = ({} : Sys).trace ++
              [Ev.mkdir_recursive
                  (media_link_target 17 ((api_world "17").stat_ok ({} : Sys).trace "/realdata/media/0")) 0o775,
                Ev.mount (media_link_source 17 ((api_world "17").stat_ok ({} : Sys).trace "/realdata/media/0"))
                  (media_link_target 17 ((api_world "17").stat_ok ({} : Sys).trace "/realdata/media/0")) "ext4"
                  MS_BIND]))) ∧
    multirom_create_media_link (api_world "17") {} =
      some (0, { trace := [Ev.mkdir_recursive "/data/media/0" 0o775,
        Ev.mount "/realdata/media" "/data/media/0" "ext4" MS_BIND,
        Ev.write_file "/data/.layout_version" "2", Ev.chmod "/data/.layout_version" 0o600] }) :=
  ⟨by decide, create_media_link_layout (api_world "17") {} 17 (by decide), by decide⟩

/-! ## Theorems: status file round trip -/

/-- A decimal digit character is a digit and has the value of its digit. -/
theorem digitChar_isDigit (d : Nat) (h : d < 10) :
    (Nat.digitChar d).isDigit = true ∧ (Nat.digitChar d).toNat - '0'.toNat = d := by
  interval_cases d <;> decide

/-- Reading the digits of a number gives the number, after what was read
before. -/
theorem atoi_digits_toDigitsCore (fuel : Nat) : ∀ (n : Nat) (ds : List Char), n < fuel →
    ∃ k : Nat, ∀ acc : Nat,
      atoi_digits (Nat.toDigitsCore 10 fuel n ds) acc = atoi_digits ds (acc * 10 ^ k + n) := by
  induction fuel with
  | zero => intro n ds h; omega
  | succ fuel ih =>
    intro n ds h
    obtain ⟨hd1, hd2⟩ := digitChar_isDigit (n % 10) (Nat.mod_lt _ (by decide))
    unfold Nat.toDigitsCore
    simp only
    by_cases h0 : n / 10 = 0
    · rw [if_pos h0]
      refine ⟨1, fun acc => ?_⟩
      have hn : n % 10 = n := Nat.mod_eq_of_lt (by omega)
      simp only [atoi_digits, hd1, if_true, hd2, pow_one]
      rw [hn]
    · rw [if_neg h0]
      obtain ⟨k, hk⟩ := ih (n / 10) (Nat.digitChar (n % 10) :: ds) (by omega)
      refine ⟨k + 1, fun acc => ?_⟩
      rw [hk acc]
      simp only [atoi_digits, hd1, if_true, hd2]
      congr 1
      have := Nat.div_add_mod n 10
      rw [pow_succ]
      nlinarith [this]

/-- Reading the decimal text of a natural number gives the number. -/
theorem atoi_digits_fmt_d (n : Nat) : atoi_digits (fmt_d n).data 0 = n := by
  obtain ⟨k, hk⟩ := atoi_digits_toDigitsCore (n + 1) n [] (by omega)
  unfold fmt_d Nat.toDigits
  simp only
  rw [hk 0]
  simp [atoi_digits]

/-- The decimal text of a number begins with a digit. -/
theorem toDigitsCore_head (fuel : Nat) : ∀ (n : Nat) (ds : List Char), n < fuel →
    ∃ d, d < 10 ∧ ∃ rest, Nat.toDigitsCore 10 fuel n ds = Nat.digitChar d :: rest := by
  induction fuel with
  | zero => intro n ds h; omega
  | succ fuel ih =>
    intro n ds h
    unfold Nat.toDigitsCore
    simp only
    by_cases h0 : n / 10 = 0
    · rw [if_pos h0]
      exact ⟨n % 10, Nat.mod_lt _ (by decide), ds, rfl⟩
    · rw [if_neg h0]
      exact ih (n / 10) _ (by omega)

/-- On a text that begins with a digit, `atoi` reads the digits. -/
theorem atoi_digit_head (d : Nat) (h : d < 10) (rest : List Char) :
    atoi (String.mk (Nat.digitChar d :: rest)) = (atoi_digits (Nat.digitChar d :: rest) 0 : Int) := by
  interval_cases d <;> rfl

/-- The function `atoi` reads back what `%d` has printed. -/
theorem atoi_fmt_int (n : Int) : atoi (fmt_int n) = n := by
  unfold fmt_int
  by_cases hn : n < 0
  · rw [if_pos hn]
    have h1 : atoi ("-" ++ fmt_d n.natAbs) = - (atoi_digits (fmt_d n.natAbs).data 0 : Int) := rfl
    rw [h1, atoi_digits_fmt_d]
    omega
  · rw [if_neg hn]
    obtain ⟨d, hd, rest, hr⟩ := toDigitsCore_head (n.toNat + 1) n.toNat [] (by omega)
    have h2 : fmt_d n.toNat = String.mk (Nat.digitChar d :: rest) := by
      unfold fmt_d Nat.toDigits; rw [hr]
    have h3 := atoi_digits_fmt_d n.toNat
    rw [h2] at h3 ⊢
    rw [atoi_digit_head d hd rest]
    simp only at h3
    rw [h3]
    omega

/-- Characters that are no delimiters are added to the token being read. -/
theorem strtok_any_run (delims : List Char) (u : List Char) (hu : ∀ c ∈ u, c ∉ delims)
    (rest cur : List Char) :
    strtok_any delims (u ++ rest) cur = strtok_any delims rest (u.reverse ++ cur) := by
  induction u generalizing cur with
  | nil => rfl
  | cons c u ih =>
    have hc : c ∉ delims := hu c (by simp)
    simp only [List.cons_append, strtok_any, hc, if_false, List.append_eq]
    rw [ih (fun x hx => hu x (by simp [hx]))]
    simp

/-- The tokens of a record `key=value`: the key and, when it is not empty, the
value. -/
theorem strtok_any_record (key value : String) (hk : key.data ≠ [])
    (hk1 : '=' ∉ key.data) (hk2 : '\n' ∉ key.data)
    (hv1 : '=' ∉ value.data) (hv2 : '\n' ∉ value.data) :
    strtok_any ['=', '\n'] (key ++ "=" ++ value ++ "\n").data [] =
      if value.data = [] then [key] else [key, value] := by
  have hkd : ∀ c ∈ key.data, c ∉ ['=', '\n'] := by
    intro c hc h
    simp only [List.mem_cons, List.mem_singleton, List.not_mem_nil, or_false] at h
    rcases h with rfl | rfl
    · exact hk1 hc
    · exact hk2 hc
  have hvd : ∀ c ∈ value.data, c ∉ ['=', '\n'] := by
    intro c hc h
    simp only [List.mem_cons, List.mem_singleton, List.not_mem_nil, or_false] at h
    rcases h with rfl | rfl
    · exact hv1 hc
    · exact hv2 hc
  have hd : (key ++ "=" ++ value ++ "\n").data =
      key.data ++ ('=' :: (value.data ++ ['\n'])) := by
    simp [String.data_append]
  have e1 : ∀ (X cur : List Char), cur ≠ [] →
      strtok_any ['=', '\n'] ('=' :: X) cur =
        String.mk cur.reverse :: strtok_any ['=', '\n'] X [] := by
    intro X cur hcur
    simp [strtok_any, hcur]
  have e2 : ∀ cur : List Char, strtok_any ['=', '\n'] ['\n'] cur =
      if cur = [] then [] else [String.mk cur.reverse] := by
    intro cur
    simp [strtok_any]
  have hkr : key.data.reverse ++ [] ≠ [] := by simpa using hk
  rw [hd, strtok_any_run _ _ hkd, e1 _ _ hkr, strtok_any_run _ _ hvd, e2]
  by_cases hv : value.data = []
  · simp [hv]
  · simp [hv]

/-- The decimal text of a number holds digits only. -/
theorem toDigitsCore_chars (fuel : Nat) : ∀ (n : Nat) (ds : List Char),
    ∀ c ∈ Nat.toDigitsCore 10 fuel n ds, c ∈ ds ∨ ∃ d, d < 10 ∧ c = Nat.digitChar d := by
  induction fuel with
  | zero => intro n ds c hc; left; simpa [Nat.toDigitsCore] using hc
  | succ fuel ih =>
    intro n ds c hc
    unfold Nat.toDigitsCore at hc
    simp only at hc
    split at hc
    · rcases List.mem_cons.mp hc with h | h
      · right; exact ⟨n % 10, Nat.mod_lt _ (by decide), h⟩
      · left; exact h
    · rcases ih _ _ c hc with h | h
      · rcases List.mem_cons.mp h with h | h
        · right; exact ⟨n % 10, Nat.mod_lt _ (by decide), h⟩
        · left; exact h
      · right; exact h

/-- A number below `10 ^ k` has at most `k` digits. -/
theorem toDigitsCore_length (fuel : Nat) : ∀ (n k : Nat) (ds : List Char),
    1 ≤ k → n < 10 ^ k → (Nat.toDigitsCore 10 fuel n ds).length ≤ ds.length + k := by
  induction fuel with
  | zero => intro n k ds _ _; simp [Nat.toDigitsCore]
  | succ fuel ih =>
    intro n k ds hk hn
    unfold Nat.toDigitsCore
    simp only
    split
    · simp only [List.length_cons]; omega
    · rename_i h0
      have hk2 : 2 ≤ k := by
        by_contra hlt
        have : k = 1 := by omega
        subst this
        apply h0
        exact Nat.div_eq_of_lt (by simpa using hn)
      have hdiv : n / 10 < 10 ^ (k - 1) := by
        apply Nat.div_lt_of_lt_mul
        have : 10 ^ k = 10 * 10 ^ (k - 1) := by
          rw [← pow_succ']; congr 1; omega
        omega
      have := ih (n / 10) (k - 1) (Nat.digitChar (n % 10) :: ds) (by omega) hdiv
      simp only [List.length_cons] at this
      omega

/-- A digit is neither '=' nor a line feed. -/
theorem digitChar_safe (d : Nat) (h : d < 10) :
    Nat.digitChar d ≠ '=' ∧ Nat.digitChar d ≠ '\n' := by
  interval_cases d <;> decide

/-- The decimal text of a number below `10 ^ 10` is not empty, has no '=' and
no line feed, and at most 10 characters. -/
theorem fmt_d_safe (n : Nat) (hn : n < 10 ^ 10) :
    (fmt_d n).data ≠ [] ∧ '=' ∉ (fmt_d n).data ∧ '\n' ∉ (fmt_d n).data ∧
      (fmt_d n).data.length ≤ 10 := by
  have hch := toDigitsCore_chars (n + 1) n []
  have hlen := toDigitsCore_length (n + 1) n 10 [] (by omega) hn
  obtain ⟨d, _, rest, hr⟩ := toDigitsCore_head (n + 1) n [] (by omega)
  unfold fmt_d Nat.toDigits
  simp only
  refine ⟨by rw [hr]; simp, ?_, ?_, by simpa using hlen⟩
  · intro h
    rcases hch _ h with h1 | ⟨d, hd, h1⟩
    · cases h1
    · exact (digitChar_safe d hd).1 h1.symm
  · intro h
    rcases hch _ h with h1 | ⟨d, hd, h1⟩
    · cases h1
    · exact (digitChar_safe d hd).2 h1.symm

/-- The text `%d` prints for an `int` is not empty and fits one line of the
status file. -/
theorem fmt_int_safe (n : Int) (h1 : -2 ^ 31 ≤ n) (h2 : n < 2 ^ 31) :
    (fmt_int n).data ≠ [] ∧ line_safe (fmt_int n) := by
  unfold fmt_int line_safe
  by_cases hn : n < 0
  · rw [if_pos hn]
    obtain ⟨_, a, b, c⟩ := fmt_d_safe n.natAbs (by omega)
    simp only [String.data_append]
    refine ⟨by simp, ?_, ?_, ?_⟩
    · intro h
      rcases List.mem_append.mp h with h | h
      · revert h; decide
      · exact a h
    · intro h
      rcases List.mem_append.mp h with h | h
      · revert h; decide
      · exact b h
    · simp only [List.length_append]
      have : ("-" : String).data.length = 1 := rfl
      rw [this]
      omega
  · rw [if_neg hn]
    obtain ⟨z, a, b, c⟩ := fmt_d_safe n.toNat (by omega)
    exact ⟨z, a, b, by omega⟩

/-- A record with a short key and a value that fits is one line for `fgets`. -/
theorem rc_line_record (key v : String) (hk : '\n' ∉ key.data) (hkl : key.data.length ≤ 20)
    (hv : line_safe v) : rc_line (key ++ "=" ++ v ++ "\n") := by
  refine ⟨key.data ++ '=' :: v.data, ?_, ?_, ?_⟩
  · apply String.ext
    simp [String.data_append]
  · intro h
    rcases List.mem_append.mp h with h | h
    · exact hk h
    · rcases List.mem_cons.mp h with h | h
      · revert h; decide
      · exact hv.2.1 h
  · have := hv.2.2
    simp only [List.length_append, List.length_cons]
    omega

/-- The record `current_rom` sets the buffer `current_rom`, unless the value is
empty. -/
theorem load_status_line_current (acc : multirom_status × String × String) (v : String)
    (hv : line_safe v) :
    load_status_line acc ("current_rom" ++ "=" ++ v ++ "\n") =
      (acc.1, if v.data = [] then acc.2.1 else v, acc.2.2) := by
  have h1 : str_contains "current_rom" "current_rom" = true := by decide
  unfold load_status_line
  rw [strtok_any_record "current_rom" v (by decide) (by decide) (by decide) hv.1 hv.2.1]
  by_cases he : v.data = []
  · simp only [he, if_true]
  · simp only [he, if_false, h1, if_true]

/-- The record `auto_boot_seconds` sets the field to the number read. -/
theorem load_status_line_seconds (acc : multirom_status × String × String) (v : String)
    (hv : line_safe v) (hne : v.data ≠ []) :
    load_status_line acc ("auto_boot_seconds" ++ "=" ++ v ++ "\n") =
      ({ acc.1 with auto_boot_seconds := atoi v }, acc.2.1, acc.2.2) := by
  have h1 : str_contains "auto_boot_seconds" "current_rom" = false := by decide
  have h2 : str_contains "auto_boot_seconds" "auto_boot_seconds" = true := by decide
  unfold load_status_line
  rw [strtok_any_record "auto_boot_seconds" v (by decide) (by decide) (by decide) hv.1 hv.2.1]
  simp only [hne, if_false, h1, h2, Bool.false_eq_true, if_true]

/-- The record `auto_boot_rom` sets the buffer `auto_boot_rom`, unless the value
is empty. -/
theorem load_status_line_auto (acc : multirom_status × String × String) (v : String)
    (hv : line_safe v) :
    load_status_line acc ("auto_boot_rom" ++ "=" ++ v ++ "\n") =
      (acc.1, acc.2.1, if v.data = [] then acc.2.2 else v) := by
  have h1 : str_contains "auto_boot_rom" "current_rom" = false := by decide
  have h2 : str_contains "auto_boot_rom" "auto_boot_seconds" = false := by decide
  have h3 : str_contains "auto_boot_rom" "auto_boot_rom" = true := by decide
  unfold load_status_line
  rw [strtok_any_record "auto_boot_rom" v (by decide) (by decide) (by decide) hv.1 hv.2.1]
  by_cases he : v.data = []
  · simp only [he, if_true]
  · simp only [he, if_false, h1, h2, h3, Bool.false_eq_true, if_true]

/-- The record `curr_rom_part` sets the field, unless the value is empty. -/
theorem load_status_line_part (acc : multirom_status × String × String) (v : String)
    (hv : line_safe v) :
    load_status_line acc ("curr_rom_part" ++ "=" ++ v ++ "\n") =
      ({ acc.1 with curr_rom_part := if v.data = [] then acc.1.curr_rom_part else some v },
        acc.2.1, acc.2.2) := by
  have h1 : str_contains "curr_rom_part" "current_rom" = false := by decide
  have h2 : str_contains "curr_rom_part" "auto_boot_seconds" = false := by decide
  have h3 : str_contains "curr_rom_part" "auto_boot_rom" = false := by decide
  have h4 : str_contains "curr_rom_part" "curr_rom_part" = true := by decide
  unfold load_status_line
  rw [strtok_any_record "curr_rom_part" v (by decide) (by decide) (by decide) hv.1 hv.2.1]
  by_cases he : v.data = []
  · simp only [he, if_true]
  · simp only [he, if_false, h1, h2, h3, h4, Bool.false_eq_true, if_true]

/-- The status file is read record by record. -/
theorem status_file_lines (cur seconds auto part : String)
    (hc : line_safe cur) (hs : line_safe seconds) (ha : line_safe auto) (hp : line_safe part) :
    fgets_all 1024 (status_file_text cur seconds auto part).data [] =
      ["current_rom" ++ "=" ++ cur ++ "\n", "auto_boot_seconds" ++ "=" ++ seconds ++ "\n",
        "auto_boot_rom" ++ "=" ++ auto ++ "\n", "curr_rom_part" ++ "=" ++ part ++ "\n"] := by
  have h := fgets_all_lines
    ["current_rom" ++ "=" ++ cur ++ "\n", "auto_boot_seconds" ++ "=" ++ seconds ++ "\n",
      "auto_boot_rom" ++ "=" ++ auto ++ "\n", "curr_rom_part" ++ "=" ++ part ++ "\n"]
    (by
      intro l hl
      simp only [List.mem_cons, List.mem_singleton, List.not_mem_nil, or_false] at hl
      rcases hl with rfl | rfl | rfl | rfl
      · exact rc_line_record _ _ (by decide) (by decide) hc
      · exact rc_line_record _ _ (by decide) (by decide) hs
      · exact rc_line_record _ _ (by decide) (by decide) ha
      · exact rc_line_record _ _ (by decide) (by decide) hp)
  have ht : status_file_text cur seconds auto part = concat_all
      ["current_rom" ++ "=" ++ cur ++ "\n", "auto_boot_seconds" ++ "=" ++ seconds ++ "\n",
        "auto_boot_rom" ++ "=" ++ auto ++ "\n", "curr_rom_part" ++ "=" ++ part ++ "\n"] := by
    apply String.ext
    simp [status_file_text, concat_all, String.data_append]
  rw [ht, h]

/-- The `fgets` loop of `multirom_load_status` on a file that
`multirom_save_status` has written: the two names are read back, the number
is read back, and the partition is set unless it was saved as empty. -/
theorem load_status_parse_saved (s2 : multirom_status) (cur auto part : String) (n : Int)
    (hc : line_safe cur) (ha : line_safe auto) (hp : line_safe part)
    (h1 : -2 ^ 31 ≤ n) (h2 : n < 2 ^ 31) :
    (fgets_all 1024 (status_file_text cur (fmt_int n) auto part).data []).foldl load_status_line
        (s2, "", "") =
      ({ s2 with auto_boot_seconds := n,
                 curr_rom_part := if part.data = [] then s2.curr_rom_part else some part },
        cur, auto) := by
  obtain ⟨hne, hs⟩ := fmt_int_safe n h1 h2
  rw [status_file_lines cur (fmt_int n) auto part hc hs ha hp]
  simp only [List.foldl_cons, List.foldl_nil]
  rw [load_status_line_current _ _ hc, load_status_line_seconds _ _ hs hne,
    load_status_line_auto _ _ ha, load_status_line_part _ _ hp, atoi_fmt_int]
  have e1 : (if cur.data = [] then "" else cur) = cur := by
    split
    · rename_i h; exact String.ext h.symm
    · rfl
  have e2 : (if auto.data = [] then "" else auto) = auto := by
    split
    · rename_i h; exact String.ext h.symm
    · rfl
  simp only [e1, e2]

/-- The function `multirom_get_rom` uses the status for its partition list
only. -/
theorem get_rom_partitions (s a : multirom_status) (hp : s.partitions = a.partitions)
    (name : String) (uuid : Option String) :
    ∀ roms : List multirom_rom,
      multirom_get_rom s name uuid roms = multirom_get_rom a name uuid roms
  | [] => rfl
  | r :: rs => by
    rw [multirom_get_rom.eq_def, multirom_get_rom.eq_def a]
    simp only [deref_partition, hp, get_rom_partitions s a hp name uuid rs]

/-- The function `multirom_update_partitions` changes the partition list only. -/
theorem update_partitions_fields (w : World) (s : multirom_status) (st : Sys)
    (r : Int) (s1 : multirom_status) (st1 : Sys)
    (h : multirom_update_partitions w s st = some ((r, s1), st1)) :
    s1 = { s with partitions := s1.partitions } := by
  unfold multirom_update_partitions at h
  simp only at h
  split at h
  · cases h; rfl
  · split at h
    · cases h
    · cases h; rfl

/-- The function `multirom_scan_partition_for_roms` changes the ROM list only. -/
theorem scan_partition_fields (w : World) (s : multirom_status) (p : usb_partition) (st : Sys)
    (r : Int) (s1 : multirom_status) (st1 : Sys)
    (h : multirom_scan_partition_for_roms w s p st = some ((r, s1), st1)) :
    s1 = { s with roms := s1.roms } := by
  unfold multirom_scan_partition_for_roms at h
  split at h
  · cases h
  · simp only at h
    split at h
    · cases h; rfl
    · split at h
      · cases h; rfl
      · cases h
        split <;> rfl

/-- The wait loop of `multirom_load_status` changes the two lists only. -/
theorem load_status_wait_fields (w : World) (uuid : String) :
    ∀ (tries : Nat) (s : multirom_status) (st : Sys) (s1 : multirom_status) (st1 : Sys),
      load_status_wait w uuid tries s st = some (s1, st1) →
      s1 = { s with roms := s1.roms, partitions := s1.partitions }
  | 0, s, st, s1, st1 => by
    intro h
    simp only [load_status_wait, Option.some.injEq, Prod.mk.injEq] at h
    rw [← h.1]
  | tries + 1, s, st, s1, st1 => by
    intro h
    rw [load_status_wait.eq_def] at h
    simp only at h
    split at h
    · cases h
    · rename_i r s2 st2 hup
      have h2 := update_partitions_fields w s st r s2 st2 hup
      split at h
      · split at h
        · cases h
        · rename_i r3 s3 st3 hscan
          cases h
          have h3 := scan_partition_fields w s2 _ st2 r3 s1 st1 hscan
          rw [h3, h2]
      · have h3 := load_status_wait_fields w uuid tries s2 st2 s1 st1 h
        rw [h3, h2]

/-- The function `multirom_default_status` leaves `curr_rom_part`,
`auto_boot_seconds` and `auto_boot_rom` as they are. -/
theorem default_status_fields (w : World) (s : multirom_status) (st : Sys)
    (r : Int) (s1 : multirom_status) (st1 : Sys)
    (h : multirom_default_status w s st = some ((r, s1), st1)) :
    s1.curr_rom_part = s.curr_rom_part ∧ s1.auto_boot_seconds = s.auto_boot_seconds ∧
      s1.auto_boot_rom = s.auto_boot_rom := by
  unfold multirom_default_status at h
  simp only at h
  split at h
  · cases h; exact ⟨rfl, rfl, rfl⟩
  · split at h
    · cases h; exact ⟨rfl, rfl, rfl⟩
    · split at h
      · cases h
      · cases h; split <;> exact ⟨rfl, rfl, rfl⟩
      · cases h; split <;> exact ⟨rfl, rfl, rfl⟩

/-- The selection at the end of `multirom_load_status`: when the lookup of the
current ROM by name and partition finds a ROM, the result is 0, that ROM is
the current ROM and `auto_boot_rom` is what the lookup by name gives. -/
theorem load_status_select_result (s : multirom_status) (cur auto : String) (r : Int)
    (s1 : multirom_status) (h : load_status_select s cur auto = some (r, s1)) :
    s1.auto_boot_seconds = s.auto_boot_seconds ∧ s1.curr_rom_part = s.curr_rom_part ∧
      s1.roms = s.roms ∧ s1.partitions = s.partitions ∧
      (∀ rom, multirom_get_rom s cur s.curr_rom_part s.roms = some (some rom) →
        r = 0 ∧ s1.current_rom = some rom.id ∧
          ∀ a, multirom_get_rom s auto none s.roms = some a →
            s1.auto_boot_rom = a.map (fun x => x.id)) := by
  unfold load_status_select at h
  simp only at h
  cases hg : multirom_get_rom s cur s.curr_rom_part s.roms with
  | none => rw [hg] at h; cases h
  | some g =>
    rw [hg] at h
    cases g with
    | some rom =>
      simp only at h
      have hp : ({ s with current_rom := some rom.id } : multirom_status).partitions =
          s.partitions := rfl
      rw [get_rom_partitions _ s hp] at h
      cases ha : multirom_get_rom s auto none s.roms with
      | none => rw [ha] at h; cases h
      | some a =>
        rw [ha] at h
        simp only [Option.some.injEq, Prod.mk.injEq] at h
        obtain ⟨h1, h2⟩ := h
        subst h1; subst h2
        refine ⟨rfl, rfl, rfl, rfl, ?_⟩
        intro rom2 hr2
        simp only [Option.some.injEq] at hr2
        subst hr2
        refine ⟨rfl, rfl, ?_⟩
        intro a2 ha2
        simp only [Option.some.injEq] at ha2
        subst ha2; rfl
    | none =>
      simp only at h
      refine ⟨?_, ?_, ?_, ?_, fun rom hr => by cases hr⟩
      all_goals
        cases hi : multirom_get_rom s INTERNAL_ROM_NAME none s.roms with
        | none => rw [hi] at h; cases h
        | some i =>
          rw [hi] at h
          cases i with
          | none => simp only [Option.some.injEq, Prod.mk.injEq] at h; rw [← h.2]
          | some rom =>
            simp only at h
            split at h
            · cases h
            · simp only [Option.some.injEq, Prod.mk.injEq] at h; rw [← h.2]

/-- The text `multirom_save_status` has written is `save_status_text`. -/
theorem save_status_written (w : World) (s : multirom_status) (stS : Sys) (text : String)
    (h : multirom_save_status w s stS =
      some (0, emit (Ev.write_file (w.multirom_dir ++ "/multirom.ini") text) stS)) :
    save_status_text s = some text := by
  unfold multirom_save_status at h
  simp only at h
  split at h
  · simp at h
  · split at h
    · cases h
    · rename_i t ht
      simp only [Option.some.injEq, Prod.mk.injEq, true_and, emit] at h
      have h2 := congrArg Sys.trace h
      simp only [List.append_cancel_left_eq, List.cons.injEq, Ev.write_file.injEq, true_and,
        and_true] at h2
      rw [ht, h2]

/-- C24 (amended): let `multirom_save_status` write the status file of a status
`s` with a current ROM, and let `multirom_load_status` in a later run read
that text and end with the same ROM list and partition list. When the names
of the two saved ROMs and the partition UUID have no '=' and no line feed
and at most 255 characters, and `auto_boot_seconds` is in the range of
`int`, then `auto_boot_seconds` is reproduced; `curr_rom_part` is reproduced
when it is not empty, and is left as it was before the load when it is NULL
or empty; `current_rom` is reproduced when the saved ROM is the first ROM of
the list with its name on a partition with that UUID (the first with its
name when there is no UUID); and then `auto_boot_rom` is reproduced when the
saved ROM is the first ROM of the list with its name, or when it is NULL and
no ROM has the empty name. -/
theorem status_round_trip (w : World) (s s0 : multirom_status) (stS st : Sys) (text : String)
    (rc : multirom_rom) (auto : String)
    (r0 : Int) (s1 : multirom_status) (st1 : Sys) (r : Int) (s' : multirom_status) (st' : Sys)
    (hsave : multirom_save_status w s stS =
      some (0, emit (Ev.write_file (w.multirom_dir ++ "/multirom.ini") text) stS))
    (hdef : multirom_default_status w s0 st = some ((r0, s1), st1))
    (hfile : w.read_file st1.trace (w.multirom_dir ++ "/multirom.ini") = some text)
    (hcmd : multirom_get_cmdline w st1.trace ≠ none)
    (hload : multirom_load_status w s0 st = some ((r, s'), st'))
    (hrc : s.current_rom = some rc.id) (hrc2 : deref_rom s rc.id = some rc)
    (hauto : saved_rom_name s "" s.auto_boot_rom = some auto)
    (hc : line_safe rc.name) (ha : line_safe auto) (hp : line_safe (s.curr_rom_part.getD ""))
    (hsec : -2 ^ 31 ≤ s.auto_boot_seconds ∧ s.auto_boot_seconds < 2 ^ 31)
    (hlists : s'.roms = s.roms ∧ s'.partitions = s.partitions) :
    s'.auto_boot_seconds = s.auto_boot_seconds ∧
    s'.curr_rom_part =
      (if (s.curr_rom_part.getD "").data = [] then s0.curr_rom_part else s.curr_rom_part) ∧
    (multirom_get_rom s rc.name s'.curr_rom_part s.roms = some (some rc) →
      r = 0 ∧ s'.current_rom = s.current_rom ∧
      (∀ ra : multirom_rom, s.auto_boot_rom = some ra.id → deref_rom s ra.id = some ra →
        multirom_get_rom s ra.name none s.roms = some (some ra) →
        s'.auto_boot_rom = s.auto_boot_rom) ∧
      (s.auto_boot_rom = none → multirom_get_rom s "" none s.roms = some none →
        s'.auto_boot_rom = none)) := by
  have htext := save_status_written w s stS text hsave
  have hcurname : saved_rom_name s INTERNAL_ROM_NAME s.current_rom = some rc.name := by
    rw [hrc]; simp only [saved_rom_name, hrc2, Option.map_some']
  unfold save_status_text at htext
  rw [hcurname, hauto] at htext
  simp only [Option.some.injEq] at htext
  obtain ⟨hdp, _, _⟩ := default_status_fields w s0 st r0 s1 st1 hdef
  unfold multirom_load_status at hload
  rw [hdef] at hload
  simp only [hfile] at hload
  cases hcl : multirom_get_cmdline w st1.trace with
  | none => exact absurd hcl hcmd
  | some c =>
    rw [hcl] at hload
    simp only at hload
    generalize hs2 : (if multirom_search_last_kmsg w st1.trace SECOND_BOOT_KMESG = 0 then
      ({ s1 with is_second_boot := 1 } : multirom_status) else s1) = s2 at hload
    have hs2p : s2.curr_rom_part = s0.curr_rom_part := by
      rw [← hs2, ← hdp]; split <;> rfl
    obtain ⟨parsed, hfold, hpsec, hppart0⟩ : ∃ parsed : multirom_status,
        (fgets_all 1024 text.data []).foldl load_status_line (s2, "", "") =
          (parsed, rc.name, auto) ∧
        parsed.auto_boot_seconds = s.auto_boot_seconds ∧
        parsed.curr_rom_part = (if (s.curr_rom_part.getD "").data = [] then s2.curr_rom_part
          else some (s.curr_rom_part.getD "")) := by
      rw [← htext]
      exact ⟨_, load_status_parse_saved s2 rc.name auto (s.curr_rom_part.getD "")
        s.auto_boot_seconds hc ha hp hsec.1 hsec.2, rfl, rfl⟩
    rw [hfold] at hload
    simp only at hload
    have hppart : parsed.curr_rom_part =
        (if (s.curr_rom_part.getD "").data = [] then s0.curr_rom_part else s.curr_rom_part) := by
      rw [hppart0]
      split
      · exact hs2p
      · rename_i hne
        cases hsp : s.curr_rom_part with
        | none => rw [hsp] at hne; exact absurd rfl hne
        | some u => rfl
    cases hw : (match parsed.curr_rom_part with
      | some uuid =>
        if parsed.is_second_boot ≠ 0 then load_status_wait w uuid 10 parsed st1
        else some (parsed, st1)
      | none => some (parsed, st1)) with
    | none => rw [hw] at hload; cases hload
    | some x =>
      obtain ⟨s3, st3⟩ := x
      rw [hw] at hload
      simp only at hload
      have hs3 : s3 = { parsed with roms := s3.roms, partitions := s3.partitions } := by
        split at hw
        · split at hw
          · exact load_status_wait_fields w _ 10 parsed st1 s3 st3 hw
          · cases hw; rfl
        · cases hw; rfl
      have hs3sec : s3.auto_boot_seconds = parsed.auto_boot_seconds := by rw [hs3]
      have hs3part : s3.curr_rom_part = parsed.curr_rom_part := by rw [hs3]
      cases hsel : load_status_select s3 rc.name auto with
      | none => rw [hsel] at hload; cases hload
      | some y =>
        obtain ⟨r4, s4⟩ := y
        rw [hsel] at hload
        simp only [Option.some.injEq, Prod.mk.injEq] at hload
        obtain ⟨⟨hr, hs4⟩, _⟩ := hload
        subst hr; subst hs4
        obtain ⟨k1, k2, k3, k4, k5⟩ := load_status_select_result s3 rc.name auto r4 s4 hsel
        have hroms3 : s3.roms = s.roms := k3.symm.trans hlists.1
        have hparts3 : s3.partitions = s.partitions := k4.symm.trans hlists.2
        refine ⟨by rw [k1, hs3sec, hpsec], by rw [k2, hs3part, hppart], ?_⟩
        intro hfound
        rw [k2, ← get_rom_partitions s3 s hparts3, ← hroms3] at hfound
        obtain ⟨e1, e2, e3⟩ := k5 rc hfound
        refine ⟨e1, by rw [e2, hrc], ?_, ?_⟩
        · intro ra hra hra2 hafound
          have hn : auto = ra.name := by
            rw [hra] at hauto
            simp only [saved_rom_name, hra2, Option.map_some', Option.some.injEq] at hauto
            exact hauto.symm
          rw [← get_rom_partitions s3 s hparts3, ← hroms3, ← hn] at hafound
          rw [e3 _ hafound, hra]; rfl
        · intro hnone hafound
          have hn : auto = "" := by
            rw [hnone] at hauto
            simp only [saved_rom_name, Option.some.injEq] at hauto
            exact hauto.symm
          rw [← get_rom_partitions s3 s hparts3, ← hroms3, ← hn] at hafound
          rw [e3 _ hafound]; rfl

set_option maxRecDepth 100000 in
/-- C24 fails as stated: with the same ROM list after the load, a current ROM
named `a=b` is loaded as the Internal ROM; and of two ROMs named `ubuntu`,
the one on the partition, saved as `auto_boot_rom`, is loaded as the one on
the internal storage. -/
theorem status_round_trip_counterexample :
    (save_then_load (status_world ["Internal", "a=b"]) status_equals_name).map
      (fun r => (r.1.1, decide (r.1.2.roms = status_equals_name.roms), r.1.2.current_rom)) =
      some (0, true, some 0) ∧
    status_equals_name.current_rom = some 1 ∧
    (save_then_load (status_world ["Internal", "ubuntu"]) status_same_name).map
      (fun r => (r.1.1, decide (r.1.2.roms = status_same_name.roms),
        decide (r.1.2.partitions = status_same_name.partitions), r.1.2.current_rom,
        r.1.2.auto_boot_rom)) =
      some (0, true, true, some 2, some 1) ∧
    status_same_name.auto_boot_rom = some 2 := by
  decide

set_option maxRecDepth 100000 in
/-- The theorem `status_round_trip` at a status with a current ROM on the
partition `sda1` and `auto_boot_seconds` -3: saving and loading gives the
status back. -/
theorem status_round_trip_witness :
    save_then_load (status_world ["Internal", "cm"]) status_sample =
      some ((0, status_sample), status_sample_loaded) ∧
    (status_sample.auto_boot_seconds = status_sample.auto_boot_seconds ∧
    status_sample.curr_rom_part =
      (if (status_sample.curr_rom_part.getD "").data = [] then
        ({} : multirom_status).curr_rom_part else status_sample.curr_rom_part) ∧
    (multirom_get_rom status_sample
        (⟨2, "ubuntu", "/mnt/sda1/multirom/ubuntu", ROM_UNKNOWN, 0, some 1⟩ : multirom_rom).name
        status_sample.curr_rom_part status_sample.roms =
        some (some ⟨2, "ubuntu", "/mnt/sda1/multirom/ubuntu", ROM_UNKNOWN, 0, some 1⟩) →
      (0 : Int) = 0 ∧ status_sample.current_rom = status_sample.current_rom ∧
      (∀ ra : multirom_rom, status_sample.auto_boot_rom = some ra.id →
        deref_rom status_sample ra.id = some ra →
        multirom_get_rom status_sample ra.name none status_sample.roms = some (some ra) →
        status_sample.auto_boot_rom = status_sample.auto_boot_rom) ∧
      (status_sample.auto_boot_rom = none →
        multirom_get_rom status_sample "" none status_sample.roms = some none →
        status_sample.auto_boot_rom = none))) :=
  ⟨by decide,
    status_round_trip (status_world ["Internal", "cm"]) status_sample {} {}
      { trace := [Ev.write_file "/realdata/media/multirom/multirom.ini" status_sample_text] }
      status_sample_text ⟨2, "ubuntu", "/mnt/sda1/multirom/ubuntu", ROM_UNKNOWN, 0, some 1⟩ "cm"
      0 { current_rom := some 0, roms := [⟨0, "Internal",
          "/realdata/media/multirom/roms/Internal", ROM_DEFAULT, 0, none⟩,
        ⟨1, "cm", "/realdata/media/multirom/roms/cm", ROM_UNKNOWN, 0, none⟩] }
      { trace := [Ev.write_file "/realdata/media/multirom/multirom.ini" status_sample_text],
        next_rom_id := 2 }
      0 status_sample status_sample_loaded
      (by decide) (by decide) (by decide) (by decide) (by decide) (by decide) (by decide)
      (by decide) (by decide) (by decide) (by decide) (by decide) (by decide)⟩

/-! ## Theorems: status file keys -/

/-- A record that is passed over leaves the status and the two buffers as they
are. -/
theorem load_status_line_ignored (acc : multirom_status × String × String) (line : String)
    (h : record_ignored line) : load_status_line acc line = acc := by
  unfold record_ignored at h
  unfold load_status_line
  split
  · rename_i name arg rest heq
    rw [heq] at h
    simp only at h
    simp only [h.1, h.2.1, h.2.2.1, h.2.2.2, Bool.false_eq_true, if_false]
  · rfl

/-- The status file is neither `/proc/cmdline` nor `/proc/last_kmsg`. -/
theorem status_path_ne (dir : String) :
    "/proc/cmdline" ≠ dir ++ "/multirom.ini" ∧ "/proc/last_kmsg" ≠ dir ++ "/multirom.ini" := by
  have hl : (dir ++ "/multirom.ini").data.getLast? = some 'i' := by
    simp only [String.data_append]
    rw [List.getLast?_append]
    rfl
  constructor
  · intro h
    rw [← h] at hl
    revert hl; decide
  · intro h
    rw [← h] at hl
    revert hl; decide

/-- The loop of `multirom_update_partitions` does not read the status file. -/
theorem update_partitions_lines_file (w : World) (text : String) :
    ∀ (ls : List String) (parts : List usb_partition) (st : Sys),
      update_partitions_lines (with_status_file w text) ls parts st =
        update_partitions_lines w ls parts st
  | [], _, _ => rfl
  | l :: ls, parts, st => by
    simp only [update_partitions_lines]
    have h1 : update_partitions_line (with_status_file w text) l parts st =
        update_partitions_line w l parts st := rfl
    rw [h1]
    cases update_partitions_line w l parts st with
    | none => rfl
    | some x => exact update_partitions_lines_file w text ls x.1 x.2

/-- The function `multirom_update_partitions` does not read the status file. -/
theorem update_partitions_file (w : World) (text : String) (s : multirom_status) (st : Sys) :
    multirom_update_partitions (with_status_file w text) s st =
      multirom_update_partitions w s st := by
  unfold multirom_update_partitions
  simp only [update_partitions_lines_file]
  rfl

/-- The `readdir` loop of `multirom_default_status` does not read the status
file. -/
theorem default_status_scan_file (w : World) (text : String) (roms_path : String) :
    ∀ (entries : List dirent) (add_roms : List multirom_rom) (st : Sys),
      default_status_scan (with_status_file w text) roms_path entries add_roms st =
        default_status_scan w roms_path entries add_roms st
  | [], _, _ => rfl
  | dr :: rest, add_roms, st => by
    rw [default_status_scan.eq_def, default_status_scan.eq_def w]
    simp only
    have h1 : default_status_rom (with_status_file w text) roms_path dr st =
        default_status_rom w roms_path dr st := rfl
    rw [h1]
    simp only [default_status_scan_file w text roms_path rest]

/-- The function `multirom_default_status` does not read the status file. -/
theorem default_status_file (w : World) (text : String) (s : multirom_status) (st : Sys) :
    multirom_default_status (with_status_file w text) s st = multirom_default_status w s st := by
  unfold multirom_default_status
  have h1 : default_status_import (with_status_file w text) st = default_status_import w st := rfl
  have h2 : (with_status_file w text).multirom_dir = w.multirom_dir := rfl
  have h3 : (with_status_file w text).readdir = w.readdir := rfl
  have h4 : ∀ l, qsort_roms (with_status_file w text) l = qsort_roms w l := fun _ => rfl
  simp only [h1, h2, h3, h4, default_status_scan_file]

/-- The `readdir` loop of `multirom_scan_partition_for_roms` does not read the
status file. -/
theorem scan_partition_scan_file (w : World) (text : String) (p : usb_partition)
    (mount_path : String) :
    ∀ (entries : List dirent) (add_roms : List multirom_rom) (st : Sys),
      scan_partition_scan (with_status_file w text) p mount_path entries add_roms st =
        scan_partition_scan w p mount_path entries add_roms st
  | [], _, _ => rfl
  | dr :: rest, add_roms, st => by
    rw [scan_partition_scan.eq_def, scan_partition_scan.eq_def w]
    simp only
    have h1 : scan_partition_rom (with_status_file w text) p mount_path dr st =
        scan_partition_rom w p mount_path dr st := rfl
    rw [h1]
    simp only [scan_partition_scan_file w text p mount_path rest]

/-- The function `multirom_scan_partition_for_roms` does not read the status
file. -/
theorem scan_partition_file (w : World) (text : String) (s : multirom_status)
    (p : usb_partition) (st : Sys) :
    multirom_scan_partition_for_roms (with_status_file w text) s p st =
      multirom_scan_partition_for_roms w s p st := by
  unfold multirom_scan_partition_for_roms
  have h1 : (with_status_file w text).stat_ok = w.stat_ok := rfl
  have h3 : (with_status_file w text).readdir = w.readdir := rfl
  have h4 : ∀ l, qsort_roms (with_status_file w text) l = qsort_roms w l := fun _ => rfl
  simp only [h1, h3, h4, scan_partition_scan_file]

/-- The wait loop of `multirom_load_status` does not read the status file. -/
theorem load_status_wait_file (w : World) (text : String) (uuid : String) :
    ∀ (tries : Nat) (s : multirom_status) (st : Sys),
      load_status_wait (with_status_file w text) uuid tries s st =
        load_status_wait w uuid tries s st
  | 0, _, _ => rfl
  | tries + 1, s, st => by
    rw [load_status_wait.eq_def, load_status_wait.eq_def w]
    simp only [update_partitions_file, scan_partition_file,
      load_status_wait_file w text uuid tries]

/-- The function `multirom_load_status` on the status file `text`: the text
enters through the `fgets` loop only. -/
theorem load_status_with_file (w : World) (text : String) (s : multirom_status) (st : Sys) :
    multirom_load_status (with_status_file w text) s st =
      match multirom_default_status w s st with
      | none => none
      | some ((_, s1), st1) =>
        match multirom_get_cmdline w st1.trace with
        | none => some ((-1, s1), st1)
        | some _ =>
          let s2 : multirom_status :=
            if multirom_search_last_kmsg w st1.trace SECOND_BOOT_KMESG = 0 then
              { s1 with is_second_boot := 1 }
            else s1
          let parsed := (fgets_all 1024 text.data []).foldl load_status_line (s2, "", "")
          let waited : Option (multirom_status × Sys) :=
            match parsed.1.curr_rom_part with
            | some uuid =>
              if parsed.1.is_second_boot ≠ 0 then load_status_wait w uuid 10 parsed.1 st1
              else some (parsed.1, st1)
            | none => some (parsed.1, st1)
          match waited with
          | none => none
          | some (s3, st3) =>
            match load_status_select s3 parsed.2.1 parsed.2.2 with
            | none => none
            | some (r, s4) => some ((r, s4), st3) := by
  have hc : ∀ t, multirom_get_cmdline (with_status_file w text) t = multirom_get_cmdline w t := by
    intro t
    unfold multirom_get_cmdline with_status_file
    simp only [(status_path_ne w.multirom_dir).1, if_false]
  have hk : ∀ t e, multirom_search_last_kmsg (with_status_file w text) t e =
      multirom_search_last_kmsg w t e := by
    intro t e
    unfold multirom_search_last_kmsg with_status_file
    simp only [(status_path_ne w.multirom_dir).2, if_false]
  have hr : ∀ t, (with_status_file w text).read_file t
      ((with_status_file w text).multirom_dir ++ "/multirom.ini") = some text := by
    intro t
    simp [with_status_file]
  unfold multirom_load_status
  simp only [default_status_file, hr, hc, hk, load_status_wait_file]

/-- A token of `strtok` is not empty and holds no delimiter. -/
theorem strtok_any_tokens (delims : List Char) : ∀ (l cur : List Char),
    (∀ c ∈ cur, c ∉ delims) →
    ∀ t ∈ strtok_any delims l cur, t.data ≠ [] ∧ ∀ c ∈ t.data, c ∉ delims := by
  intro l
  induction l with
  | nil =>
    intro cur hcur t ht
    simp only [strtok_any] at ht
    split at ht
    · cases ht
    · rename_i hne
      simp only [List.mem_singleton] at ht
      subst ht
      refine ⟨by simpa using hne, fun c hc => hcur c (by simpa using hc)⟩
  | cons c cs ih =>
    intro cur hcur t ht
    simp only [strtok_any] at ht
    split at ht
    · split at ht
      · exact ih [] (by simp) t ht
      · rename_i hne
        rcases List.mem_cons.mp ht with h | h
        · subst h
          refine ⟨by simpa using hne, fun x hx => hcur x (by simpa using hx)⟩
        · exact ih [] (by simp) t h
    · rename_i hc
      refine ih (c :: cur) ?_ t ht
      intro x hx
      rcases List.mem_cons.mp hx with h | h
      · subst h; exact hc
      · exact hcur x h

/-- The first recognised key of a name is the first of the four keys, in the order of the tests, that the name holds. -/
theorem first_recognised_cases (name key : String) (h : first_recognised name = some key) :
    (key = "current_rom" ∧ str_contains name "current_rom" = true) ∨
    (key = "auto_boot_seconds" ∧ str_contains name "current_rom" = false ∧
      str_contains name "auto_boot_seconds" = true) ∨
    (key = "auto_boot_rom" ∧ str_contains name "current_rom" = false ∧
      str_contains name "auto_boot_seconds" = false ∧ str_contains name "auto_boot_rom" = true) ∨
    (key = "curr_rom_part" ∧ str_contains name "current_rom" = false ∧
      str_contains name "auto_boot_seconds" = false ∧ str_contains name "auto_boot_rom" = false ∧
      str_contains name "curr_rom_part" = true) := by
  unfold first_recognised recognised_keys at h
  simp only [List.find?] at h
  cases h1 : str_contains name "current_rom"
  · rw [h1] at h
    simp only at h
    cases h2 : str_contains name "auto_boot_seconds"
    · rw [h2] at h
      simp only at h
      cases h3 : str_contains name "auto_boot_rom"
      · rw [h3] at h
        simp only at h
        cases h4 : str_contains name "curr_rom_part"
        · rw [h4] at h
          cases h
        · rw [h4] at h
          simp only [Option.some.injEq] at h
          exact Or.inr (Or.inr (Or.inr ⟨h.symm, rfl, rfl, rfl, rfl⟩))
      · rw [h3] at h
        simp only [Option.some.injEq] at h
        exact Or.inr (Or.inr (Or.inl ⟨h.symm, rfl, rfl, rfl⟩))
    · rw [h2] at h
      simp only [Option.some.injEq] at h
      exact Or.inr (Or.inl ⟨h.symm, rfl, rfl⟩)
  · rw [h1] at h
    simp only [Option.some.injEq] at h
    exact Or.inl ⟨h.symm, rfl⟩

/-- A name has no recognised key exactly when it holds none of the four keys. -/
theorem first_recognised_none (name : String) :
    first_recognised name = none ↔
      (str_contains name "current_rom" = false ∧ str_contains name "auto_boot_seconds" = false ∧
        str_contains name "auto_boot_rom" = false ∧ str_contains name "curr_rom_part" = false) := by
  unfold first_recognised recognised_keys
  simp only [List.find?]
  cases str_contains name "current_rom" <;> cases str_contains name "auto_boot_seconds" <;>
    cases str_contains name "auto_boot_rom" <;> cases str_contains name "curr_rom_part" <;> simp

/-- A record whose key holds a recognised key is read as the record of the first recognised key it holds, with the same value. -/
theorem load_status_line_first_key (acc : multirom_status × String × String)
    (record name arg key : String) (rest : List String)
    (htok : strtok_any ['=', '\n'] record.data [] = name :: arg :: rest)
    (hkey : first_recognised name = some key) :
    load_status_line acc record = load_status_line acc (key ++ "=" ++ arg ++ "\n") := by
  have harg := strtok_any_tokens ['=', '\n'] record.data [] (by simp) arg (by rw [htok]; simp)
  have hv1 : '=' ∉ arg.data := fun hc => harg.2 '=' hc (by simp)
  have hv2 : '\n' ∉ arg.data := fun hc => harg.2 '\n' hc (by simp)
  have hne : arg.data ≠ [] := harg.1
  have hl : load_status_line acc record =
      (if str_contains name "current_rom" then (acc.1, arg, acc.2.2)
      else if str_contains name "auto_boot_seconds" then
        ({ acc.1 with auto_boot_seconds := atoi arg }, acc.2.1, acc.2.2)
      else if str_contains name "auto_boot_rom" then (acc.1, acc.2.1, arg)
      else if str_contains name "curr_rom_part" then
        ({ acc.1 with curr_rom_part := some arg }, acc.2.1, acc.2.2)
      else acc) := by
    unfold load_status_line
    rw [htok]
  have hr : ∀ k : String, k.data ≠ [] → '=' ∉ k.data → '\n' ∉ k.data →
      load_status_line acc (k ++ "=" ++ arg ++ "\n") =
      (if str_contains k "current_rom" then (acc.1, arg, acc.2.2)
      else if str_contains k "auto_boot_seconds" then
        ({ acc.1 with auto_boot_seconds := atoi arg }, acc.2.1, acc.2.2)
      else if str_contains k "auto_boot_rom" then (acc.1, acc.2.1, arg)
      else if str_contains k "curr_rom_part" then
        ({ acc.1 with curr_rom_part := some arg }, acc.2.1, acc.2.2)
      else acc) := by
    intro k hk hk1 hk2
    unfold load_status_line
    rw [strtok_any_record k arg hk hk1 hk2 hv1 hv2, if_neg hne]
  rw [hl]
  rcases first_recognised_cases name key hkey with ⟨rfl, h1⟩ | ⟨rfl, h1, h2⟩ |
    ⟨rfl, h1, h2, h3⟩ | ⟨rfl, h1, h2, h3, h4⟩
  · rw [hr _ (by decide) (by decide) (by decide), h1]
    rw [if_pos rfl, if_pos (by decide)]
  · rw [hr _ (by decide) (by decide) (by decide), h1, h2]
    rw [if_neg (by decide), if_pos rfl, if_neg (by decide), if_pos (by decide)]
  · rw [hr _ (by decide) (by decide) (by decide), h1, h2, h3]
    rw [if_neg (by decide), if_neg (by decide), if_pos rfl, if_neg (by decide),
      if_neg (by decide), if_pos (by decide)]
  · rw [hr _ (by decide) (by decide) (by decide), h1, h2, h3, h4]
    rw [if_neg (by decide), if_neg (by decide), if_neg (by decide), if_pos rfl,
      if_neg (by decide), if_neg (by decide), if_neg (by decide), if_pos (by decide)]

/-- The record of a recognised key with a value of at most 255 characters is a line of at most 1023 characters. -/
theorem recognised_record_line (name arg key : String) (hkey : first_recognised name = some key)
    (ha1 : '\n' ∉ arg.data) (hlen : arg.data.length ≤ 255) :
    rc_line (key ++ "=" ++ arg ++ "\n") := by
  refine ⟨(key ++ "=" ++ arg).data, ?_, ?_, ?_⟩
  · apply String.ext
    simp [String.data_append]
  · rcases first_recognised_cases name key hkey with ⟨rfl, _⟩ | ⟨rfl, _⟩ | ⟨rfl, _⟩ | ⟨rfl, _⟩ <;>
      · simp only [String.data_append, List.mem_append, not_or]
        exact ⟨⟨by decide, by decide⟩, ha1⟩
  · rcases first_recognised_cases name key hkey with ⟨rfl, _⟩ | ⟨rfl, _⟩ | ⟨rfl, _⟩ | ⟨rfl, _⟩ <;>
      · have hal : arg.length = arg.data.length := rfl
        simp [String.data_append]
        omega

/-- C25 (amended): let the status file be made of lines of at most 1023
characters, each ending in a line feed, whose first token has at most 63 and
whose second token at most 255 characters. A record is passed over when it
has no value or when its key holds none of `current_rom`,
`auto_boot_seconds`, `auto_boot_rom`, `curr_rom_part` as a substring: adding
such a record as a line anywhere in the file changes nothing of what
`multirom_load_status` returns (the result, the status and the events are the
same). A record with a value whose key holds a recognised key is not passed
over: it is read as the record of the first recognised key it holds, in the
order `current_rom`, `auto_boot_seconds`, `auto_boot_rom`, `curr_rom_part`,
with the same value. -/
theorem load_status_unknown_key (w : World) (s : multirom_status) (st : Sys)
    (pre post : List String) (record : String)
    (hpre : ∀ l ∈ pre, rc_line l ∧ record_fits l) (hpost : ∀ l ∈ post, rc_line l ∧ record_fits l)
    (hrec : rc_line record ∧ record_fits record) :
    (record_ignored record →
      multirom_load_status (with_status_file w (concat_all (pre ++ record :: post))) s st =
        multirom_load_status (with_status_file w (concat_all (pre ++ post))) s st) ∧
    (∀ name arg rest, strtok_any ['=', '\n'] record.data [] = name :: arg :: rest →
      (record_ignored record ↔ first_recognised name = none) ∧
      ∀ key, first_recognised name = some key →
        multirom_load_status (with_status_file w (concat_all (pre ++ record :: post))) s st =
          multirom_load_status
            (with_status_file w (concat_all (pre ++ (key ++ "=" ++ arg ++ "\n") :: post)))
            s st) := by
  have hlines : ∀ x : String, rc_line x →
      fgets_all 1024 (concat_all (pre ++ x :: post)).data [] = pre ++ x :: post := by
    intro x hx
    exact fgets_all_lines _ (by
      intro l hl
      rcases List.mem_append.mp hl with h | h
      · exact (hpre l h).1
      · rcases List.mem_cons.mp h with h | h
        · rw [h]; exact hx
        · exact (hpost l h).1)
  have h1 := hlines record hrec.1
  refine ⟨fun hkey => ?_, fun name arg rest htok => ⟨?_, fun key hkey => ?_⟩⟩
  · have h2 : fgets_all 1024 (concat_all (pre ++ post)).data [] = pre ++ post :=
      fgets_all_lines _ (by
        intro l hl
        rcases List.mem_append.mp hl with h | h
        · exact (hpre l h).1
        · exact (hpost l h).1)
    have h3 : ∀ acc, (pre ++ record :: post).foldl load_status_line acc =
        (pre ++ post).foldl load_status_line acc := by
      intro acc
      simp only [List.foldl_append, List.foldl_cons, load_status_line_ignored _ _ hkey]
    rw [load_status_with_file, load_status_with_file, h1, h2]
    simp only [h3]
  · unfold record_ignored
    rw [htok]
    simp only
    exact (first_recognised_none name).symm
  · have harg := strtok_any_tokens ['=', '\n'] record.data [] (by simp) arg (by rw [htok]; simp)
    have hfit : arg.data.length ≤ 255 := by
      have hf := hrec.2
      unfold record_fits at hf
      rw [htok] at hf
      exact hf.2
    have hline := recognised_record_line name arg key hkey
      (fun hc => harg.2 '\n' hc (by simp)) hfit
    have h2 := hlines _ hline
    have h3 : ∀ acc, (pre ++ record :: post).foldl load_status_line acc =
        (pre ++ (key ++ "=" ++ arg ++ "\n") :: post).foldl load_status_line acc := by
      intro acc
      simp only [List.foldl_append, List.foldl_cons,
        load_status_line_first_key _ record name arg key rest htok hkey]
    rw [load_status_with_file, load_status_with_file, h1, h2]
    simp only [h3]

set_option maxRecDepth 100000 in
/-- C25 fails as stated: the key `old_current_rom` is none of the four keys, but
it holds `current_rom` as a substring, and the record `old_current_rom=cm`
changes the loaded `current_rom` from the Internal ROM to the ROM `cm`. -/
theorem load_status_unknown_key_counterexample :
    ("old_current_rom" ≠ "current_rom" ∧ "old_current_rom" ≠ "auto_boot_seconds" ∧
      "old_current_rom" ≠ "auto_boot_rom" ∧ "old_current_rom" ≠ "curr_rom_part") ∧
    (multirom_load_status
        (with_status_file (status_world ["Internal", "cm"]) "current_rom=Internal\n") {} {}).map
      (fun r => (r.1.1, r.1.2.current_rom)) = some (0, some 0) ∧
    (multirom_load_status
        (with_status_file (status_world ["Internal", "cm"])
          "current_rom=Internal\nold_current_rom=cm\n") {} {}).map
      (fun r => (r.1.1, r.1.2.current_rom)) = some (0, some 1) := by
  decide

set_option maxRecDepth 100000 in
/-- The theorem `load_status_unknown_key` at the record `theme=dark` between two
records of a status file (it is passed over), and at the record
`old_current_rom=cm` after the record `current_rom=Internal` (it is read as
`current_rom=cm`). -/
theorem load_status_unknown_key_witness :
    record_ignored "theme=dark\n" ∧
    multirom_load_status
        (with_status_file (status_world ["Internal", "cm"])
          (concat_all (["current_rom=cm\n"] ++ "theme=dark\n" :: ["auto_boot_seconds=5\n"])))
        {} {} =
      multirom_load_status
        (with_status_file (status_world ["Internal", "cm"])
          (concat_all (["current_rom=cm\n"] ++ ["auto_boot_seconds=5\n"]))) {} {} ∧
    (multirom_load_status
        (with_status_file (status_world ["Internal", "cm"])
          "current_rom=cm\ntheme=dark\nauto_boot_seconds=5\n") {} {}).map
      (fun r => (r.1.1, r.1.2.current_rom, r.1.2.auto_boot_seconds)) = some (0, some 1, 5) ∧
    first_recognised "old_current_rom" = some "current_rom" ∧
    multirom_load_status
        (with_status_file (status_world ["Internal", "cm"])
          (concat_all (["current_rom=Internal\n"] ++ "old_current_rom=cm\n" :: []))) {} {} =
      multirom_load_status
        (with_status_file (status_world ["Internal", "cm"])
          (concat_all (["current_rom=Internal\n"] ++
            ("current_rom" ++ "=" ++ "cm" ++ "\n") :: []))) {} {} :=
  ⟨by decide,
    (load_status_unknown_key (status_world ["Internal", "cm"]) {} {} ["current_rom=cm\n"]
      ["auto_boot_seconds=5\n"] "theme=dark\n"
      (by
        intro l hl
        simp only [List.mem_singleton] at hl
        subst hl
        exact ⟨⟨"current_rom=cm".data, by decide, by decide, by decide⟩, by decide⟩)
      (by
        intro l hl
        simp only [List.mem_singleton] at hl
        subst hl
        exact ⟨⟨"auto_boot_seconds=5".data, by decide, by decide, by decide⟩, by decide⟩)
      ⟨⟨"theme=dark".data, by decide, by decide, by decide⟩, by decide⟩).1 (by decide),
    by decide, by decide,
    ((load_status_unknown_key (status_world ["Internal", "cm"]) {} {}
      ["current_rom=Internal\n"] [] "old_current_rom=cm\n"
      (by
        intro l hl
        simp only [List.mem_singleton] at hl
        subst hl
        exact ⟨⟨"current_rom=Internal".data, by decide, by decide, by decide⟩, by decide⟩)
      (by intro l hl; cases hl)
      ⟨⟨"old_current_rom=cm".data, by decide, by decide, by decide⟩, by decide⟩).2
        "old_current_rom" "cm" [] (by decide)).2 "current_rom" (by decide)⟩

/-! ## Theorems: rescan of removable ROMs -/

/-- The removal loop of `multirom_find_usb_roms`, at an index before which no
ROM is in the mask, ends with enough iterations and leaves the ROMs that are
not in the mask, in their order. -/
theorem find_usb_roms_remove_filter (mask : rom_type → Bool) :
    ∀ (fuel : Nat) (pre rest : List multirom_rom),
      (∀ x ∈ pre, mask x.type = false) →
      (rest.filter (fun r => mask r.type)).length * (pre.length + rest.length + 1) +
        rest.length + 1 ≤ fuel →
      find_usb_roms_remove mask fuel (pre ++ rest) pre.length =
        some (pre ++ rest.filter (fun r => !mask r.type)) := by
  intro fuel
  induction fuel with
  | zero => intro pre rest _ h; omega
  | succ fuel ih =>
    intro pre rest hpre hfuel
    have hpf : pre.filter (fun r => !mask r.type) = pre := by
      apply List.filter_eq_self.mpr
      intro x hx; simp [hpre x hx]
    have hpc : pre.filter (fun r => mask r.type) = [] := by
      apply List.filter_eq_nil_iff.mpr
      intro x hx; simp [hpre x hx]
    cases rest with
    | nil =>
      rw [find_usb_roms_remove.eq_def]
      simp
    | cons r rest1 =>
      rw [find_usb_roms_remove.eq_def]
      have hget : (pre ++ r :: rest1).get? pre.length = some r := by
        rw [List.get?_eq_getElem?, List.getElem?_append_right (le_refl _)]
        simp
      simp only [hget]
      by_cases hm : mask r.type = true
      · rw [if_pos hm]
        have her : (pre ++ r :: rest1).eraseIdx pre.length = pre ++ rest1 := by
          rw [List.eraseIdx_append_of_length_le (le_refl _)]
          simp
        rw [her]
        have := ih [] (pre ++ rest1) (fun _ hx => by cases hx) (by
          simp only [List.filter_append, hpc, List.nil_append, List.length_nil,
            List.length_append, zero_add]
          simp only [List.filter_cons, hm, if_true, List.length_cons] at hfuel
          have h2 : (rest1.filter (fun r => mask r.type)).length * (pre.length + rest1.length + 1)
              ≤ (rest1.filter (fun r => mask r.type)).length *
                (pre.length + (rest1.length + 1) + 1) :=
            Nat.mul_le_mul_left _ (by omega)
          have h3 : ((rest1.filter (fun r => mask r.type)).length + 1) *
              (pre.length + (rest1.length + 1) + 1) =
              (rest1.filter (fun r => mask r.type)).length *
                (pre.length + (rest1.length + 1) + 1) + (pre.length + (rest1.length + 1) + 1) :=
            by ring
          omega)
        simp only [List.nil_append, List.length_nil] at this
        rw [this]
        simp [List.filter_append, hpf, hm]
      · have hm' : mask r.type = false := by simpa using hm
        rw [if_neg hm]
        have := ih (pre ++ [r]) rest1 (by
          intro x hx
          rcases List.mem_append.mp hx with h | h
          · exact hpre x h
          · simp only [List.mem_singleton] at h; rw [h]; exact hm') (by
          simp only [List.length_append, List.length_singleton]
          simp only [List.filter_cons, hm', Bool.false_eq_true, if_false, List.length_cons]
            at hfuel
          have h2 : (rest1.filter (fun r => mask r.type)).length *
              (pre.length + 1 + rest1.length + 1) =
              (rest1.filter (fun r => mask r.type)).length *
                (pre.length + (rest1.length + 1) + 1) := by
            congr 1; omega
          omega)
        simp only [List.append_assoc, List.singleton_append, List.length_append,
          List.length_singleton] at this
        rw [this]
        simp [hm']

/-- The rescan loop of `multirom_find_usb_roms` scans the partitions whose name
does not contain "mmcblk", in list order. -/
theorem find_usb_roms_scan_filter (w : World) :
    ∀ (ps : List usb_partition) (s : multirom_status) (st : Sys),
      find_usb_roms_scan w ps s st =
        scan_partitions_in_order w (ps.filter (fun p => !str_contains p.name "mmcblk")) s st
  | [], s, st => rfl
  | p :: ps, s, st => by
    rw [find_usb_roms_scan.eq_def]
    simp only
    cases hc : str_contains p.name "mmcblk"
    · simp only [if_true, List.filter_cons, hc, Bool.not_false]
      rw [scan_partitions_in_order.eq_def]
      simp only
      cases multirom_scan_partition_for_roms w s p st with
      | none => rfl
      | some x => exact find_usb_roms_scan_filter w ps x.1.2 x.2
    · simp only [Bool.true_eq_false, if_false, List.filter_cons, hc, Bool.not_true]
      exact find_usb_roms_scan_filter w ps s st

/-- C27: for every status and every mask `MASK_USB_ROMS`, the removal loop of
`multirom_find_usb_roms` ends (within the `(n + 1) * (n + 1)` iterations it
is given for `n` ROMs) and leaves exactly the ROMs whose type is not in the
mask, in their original order; the function then is the sequence of the
calls of `multirom_scan_partition_for_roms` for exactly the partitions whose
name does not contain "mmcblk", in list order, on the status with the
filtered ROM list. -/
theorem find_usb_roms_phases (w : World) (mask : rom_type → Bool) (s : multirom_status)
    (st : Sys) :
    find_usb_roms_remove mask ((s.roms.length + 1) * (s.roms.length + 1)) s.roms 0 =
      some (s.roms.filter (fun r => !mask r.type)) ∧
    multirom_find_usb_roms w mask s st =
      scan_partitions_in_order w (s.partitions.filter (fun p => !str_contains p.name "mmcblk"))
        { s with roms := s.roms.filter (fun r => !mask r.type) } st := by
  have hrm : find_usb_roms_remove mask ((s.roms.length + 1) * (s.roms.length + 1)) s.roms 0 =
      some (s.roms.filter (fun r => !mask r.type)) := by
    have := find_usb_roms_remove_filter mask ((s.roms.length + 1) * (s.roms.length + 1)) []
      s.roms (fun _ hx => by cases hx) (by
        simp only [List.length_nil, zero_add]
        have h1 : (s.roms.filter (fun r => mask r.type)).length ≤ s.roms.length :=
          List.length_filter_le _ _
        have h2 := Nat.mul_le_mul_right (s.roms.length + 1) h1
        have h3 : (s.roms.length + 1) * (s.roms.length + 1) =
            s.roms.length * (s.roms.length + 1) + (s.roms.length + 1) := by ring
        omega)
    simpa using this
  refine ⟨hrm, ?_⟩
  unfold multirom_find_usb_roms
  rw [hrm]
  exact find_usb_roms_scan_filter w _ _ st

/-! ## Theorems: Ubuntu kexec preparation -/

/-- The second half of `multirom_fill_kexec_ubuntu` issues no event, returns -1
or `loop_mounted`, and on success has taken the kernel and the initrd from
the folder it was given. -/
theorem fill_kexec_ubuntu_cmd_files (w : World) (s : multirom_status) (rom : multirom_rom)
    (part : Option usb_partition) (cmd cmd1 : kexec_cmd) (rom_path : String) (lm r : Int)
    (st st1 : Sys)
    (h : fill_kexec_ubuntu_cmd w s rom part cmd rom_path lm st = some ((r, cmd1), st1)) :
    st1 = st ∧ (r = -1 ∨ r = lm) ∧ (r ≠ -1 → ubuntu_files_found w st rom_path cmd1) := by
  unfold fill_kexec_ubuntu_cmd at h
  unfold ubuntu_files_found
  simp only at h
  cases hk : multirom_find_file w st "vmlinuz" rom_path with
  | none =>
    rw [hk] at h; simp only [Option.some.injEq, Prod.mk.injEq] at h
    exact ⟨h.2.symm, Or.inl h.1.1.symm, fun hr => absurd h.1.1.symm hr⟩
  | some k =>
    rw [hk] at h
    simp only at h
    cases hi : multirom_find_file w st "initrd.img-" rom_path with
    | none =>
      rw [hi] at h; simp only [Option.some.injEq, Prod.mk.injEq] at h
      exact ⟨h.2.symm, Or.inl h.1.1.symm, fun hr => absurd h.1.1.symm hr⟩
    | some i =>
      rw [hi] at h
      simp only at h
      cases hc : multirom_get_cmdline w st.trace with
      | none =>
        rw [hc] at h; simp only [Option.some.injEq, Prod.mk.injEq] at h
        exact ⟨h.2.symm, Or.inl h.1.1.symm, fun hr => absurd h.1.1.symm hr⟩
      | some C =>
        rw [hc] at h
        simp only at h
        cases part with
        | none =>
          simp only at h
          cases hd : multirom_get_data_partition s.partitions with
          | none => rw [hd] at h; cases h
          | some d =>
            rw [hd] at h
            cases d with
            | none =>
              simp only [Option.some.injEq, Prod.mk.injEq] at h
              exact ⟨h.2.symm, Or.inl h.1.1.symm, fun hr => absurd h.1.1.symm hr⟩
            | some dp =>
              simp only at h
              cases ht : str_advance rom.base_path REALDATA.length with
              | none => rw [ht] at h; cases h
              | some tail =>
                rw [ht] at h
                simp only [Option.some.injEq, Prod.mk.injEq] at h
                obtain ⟨⟨h1, h2⟩, h3⟩ := h
                refine ⟨h3.symm, Or.inr h1.symm, fun _ => ?_⟩
                rw [← h2]
                exact ⟨rfl, i, rfl, rfl⟩
        | some p =>
          simp only at h
          cases hf : p.fs with
          | none => rw [hf] at h; cases h
          | some fs =>
            cases ht : strstr rom.base_path "/multirom/" with
            | none => rw [hf, ht] at h; cases h
            | some tail =>
              rw [hf, ht] at h
              simp only [Option.some.injEq, Prod.mk.injEq] at h
              obtain ⟨⟨h1, h2⟩, h3⟩ := h
              refine ⟨h3.symm, Or.inr h1.symm, fun _ => ?_⟩
              rw [← h2]
              exact ⟨rfl, i, rfl, rfl⟩

/-- C29 (amended): `multirom_fill_kexec_ubuntu` decides by the partition, not by
the ROM type. For a ROM without partition, or on a partition whose
filesystem type contains "ext", it issues no event, performs no loop mount
and takes the kernel (name containing "vmlinuz") and the initrd (name
containing "initrd.img-") from `<base>/root/boot`, returning 0 on success.
For a ROM on a partition whose filesystem type does not contain "ext" it
makes `/mnt/image`, loop-mounts `<base>/root.img` on it with `MS_NOATIME`,
returns -1 when that fails, and else takes the kernel and the initrd from
`/mnt/image/boot`, returning 1 on success. -/
theorem fill_kexec_ubuntu_loop_mount (w : World) (s : multirom_status) (rom : multirom_rom)
    (cmd cmd1 : kexec_cmd) (r : Int) (st st1 : Sys)
    (h : multirom_fill_kexec_ubuntu w s rom cmd st = some ((r, cmd1), st1)) :
    (on_ext_or_internal s rom →
      st1 = st ∧ (r = -1 ∨ r = 0) ∧
        (r ≠ -1 → ubuntu_files_found w st (rom.base_path ++ "/root/boot") cmd1)) ∧
    (on_non_ext_partition s rom →
      ∃ rl, multirom_mount_loop w (rom.base_path ++ "/root.img") "/mnt/image" MS_NOATIME
          (emit (Ev.mkdir "/mnt/image") st) = some (rl, st1) ∧
        (r = -1 ∨ r = 1) ∧ (rl < 0 → r = -1) ∧
        (r ≠ -1 → ubuntu_files_found w st1 "/mnt/image/boot" cmd1)) := by
  unfold multirom_fill_kexec_ubuntu at h
  cases hp : rom.partition with
  | none =>
    rw [hp] at h
    simp only at h
    constructor
    · intro _
      exact fill_kexec_ubuntu_cmd_files w s rom none cmd cmd1 _ 0 r st st1 h
    · rintro ⟨a, p, fs, ha, _⟩
      rw [hp] at ha; cases ha
  | some a =>
    rw [hp] at h
    simp only at h
    cases hd : deref_partition s a with
    | none => rw [hd] at h; cases h
    | some p =>
      rw [hd] at h
      simp only at h
      cases hf : p.fs with
      | none => rw [hf] at h; cases h
      | some fs =>
        rw [hf] at h
        simp only at h
        cases hext : str_contains fs "ext" with
        | true =>
          rw [hext] at h
          simp only [if_true] at h
          constructor
          · intro _
            exact fill_kexec_ubuntu_cmd_files w s rom (some p) cmd cmd1 _ 0 r st st1 h
          · rintro ⟨a2, p2, fs2, ha, hd2, hf2, he2⟩
            rw [hp] at ha; cases ha
            rw [hd] at hd2; cases hd2
            rw [hf] at hf2; cases hf2
            rw [hext] at he2; cases he2
        | false =>
          rw [hext] at h
          simp only [Bool.false_eq_true, if_false] at h
          constructor
          · rintro (hn | ⟨a2, p2, fs2, ha, hd2, hf2, he2⟩)
            · rw [hp] at hn; cases hn
            · rw [hp] at ha; cases ha
              rw [hd] at hd2; cases hd2
              rw [hf] at hf2; cases hf2
              rw [hext] at he2; cases he2
          · intro _
            cases hl : multirom_mount_loop w (rom.base_path ++ "/root.img") "/mnt/image"
                MS_NOATIME (emit (Ev.mkdir "/mnt/image") st) with
            | none => rw [hl] at h; cases h
            | some x =>
              obtain ⟨rl, stl⟩ := x
              rw [hl] at h
              simp only at h
              by_cases hneg : rl < 0
              · rw [if_pos hneg] at h
                simp only [Option.some.injEq, Prod.mk.injEq] at h
                obtain ⟨⟨h1, _⟩, h3⟩ := h
                rw [← h3]
                exact ⟨rl, rfl, Or.inl h1.symm, fun _ => h1.symm, fun hr => absurd h1.symm hr⟩
              · rw [if_neg hneg] at h
                obtain ⟨e1, e2, e3⟩ :=
                  fill_kexec_ubuntu_cmd_files w s rom (some p) cmd cmd1 _ 1 r stl st1 h
                rw [e1]
                exact ⟨rl, rfl, e2, fun hx => absurd hx hneg, fun hr => e1 ▸ e3 hr⟩

set_option maxRecDepth 100000 in
/-- C29 fails as stated: for a ROM of type ROM_UBUNTU_USB_IMG (layout
`root.img`) on an ext4 partition no loop mount is made and the function
returns -1 with nothing done; for a ROM of type ROM_UBUNTU_USB_DIR on a VFAT
partition `<base>/root.img` is loop-mounted and the kernel is taken from
`/mnt/image/boot`. -/
theorem fill_kexec_ubuntu_loop_mount_counterexample :
    multirom_get_rom_type (ubuntu_ext_img_world.access_r []) ubuntu_ext_img_rom =
      ROM_UBUNTU_USB_IMG ∧
    multirom_fill_kexec_ubuntu ubuntu_ext_img_world ubuntu_ext_status ubuntu_ext_img_rom
      ⟨"", "", ""⟩ {} = some ((-1, ⟨"", "", ""⟩), {}) ∧
    multirom_get_rom_type (ubuntu_vfat_world.access_r []) ubuntu_vfat_rom = ROM_UBUNTU_USB_DIR ∧
    (multirom_fill_kexec_ubuntu ubuntu_vfat_world ubuntu_vfat_status ubuntu_vfat_rom
      ⟨"", "", ""⟩ {}).map (fun r => (r.1.1, r.1.2.arg2, r.2.trace.take 2)) =
      some (1, "/mnt/image/boot/vmlinuz-3.1.10",
        [Ev.mkdir "/mnt/image", Ev.open_rdwr "/mnt/sda1/multirom/raring/root.img"]) := by
  decide

set_option maxRecDepth 100000 in
/-- The theorem `fill_kexec_ubuntu_loop_mount` at a ROM on a VFAT partition: the
image is loop-mounted and the result is 1. -/
theorem fill_kexec_ubuntu_loop_mount_witness :
    ((on_ext_or_internal ubuntu_vfat_status ubuntu_vfat_rom →
      ubuntu_vfat_final = ({} : Sys) ∧ ((1 : Int) = -1 ∨ (1 : Int) = 0) ∧
        ((1 : Int) ≠ -1 → ubuntu_files_found ubuntu_vfat_world {}
          (ubuntu_vfat_rom.base_path ++ "/root/boot") ubuntu_vfat_result)) ∧
    (on_non_ext_partition ubuntu_vfat_status ubuntu_vfat_rom →
      ∃ rl, multirom_mount_loop ubuntu_vfat_world (ubuntu_vfat_rom.base_path ++ "/root.img")
          "/mnt/image" MS_NOATIME (emit (Ev.mkdir "/mnt/image") {}) =
            some (rl, ubuntu_vfat_final) ∧
        ((1 : Int) = -1 ∨ (1 : Int) = 1) ∧ (rl < 0 → (1 : Int) = -1) ∧
        ((1 : Int) ≠ -1 → ubuntu_files_found ubuntu_vfat_world ubuntu_vfat_final
          "/mnt/image/boot" ubuntu_vfat_result))) ∧
    on_non_ext_partition ubuntu_vfat_status ubuntu_vfat_rom :=
  ⟨fill_kexec_ubuntu_loop_mount ubuntu_vfat_world ubuntu_vfat_status ubuntu_vfat_rom ⟨"", "", ""⟩
    ubuntu_vfat_result 1 {} ubuntu_vfat_final (by decide),
    ⟨1, ⟨1, "sda1", "ABCD-1234", some "vfat", some "/mnt/sda1", 0⟩, "vfat", rfl, by decide, rfl,
      by decide⟩⟩

/-! ## Theorems: exit action of the boot preparation -/

/-- The Android case of `multirom_prepare_for_boot` returns -1 or the exit action it was given, with the unmount flag cleared when neither the reboot nor the kexec flag is set. -/
theorem prepare_for_boot_android_result (w : World) (s : multirom_status) (rom : multirom_rom)
    (exit r : Int) (st : Sys) (s' : multirom_status) (st' : Sys)
    (h : prepare_for_boot_android w s rom exit st = some ((r, s'), st')) :
    r = -1 ∨
      r = (if Int.land exit (Int.lor EXIT_REBOOT EXIT_KEXEC) = 0 then
        Int.land exit (Int.lnot EXIT_UMOUNT) else exit) := by
  unfold prepare_for_boot_android at h
  simp only at h
  generalize (if Int.land exit (Int.lor EXIT_REBOOT EXIT_KEXEC) = 0 then
    Int.land exit (Int.lnot EXIT_UMOUNT) else exit) = e1 at h ⊢
  split at h
  · cases h
  · split at h
    · simp only [Option.some.injEq, Prod.mk.injEq] at h; exact Or.inl h.1.1.symm
    · split at h
      · cases h
      · split at h
        · simp only [Option.some.injEq, Prod.mk.injEq] at h; exact Or.inl h.1.1.symm
        · split at h
          · cases h
          · split at h
            · simp only [Option.some.injEq, Prod.mk.injEq] at h; exact Or.inl h.1.1.symm
            · simp only [Option.some.injEq, Prod.mk.injEq] at h; exact Or.inr h.1.1.symm

/-- Clearing the unmount flag of the exit action EXIT_UMOUNT leaves no flag. -/
theorem exit_umount_cleared :
    (if Int.land EXIT_UMOUNT (Int.lor EXIT_REBOOT EXIT_KEXEC) = 0
      then Int.land EXIT_UMOUNT (Int.lnot EXIT_UMOUNT) else EXIT_UMOUNT) = 0 := by
  have hl : Nat.ldiff 2 2 = 0 := by simp [Nat.ldiff, Nat.bitwise]
  have e6a : Int.land EXIT_UMOUNT (Int.lnot EXIT_UMOUNT) = 0 := by
    show Int.ofNat (Nat.ldiff 2 2) = 0
    rw [hl]; rfl
  have e6b : Int.land EXIT_UMOUNT (Int.lor EXIT_REBOOT EXIT_KEXEC) = 0 := by decide
  rw [if_pos e6b]; exact e6a

/-- The function `multirom_prepare_for_boot` when the kexec condition does not hold: ROM_DEFAULT and the Ubuntu types return EXIT_UMOUNT without any effect, the Android types run the Android case with EXIT_UMOUNT and return -1 or 0, every other type returns -1. -/
theorem prepare_for_boot_no_kexec (w : World) (s : multirom_status) (rom : multirom_rom)
    (st : Sys) (r : Int) (s' : multirom_status) (st' : Sys)
    (h : multirom_prepare_for_boot w s rom st = some ((r, s'), st'))
    (hw : ¬ kexec_wanted s rom) :
    (rom.type = ROM_DEFAULT ∨ ubuntu_case rom.type → r = EXIT_UMOUNT ∧ s' = s ∧ st' = st) ∧
    (android_case rom.type →
      prepare_for_boot_android w s rom EXIT_UMOUNT st = some ((r, s'), st') ∧
        (r = -1 ∨ r = 0)) ∧
    (rom.type ≠ ROM_DEFAULT → ¬ ubuntu_case rom.type → ¬ android_case rom.type →
      r = -1 ∧ s' = s ∧ st' = st) ∧
    (r ≠ -1 →
      (rom.type = ROM_DEFAULT ∨ ubuntu_case rom.type ∨ android_case rom.type) ∧
        Int.land r EXIT_KEXEC = 0) := by
  have e4 : Int.land EXIT_UMOUNT EXIT_KEXEC = 0 := by decide
  have e7 : Int.land 0 EXIT_KEXEC = 0 := by decide
  have hw' : ¬ ((MASK_UBUNTU rom.type = true ∨ rom.has_bootimg ≠ 0) ∧
      rom.type ≠ ROM_DEFAULT ∧ s.is_second_boot = 0) := hw
  unfold multirom_prepare_for_boot at h
  simp only at h
  rw [if_neg hw'] at h
  simp only at h
  generalize rom.type = t at h ⊢
  have plain : (t = ROM_DEFAULT ∨ ubuntu_case t) → ¬ android_case t →
      some ((EXIT_UMOUNT, s), st) = some ((r, s'), st') →
      ((t = ROM_DEFAULT ∨ ubuntu_case t → r = EXIT_UMOUNT ∧ s' = s ∧ st' = st) ∧
      (android_case t →
        prepare_for_boot_android w s rom EXIT_UMOUNT st = some ((r, s'), st') ∧
          (r = -1 ∨ r = 0)) ∧
      (t ≠ ROM_DEFAULT → ¬ ubuntu_case t → ¬ android_case t →
        r = -1 ∧ s' = s ∧ st' = st) ∧
      (r ≠ -1 →
        (t = ROM_DEFAULT ∨ ubuntu_case t ∨ android_case t) ∧
          Int.land r EXIT_KEXEC = 0)) := by
    intro hc hna hh
    simp only [Option.some.injEq, Prod.mk.injEq] at hh
    obtain ⟨⟨h1, h2⟩, h3⟩ := hh
    refine ⟨fun _ => ⟨h1.symm, h2.symm, h3.symm⟩, fun ha => absurd ha hna, ?_, ?_⟩
    · intro hd hu _
      rcases hc with hc | hc
      · exact absurd hc hd
      · exact absurd hc hu
    · intro _
      refine ⟨?_, by rw [← h1]; exact e4⟩
      rcases hc with hc | hc
      · exact Or.inl hc
      · exact Or.inr (Or.inl hc)
  have other : t ≠ ROM_DEFAULT → ¬ ubuntu_case t → ¬ android_case t →
      some (((-1 : Int), s), st) = some ((r, s'), st') →
      ((t = ROM_DEFAULT ∨ ubuntu_case t → r = EXIT_UMOUNT ∧ s' = s ∧ st' = st) ∧
      (android_case t →
        prepare_for_boot_android w s rom EXIT_UMOUNT st = some ((r, s'), st') ∧
          (r = -1 ∨ r = 0)) ∧
      (t ≠ ROM_DEFAULT → ¬ ubuntu_case t → ¬ android_case t →
        r = -1 ∧ s' = s ∧ st' = st) ∧
      (r ≠ -1 →
        (t = ROM_DEFAULT ∨ ubuntu_case t ∨ android_case t) ∧
          Int.land r EXIT_KEXEC = 0)) := by
    intro hd hu hna hh
    simp only [Option.some.injEq, Prod.mk.injEq] at hh
    obtain ⟨⟨h1, h2⟩, h3⟩ := hh
    refine ⟨?_, fun ha => absurd ha hna, fun _ _ _ => ⟨h1.symm, h2.symm, h3.symm⟩,
      fun hr => absurd h1.symm hr⟩
    rintro (hc | hc)
    · exact absurd hc hd
    · exact absurd hc hu
  have android : android_case t → t ≠ ROM_DEFAULT → ¬ ubuntu_case t →
      prepare_for_boot_android w s rom EXIT_UMOUNT st = some ((r, s'), st') →
      ((t = ROM_DEFAULT ∨ ubuntu_case t → r = EXIT_UMOUNT ∧ s' = s ∧ st' = st) ∧
      (android_case t →
        prepare_for_boot_android w s rom EXIT_UMOUNT st = some ((r, s'), st') ∧
          (r = -1 ∨ r = 0)) ∧
      (t ≠ ROM_DEFAULT → ¬ ubuntu_case t → ¬ android_case t →
        r = -1 ∧ s' = s ∧ st' = st) ∧
      (r ≠ -1 →
        (t = ROM_DEFAULT ∨ ubuntu_case t ∨ android_case t) ∧
          Int.land r EXIT_KEXEC = 0)) := by
    intro ha hd hu hh
    have hres := prepare_for_boot_android_result w s rom _ r st s' st' hh
    rw [exit_umount_cleared] at hres
    refine ⟨?_, fun _ => ⟨hh, hres⟩, fun _ _ hna => absurd ha hna, ?_⟩
    · rintro (hc | hc)
      · exact absurd hc hd
      · exact absurd hc hu
    · intro hr
      rcases hres with hx | hx
      · exact absurd hx hr
      · exact ⟨Or.inr (Or.inr ha), by rw [hx]; exact e7⟩
  cases t <;> simp only at h
  case ROM_DEFAULT => exact plain (Or.inl rfl) (by unfold android_case; decide) h
  case ROM_UBUNTU_INTERNAL =>
    exact plain (Or.inr (by unfold ubuntu_case; decide)) (by unfold android_case; decide) h
  case ROM_UBUNTU_USB_IMG =>
    exact plain (Or.inr (by unfold ubuntu_case; decide)) (by unfold android_case; decide) h
  case ROM_UBUNTU_USB_DIR =>
    exact plain (Or.inr (by unfold ubuntu_case; decide)) (by unfold android_case; decide) h
  case ROM_ANDROID_INTERNAL =>
    exact android (by unfold android_case; decide) (by decide) (by unfold ubuntu_case; decide) h
  case ROM_ANDROID_USB_IMG =>
    exact android (by unfold android_case; decide) (by decide) (by unfold ubuntu_case; decide) h
  case ROM_ANDROID_USB_DIR =>
    exact android (by unfold android_case; decide) (by decide) (by unfold ubuntu_case; decide) h
  case ROM_UNSUPPORTED_INT =>
    exact other (by decide) (by unfold ubuntu_case; decide) (by unfold android_case; decide) h
  case ROM_UNSUPPORTED_USB =>
    exact other (by decide) (by unfold ubuntu_case; decide) (by unfold android_case; decide) h
  case ROM_UNKNOWN =>
    exact other (by decide) (by unfold ubuntu_case; decide) (by unfold android_case; decide) h

/-- The function `multirom_prepare_for_boot` when the kexec condition holds: `multirom_load_kexec` runs first, a non-zero result of it gives -1, and every result other than -1 is EXIT_UMOUNT|EXIT_KEXEC. -/
theorem prepare_for_boot_kexec (w : World) (s : multirom_status) (rom : multirom_rom)
    (st : Sys) (r : Int) (s' : multirom_status) (st' : Sys)
    (h : multirom_prepare_for_boot w s rom st = some ((r, s'), st'))
    (hw : kexec_wanted s rom) :
    ∃ rk sk stk, multirom_load_kexec w s rom st = some ((rk, sk), stk) ∧
      (rk ≠ 0 → r = -1 ∧ s' = sk ∧ st' = stk) ∧
      (¬ android_case rom.type → s' = sk ∧ st' = stk) ∧
      (rk = 0 → android_case rom.type →
        prepare_for_boot_android w sk rom (Int.lor EXIT_UMOUNT EXIT_KEXEC) stk =
          some ((r, s'), st')) ∧
      (r ≠ -1 → rk = 0 ∧ r = Int.lor EXIT_UMOUNT EXIT_KEXEC ∧
        (ubuntu_case rom.type ∨ android_case rom.type)) := by
  have e5 : (if Int.land (Int.lor EXIT_UMOUNT EXIT_KEXEC) (Int.lor EXIT_REBOOT EXIT_KEXEC) = 0
      then Int.land (Int.lor EXIT_UMOUNT EXIT_KEXEC) (Int.lnot EXIT_UMOUNT)
      else Int.lor EXIT_UMOUNT EXIT_KEXEC) = Int.lor EXIT_UMOUNT EXIT_KEXEC := by
    rw [if_neg (by decide)]
  have hw' : (MASK_UBUNTU rom.type = true ∨ rom.has_bootimg ≠ 0) ∧
      rom.type ≠ ROM_DEFAULT ∧ s.is_second_boot = 0 := hw
  have hnd : rom.type ≠ ROM_DEFAULT := hw'.2.1
  unfold multirom_prepare_for_boot at h
  simp only at h
  rw [if_pos hw'] at h
  cases hk : multirom_load_kexec w s rom st with
  | none => rw [hk] at h; simp only at h; cases h
  | some v =>
    obtain ⟨⟨rk, sk⟩, stk⟩ := v
    rw [hk] at h
    simp only at h
    refine ⟨rk, sk, stk, rfl, ?_⟩
    by_cases hrk : rk = 0
    · rw [if_neg (not_not.mpr hrk)] at h
      simp only at h
      generalize rom.type = t at h hnd ⊢
      cases t <;> simp only at h
      all_goals first
        | exact absurd rfl hnd
        | (simp only [Option.some.injEq, Prod.mk.injEq] at h
           obtain ⟨⟨h1, h2⟩, h3⟩ := h
           refine ⟨fun hn => absurd hrk hn, fun _ => ⟨h2.symm, h3.symm⟩,
             fun _ ha => absurd ha (by unfold android_case; decide), fun hr => ?_⟩
           first
             | exact absurd h1.symm hr
             | exact ⟨hrk, h1.symm, Or.inl (by unfold ubuntu_case; decide)⟩)
        | (have hres := prepare_for_boot_android_result w sk rom _ r stk s' st' h
           rw [e5] at hres
           refine ⟨fun hn => absurd hrk hn,
             fun hna => absurd (by unfold android_case; decide) hna, fun _ _ => h, fun hr => ?_⟩
           rcases hres with hx | hx
           · exact absurd hx hr
           · exact ⟨hrk, hx, Or.inr (by unfold android_case; decide)⟩)
    · rw [if_pos hrk] at h
      simp only [Option.some.injEq, Prod.mk.injEq] at h
      obtain ⟨⟨h1, h2⟩, h3⟩ := h
      exact ⟨fun _ => ⟨h1.symm, h2.symm, h3.symm⟩, fun _ => ⟨h2.symm, h3.symm⟩,
        fun h0 => absurd h0 hrk, fun hr => absurd h1.symm hr⟩

/-- The Android case of `multirom_prepare_for_boot`, entered with the exit action
EXIT_UMOUNT|EXIT_KEXEC (kexec was loaded) or EXIT_UMOUNT (it was not), has the
outcome `android_exit_action` describes. -/
theorem prepare_for_boot_android_action (w : World) (s : multirom_status) (rom : multirom_rom)
    (kexec : Bool) (r : Int) (st : Sys) (s' : multirom_status) (st' : Sys)
    (h : prepare_for_boot_android w s rom
      (if kexec = true then Int.lor EXIT_UMOUNT EXIT_KEXEC else EXIT_UMOUNT) st =
        some ((r, s'), st')) :
    android_exit_action w s rom st kexec r s' st' := by
  have e5 : (if Int.land (Int.lor EXIT_UMOUNT EXIT_KEXEC) (Int.lor EXIT_REBOOT EXIT_KEXEC) = 0
      then Int.land (Int.lor EXIT_UMOUNT EXIT_KEXEC) (Int.lnot EXIT_UMOUNT)
      else Int.lor EXIT_UMOUNT EXIT_KEXEC) = Int.lor EXIT_UMOUNT EXIT_KEXEC := by
    rw [if_neg (by decide)]
  have e5b : ¬ Int.land (Int.lor EXIT_UMOUNT EXIT_KEXEC) (Int.lor EXIT_REBOOT EXIT_KEXEC) = 0 := by
    decide
  have e6b : Int.land 0 (Int.lor EXIT_REBOOT EXIT_KEXEC) = 0 := by decide
  unfold prepare_for_boot_android at h
  simp only at h
  unfold android_exit_action
  cases hm : multirom_prep_android_mounts w rom st with
  | none => rw [hm] at h; cases h
  | some vm =>
    obtain ⟨rm, st1⟩ := vm
    rw [hm] at h
    simp only at h
    refine ⟨rm, st1, rfl, ?_, ?_⟩
    · intro hrm
      rw [if_pos hrm] at h
      simp only [Option.some.injEq, Prod.mk.injEq] at h
      exact ⟨h.1.1.symm, h.1.2.symm, h.2.symm⟩
    · intro hrm
      rw [if_neg hrm] at h
      cases hl : multirom_create_media_link w st1 with
      | none => rw [hl] at h; cases h
      | some vl =>
        obtain ⟨rl, st2⟩ := vl
        rw [hl] at h
        simp only at h
        by_cases hrl : rl = -1
        · rw [if_pos hrl] at h
          simp only [Option.some.injEq, Prod.mk.injEq] at h
          refine ⟨rl, by rw [h.2], fun _ => ⟨h.1.1.symm, h.1.2.symm⟩, fun hn => absurd hrl hn⟩
        · rw [if_neg hrl] at h
          cases hk : set_keep_mounted s rom.partition with
          | none => rw [hk] at h; cases h
          | some s1 =>
            rw [hk] at h
            simp only at h
            cases kexec with
            | true =>
              simp only [if_true] at h
              rw [e5] at h
              rw [if_neg (fun hc => e5b hc.1)] at h
              simp only [Option.some.injEq, Prod.mk.injEq] at h
              refine ⟨rl, by rw [h.2], fun hc => absurd hc hrl, fun _ => ?_⟩
              rw [h.1.2]
              exact ⟨rfl, by simp only [if_true]; exact h.1.1.symm⟩
            | false =>
              simp only [Bool.false_eq_true, if_false] at h
              rw [exit_umount_cleared] at h
              by_cases hs : w.stat_ok st2.trace "/init.rc" = true
              · rw [if_neg (fun hc => by rw [hs] at hc; exact absurd hc.2 (by decide))] at h
                simp only [Option.some.injEq, Prod.mk.injEq] at h
                refine ⟨rl, by rw [h.2], fun hc => absurd hc hrl, fun _ => ?_⟩
                rw [h.1.2, ← h.2]
                refine ⟨rfl, ?_⟩
                simp only [Bool.false_eq_true, if_false, hs, if_true]
                exact h.1.1.symm
              · have hs' : w.stat_ok st2.trace "/init.rc" = false := by
                  cases hv : w.stat_ok st2.trace "/init.rc"
                  · rfl
                  · exact absurd hv hs
                rw [if_pos ⟨e6b, hs'⟩] at h
                simp only [Option.some.injEq, Prod.mk.injEq] at h
                refine ⟨rl, by rw [h.2], fun hc => absurd hc hrl, fun _ => ?_⟩
                rw [h.1.2, ← h.2]
                refine ⟨rfl, ?_⟩
                simp only [Bool.false_eq_true, if_false, hs']
                exact h.1.1.symm

/-- After `multirom_load_kexec` has returned 0, `multirom_prepare_for_boot`
returns EXIT_UMOUNT|EXIT_KEXEC for an Ubuntu type and -1 for a type that is
neither Ubuntu nor Android. -/
theorem prepare_for_boot_after_kexec (w : World) (s : multirom_status) (rom : multirom_rom)
    (st : Sys) (r : Int) (s' : multirom_status) (st' : Sys) (sk : multirom_status) (stk : Sys)
    (h : multirom_prepare_for_boot w s rom st = some ((r, s'), st'))
    (hw : kexec_wanted s rom)
    (hk : multirom_load_kexec w s rom st = some ((0, sk), stk)) :
    (ubuntu_case rom.type → r = Int.lor EXIT_UMOUNT EXIT_KEXEC) ∧
    (¬ ubuntu_case rom.type → ¬ android_case rom.type → r = -1) := by
  have hw' : (MASK_UBUNTU rom.type = true ∨ rom.has_bootimg ≠ 0) ∧
      rom.type ≠ ROM_DEFAULT ∧ s.is_second_boot = 0 := hw
  have hnd : rom.type ≠ ROM_DEFAULT := hw'.2.1
  unfold multirom_prepare_for_boot at h
  simp only at h
  rw [if_pos hw', hk] at h
  simp only at h
  rw [if_neg (by decide)] at h
  simp only at h
  generalize rom.type = t at h hnd ⊢
  cases t <;> simp only at h
  all_goals first
    | exact absurd rfl hnd
    | (simp only [Option.some.injEq, Prod.mk.injEq] at h
       exact ⟨fun _ => h.1.1.symm, fun hu _ => absurd (by unfold ubuntu_case; decide) hu⟩)
    | (simp only [Option.some.injEq, Prod.mk.injEq] at h
       exact ⟨fun hu => absurd hu (by unfold ubuntu_case; decide), fun _ _ => h.1.1.symm⟩)
    | exact ⟨fun hu => absurd hu (by unfold ubuntu_case; decide),
        fun _ ha => absurd (by unfold android_case; decide) ha⟩

/-- The Android case of `multirom_prepare_for_boot`, entered with the exit action
EXIT_UMOUNT|EXIT_KEXEC (kexec was loaded) or EXIT_UMOUNT (it was not), returns
a result exactly when `android_exit_action` holds of it. -/
theorem prepare_for_boot_android_iff (w : World) (s : multirom_status) (rom : multirom_rom)
    (kexec : Bool) (r : Int) (st : Sys) (s' : multirom_status) (st' : Sys) :
    prepare_for_boot_android w s rom
      (if kexec = true then Int.lor EXIT_UMOUNT EXIT_KEXEC else EXIT_UMOUNT) st =
        some ((r, s'), st') ↔
    android_exit_action w s rom st kexec r s' st' := by
  constructor
  · exact prepare_for_boot_android_action w s rom kexec r st s' st'
  · intro h
    have e5 : (if Int.land (Int.lor EXIT_UMOUNT EXIT_KEXEC) (Int.lor EXIT_REBOOT EXIT_KEXEC) = 0
        then Int.land (Int.lor EXIT_UMOUNT EXIT_KEXEC) (Int.lnot EXIT_UMOUNT)
        else Int.lor EXIT_UMOUNT EXIT_KEXEC) = Int.lor EXIT_UMOUNT EXIT_KEXEC := by
      rw [if_neg (by decide)]
    have e5b : ¬ Int.land (Int.lor EXIT_UMOUNT EXIT_KEXEC) (Int.lor EXIT_REBOOT EXIT_KEXEC) = 0 := by
      decide
    have e6b : Int.land 0 (Int.lor EXIT_REBOOT EXIT_KEXEC) = 0 := by decide
    obtain ⟨rm, st1, hm, h1, h2⟩ := h
    unfold prepare_for_boot_android
    simp only [hm]
    by_cases hrm : rm = -1
    · obtain ⟨a, b, c⟩ := h1 hrm
      rw [if_pos hrm, a, b, c]
    · rw [if_neg hrm]
      obtain ⟨rl, hl, h3, h4⟩ := h2 hrm
      simp only [hl]
      by_cases hrl : rl = -1
      · obtain ⟨a, b⟩ := h3 hrl
        rw [if_pos hrl, a, b]
      · rw [if_neg hrl]
        obtain ⟨hk, hr⟩ := h4 hrl
        simp only [hk]
        cases kexec with
        | true =>
          simp only [if_true] at hr ⊢
          rw [e5, if_neg (fun hc => e5b hc.1), hr]
        | false =>
          simp only [Bool.false_eq_true, if_false] at hr ⊢
          rw [exit_umount_cleared]
          cases hs : w.stat_ok st'.trace "/init.rc"
          · rw [hs] at hr
            simp only [Bool.false_eq_true, if_false] at hr
            rw [if_pos ⟨e6b, rfl⟩, hr]
          · rw [hs] at hr
            simp only [if_true] at hr
            rw [if_neg (fun hc => absurd hc.2 (by decide)), hr]

/-- The function `multirom_prepare_for_boot` when the kexec condition does not
hold, by the type of the ROM. -/
theorem prepare_for_boot_without_kexec (w : World) (s : multirom_status) (rom : multirom_rom)
    (st : Sys) (hw : ¬ kexec_wanted s rom) :
    multirom_prepare_for_boot w s rom st =
      (if rom.type = ROM_DEFAULT ∨ ubuntu_case rom.type then some ((EXIT_UMOUNT, s), st)
       else if android_case rom.type then prepare_for_boot_android w s rom EXIT_UMOUNT st
       else some ((-1, s), st)) := by
  have hw' : ¬ ((MASK_UBUNTU rom.type = true ∨ rom.has_bootimg ≠ 0) ∧
      rom.type ≠ ROM_DEFAULT ∧ s.is_second_boot = 0) := hw
  unfold multirom_prepare_for_boot
  simp only
  rw [if_neg hw']
  simp only
  generalize rom.type = t
  cases t <;> simp only <;> first
    | rw [if_pos (by unfold ubuntu_case; decide)]
    | rw [if_neg (by unfold ubuntu_case; decide), if_pos (by unfold android_case; decide)]
    | rw [if_neg (by unfold ubuntu_case; decide), if_neg (by unfold android_case; decide)]

/-- The function `multirom_prepare_for_boot` when the kexec condition holds, by
the result of `multirom_load_kexec` and the type of the ROM. -/
theorem prepare_for_boot_with_kexec (w : World) (s : multirom_status) (rom : multirom_rom)
    (st : Sys) (hw : kexec_wanted s rom) :
    multirom_prepare_for_boot w s rom st =
      match multirom_load_kexec w s rom st with
      | none => none
      | some ((rk, sk), stk) =>
        if rk ≠ 0 then some ((-1, sk), stk)
        else if ubuntu_case rom.type then some ((Int.lor EXIT_UMOUNT EXIT_KEXEC, sk), stk)
        else if android_case rom.type then
          prepare_for_boot_android w sk rom (Int.lor EXIT_UMOUNT EXIT_KEXEC) stk
        else some ((-1, sk), stk) := by
  have hw' : (MASK_UBUNTU rom.type = true ∨ rom.has_bootimg ≠ 0) ∧
      rom.type ≠ ROM_DEFAULT ∧ s.is_second_boot = 0 := hw
  have hnd : rom.type ≠ ROM_DEFAULT := hw'.2.1
  unfold multirom_prepare_for_boot
  simp only
  rw [if_pos hw']
  cases hk : multirom_load_kexec w s rom st with
  | none => rfl
  | some v =>
    obtain ⟨⟨rk, sk⟩, stk⟩ := v
    simp only
    by_cases hrk : rk = 0
    · rw [if_neg (not_not.mpr hrk), if_neg (not_not.mpr hrk)]
      simp only
      generalize rom.type = t at hnd ⊢
      cases t <;> simp only <;> first
        | exact absurd rfl hnd
        | rw [if_pos (by unfold ubuntu_case; decide)]
        | rw [if_neg (by unfold ubuntu_case; decide), if_pos (by unfold android_case; decide)]
        | rw [if_neg (by unfold ubuntu_case; decide), if_neg (by unfold android_case; decide)]
    · rw [if_pos hrk, if_pos hrk]

/-- An Android type is neither ROM_DEFAULT nor an Ubuntu type. -/
theorem android_not_plain (t : rom_type) (h : android_case t) :
    ¬ (t = ROM_DEFAULT ∨ ubuntu_case t) := by
  unfold android_case at h
  unfold ubuntu_case
  rcases h with rfl | rfl | rfl <;> decide

/-- Two results are equal when their parts are. -/
theorem some_result_iff (a : Int) (b : multirom_status) (c : Sys) (r : Int)
    (s' : multirom_status) (st' : Sys) :
    (some ((a, b), c) : Option ((Int × multirom_status) × Sys)) = some ((r, s'), st') ↔
      r = a ∧ s' = b ∧ st' = c := by
  simp only [Option.some.injEq, Prod.mk.injEq]
  constructor
  · rintro ⟨⟨h1, h2⟩, h3⟩
    exact ⟨h1.symm, h2.symm, h3.symm⟩
  · rintro ⟨h1, h2, h3⟩
    exact ⟨⟨h1.symm, h2.symm⟩, h3.symm⟩

/-- C30: `multirom_prepare_for_boot` runs `multirom_load_kexec` exactly when (the
type is an Ubuntu type or the ROM has a boot.img) and the type is not
ROM_DEFAULT and `is_second_boot` is 0, and its results are these. Without that
condition: for ROM_DEFAULT and the Ubuntu types it returns EXIT_UMOUNT with no
effect; for an Android type it returns what `android_exit_action` describes
from the status and the state of the call (0, no flag, once the mounts and
the media link have not returned -1 and `/init.rc` exists, else -1); for every
other type it returns -1. With the condition it returns exactly when
`multirom_load_kexec` does: -1 after a non-zero result; after a zero result
EXIT_UMOUNT|EXIT_KEXEC for an Ubuntu type, what `android_exit_action`
describes from the status and state `multirom_load_kexec` leaves for an
Android type (EXIT_UMOUNT|EXIT_KEXEC once the mounts and the media link have
not returned -1, else -1), and -1 for every other type. So a result other
than -1 is EXIT_UMOUNT for ROM_DEFAULT, EXIT_UMOUNT|EXIT_KEXEC whenever kexec
was loaded, EXIT_UMOUNT for an Ubuntu type in second boot and 0 for an Android
type without kexec; it occurs only for ROM_DEFAULT, Ubuntu and Android types,
and it carries the EXIT_KEXEC flag exactly when the kexec condition held. -/
theorem prepare_for_boot_exit (w : World) (s : multirom_status) (rom : multirom_rom)
    (st : Sys) (r : Int) (s' : multirom_status) (st' : Sys) :
    (¬ kexec_wanted s rom →
      (rom.type = ROM_DEFAULT ∨ ubuntu_case rom.type →
        (multirom_prepare_for_boot w s rom st = some ((r, s'), st') ↔
          r = EXIT_UMOUNT ∧ s' = s ∧ st' = st)) ∧
      (android_case rom.type →
        (multirom_prepare_for_boot w s rom st = some ((r, s'), st') ↔
          android_exit_action w s rom st false r s' st')) ∧
      (rom.type ≠ ROM_DEFAULT → ¬ ubuntu_case rom.type → ¬ android_case rom.type →
        (multirom_prepare_for_boot w s rom st = some ((r, s'), st') ↔
          r = -1 ∧ s' = s ∧ st' = st))) ∧
    (kexec_wanted s rom →
      (multirom_prepare_for_boot w s rom st = some ((r, s'), st') ↔
        ∃ rk sk stk, multirom_load_kexec w s rom st = some ((rk, sk), stk) ∧
          ((rk ≠ 0 ∧ r = -1 ∧ s' = sk ∧ st' = stk) ∨
           (rk = 0 ∧ ubuntu_case rom.type ∧
              r = Int.lor EXIT_UMOUNT EXIT_KEXEC ∧ s' = sk ∧ st' = stk) ∨
           (rk = 0 ∧ android_case rom.type ∧
              android_exit_action w sk rom stk true r s' st') ∨
           (rk = 0 ∧ ¬ ubuntu_case rom.type ∧ ¬ android_case rom.type ∧
              r = -1 ∧ s' = sk ∧ st' = stk)))) ∧
    (multirom_prepare_for_boot w s rom st = some ((r, s'), st') → r ≠ -1 →
      (rom.type = ROM_DEFAULT → r = EXIT_UMOUNT) ∧
      (kexec_wanted s rom → r = Int.lor EXIT_UMOUNT EXIT_KEXEC) ∧
      (ubuntu_case rom.type → s.is_second_boot ≠ 0 → r = EXIT_UMOUNT) ∧
      (android_case rom.type → ¬ kexec_wanted s rom → r = 0) ∧
      (rom.type = ROM_DEFAULT ∨ ubuntu_case rom.type ∨ android_case rom.type) ∧
      (Int.land r EXIT_KEXEC ≠ 0 ↔ kexec_wanted s rom)) := by
  refine ⟨fun hw => ⟨fun hc => ?_, fun ha => ?_, fun hd hu ha => ?_⟩, fun hw => ?_,
    fun h hr => ?_⟩
  · rw [prepare_for_boot_without_kexec w s rom st hw, if_pos hc]
    exact some_result_iff _ _ _ _ _ _
  · rw [prepare_for_boot_without_kexec w s rom st hw, if_neg (android_not_plain _ ha),
      if_pos ha]
    have hiff := prepare_for_boot_android_iff w s rom false r st s' st'
    simp only [Bool.false_eq_true, if_false] at hiff
    exact hiff
  · rw [prepare_for_boot_without_kexec w s rom st hw,
      if_neg (fun hc => hc.elim hd hu), if_neg ha]
    exact some_result_iff _ _ _ _ _ _
  · rw [prepare_for_boot_with_kexec w s rom st hw]
    cases hk : multirom_load_kexec w s rom st with
    | none =>
      simp only
      constructor
      · intro h; cases h
      · rintro ⟨rk, sk, stk, hh, _⟩; cases hh
    | some v =>
      obtain ⟨⟨rk, sk⟩, stk⟩ := v
      simp only
      have hiff := prepare_for_boot_android_iff w sk rom true r stk s' st'
      simp only [if_true] at hiff
      by_cases hrk : rk = 0
      · rw [if_neg (not_not.mpr hrk)]
        by_cases hu : ubuntu_case rom.type
        · rw [if_pos hu, some_result_iff]
          constructor
          · rintro ⟨h1, h2, h3⟩
            exact ⟨rk, sk, stk, rfl, Or.inr (Or.inl ⟨hrk, hu, h1, h2, h3⟩)⟩
          · rintro ⟨rk2, sk2, stk2, hh, hcase⟩
            simp only [Option.some.injEq, Prod.mk.injEq] at hh
            obtain ⟨⟨e1, e2⟩, e3⟩ := hh
            subst e1 e2 e3
            rcases hcase with ⟨hn, _⟩ | ⟨_, _, h1, h2, h3⟩ | ⟨_, ha, _⟩ | ⟨_, hnu, _⟩
            · exact absurd hrk hn
            · exact ⟨h1, h2, h3⟩
            · exact absurd (Or.inr hu) (android_not_plain _ ha)
            · exact absurd hu hnu
        · rw [if_neg hu]
          by_cases ha : android_case rom.type
          · rw [if_pos ha, hiff]
            constructor
            · intro h
              exact ⟨rk, sk, stk, rfl, Or.inr (Or.inr (Or.inl ⟨hrk, ha, h⟩))⟩
            · rintro ⟨rk2, sk2, stk2, hh, hcase⟩
              simp only [Option.some.injEq, Prod.mk.injEq] at hh
              obtain ⟨⟨e1, e2⟩, e3⟩ := hh
              subst e1 e2 e3
              rcases hcase with ⟨hn, _⟩ | ⟨_, hu2, _⟩ | ⟨_, _, h⟩ | ⟨_, _, hna, _⟩
              · exact absurd hrk hn
              · exact absurd hu2 hu
              · exact h
              · exact absurd ha hna
          · rw [if_neg ha, some_result_iff]
            constructor
            · rintro ⟨h1, h2, h3⟩
              exact ⟨rk, sk, stk, rfl, Or.inr (Or.inr (Or.inr ⟨hrk, hu, ha, h1, h2, h3⟩))⟩
            · rintro ⟨rk2, sk2, stk2, hh, hcase⟩
              simp only [Option.some.injEq, Prod.mk.injEq] at hh
              obtain ⟨⟨e1, e2⟩, e3⟩ := hh
              subst e1 e2 e3
              rcases hcase with ⟨hn, _⟩ | ⟨_, hu2, _⟩ | ⟨_, ha2, _⟩ | ⟨_, _, _, h1, h2, h3⟩
              · exact absurd hrk hn
              · exact absurd hu2 hu
              · exact absurd ha2 ha
              · exact ⟨h1, h2, h3⟩
      · rw [if_pos hrk, some_result_iff]
        constructor
        · rintro ⟨h1, h2, h3⟩
          exact ⟨rk, sk, stk, rfl, Or.inl ⟨hrk, h1, h2, h3⟩⟩
        · rintro ⟨rk2, sk2, stk2, hh, hcase⟩
          simp only [Option.some.injEq, Prod.mk.injEq] at hh
          obtain ⟨⟨e1, e2⟩, e3⟩ := hh
          subst e1 e2 e3
          rcases hcase with ⟨_, h1, h2, h3⟩ | ⟨h0, _⟩ | ⟨h0, _⟩ | ⟨h0, _⟩
          · exact ⟨h1, h2, h3⟩
          · exact absurd h0 hrk
          · exact absurd h0 hrk
          · exact absurd h0 hrk
  · have e3 : Int.land (Int.lor EXIT_UMOUNT EXIT_KEXEC) EXIT_KEXEC ≠ 0 := by decide
    have hdef : rom.type = ROM_DEFAULT → ¬ kexec_wanted s rom := fun hd hw => hw.2.1 hd
    have hsec : s.is_second_boot ≠ 0 → ¬ kexec_wanted s rom := fun hs hw => hs hw.2.2
    by_cases hw : kexec_wanted s rom
    · obtain ⟨rk, sk, stk, hk, h1, h2, h3, h4⟩ := prepare_for_boot_kexec w s rom st r s' st' h hw
      obtain ⟨_, hv, hc⟩ := h4 hr
      refine ⟨fun hd => absurd hw (hdef hd), fun _ => hv,
        fun _ hs => absurd hw (hsec hs), fun _ hn => absurd hw hn, Or.inr hc, ?_⟩
      exact ⟨fun _ => hw, fun _ => by rw [hv]; exact e3⟩
    · obtain ⟨h1, h2, h3, h4⟩ := prepare_for_boot_no_kexec w s rom st r s' st' h hw
      obtain ⟨hc, hz⟩ := h4 hr
      refine ⟨fun hd => (h1 (Or.inl hd)).1, fun hw2 => absurd hw2 hw,
        fun hu _ => (h1 (Or.inr hu)).1, fun ha _ => ?_, hc, ?_⟩
      · rcases (h2 ha).2 with hx | hx
        · exact absurd hx hr
        · exact hx
      · exact ⟨fun hne => absurd hz hne, fun hw2 => absurd hw2 hw⟩

set_option maxRecDepth 100000 in
/-- The theorem `prepare_for_boot_exit` at three ROMs: the directory-backed
Ubuntu ROM of `ubuntu_vfat_world` (kexec is loaded, the result is
EXIT_UMOUNT|EXIT_KEXEC), the Android ROM of `android_boot_world` (kexec is
loaded, the mounts and the media link succeed, the result is
EXIT_UMOUNT|EXIT_KEXEC), and the same ROM in second boot with `/init.rc`
present (no kexec, the result is 0). -/
theorem prepare_for_boot_exit_witness :
    (multirom_prepare_for_boot ubuntu_vfat_world ubuntu_vfat_status ubuntu_vfat_rom {} =
        some ((Int.lor EXIT_UMOUNT EXIT_KEXEC, ubuntu_vfat_status), ubuntu_vfat_booted) ∧
      kexec_wanted ubuntu_vfat_status ubuntu_vfat_rom) ∧
    (multirom_prepare_for_boot android_boot_world android_boot_status android_boot_rom
        roms_loaded =
        some ((Int.lor EXIT_UMOUNT EXIT_KEXEC, android_boot_status), android_boot_prepared) ∧
      kexec_wanted android_boot_status android_boot_rom ∧
      ∃ sk stk, multirom_load_kexec android_boot_world android_boot_status android_boot_rom
          roms_loaded = some ((0, sk), stk) ∧
        android_exit_action android_boot_world sk android_boot_rom stk true
          (Int.lor EXIT_UMOUNT EXIT_KEXEC) android_boot_status android_boot_prepared) ∧
    (multirom_prepare_for_boot android_current_world android_second_status android_boot_rom {} =
        some ((0, android_second_status), android_current_prepared) ∧
      ¬ kexec_wanted android_second_status android_boot_rom ∧
      android_exit_action android_current_world android_second_status android_boot_rom {} false 0
        android_second_status android_current_prepared) := by
  have h1 : multirom_prepare_for_boot ubuntu_vfat_world ubuntu_vfat_status ubuntu_vfat_rom {} =
      some ((Int.lor EXIT_UMOUNT EXIT_KEXEC, ubuntu_vfat_status), ubuntu_vfat_booted) := by
    decide
  have h2 : multirom_prepare_for_boot android_boot_world android_boot_status android_boot_rom
      roms_loaded =
      some ((Int.lor EXIT_UMOUNT EXIT_KEXEC, android_boot_status), android_boot_prepared) := by
    decide
  have h3 : multirom_prepare_for_boot android_current_world android_second_status
      android_boot_rom {} = some ((0, android_second_status), android_current_prepared) := by
    have hn : ¬ ((MASK_UBUNTU android_boot_rom.type = true ∨ android_boot_rom.has_bootimg ≠ 0) ∧
        android_boot_rom.type ≠ ROM_DEFAULT ∧ android_second_status.is_second_boot = 0) := by
      decide
    unfold multirom_prepare_for_boot
    simp only
    rw [if_neg hn]
    show prepare_for_boot_android android_current_world android_second_status android_boot_rom
      EXIT_UMOUNT {} = _
    unfold prepare_for_boot_android
    simp only
    rw [exit_umount_cleared]
    decide
  have w2 : kexec_wanted android_boot_status android_boot_rom := by decide
  have n3 : ¬ kexec_wanted android_second_status android_boot_rom := by decide
  have a : android_case android_boot_rom.type := by decide
  obtain ⟨rk, sk, stk, hk, hcase⟩ :=
    ((prepare_for_boot_exit android_boot_world android_boot_status android_boot_rom roms_loaded
      _ _ _).2.1 w2).mp h2
  have hact : rk = 0 ∧ android_exit_action android_boot_world sk android_boot_rom stk true
      (Int.lor EXIT_UMOUNT EXIT_KEXEC) android_boot_status android_boot_prepared := by
    rcases hcase with ⟨_, hr, _⟩ | ⟨_, hu, _⟩ | ⟨h0, _, hx⟩ | ⟨_, _, hna, _⟩
    · exact absurd hr (by decide)
    · exact absurd hu (by decide)
    · exact ⟨h0, hx⟩
    · exact absurd a hna
  obtain ⟨hrk, hact⟩ := hact
  subst hrk
  exact ⟨⟨h1, ((prepare_for_boot_exit ubuntu_vfat_world ubuntu_vfat_status ubuntu_vfat_rom {}
      _ _ _).2.2 h1 (by decide)).2.2.2.2.2.mp (by decide)⟩,
    ⟨h2, w2, sk, stk, hk, hact⟩,
    ⟨h3, n3, (((prepare_for_boot_exit android_current_world android_second_status
      android_boot_rom {} _ _ _).1 n3).2.1 a).mp h3⟩⟩

/-! ## Theorems: boot selector -/

/-- Setting `keep_mounted` leaves `is_second_boot` as it is. -/
theorem set_keep_mounted_second_boot (s s1 : multirom_status) (a : Option Nat)
    (h : set_keep_mounted s a = some s1) : s1.is_second_boot = s.is_second_boot := by
  cases a with
  | none => simp only [set_keep_mounted, Option.some.injEq] at h; rw [← h]
  | some a =>
    simp only [set_keep_mounted] at h
    split at h
    · cases h
    · simp only [Option.some.injEq] at h; rw [← h]

/-- The function `multirom_load_kexec` leaves `is_second_boot` as it is. -/
theorem load_kexec_second_boot (w : World) (s : multirom_status) (rom : multirom_rom)
    (st : Sys) (r : Int) (s1 : multirom_status) (st1 : Sys)
    (h : multirom_load_kexec w s rom st = some ((r, s1), st1)) :
    s1.is_second_boot = s.is_second_boot := by
  unfold multirom_load_kexec at h
  simp only at h
  cases hp : load_kexec_partitions w s rom st with
  | none => rw [hp] at h; simp only at h; cases h
  | some v =>
    obtain ⟨⟨rp, sp⟩, stp⟩ := v
    rw [hp] at h
    simp only at h
    have hsp : sp.is_second_boot = s.is_second_boot := by
      unfold load_kexec_partitions at hp
      split at hp
      · rw [update_partitions_fields w s st rp sp stp hp]
      · simp only [Option.some.injEq, Prod.mk.injEq] at hp
        rw [← hp.1.2]
    split at h
    · simp only [Option.some.injEq, Prod.mk.injEq] at h
      rw [← h.1.2]; exact hsp
    · split at h
      · cases h
      · simp only [Option.some.injEq, Prod.mk.injEq] at h
        rw [← h.1.2]; exact hsp
      · split at h
        · cases h
        · simp only [Option.some.injEq, Prod.mk.injEq] at h
          rw [← h.1.2]; exact hsp

/-- The Android case of `multirom_prepare_for_boot` leaves `is_second_boot` as it is. -/
theorem prepare_for_boot_android_second_boot (w : World) (s : multirom_status)
    (rom : multirom_rom) (exit r : Int) (st : Sys) (s' : multirom_status) (st' : Sys)
    (h : prepare_for_boot_android w s rom exit st = some ((r, s'), st')) :
    s'.is_second_boot = s.is_second_boot := by
  unfold prepare_for_boot_android at h
  simp only at h
  generalize (if Int.land exit (Int.lor EXIT_REBOOT EXIT_KEXEC) = 0 then
    Int.land exit (Int.lnot EXIT_UMOUNT) else exit) = e1 at h
  split at h
  · cases h
  · split at h
    · simp only [Option.some.injEq, Prod.mk.injEq] at h; rw [← h.1.2]
    · split at h
      · cases h
      · split at h
        · simp only [Option.some.injEq, Prod.mk.injEq] at h; rw [← h.1.2]
        · split at h
          · cases h
          · rename_i s1 hk
            split at h
            · simp only [Option.some.injEq, Prod.mk.injEq] at h
              rw [← h.1.2]; exact set_keep_mounted_second_boot s s1 _ hk
            · simp only [Option.some.injEq, Prod.mk.injEq] at h
              rw [← h.1.2]; exact set_keep_mounted_second_boot s s1 _ hk

/-- The function `multirom_prepare_for_boot` leaves `is_second_boot` as it is. -/
theorem prepare_for_boot_second_boot (w : World) (s : multirom_status) (rom : multirom_rom)
    (st : Sys) (r : Int) (s' : multirom_status) (st' : Sys)
    (h : multirom_prepare_for_boot w s rom st = some ((r, s'), st')) :
    s'.is_second_boot = s.is_second_boot := by
  by_cases hw : kexec_wanted s rom
  · obtain ⟨rk, sk, stk, hk, h1, h2, h3, _⟩ := prepare_for_boot_kexec w s rom st r s' st' h hw
    have hsk := load_kexec_second_boot w s rom st rk sk stk hk
    by_cases ha : android_case rom.type
    · by_cases h0 : rk = 0
      · rw [prepare_for_boot_android_second_boot w sk rom _ r stk s' st' (h3 h0 ha)]
        exact hsk
      · rw [(h1 h0).2.1]; exact hsk
    · rw [(h2 ha).1]; exact hsk
  · obtain ⟨h1, h2, h3, _⟩ := prepare_for_boot_no_kexec w s rom st r s' st' h hw
    by_cases ha : android_case rom.type
    · exact prepare_for_boot_android_second_boot w s rom _ r st s' st' (h2 ha).1
    · by_cases hd : rom.type = ROM_DEFAULT
      · rw [(h1 (Or.inl hd)).2.1]
      · by_cases hu : ubuntu_case rom.type
        · rw [(h1 (Or.inr hu)).2.1]
        · rw [(h3 hd hu ha).2.1]

/-- When the input delivers the keys `keys` and then `KEY_POWER`, the key loop returns exactly when its bound exceeds the number of keys, and it has then issued one `wait_for_key` per key. -/
theorem wait_for_power_script (fe : Frontend) (keys : List Int) (fuel : Nat) (st : Sys)
    (h : key_script fe st.trace keys) :
    wait_for_power fe fuel st =
      if keys.length < fuel then
        some ((), { st with trace := st.trace ++ keys.map Ev.wait_for_key ++
          [Ev.wait_for_key KEY_POWER] })
      else none := by
  induction keys generalizing fuel st with
  | nil =>
    cases fuel with
    | zero => rfl
    | succ n =>
      simp only [key_script] at h
      simp only [wait_for_power, h, ne_eq, not_true_eq_false, if_false, emit, List.length_nil,
        Nat.zero_lt_succ, if_true, List.map_nil, List.append_nil]
  | cons k ks ih =>
    simp only [key_script] at h
    obtain ⟨h1, h2, h3⟩ := h
    cases fuel with
    | zero => rfl
    | succ n =>
      simp only [wait_for_power, h1, ne_eq, h2, not_false_eq_true, if_true]
      rw [ih n (emit (Ev.wait_for_key k) st) h3]
      simp only [emit, List.length_cons, Nat.succ_lt_succ_iff, List.map_cons, List.append_assoc,
        List.singleton_append, List.cons_append, List.nil_append]

/-- A key loop that returns has been delivered `KEY_POWER` after fewer keys than its bound. -/
theorem wait_for_power_keys (fe : Frontend) (fuel : Nat) (st st' : Sys)
    (h : wait_for_power fe fuel st = some ((), st')) :
    ∃ keys, key_script fe st.trace keys ∧ keys.length < fuel := by
  induction fuel generalizing st with
  | zero => cases h
  | succ n ih =>
    simp only [wait_for_power] at h
    by_cases hc : fe.wait_for_key st.trace = KEY_POWER
    · exact ⟨[], hc, Nat.zero_lt_succ n⟩
    · rw [if_pos hc] at h
      obtain ⟨keys, hk, hl⟩ := ih _ h
      exact ⟨fe.wait_for_key st.trace :: keys, ⟨rfl, hc, hk⟩, Nat.succ_lt_succ hl⟩

/-- When `fb_open()` fails, `multirom_emergency_reboot` returns after `vt_set_mode(1)` and `fb_open()` for every bound of the key loop. -/
theorem emergency_reboot_no_fb (w : World) (fe : Frontend) (fuel : Nat) (st : Sys)
    (hfb : fe.fb_open (st.trace ++ [Ev.vt_set_mode 1]) < 0) :
    multirom_emergency_reboot w fe fuel st =
      some ((), { st with trace := st.trace ++ [Ev.vt_set_mode 1, Ev.fb_open] }) := by
  unfold multirom_emergency_reboot multirom_init_fb
  simp only [emit, hfb, if_true, List.append_assoc, List.singleton_append]
  rw [if_pos (by decide)]

/-- When `fb_open()` succeeds, `multirom_emergency_reboot` displays the diagnostic, copies the log, runs the key loop and stops the input thread. -/
theorem emergency_reboot_before_keys (w : World) (fe : Frontend) (fuel : Nat) (st : Sys)
    (hfb : 0 ≤ fe.fb_open (st.trace ++ [Ev.vt_set_mode 1])) :
    multirom_emergency_reboot w fe fuel st =
      (wait_for_power fe fuel { st with trace := emergency_shown w st.trace }).map
        (fun r => ((), emit Ev.stop_input_thread r.2)) := by
  have hn : ¬ fe.fb_open (st.trace ++ [Ev.vt_set_mode 1]) < 0 := not_lt.mpr hfb
  unfold multirom_emergency_reboot multirom_init_fb multirom_copy_log emergency_shown
    emergency_log emergency_display
  simp only [emit, hn, if_false, List.append_assoc, List.singleton_append, List.cons_append,
    List.nil_append]
  rw [if_neg (by decide)]
  by_cases hf : w.fopen_w (st.trace ++ [Ev.vt_set_mode 1, Ev.fb_open, Ev.fb_fill BLACK,
      Ev.fb_add_text 0 150 WHITE SIZE_NORMAL EMERGENCY_TEXT, Ev.fb_draw, Ev.fb_clear,
      Ev.fb_close]) (w.multirom_dir ++ "/error.txt") = true
  · simp only [hf, if_true, List.append_assoc, List.singleton_append, List.cons_append,
      List.nil_append]
    cases wait_for_power fe fuel _ <;> rfl
  · simp only [hf, if_false, List.append_assoc, List.singleton_append, List.cons_append,
      List.nil_append, Bool.false_eq_true]
    cases wait_for_power fe fuel _ <;> rfl

/-- When `multirom_prepare_for_boot` returns -1 for the selected ROM, `multirom()` runs `multirom_emergency_reboot` and returns EXIT_REBOOT in the state that leaves. -/
theorem multirom_failed_boot (w : World) (fe : Frontend) (fuel : Nat) (st : Sys) (w1 : World)
    (st1 : Sys) (rl : Int) (s : multirom_status) (st2 : Sys) (exit id : Int)
    (s1 : multirom_status) (st3 : Sys) (rom : multirom_rom) (s2 : multirom_status) (st4 : Sys)
    (hdir : multirom_find_base_dir w st = (0, w1, st1))
    (hload : multirom_load_status w1 {} st1 = some ((rl, s), st2))
    (hsel : multirom_select w1 fe s st2 = some ((exit, some id, s1), st3))
    (hrom : deref_rom s1 id = some rom)
    (hprep : multirom_prepare_for_boot w1 s1 rom st3 = some ((-1, s2), st4)) :
    multirom w fe fuel st =
      (multirom_emergency_reboot w1 fe fuel st4).map (fun r => (EXIT_REBOOT, r.2)) := by
  unfold multirom
  simp only [hdir, hload, hsel]
  rw [if_neg (by decide)]
  unfold multirom_boot
  simp only [hrom, hprep, if_true]
  cases multirom_emergency_reboot w1 fe fuel st4 <;> rfl

/-- C26 (amended): when `multirom_prepare_for_boot` returns -1 for the selected ROM, `multirom()` runs `multirom_emergency_reboot` and then returns EXIT_REBOOT at once, without saving the status or syncing. If `fb_open()` fails the fallback has only called `vt_set_mode(1)` and `fb_open()`: nothing is displayed, no log is copied and no key is awaited. If it succeeds, the fallback displays the fixed diagnostic, writes the kernel log to `<multirom_dir>/error.txt` when that file opens, and returns after `wait_for_key()` has delivered `KEY_POWER`: for keys `keys` followed by `KEY_POWER` the run returns exactly when the bound of the key loop exceeds their number, and a run that returns has been delivered such keys. -/
theorem multirom_emergency (w : World) (fe : Frontend) (fuel : Nat) (st : Sys) (w1 : World)
    (st1 : Sys) (rl : Int) (s : multirom_status) (st2 : Sys) (exit id : Int)
    (s1 : multirom_status) (st3 : Sys) (rom : multirom_rom) (s2 : multirom_status) (st4 : Sys)
    (hdir : multirom_find_base_dir w st = (0, w1, st1))
    (hload : multirom_load_status w1 {} st1 = some ((rl, s), st2))
    (hsel : multirom_select w1 fe s st2 = some ((exit, some id, s1), st3))
    (hrom : deref_rom s1 id = some rom)
    (hprep : multirom_prepare_for_boot w1 s1 rom st3 = some ((-1, s2), st4)) :
    (fe.fb_open (st4.trace ++ [Ev.vt_set_mode 1]) < 0 →
      multirom w fe fuel st =
        some (EXIT_REBOOT, { st4 with trace := st4.trace ++ [Ev.vt_set_mode 1, Ev.fb_open] })) ∧
    (0 ≤ fe.fb_open (st4.trace ++ [Ev.vt_set_mode 1]) →
      (∀ keys, key_script fe (emergency_shown w1 st4.trace) keys →
        multirom w fe fuel st =
          if keys.length < fuel then
            some (EXIT_REBOOT, { st4 with trace := emergency_done w1 st4.trace keys })
          else none) ∧
      (∀ r st', multirom w fe fuel st = some (r, st') →
        ∃ keys, key_script fe (emergency_shown w1 st4.trace) keys ∧ keys.length < fuel)) := by
  have hm := multirom_failed_boot w fe fuel st w1 st1 rl s st2 exit id s1 st3 rom s2 st4
    hdir hload hsel hrom hprep
  refine ⟨fun hfb => ?_, fun hfb => ⟨fun keys hk => ?_, fun r st' hr => ?_⟩⟩
  · rw [hm, emergency_reboot_no_fb w1 fe fuel st4 hfb]; rfl
  · rw [hm, emergency_reboot_before_keys w1 fe fuel st4 hfb,
      wait_for_power_script fe keys fuel _ hk]
    by_cases hl : keys.length < fuel
    · simp only [hl, if_true, Option.map_some', emit, emergency_done, List.append_assoc,
        List.singleton_append, List.cons_append, List.nil_append]
    · simp only [hl, if_false, Option.map_none']
  · rw [hm, emergency_reboot_before_keys w1 fe fuel st4 hfb] at hr
    cases hw : wait_for_power fe fuel { st4 with trace := emergency_shown w1 st4.trace } with
    | none => rw [hw] at hr; cases hr
    | some v =>
      obtain ⟨u, stw⟩ := v
      exact wait_for_power_keys fe fuel _ stw hw

set_option maxRecDepth 100000 in
/-- C26 fails as stated: in `failing_boot_world` the UI selects a ROM of type ROM_UNKNOWN, `multirom_prepare_for_boot` returns -1, the framebuffer does not open, and `multirom()` returns EXIT_REBOOT with a key loop bounded by 0: no diagnostic is displayed, no log is written and no key is awaited. -/
theorem multirom_emergency_counterexample :
    multirom_find_base_dir failing_boot_world {} =
      (0, with_base_dir failing_boot_world "/realdata/media/multirom", base_dir_found) ∧
    multirom_load_status (with_base_dir failing_boot_world "/realdata/media/multirom") {}
      base_dir_found = some ((-1, failing_boot_status), roms_loaded) ∧
    multirom_select (with_base_dir failing_boot_world "/realdata/media/multirom") dark_frontend
      failing_boot_status roms_loaded =
        some ((3, some 1, failing_boot_status), roms_loaded) ∧
    deref_rom failing_boot_status 1 = some failing_boot_rom ∧
    multirom_prepare_for_boot (with_base_dir failing_boot_world "/realdata/media/multirom")
      failing_boot_status failing_boot_rom roms_loaded =
        some ((-1, failing_boot_status), roms_loaded) ∧
    multirom failing_boot_world dark_frontend 0 {} =
      some (EXIT_REBOOT, { roms_loaded with
        trace := roms_loaded.trace ++ [Ev.vt_set_mode 1, Ev.fb_open] }) :=
  ⟨rfl, by decide, by decide, by decide, by decide, by decide⟩

set_option maxRecDepth 100000 in
/-- The theorem `multirom_emergency` in `failing_boot_world` with a framebuffer that opens: the run returns EXIT_REBOOT after the keys 114, 114 and `KEY_POWER` when the key loop is bounded by 5, and does not return within 2 keys. -/
theorem multirom_emergency_witness :
    key_script lit_frontend
      (emergency_shown (with_base_dir failing_boot_world "/realdata/media/multirom")
        roms_loaded.trace) [114, 114] ∧
    multirom failing_boot_world lit_frontend 5 {} =
      some (EXIT_REBOOT, { roms_loaded with
        trace := emergency_done (with_base_dir failing_boot_world "/realdata/media/multirom")
          roms_loaded.trace [114, 114] }) ∧
    multirom failing_boot_world lit_frontend 2 {} = none :=
  ⟨by decide,
    (((multirom_emergency failing_boot_world lit_frontend 5 {}
      (with_base_dir failing_boot_world "/realdata/media/multirom") base_dir_found (-1)
      failing_boot_status roms_loaded 3 1 failing_boot_status roms_loaded
      failing_boot_rom failing_boot_status roms_loaded rfl (by decide) (by decide)
      (by decide) (by decide)).2 (by decide)).1 [114, 114] (by decide)).trans
      (if_pos (by decide)),
    by decide⟩

/-- The status `boot_bookkeeping` yields: `current_rom`, `is_second_boot` and `curr_rom_part` are set, the other fields are kept. -/
theorem boot_bookkeeping_fields (s : multirom_status) (rom : multirom_rom) (id e : Int)
    (s3 : multirom_status) (h : boot_bookkeeping s rom id e = some s3) :
    s3.current_rom = some id ∧
    s3.is_second_boot =
      (if s.is_second_boot = 0 ∧ MASK_ANDROID rom.type = true ∧ Int.land e EXIT_KEXEC ≠ 0
        then 1 else 0) ∧
    (rom.partition = none → s3.curr_rom_part = none) ∧
    (∀ a, rom.partition = some a →
      ∃ p, deref_partition s a = some p ∧ s3.curr_rom_part = some p.uuid) ∧
    s3.auto_boot_rom = s.auto_boot_rom ∧ s3.auto_boot_seconds = s.auto_boot_seconds ∧
    s3.roms = s.roms ∧ s3.partitions = s.partitions := by
  unfold boot_bookkeeping at h
  simp only at h
  cases hp : rom.partition with
  | none =>
    rw [hp] at h
    simp only [Option.some.injEq] at h
    subst h
    exact ⟨rfl, rfl, fun _ => rfl, fun a ha => (by cases ha), rfl, rfl, rfl, rfl⟩
  | some a =>
    rw [hp] at h
    simp only at h
    cases hd : deref_partition s a with
    | none => rw [hd] at h; cases h
    | some p =>
      rw [hd] at h
      simp only [Option.some.injEq] at h
      subst h
      refine ⟨rfl, rfl, fun hn => (by cases hn), fun b hb => ?_, rfl, rfl, rfl, rfl⟩
      simp only [Option.some.injEq] at hb
      subst hb
      exact ⟨p, hd, rfl⟩

/-- C28: in `multirom()`, with the status `s` that `multirom_load_status` has loaded: when `is_second_boot` is not 0 the selection step is `to_boot = s.current_rom` with the status and the state unchanged, whatever the UI would do; when it is 0 the selection is what `multirom_ui` returns after `multirom_has_kexec`. When `multirom_prepare_for_boot` returns an exit action other than -1 for the selected ROM, `multirom()` saves the status with the bookkeeping done: `is_second_boot` is 1 exactly when it was 0, the ROM is of an Android type and the exit action has the EXIT_KEXEC flag, else 0; `current_rom` is the selected ROM; `curr_rom_part` is the UUID of its partition, or NULL without partition. -/
theorem multirom_selection_bookkeeping (w : World) (fe : Frontend) (fuel : Nat) (st : Sys)
    (w1 : World) (st1 : Sys) (rl : Int) (s : multirom_status) (st2 : Sys)
    (hdir : multirom_find_base_dir w st = (0, w1, st1))
    (hload : multirom_load_status w1 {} st1 = some ((rl, s), st2)) :
    (s.is_second_boot ≠ 0 →
      multirom_select w1 fe s st2 =
        some ((Int.lor EXIT_REBOOT EXIT_UMOUNT, s.current_rom, s), st2)) ∧
    (s.is_second_boot = 0 →
      ∀ exit to_boot s1 st3,
        multirom_select w1 fe s st2 = some ((exit, to_boot, s1), st3) →
        ∃ code, fe.multirom_ui s (multirom_has_kexec w1 st2).2 =
          some ((code, to_boot, s1), st3)) ∧
    (∀ exit id s1 st3 rom e s2 st4,
      multirom_select w1 fe s st2 = some ((exit, some id, s1), st3) →
      deref_rom s1 id = some rom →
      multirom_prepare_for_boot w1 s1 rom st3 = some ((e, s2), st4) → e ≠ -1 →
        multirom w fe fuel st =
          (boot_bookkeeping s2 rom id e).bind (fun s3 => multirom_finish w1 s3 e st4) ∧
        ∀ s3, boot_bookkeeping s2 rom id e = some s3 →
          (s3.is_second_boot = 1 ↔
            s1.is_second_boot = 0 ∧ MASK_ANDROID rom.type = true ∧ Int.land e EXIT_KEXEC ≠ 0) ∧
          (s3.is_second_boot ≠ 1 → s3.is_second_boot = 0) ∧
          s3.current_rom = some id ∧
          (rom.partition = none → s3.curr_rom_part = none) ∧
          (∀ a, rom.partition = some a →
            ∃ p, deref_partition s2 a = some p ∧ s3.curr_rom_part = some p.uuid)) := by
  refine ⟨fun hs => ?_, fun hs exit to_boot s1 st3 hsel => ?_,
    fun exit id s1 st3 rom e s2 st4 hsel hrom hprep he => ⟨?_, fun s3 hb => ?_⟩⟩
  · unfold multirom_select
    simp only [if_neg hs]
  · unfold multirom_select at hsel
    simp only [if_pos hs] at hsel
    cases hu : fe.multirom_ui s (multirom_has_kexec w1 st2).2 with
    | none => rw [hu] at hsel; cases hsel
    | some v =>
      obtain ⟨⟨code, tb, su⟩, stu⟩ := v
      rw [hu] at hsel
      simp only [Option.some.injEq, Prod.mk.injEq] at hsel
      obtain ⟨⟨_, h2, h3⟩, h4⟩ := hsel
      exact ⟨code, by rw [h2, h3, h4]⟩
  · unfold multirom
    simp only [hdir, hload, hsel]
    rw [if_neg (by decide)]
    unfold multirom_boot
    simp only [hrom, hprep, if_neg he]
    cases boot_bookkeeping s2 rom id e <;> rfl
  · have hsb := prepare_for_boot_second_boot w1 s1 rom st3 e s2 st4 hprep
    obtain ⟨h1, h2, h3, h4, _⟩ := boot_bookkeeping_fields s2 rom id e s3 hb
    rw [hsb] at h2
    refine ⟨?_, ?_, h1, h3, h4⟩
    · rw [h2]
      by_cases hc : s1.is_second_boot = 0 ∧ MASK_ANDROID rom.type = true ∧
          Int.land e EXIT_KEXEC ≠ 0
      · rw [if_pos hc]; exact ⟨fun _ => hc, fun _ => rfl⟩
      · rw [if_neg hc]; exact ⟨fun h01 => absurd h01 (by decide), fun hc2 => absurd hc2 hc⟩
    · rw [h2]
      by_cases hc : s1.is_second_boot = 0 ∧ MASK_ANDROID rom.type = true ∧
          Int.land e EXIT_KEXEC ≠ 0
      · rw [if_pos hc]; exact fun hn => absurd rfl hn
      · rw [if_neg hc]; exact fun _ => rfl

set_option maxRecDepth 100000 in
/-- The theorem `multirom_selection_bookkeeping` in `android_boot_world`: the UI selects the Android ROM `cm`, kexec is loaded, and the status saved has `is_second_boot` 1 and `current_rom` `cm`. -/
theorem multirom_selection_bookkeeping_witness :
    multirom_select (with_base_dir android_boot_world "/realdata/media/multirom") dark_frontend
      android_boot_status roms_loaded =
        some ((Int.lor EXIT_REBOOT EXIT_UMOUNT, some 1, android_boot_status), roms_loaded) ∧
    multirom_prepare_for_boot (with_base_dir android_boot_world "/realdata/media/multirom")
      android_boot_status android_boot_rom roms_loaded =
        some ((Int.lor EXIT_UMOUNT EXIT_KEXEC, android_boot_status), android_boot_prepared) ∧
    boot_bookkeeping android_boot_status android_boot_rom 1 (Int.lor EXIT_UMOUNT EXIT_KEXEC) =
      some android_boot_booted ∧
    android_boot_booted.is_second_boot = 1 ∧
    multirom android_boot_world dark_frontend 0 {} =
      multirom_finish (with_base_dir android_boot_world "/realdata/media/multirom")
        android_boot_booted (Int.lor EXIT_UMOUNT EXIT_KEXEC) android_boot_prepared := by
  have hb : boot_bookkeeping android_boot_status android_boot_rom 1
      (Int.lor EXIT_UMOUNT EXIT_KEXEC) = some android_boot_booted := by decide
  have hsel : multirom_select (with_base_dir android_boot_world "/realdata/media/multirom")
      dark_frontend android_boot_status roms_loaded =
        some ((Int.lor EXIT_REBOOT EXIT_UMOUNT, some 1, android_boot_status), roms_loaded) := by
    decide
  have hprep : multirom_prepare_for_boot
      (with_base_dir android_boot_world "/realdata/media/multirom")
      android_boot_status android_boot_rom roms_loaded =
        some ((Int.lor EXIT_UMOUNT EXIT_KEXEC, android_boot_status), android_boot_prepared) := by
    decide
  have T := (multirom_selection_bookkeeping android_boot_world dark_frontend 0 {}
    (with_base_dir android_boot_world "/realdata/media/multirom") base_dir_found (-1)
    android_boot_status roms_loaded rfl (by decide)).2.2 _ 1 android_boot_status roms_loaded
    android_boot_rom _ android_boot_status android_boot_prepared hsel (by decide) hprep
    (by decide)
  exact ⟨hsel, hprep, hb, ((T.2 android_boot_booted hb).1).mpr ⟨by decide, by decide, by decide⟩,
    T.1.trans (congrArg (fun o => Option.bind o (fun s3 =>
      multirom_finish (with_base_dir android_boot_world "/realdata/media/multirom") s3
        (Int.lor EXIT_UMOUNT EXIT_KEXEC) android_boot_prepared)) hb)⟩

end MultiROM
